import Mathlib

/-!
# DiligentCore: texture uploader (D3D11), dynamic-heap master blocks and accessories

A shallow embedding of

* `Graphics/GraphicsTools/src/TextureUploaderD3D11.cpp` (upload-buffer pool and the
  render-thread pump),
* `Graphics/GraphicsEngineNextGenBase/include/DynamicHeap.h` (master-block managers),
* `Graphics/GraphicsEngine/interface/Buffer.h` (`BufferDesc`),
* `Graphics/GraphicsAccessories/src/GraphicsAccessories.cpp` (format tables, mip levels,
  shader stages, resource states), and
* `Common/interface/LockHelper.h` (`LockFlag` and `LockHelper`).

Heap objects are addressed by natural numbers, `Uint32` values are naturals below `2^32`
and every 32-bit operation of the source is written with an explicit `% 2^32`.
Calls into Direct3D are recorded in a call list; their results are inputs of the model.
-/

namespace Diligent

/-! ## Machine integers and the Direct3D helper -/

/-- Truncation of a natural number to `Uint32` / `UINT`. -/
def u32 (n : Nat) : Nat := n % 4294967296

/-- The helper `D3D11CalcSubresource(MipSlice, ArraySlice, MipLevels)` of d3d11.h:
`MipSlice + ArraySlice * MipLevels`, computed in `UINT`. -/
def D3D11CalcSubresource (MipSlice ArraySlice MipLevels : Nat) : Nat :=
  u32 (MipSlice + ArraySlice * MipLevels)

/-! ## Debug output and assertions (Win32Debug.cpp) -/

/-- Severity of a debug message (the four entries of `strSeverities`). -/
inductive DebugMessageSeverity
  | Info
  | Warning
  | Error
  | FatalError
deriving DecidableEq, Repr

/-- Button code `IDABORT` of the message box. -/
def IDABORT : Nat := 3

/-- Button code `IDRETRY` of the message box. -/
def IDRETRY : Nat := 4

/-- Button code `IDIGNORE` of the message box. -/
def IDIGNORE : Nat := 5

/-- `WindowsDebug::AssertionFailed`: the message is written with severity `Error`, then the
reply `nCode` of the message box decides. `IDABORT` raises `SIGABRT` and exits (result
`none`: the process is gone); `IDRETRY`, `IDIGNORE` and every other reply return to the
caller (result `some` of the extended message list). -/
def AssertionFailed (log : List DebugMessageSeverity) (nCode : Nat) :
    Option (List DebugMessageSeverity) :=
  if nCode = IDABORT then none else some (log ++ [DebugMessageSeverity.Error])

/-- Modelled from the spec: the `VERIFY(Expr, ...)` check (DebugUtilities.h is not among the
sources), a precondition check that hands a false expression to the platform's assertion
handler `DebugAssertionFailed`, which on Windows is `WindowsDebug::AssertionFailed`. -/
def VERIFY (Expr : Bool) (log : List DebugMessageSeverity) (nCode : Nat) :
    Option (List DebugMessageSeverity) :=
  if Expr then some log else AssertionFailed log nCode

/-! ## Upload buffers -/

/-- Modelled from the spec: `UploadBufferDesc` (TextureUploader.h is not among the sources),
the record `{width, height, depth, mipLevels, arraySize, format}`; two descriptors are equal
iff all fields match. -/
structure UploadBufferDesc where
  Width : Nat
  Height : Nat
  Depth : Nat
  MipLevels : Nat
  ArraySize : Nat
  Format : Nat
deriving DecidableEq, Repr

/-- The record `MappedTextureSubresource{pData, Stride, DepthStride}` stored for a mapped
subresource. -/
structure MappedTextureSubresource where
  pData : Nat
  Stride : Nat
  DepthStride : Nat
deriving DecidableEq, Repr

/-- Modelled from the spec: `ThreadingTools::Signal` (ThreadSignal.h is not among the
sources), the binary event of the spec's SignalGate. -/
structure Signal where
  m_SignaledValue : Bool
deriving DecidableEq, Repr

/-- Modelled from the spec: `Trigger()` sets the signaled state. -/
def Signal.Trigger (_ : Signal) : Signal := ⟨true⟩

/-- Modelled from the spec: `Reset()` clears the signaled state. -/
def Signal.Reset (_ : Signal) : Signal := ⟨false⟩

/-- Modelled from the spec: `IsTriggered()`, the non-blocking poll. -/
def Signal.IsTriggered (s : Signal) : Bool := s.m_SignaledValue

/-- The class `UploadBufferD3D11` with the state it inherits from `UploadBufferBase`.
Modelled from the spec: the per-(mip, slice) records of `UploadBufferBase`
(TextureUploaderBase.h is not among the sources); `none` is an unmapped subresource. -/
structure UploadBufferD3D11 where
  m_Desc : UploadBufferDesc
  m_MappedData : Nat → Nat → Option MappedTextureSubresource
  m_BufferMappedSignal : Signal
  m_CopyScheduledSignal : Signal
  m_pStagingTexture : Nat

namespace UploadBufferD3D11

/-- Modelled from the spec: `UploadBufferBase::IsMapped(Mip, Slice)`. -/
def IsMapped (b : UploadBufferD3D11) (Mip Slice : Nat) : Bool :=
  (b.m_MappedData Mip Slice).isSome

/-- Modelled from the spec: `UploadBufferBase::SetMappedData(Mip, Slice, MappedData)`. -/
def SetMappedData (b : UploadBufferD3D11) (Mip Slice : Nat) (d : MappedTextureSubresource) :
    UploadBufferD3D11 :=
  { b with m_MappedData := fun m s => if m = Mip ∧ s = Slice then some d else b.m_MappedData m s }

/-- `SignalMapped()`. -/
def SignalMapped (b : UploadBufferD3D11) : UploadBufferD3D11 :=
  { b with m_BufferMappedSignal := b.m_BufferMappedSignal.Trigger }

/-- `SignalCopyScheduled()`. -/
def SignalCopyScheduled (b : UploadBufferD3D11) : UploadBufferD3D11 :=
  { b with m_CopyScheduledSignal := b.m_CopyScheduledSignal.Trigger }

/-- `DbgIsCopyScheduled()`. -/
def DbgIsCopyScheduled (b : UploadBufferD3D11) : Bool := b.m_CopyScheduledSignal.IsTriggered

/-- `DbgIsMapped()`. -/
def DbgIsMapped (b : UploadBufferD3D11) : Bool := b.m_BufferMappedSignal.IsTriggered

/-- `UploadBufferD3D11::Reset()`: both signals are reset, then `UploadBufferBase::Reset()`
(modelled from the spec: it clears every per-subresource record). -/
def Reset (b : UploadBufferD3D11) : UploadBufferD3D11 :=
  { b with
    m_BufferMappedSignal := b.m_BufferMappedSignal.Reset
    m_CopyScheduledSignal := b.m_CopyScheduledSignal.Reset
    m_MappedData := fun _ _ => none }

/-- The constructor `UploadBufferD3D11(pRefCounters, Desc, pStagingTexture)`. -/
def create (Desc : UploadBufferDesc) (pStagingTexture : Nat) : UploadBufferD3D11 :=
  { m_Desc := Desc
    m_MappedData := fun _ _ => none
    m_BufferMappedSignal := ⟨false⟩
    m_CopyScheduledSignal := ⟨false⟩
    m_pStagingTexture := pStagingTexture }

end UploadBufferD3D11

/-! ## Pending operations and the Direct3D call list -/

/-- The enumeration `PendingBufferOperation::Operation`. -/
inductive Operation
  | Map
  | Copy
  | MapAndCache
deriving DecidableEq, Repr

/-- The record `InternalData::PendingBufferOperation`; `pUploadBuffer` is the address of the
buffer object. -/
structure PendingBufferOperation where
  operation : Operation
  pUploadBuffer : Nat
  pd3d11NativeDstTexture : Nat
  DstMip : Nat
  DstSlice : Nat
  DstMipLevels : Nat
deriving DecidableEq, Repr

/-- Result of `ID3D11DeviceContext::Map` with `D3D11_MAP_FLAG_DO_NOT_WAIT`. -/
inductive MapHResult
  | S_OK (MappedData : MappedTextureSubresource)
  | DXGI_ERROR_WAS_STILL_DRAWING
  | E_FAIL (hr : Nat)
deriving DecidableEq, Repr

/-- One call into Direct3D made by the uploader. -/
inductive D3D11Call
  | CreateTexture2D (Desc : UploadBufferDesc) (pStagingTex : Option Nat)
  | Map (pResource Subresource : Nat) (hr : MapHResult)
  | Unmap (pResource Subresource : Nat)
  | CopySubresourceRegion (pDstResource DstSubresource pSrcResource SrcSubresource : Nat)
deriving DecidableEq, Repr

/-- What the render thread meets during one `RenderThreadUpdate`: the result of the `Map`
call number `n` (counted over all Direct3D calls made so far) on a resource and
subresource, and the reply given to the assertion message box. -/
structure RenderThreadEnv where
  Map : Nat → Nat → Nat → MapHResult
  nCode : Nat

/-! ## The uploader -/

/-- How a call that may suspend its thread ends: it returns, the process is ended by a
failed assertion, or the thread is still suspended. -/
inductive Run (α : Type)
  | returned (a : α)
  | terminated
  | blocked

/-- The value a call returned, if it returned. -/
def Run.toOption {α : Type} : Run α → Option α
  | Run.returned a => some a
  | Run.terminated => none
  | Run.blocked => none

/-- The object `TextureUploaderD3D11` with its `InternalData`: both operation vectors, the
cache of idle buffers (`unordered_map` from descriptor to `deque`), the buffer objects by
address with the next free address, the Direct3D calls made and the debug messages written. -/
structure TextureUploaderD3D11 where
  m_PendingOperations : List PendingBufferOperation
  m_InWorkOperations : List PendingBufferOperation
  m_UploadBufferCache : List (UploadBufferDesc × List Nat)
  buffers : Nat → UploadBufferD3D11
  nextBuffer : Nat
  d3d11Calls : List D3D11Call
  debugLog : List DebugMessageSeverity

namespace TextureUploaderD3D11

/-- The uploader after its constructor: nothing pending, nothing cached. -/
def init : TextureUploaderD3D11 :=
  { m_PendingOperations := []
    m_InWorkOperations := []
    m_UploadBufferCache := []
    buffers := fun _ => UploadBufferD3D11.create ⟨0, 0, 0, 0, 0, 0⟩ 0
    nextBuffer := 0
    d3d11Calls := []
    debugLog := [] }

/-- Replace the buffer object at address `p`. -/
def setBuffer (s : TextureUploaderD3D11) (p : Nat) (b : UploadBufferD3D11) :
    TextureUploaderD3D11 :=
  { s with buffers := fun q => if q = p then b else s.buffers q }

/-- `Cache.find(Desc)`: the deque stored under the key, if the key is present. -/
def cacheFind : List (UploadBufferDesc × List Nat) → UploadBufferDesc → Option (List Nat)
  | [], _ => none
  | (k, q) :: rest, Desc => if k = Desc then some q else cacheFind rest Desc

/-- `Deque.pop_front()` on the deque stored under the key. -/
def cachePopFront :
    List (UploadBufferDesc × List Nat) → UploadBufferDesc → List (UploadBufferDesc × List Nat)
  | [], _ => []
  | (k, q) :: rest, Desc =>
    if k = Desc then (k, q.tail) :: rest else (k, q) :: cachePopFront rest Desc

/-- `Cache[Desc].emplace_back(p)`: `operator[]` inserts an empty deque for a new key. -/
def cacheEmplaceBack :
    List (UploadBufferDesc × List Nat) → UploadBufferDesc → Nat →
      List (UploadBufferDesc × List Nat)
  | [], Desc, p => [(Desc, [p])]
  | (k, q) :: rest, Desc, p =>
    if k = Desc then (k, q ++ [p]) :: rest else (k, q) :: cacheEmplaceBack rest Desc p

/-- `InternalData::SwapMapQueues`. -/
def SwapMapQueues (s : TextureUploaderD3D11) : TextureUploaderD3D11 :=
  { s with
    m_PendingOperations := s.m_InWorkOperations
    m_InWorkOperations := s.m_PendingOperations }

/-- `InternalData::EnqueCopy`. -/
def EnqueCopy (s : TextureUploaderD3D11) (pUploadBuffer pd3d11DstTex Mip Slice MipLevels : Nat) :
    TextureUploaderD3D11 :=
  { s with
    m_PendingOperations :=
      s.m_PendingOperations ++
        [⟨Operation.Copy, pUploadBuffer, pd3d11DstTex, Mip, Slice, MipLevels⟩] }

/-- `InternalData::EnqueMap`. -/
def EnqueMap (s : TextureUploaderD3D11) (pUploadBuffer : Nat) (Op : Operation) :
    TextureUploaderD3D11 :=
  { s with
    m_PendingOperations := s.m_PendingOperations ++ [⟨Op, pUploadBuffer, 0, 0, 0, 0⟩] }

/-- Body of the two nested `Map` loops of `RenderThreadUpdate` for one `(Mip, Slice)`:
a subresource that is not mapped yet is mapped without waiting. Success records the
mapped data, `DXGI_ERROR_WAS_STILL_DRAWING` clears `AllMapped`, every other result is
written with `LOG_ERROR` and leaves `AllMapped` as it is. -/
def mapSubresource (env : RenderThreadEnv) (p Slice Mip : Nat)
    (st : TextureUploaderD3D11 × Bool) : TextureUploaderD3D11 × Bool :=
  let s := st.1
  let b := s.buffers p
  if b.IsMapped Mip Slice then st
  else
    let Subres := D3D11CalcSubresource Mip Slice b.m_Desc.MipLevels
    let hr := env.Map s.d3d11Calls.length b.m_pStagingTexture Subres
    let s1 := { s with d3d11Calls := s.d3d11Calls ++ [D3D11Call.Map b.m_pStagingTexture Subres hr] }
    match hr with
    | MapHResult.S_OK MappedData => (s1.setBuffer p (b.SetMappedData Mip Slice MappedData), st.2)
    | MapHResult.DXGI_ERROR_WAS_STILL_DRAWING => (s1, false)
    | MapHResult.E_FAIL _ =>
      ({ s1 with debugLog := s1.debugLog ++ [DebugMessageSeverity.Error] }, st.2)

/-- The two nested loops `for Slice < ArraySize` / `for Mip < MipLevels` of the `Map` case,
started with `AllMapped = true`. -/
def mapAllSubresources (env : RenderThreadEnv) (p : Nat) (s : TextureUploaderD3D11) :
    TextureUploaderD3D11 × Bool :=
  let Desc := (s.buffers p).m_Desc
  (List.range Desc.ArraySize).foldl
    (fun st Slice => (List.range Desc.MipLevels).foldl
      (fun st Mip => mapSubresource env p Slice Mip st) st)
    (s, true)

/-- The cases `MapAndCache` and `Map` of `RenderThreadUpdate`. -/
def processMap (env : RenderThreadEnv) (op : PendingBufferOperation) (s : TextureUploaderD3D11) :
    TextureUploaderD3D11 :=
  let p := op.pUploadBuffer
  let r := mapAllSubresources env p s
  if r.2 then
    let s1 := r.1.setBuffer p (r.1.buffers p).SignalMapped
    if op.operation = Operation.MapAndCache then
      { s1 with
        m_UploadBufferCache := cacheEmplaceBack s1.m_UploadBufferCache (s1.buffers p).m_Desc p }
    else s1
  else r.1.EnqueMap p op.operation

/-- The loop `for Subres < MipLevels * ArraySize` of the `Copy` case; the bound is a
`Uint32` product. -/
def unmapCalls (b : UploadBufferD3D11) : List D3D11Call :=
  (List.range (u32 (b.m_Desc.MipLevels * b.m_Desc.ArraySize))).map
    (fun Subres => D3D11Call.Unmap b.m_pStagingTexture Subres)

/-- Body of the two nested copy loops for one `(Mip, Slice)`. -/
def copyCall (b : UploadBufferD3D11) (op : PendingBufferOperation) (Slice Mip : Nat) :
    D3D11Call :=
  D3D11Call.CopySubresourceRegion op.pd3d11NativeDstTexture
    (D3D11CalcSubresource (u32 (op.DstMip + Mip)) (u32 (op.DstSlice + Slice)) op.DstMipLevels)
    b.m_pStagingTexture
    (D3D11CalcSubresource Mip Slice b.m_Desc.MipLevels)

/-- The two nested loops `for Slice < ArraySize` / `for Mip < MipLevels` of the `Copy` case. -/
def copyCalls (b : UploadBufferD3D11) (op : PendingBufferOperation) : List D3D11Call :=
  (List.range b.m_Desc.ArraySize).foldl
    (fun calls Slice => (List.range b.m_Desc.MipLevels).foldl
      (fun calls Mip => calls ++ [copyCall b op Slice Mip]) calls)
    []

/-- The case `Copy` of `RenderThreadUpdate`: the check that the buffer is mapped, the unmap
loop, the copy loops, `SignalCopyScheduled`. `none` when the failed check ends the
process. -/
def processCopy (env : RenderThreadEnv) (op : PendingBufferOperation) (s : TextureUploaderD3D11) :
    Option TextureUploaderD3D11 :=
  let p := op.pUploadBuffer
  let b := s.buffers p
  match VERIFY b.DbgIsMapped s.debugLog env.nCode with
  | none => none
  | some log =>
    let s1 := { s with
      debugLog := log
      d3d11Calls := s.d3d11Calls ++ unmapCalls b ++ copyCalls b op }
    some (s1.setBuffer p b.SignalCopyScheduled)

/-- One iteration of the loop over `m_InWorkOperations`: the `switch` on the operation. -/
def processOperation (env : RenderThreadEnv) (op : PendingBufferOperation)
    (s : TextureUploaderD3D11) : Option TextureUploaderD3D11 :=
  match op.operation with
  | Operation.MapAndCache => some (processMap env op s)
  | Operation.Map => some (processMap env op s)
  | Operation.Copy => processCopy env op s

/-- The loop `for (auto &OperationInfo : m_InWorkOperations)`. -/
def processOperations (env : RenderThreadEnv) :
    List PendingBufferOperation → TextureUploaderD3D11 → Option TextureUploaderD3D11
  | [], s => some s
  | op :: ops, s =>
    match processOperation env op s with
    | none => none
    | some s1 => processOperations env ops s1

/-- `TextureUploaderD3D11::RenderThreadUpdate`: swap the queues, process the working queue,
clear it. `none` when a failed assertion ends the process. -/
def RenderThreadUpdate (s : TextureUploaderD3D11) (env : RenderThreadEnv) :
    Option TextureUploaderD3D11 :=
  let s1 := s.SwapMapQueues
  if s1.m_InWorkOperations.isEmpty then some s1
  else
    match processOperations env s1.m_InWorkOperations s1 with
    | none => none
    | some s2 => some { s2 with m_InWorkOperations := [] }

/-- `UploadBufferD3D11::WaitForMap()` as the calling thread lives it: `Signal::Wait` returns
once the signal is triggered (modelled from the spec); until then the thread is suspended
while the render thread runs the listed update cycles. `blocked` when the signal is still
not triggered after the last of them. -/
def WaitForMap (p : Nat) : TextureUploaderD3D11 → List RenderThreadEnv → Run TextureUploaderD3D11
  | s, [] => if (s.buffers p).m_BufferMappedSignal.IsTriggered then Run.returned s else Run.blocked
  | s, env :: envs =>
    if (s.buffers p).m_BufferMappedSignal.IsTriggered then Run.returned s
    else
      match RenderThreadUpdate s env with
      | none => Run.terminated
      | some s1 => WaitForMap p s1 envs

/-- `TextureUploaderD3D11::AllocateUploadBuffer(Desc, IsRenderThread, ppBuffer)`; the result
carries `*ppBuffer`. `IsRenderThread` is not read by the function. `CreateTexture2D` is the
outcome of the device call (`none` for a failed `HRESULT`), `pumps` the render-thread
cycles that run while the caller waits. -/
def AllocateUploadBuffer (s : TextureUploaderD3D11) (Desc : UploadBufferDesc)
    (CreateTexture2D : Option Nat) (pumps : List RenderThreadEnv) :
    Run (Option Nat × TextureUploaderD3D11) :=
  let cached : Option Nat :=
    if s.m_UploadBufferCache.isEmpty then none
    else
      match cacheFind s.m_UploadBufferCache Desc with
      | none => none
      | some Deque => Deque.head?
  match cached with
  | some p =>
    Run.returned (some p, { s with m_UploadBufferCache := cachePopFront s.m_UploadBufferCache Desc })
  | none =>
    let s1 := { s with d3d11Calls := s.d3d11Calls ++ [D3D11Call.CreateTexture2D Desc CreateTexture2D] }
    match CreateTexture2D with
    | none =>
      Run.returned (none, { s1 with debugLog := s1.debugLog ++ [DebugMessageSeverity.Error] })
    | some pStagingTex =>
      let p := s1.nextBuffer
      let s2 := { s1 with
        debugLog := s1.debugLog ++ [DebugMessageSeverity.Info]
        buffers := fun q => if q = p then UploadBufferD3D11.create Desc pStagingTex else s1.buffers q
        nextBuffer := p + 1 }
      match WaitForMap p (s2.EnqueMap p Operation.Map) pumps with
      | Run.returned s3 => Run.returned (some p, s3)
      | Run.terminated => Run.terminated
      | Run.blocked => Run.blocked

/-- `TextureUploaderD3D11::ScheduleGPUCopy(pDstTexture, ArraySlice, MipLevel, pUploadBuffer)`;
`pd3d11NativeDstTex` and `DstTexMipLevels` are the native texture and `GetDesc().MipLevels`
of `pDstTexture`. -/
def ScheduleGPUCopy (s : TextureUploaderD3D11) (pd3d11NativeDstTex DstTexMipLevels : Nat)
    (ArraySlice MipLevel pUploadBuffer : Nat) : TextureUploaderD3D11 :=
  s.EnqueCopy pUploadBuffer pd3d11NativeDstTex MipLevel ArraySlice DstTexMipLevels

/-- `TextureUploaderD3D11::RecycleBuffer(pUploadBuffer)`; `nCode` is the reply to the
assertion message box, `none` when the failed check ends the process. -/
def RecycleBuffer (s : TextureUploaderD3D11) (pUploadBuffer : Nat) (nCode : Nat) :
    Option TextureUploaderD3D11 :=
  match VERIFY (s.buffers pUploadBuffer).DbgIsCopyScheduled s.debugLog nCode with
  | none => none
  | some log =>
    let s1 := { s with debugLog := log }
    some ((s1.setBuffer pUploadBuffer (s1.buffers pUploadBuffer).Reset).EnqueMap
      pUploadBuffer Operation.MapAndCache)

/-- `TextureUploaderD3D11::GetStats().NumPendingOperations`: the loop over
`m_PendingOperations` with its counter. -/
def GetStats (s : TextureUploaderD3D11) : Nat :=
  s.m_PendingOperations.foldl
    (fun NumPendingOperations OperationInfo =>
      if OperationInfo.operation = Operation.Map ∨ OperationInfo.operation = Operation.Copy then
        NumPendingOperations + 1
      else NumPendingOperations)
    0

/-! ## Predicates on uploader states -/

/-- All buffer addresses held in the deques of the idle cache. -/
def cachedBuffers (c : List (UploadBufferDesc × List Nat)) : List Nat :=
  (c.map Prod.snd).flatten

/-- The `CopySubresourceRegion` calls of a call list. -/
def copyCommands (calls : List D3D11Call) : List D3D11Call :=
  calls.filter fun c =>
    match c with
    | D3D11Call.CopySubresourceRegion _ _ _ _ => true
    | _ => false

/-- The `CreateTexture2D` calls of a call list. -/
def createCalls (calls : List D3D11Call) : List D3D11Call :=
  calls.filter fun c =>
    match c with
    | D3D11Call.CreateTexture2D _ _ => true
    | _ => false

/-- What the map loops leave alone: the queues, the cache, the signals, descriptors and
staging textures of all buffers. -/
structure MapFrame (s t : TextureUploaderD3D11) : Prop where
  pending : t.m_PendingOperations = s.m_PendingOperations
  inWork : t.m_InWorkOperations = s.m_InWorkOperations
  cache : t.m_UploadBufferCache = s.m_UploadBufferCache
  next : t.nextBuffer = s.nextBuffer
  mappedSignal : ∀ q, (t.buffers q).m_BufferMappedSignal = (s.buffers q).m_BufferMappedSignal
  copySignal : ∀ q, (t.buffers q).m_CopyScheduledSignal = (s.buffers q).m_CopyScheduledSignal
  desc : ∀ q, (t.buffers q).m_Desc = (s.buffers q).m_Desc
  tex : ∀ q, (t.buffers q).m_pStagingTexture = (s.buffers q).m_pStagingTexture
  creates : createCalls t.d3d11Calls = createCalls s.d3d11Calls

/-- Both queues name existing buffer objects only. -/
structure QueuesValid (s : TextureUploaderD3D11) : Prop where
  pendingValid : ∀ op ∈ s.m_PendingOperations, op.pUploadBuffer < s.nextBuffer
  inWorkValid : ∀ op ∈ s.m_InWorkOperations, op.pUploadBuffer < s.nextBuffer

/-- States the uploader reaches from its constructor through calls of its public interface,
where callers pass addresses of existing upload buffers. Nothing else is asked of the
callers: `ScheduleGPUCopy` and `RecycleBuffer` take any existing buffer, whoever holds it
and wherever it is. -/
inductive Reachable : TextureUploaderD3D11 → Prop
  | init : Reachable init
  | allocate {s : TextureUploaderD3D11} (Desc : UploadBufferDesc) (CreateTexture2D : Option Nat)
      (pumps : List RenderThreadEnv) (r : Option Nat × TextureUploaderD3D11) :
      Reachable s → AllocateUploadBuffer s Desc CreateTexture2D pumps = Run.returned r →
      Reachable r.2
  | scheduleCopy {s : TextureUploaderD3D11}
      (pd3d11NativeDstTex DstTexMipLevels ArraySlice MipLevel p : Nat) :
      Reachable s → p < s.nextBuffer →
      Reachable (ScheduleGPUCopy s pd3d11NativeDstTex DstTexMipLevels ArraySlice MipLevel p)
  | recycle {s t : TextureUploaderD3D11} (p nCode : Nat) :
      Reachable s → p < s.nextBuffer →
      RecycleBuffer s p nCode = some t → Reachable t
  | update {s t : TextureUploaderD3D11} (env : RenderThreadEnv) :
      Reachable s → RenderThreadUpdate s env = some t → Reachable t

/-- States reached as in `Reachable` by callers that never pass to `RecycleBuffer` a buffer
that sits idle in the cache at the moment of the call. The uploader does not check this. -/
inductive ReachableNoIdleRecycle : TextureUploaderD3D11 → Prop
  | init : ReachableNoIdleRecycle init
  | allocate {s : TextureUploaderD3D11} (Desc : UploadBufferDesc) (CreateTexture2D : Option Nat)
      (pumps : List RenderThreadEnv) (r : Option Nat × TextureUploaderD3D11) :
      ReachableNoIdleRecycle s →
      AllocateUploadBuffer s Desc CreateTexture2D pumps = Run.returned r →
      ReachableNoIdleRecycle r.2
  | scheduleCopy {s : TextureUploaderD3D11}
      (pd3d11NativeDstTex DstTexMipLevels ArraySlice MipLevel p : Nat) :
      ReachableNoIdleRecycle s → p < s.nextBuffer →
      ReachableNoIdleRecycle
        (ScheduleGPUCopy s pd3d11NativeDstTex DstTexMipLevels ArraySlice MipLevel p)
  | recycle {s t : TextureUploaderD3D11} (p nCode : Nat) :
      ReachableNoIdleRecycle s → p < s.nextBuffer →
      p ∉ cachedBuffers s.m_UploadBufferCache →
      RecycleBuffer s p nCode = some t → ReachableNoIdleRecycle t
  | update {s t : TextureUploaderD3D11} (env : RenderThreadEnv) :
      ReachableNoIdleRecycle s → RenderThreadUpdate s env = some t → ReachableNoIdleRecycle t

/-- The deque of idle buffers stored for a descriptor (empty when the key is absent). -/
def idleDeque (c : List (UploadBufferDesc × List Nat)) (Desc : UploadBufferDesc) : List Nat :=
  (cacheFind c Desc).getD []

/-- Every `Map` attempt of the cycle succeeds. -/
def AllMapsSucceed (env : RenderThreadEnv) : Prop :=
  ∀ n pResource Subresource, ∃ MappedData,
    env.Map n pResource Subresource = MapHResult.S_OK MappedData

/-! ## Example runs -/

/-- The descriptor `{256, 256, 1, 1, 1, FormatX}` of the spec's scenario. -/
def exampleDesc : UploadBufferDesc := ⟨256, 256, 1, 1, 1, 28⟩

/-- A render-thread cycle in which every map succeeds and a failed assertion is ignored. -/
def exampleEnv : RenderThreadEnv :=
  ⟨fun _ _ _ => MapHResult.S_OK ⟨4096, 1024, 262144⟩, IDIGNORE⟩

/-- A render-thread cycle in which every map succeeds and a failed assertion is answered
with `IDABORT`. -/
def exampleAbortEnv : RenderThreadEnv :=
  ⟨fun _ _ _ => MapHResult.S_OK ⟨4096, 1024, 262144⟩, IDABORT⟩

/-- The state in which a call returned, the initial state otherwise. -/
def stateOf {α : Type} (r : Run (α × TextureUploaderD3D11)) : TextureUploaderD3D11 :=
  match r with
  | Run.returned a => a.2
  | Run.terminated => init
  | Run.blocked => init

/-- After the first `AllocateUploadBuffer(exampleDesc)`: buffer `0` is with its caller. -/
def exampleAcquired : TextureUploaderD3D11 :=
  stateOf (AllocateUploadBuffer init exampleDesc (some 100) [exampleEnv])

/-- After a second `AllocateUploadBuffer(exampleDesc)`: buffers `0` and `1` are with callers. -/
def exampleAcquiredTwo : TextureUploaderD3D11 :=
  stateOf (AllocateUploadBuffer exampleAcquired exampleDesc (some 101) [exampleEnv])

/-- Both buffers have had a copy scheduled into mip 0, slice 0 of texture `200` (one mip
level) and the render thread has run one cycle. -/
def exampleCopied : TextureUploaderD3D11 :=
  ((RenderThreadUpdate
    (ScheduleGPUCopy (ScheduleGPUCopy exampleAcquiredTwo 200 1 0 0 0) 200 1 0 0 1)
    exampleEnv).getD init)

/-- Buffer `0` has been recycled; its `MapAndCache` operation is pending. -/
def exampleRecycledFirst : TextureUploaderD3D11 :=
  (RecycleBuffer exampleCopied 0 IDIGNORE).getD init

/-- Buffer `0` has been recycled and the render thread has run one more cycle: buffer `0`
is idle in the cache. -/
def exampleCached : TextureUploaderD3D11 :=
  (RenderThreadUpdate exampleRecycledFirst exampleEnv).getD init

/-- Starting from `exampleCopied`, a further copy from buffer `0` is scheduled and the
buffer is recycled before the render thread has run: the `Copy` operation waits in the
queue in front of `MapAndCache`, and the buffer's mapped signal is reset. -/
def exampleCopyOfUnmapped : TextureUploaderD3D11 :=
  (RecycleBuffer (ScheduleGPUCopy exampleCopied 200 1 0 0 0) 0 IDIGNORE).getD init

/-- A descriptor with two mip levels and two array slices. -/
def exampleArrayDesc : UploadBufferDesc := ⟨4, 4, 1, 2, 2, 28⟩

/-- After `AllocateUploadBuffer(exampleArrayDesc)` on a new uploader. -/
def exampleArrayAcquired : TextureUploaderD3D11 :=
  stateOf (AllocateUploadBuffer init exampleArrayDesc (some 100) [exampleEnv])

/-- A copy from buffer `0` into texture `200` (five mip levels) at mip 1, slice 3. -/
def exampleCopyOp : PendingBufferOperation := ⟨Operation.Copy, 0, 200, 1, 3, 5⟩

/-- After the render thread has carried out `exampleCopyOp`. -/
def exampleArrayCopied : TextureUploaderD3D11 :=
  (processOperation exampleEnv exampleCopyOp exampleArrayAcquired).getD init

/-- The `Copy` operation at the head of the queue of `exampleCopyOfUnmapped`. -/
def exampleUnmappedCopyOp : PendingBufferOperation := ⟨Operation.Copy, 0, 200, 0, 0, 1⟩

/-! ## Outstanding operations per buffer and kind -/

/-- Number of operations of kind `Op` for the buffer at address `p` in a queue. -/
def opCount (Op : Operation) (p : Nat) (ops : List PendingBufferOperation) : Nat :=
  ops.countP fun op => decide (op.operation = Op ∧ op.pUploadBuffer = p)

/-- The working queue is empty and the pending queue holds at most one operation of kind
`Op` for each buffer. -/
def Once (Op : Operation) (s : TextureUploaderD3D11) : Prop :=
  s.m_InWorkOperations = [] ∧ ∀ p, opCount Op p s.m_PendingOperations ≤ 1

/-- The data a `Map` call hands back: present exactly when the call succeeded. -/
def mappedDataOf : MapHResult → Option MappedTextureSubresource
  | MapHResult.S_OK MappedData => some MappedData
  | MapHResult.DXGI_ERROR_WAS_STILL_DRAWING => none
  | MapHResult.E_FAIL _ => none

/-- Some `Map` call of the list returned `DXGI_ERROR_WAS_STILL_DRAWING`. -/
def stillDrawing (calls : List D3D11Call) : Bool :=
  calls.any fun c =>
    match c with
    | D3D11Call.Map _ _ MapHResult.DXGI_ERROR_WAS_STILL_DRAWING => true
    | _ => false

/-- The `(Slice, Mip)` pairs in the order in which the nested loops visit them. -/
def subresources (Desc : UploadBufferDesc) : List (Nat × Nat) :=
  (List.range Desc.ArraySize).flatMap fun Slice =>
    (List.range Desc.MipLevels).map fun Mip => (Slice, Mip)

/-- The loop body `mapSubresource` run over a list of `(Slice, Mip)` pairs. -/
def mapLoop (env : RenderThreadEnv) (p : Nat) (L : List (Nat × Nat))
    (st : TextureUploaderD3D11 × Bool) : TextureUploaderD3D11 × Bool :=
  L.foldl (fun st x => mapSubresource env p x.1 x.2 st) st

/-- The buffer of `exampleArrayCopied` has been recycled: its records are cleared and its
`MapAndCache` operation is pending. -/
def exampleArrayRecycled : TextureUploaderD3D11 :=
  (RecycleBuffer exampleArrayCopied 0 IDIGNORE).getD init

/-- The next render-thread cycle has swapped the queues of `exampleArrayRecycled`. -/
def exampleArrayInWork : TextureUploaderD3D11 :=
  exampleArrayRecycled.SwapMapQueues

/-- The `MapAndCache` operation of the recycled buffer `0`. -/
def exampleRecycleOp : PendingBufferOperation := ⟨Operation.MapAndCache, 0, 0, 0, 0, 0⟩

/-- A render-thread cycle in which the subresources with an even index map and the others
report `DXGI_ERROR_WAS_STILL_DRAWING`. -/
def exampleBusyEnv : RenderThreadEnv :=
  ⟨fun _ _ Subresource =>
    if Subresource % 2 = 0 then MapHResult.S_OK ⟨4096, 16, 64⟩
    else MapHResult.DXGI_ERROR_WAS_STILL_DRAWING, IDIGNORE⟩

/-- A render-thread cycle in which every `Map` fails with `DXGI_ERROR_DEVICE_REMOVED`
(`0x887A0005`). -/
def exampleFailEnv : RenderThreadEnv :=
  ⟨fun _ _ _ => MapHResult.E_FAIL 2289696773, IDIGNORE⟩

/-- The case `Copy` of `RenderThreadUpdate` up to and including its last
`CopySubresourceRegion`: the check that the buffer is mapped, the unmap loop and the copy
loops, before `SignalCopyScheduled` is called. -/
def issueCopyCalls (env : RenderThreadEnv) (op : PendingBufferOperation)
    (s : TextureUploaderD3D11) : Option TextureUploaderD3D11 :=
  let b := s.buffers op.pUploadBuffer
  match VERIFY b.DbgIsMapped s.debugLog env.nCode with
  | none => none
  | some log =>
    some { s with
      debugLog := log
      d3d11Calls := s.d3d11Calls ++ unmapCalls b ++ copyCalls b op }

/-! ## One cycle of the render thread -/

/-- The operation `EnqueMap` puts into the pending queue when `op` has to be tried again. -/
def enqueuedAgain (op : PendingBufferOperation) : PendingBufferOperation :=
  ⟨op.operation, op.pUploadBuffer, 0, 0, 0, 0⟩

/-- A render-thread cycle in which every `Map` reports `DXGI_ERROR_WAS_STILL_DRAWING`. -/
def exampleStillDrawingEnv : RenderThreadEnv :=
  ⟨fun _ _ _ => MapHResult.DXGI_ERROR_WAS_STILL_DRAWING, IDIGNORE⟩

end TextureUploaderD3D11

end Diligent

namespace Diligent

namespace DynamicHeap

/-! ## The free-list allocator behind `MasterBlockListBasedManager` -/

/-- Modelled from the spec: `Range`, `{offset, size}`, a half-open byte interval of the
arena (VariableSizeAllocationsManager.h is not among the sources). -/
structure Range where
  offset : Nat
  size : Nat
deriving DecidableEq, Repr

/-- Byte `x` lies in the range. -/
def Range.contains (r : Range) (x : Nat) : Prop := r.offset ≤ x ∧ x < r.offset + r.size

instance (r : Range) (x : Nat) : Decidable (r.contains x) := by
  unfold Range.contains
  exact inferInstance

/-- Modelled from the spec: `VariableSizeAllocationsManager::Allocation`, the result
`Range | Exhausted` of an allocation; `none` is the invalid value, which is also what the
default constructor `MasterBlock{}` gives. -/
abbrev Allocation := Option Range

/-- `Allocation::IsValid()`. -/
def Allocation.IsValid (a : Allocation) : Bool := a.isSome

/-- Modelled from the spec: the free-list allocator `VariableSizeAllocationsManager`, its
free blocks kept in offset order. -/
structure VariableSizeAllocationsManager where
  m_FreeBlocks : List Range
  m_MaxSize : Nat
deriving DecidableEq, Repr

/-- Modelled from the spec: the first offset not below `offset` that is a multiple of
`alignment` (no alignment is applied for `alignment = 0`). -/
def Align (offset alignment : Nat) : Nat :=
  if alignment = 0 then offset else (offset + alignment - 1) / alignment * alignment

/-- Modelled from the spec: an unused remainder is reinserted as a free block if it is not
empty. -/
def remainder (offset size : Nat) : List Range :=
  if size = 0 then [] else [⟨offset, size⟩]

/-- Modelled from the spec: first fit in offset order. The first free block whose aligned
sub-range holds `size` bytes gives that sub-range; what is left of the block in front of and
behind the sub-range is reinserted. `none` when no block is large enough. -/
def allocateFrom : List Range → Nat → Nat → Option (Range × List Range)
  | [], _, _ => none
  | b :: rest, size, alignment =>
    let a := Align b.offset alignment
    if a + size ≤ b.offset + b.size then
      some (⟨a, size⟩,
        remainder b.offset (a - b.offset) ++
          remainder (a + size) (b.offset + b.size - (a + size)) ++ rest)
    else
      match allocateFrom rest size alignment with
      | none => none
      | some (r, l) => some (r, b :: l)

/-- Modelled from the spec: `Free` reinserts the range in offset order and merges it with a
free neighbour whose offset is exactly adjacent, on the left and on the right. -/
def insertFree (r : Range) : List Range → List Range
  | [] => [r]
  | b :: rest =>
    if r.offset + r.size = b.offset then ⟨r.offset, r.size + b.size⟩ :: rest
    else if r.offset < b.offset then r :: b :: rest
    else if b.offset + b.size = r.offset then insertFree ⟨b.offset, b.size + r.size⟩ rest
    else b :: insertFree r rest

namespace VariableSizeAllocationsManager

/-- Modelled from the spec: a new allocator owns the whole arena as one free block. -/
def create (Size : Nat) : VariableSizeAllocationsManager :=
  ⟨remainder 0 Size, Size⟩

/-- Modelled from the spec: `Allocate(size, alignment) -> Range | Exhausted`. -/
def Allocate (m : VariableSizeAllocationsManager) (size alignment : Nat) :
    Allocation × VariableSizeAllocationsManager :=
  match allocateFrom m.m_FreeBlocks size alignment with
  | none => (none, m)
  | some (r, l) => (some r, { m with m_FreeBlocks := l })

/-- Modelled from the spec: `Free(Range)`; the invalid allocation has no bytes to return. -/
def Free (m : VariableSizeAllocationsManager) (a : Allocation) : VariableSizeAllocationsManager :=
  match a with
  | none => m
  | some r => { m with m_FreeBlocks := insertFree r m.m_FreeBlocks }

end VariableSizeAllocationsManager

/-! ## `MasterBlockListBasedManager` and its stale holders -/

/-- The class `MasterBlockListBasedManager`: the wrapped allocator and the development
counter of master blocks; `freeCalls` lists the arguments of the calls of
`m_AllocationsMgr.Free` made so far. -/
structure MasterBlockListBasedManager where
  m_AllocationsMgr : VariableSizeAllocationsManager
  m_MasterBlockCounter : Int
  freeCalls : List Allocation
deriving DecidableEq, Repr

/-- The local struct `StaleMasterBlock` of `ReleaseMasterBlocks`; `Mgr` is the address of the
manager, `none` the null pointer. -/
structure StaleMasterBlock where
  Block : Allocation
  Mgr : Option Nat
deriving DecidableEq, Repr

namespace StaleMasterBlock

/-- The constructor `StaleMasterBlock(MasterBlock&& _Block, MasterBlockListBasedManager* _Mgr)`. -/
def create (_Block : Allocation) (_Mgr : Nat) : StaleMasterBlock := ⟨_Block, some _Mgr⟩

/-- The move constructor `StaleMasterBlock(StaleMasterBlock&& rhs)`: the new holder, and
`rhs` as the constructor leaves it (`Block = MasterBlock{}`, `Mgr = nullptr`). -/
def moveConstruct (rhs : StaleMasterBlock) : StaleMasterBlock × StaleMasterBlock :=
  (⟨rhs.Block, rhs.Mgr⟩, ⟨none, none⟩)

/-- The destructor `~StaleMasterBlock()` acting on the manager `Mgr` points to: a holder
with a manager decrements the counter and frees its block, a holder without does nothing. -/
def destructor (h : StaleMasterBlock) (mgr : MasterBlockListBasedManager) :
    MasterBlockListBasedManager :=
  match h.Mgr with
  | none => mgr
  | some _ =>
    { m_AllocationsMgr := mgr.m_AllocationsMgr.Free h.Block
      m_MasterBlockCounter := mgr.m_MasterBlockCounter - 1
      freeCalls := mgr.freeCalls ++ [h.Block] }

/-- The holder is move-constructed `moves` times in a row; every moved-from holder is
destroyed. The result is the last holder and the manager after those destructors. -/
def moveInto : Nat → StaleMasterBlock → MasterBlockListBasedManager →
    StaleMasterBlock × MasterBlockListBasedManager
  | 0, h, mgr => (h, mgr)
  | moves + 1, h, mgr =>
    let r := h.moveConstruct
    moveInto moves r.1 (r.2.destructor mgr)

end StaleMasterBlock

/-- The manager together with the render device it releases through. Modelled from the spec:
the device's deferred-destruction facility (`SafeReleaseDeviceObject` is not among the
sources) keeps each object with its readiness target until the queues named by the target
have retired; only then is the object's destructor run. -/
structure System where
  Mgr : MasterBlockListBasedManager
  m_ReleaseQueue : List (StaleMasterBlock × Nat)
deriving DecidableEq, Repr

namespace System

/-- The constructor `MasterBlockListBasedManager(Allocator, Size)` next to a device with
nothing queued. -/
def create (Size : Nat) : System :=
  ⟨⟨VariableSizeAllocationsManager.create Size, 0, []⟩, []⟩

/-- `MasterBlockListBasedManager::AllocateMasterBlock(SizeInBytes, Alignment)` (development
build: the counter is kept). -/
def AllocateMasterBlock (s : System) (SizeInBytes Alignment : Nat) : Allocation × System :=
  let r := s.Mgr.m_AllocationsMgr.Allocate SizeInBytes Alignment
  let NewBlock := r.1
  let counter :=
    if Allocation.IsValid NewBlock then s.Mgr.m_MasterBlockCounter + 1
    else s.Mgr.m_MasterBlockCounter
  (NewBlock, { s with Mgr := { s.Mgr with m_AllocationsMgr := r.2, m_MasterBlockCounter := counter } })

/-- Modelled from the spec: `Device.SafeReleaseDeviceObject(object, CmdQueueMask)`. The
holder is move-constructed `moves + 1` times on its way into the queue, where it stays with
its mask; the moved-from holders, the caller's temporary among them, are destroyed. -/
def SafeReleaseDeviceObject (s : System) (h : StaleMasterBlock) (CmdQueueMask moves : Nat) :
    System :=
  let r := StaleMasterBlock.moveInto (moves + 1) h s.Mgr
  { Mgr := r.2, m_ReleaseQueue := s.m_ReleaseQueue ++ [(r.1, CmdQueueMask)] }

/-- `MasterBlockListBasedManager::ReleaseMasterBlocks(Blocks, Device, CmdQueueMask)`: the
loop over the blocks; `this` is the address of the manager. (The check
`DEV_CHECK_ERR(Block.IsValid(), ...)` writes a message only.) -/
def ReleaseMasterBlocks (s : System) (this : Nat) (Blocks : List Allocation)
    (CmdQueueMask moves : Nat) : System :=
  Blocks.foldl
    (fun s Block => s.SafeReleaseDeviceObject (StaleMasterBlock.create Block this) CmdQueueMask moves)
    s

/-- Modelled from the spec: the device has seen the queues of the `i`-th queued object
retire and runs the object's destructor. -/
def retire (s : System) (i : Nat) : System :=
  match s.m_ReleaseQueue[i]? with
  | none => s
  | some h => { Mgr := h.1.destructor s.Mgr, m_ReleaseQueue := s.m_ReleaseQueue.eraseIdx i }

end System

/-! ## Runs of the manager with the blocks its callers hold -/

/-- Number of ranges of a list that contain byte `x`. -/
def cover (l : List Range) (x : Nat) : Nat :=
  (l.map fun r => if r.contains x then 1 else 0).sum

/-- The ranges owned by the stale holders in the device's queue. -/
def staleRanges (q : List (StaleMasterBlock × Nat)) : List Range :=
  q.filterMap fun h => h.1.Block

/-- A call on the manager or an action of the device. -/
inductive Action
  | AllocateMasterBlock (SizeInBytes Alignment : Nat)
  | ReleaseMasterBlocks (Blocks : List Allocation) (CmdQueueMask moves : Nat)
  | retire (i : Nat)
deriving DecidableEq, Repr

/-- The discipline of callers that hand to `ReleaseMasterBlocks` valid blocks they hold:
every block of the vector is taken out of the list of held blocks. `none` when a block is
invalid, was not handed out, or was passed to `ReleaseMasterBlocks` before. The manager
does not look at this: `System.ReleaseMasterBlocks` queues whatever it is given. -/
def takeHeld : List Allocation → List Range → Option (List Range)
  | [], held => some held
  | none :: _, _ => none
  | some r :: Blocks, held => if r ∈ held then takeHeld Blocks (held.erase r) else none

/-- One step of a run of disciplined callers: the system, and the blocks handed out by
`AllocateMasterBlock` that have not been passed to `ReleaseMasterBlocks` yet. `none` when
the call leaves the discipline of `takeHeld`; what the manager does on such a call is given
by `System.ReleaseMasterBlocks` all the same (see `tally`). -/
def step (this : Nat) (st : System × List Range) : Action → Option (System × List Range)
  | Action.AllocateMasterBlock SizeInBytes Alignment =>
    let r := st.1.AllocateMasterBlock SizeInBytes Alignment
    match r.1 with
    | none => some (r.2, st.2)
    | some block => some (r.2, block :: st.2)
  | Action.ReleaseMasterBlocks Blocks CmdQueueMask moves =>
    match takeHeld Blocks st.2 with
    | none => none
    | some held => some (st.1.ReleaseMasterBlocks this Blocks CmdQueueMask moves, held)
  | Action.retire i => some (st.1.retire i, st.2)

/-- A run from a given state; `some` exactly when every `ReleaseMasterBlocks` call of the
run is passed valid blocks that were handed out and not released since. -/
def run (this : Nat) : System × List Range → List Action → Option (System × List Range)
  | st, [] => some st
  | st, a :: as =>
    match step this st a with
    | none => none
    | some st1 => run this st1 as

/-- No byte of the arena is at the same time in two of: a free block, a block held by a
caller, a block owned by a stale holder in the device's queue. -/
def Exclusive (st : System × List Range) : Prop :=
  ∀ x, cover st.1.Mgr.m_AllocationsMgr.m_FreeBlocks x + cover st.2 x +
    cover (staleRanges st.1.m_ReleaseQueue) x ≤ 1

/-- An arbitrary sequence of calls and device actions, with no assumption on the callers.
The result is the final system, the number of valid blocks `AllocateMasterBlock` returned,
and the number of queued stale holders the device destroyed. -/
def tally (this : Nat) : System → List Action → System × Nat × Nat
  | s, [] => (s, 0, 0)
  | s, Action.AllocateMasterBlock SizeInBytes Alignment :: as =>
    let r := s.AllocateMasterBlock SizeInBytes Alignment
    let t := tally this r.2 as
    (t.1, t.2.1 + (if Allocation.IsValid r.1 then 1 else 0), t.2.2)
  | s, Action.ReleaseMasterBlocks Blocks CmdQueueMask moves :: as =>
    tally this (s.ReleaseMasterBlocks this Blocks CmdQueueMask moves) as
  | s, Action.retire i :: as =>
    let t := tally this (s.retire i) as
    (t.1, t.2.1, t.2.2 + (if (s.m_ReleaseQueue[i]?).isSome then 1 else 0))

/-- A run outside the discipline of `takeHeld`: the block `[0, 256)` is handed out and then
passed to `ReleaseMasterBlocks` twice; the device destroys the first of the two holders. -/
def exampleDoubleRelease : List Action :=
  [Action.AllocateMasterBlock 256 16, Action.ReleaseMasterBlocks [some ⟨0, 256⟩] 1 2,
    Action.ReleaseMasterBlocks [some ⟨0, 256⟩] 1 2, Action.retire 0]

/-- The system after `exampleDoubleRelease` on an arena of 1024 bytes. -/
def exampleDoubleReleased : System :=
  (tally 7 (System.create 1024) exampleDoubleRelease).1

/-- The system after the first `AllocateMasterBlock(256, 16)` on an arena of 1024 bytes. -/
def exampleFirstOut : System :=
  ((System.create 1024).AllocateMasterBlock 256 16).2

/-- The block `[0, 256)` is passed to `ReleaseMasterBlocks` with the mask 1, a second block
is handed out, and the device destroys the holder. -/
def exampleReleaseRetire : List Action :=
  [Action.ReleaseMasterBlocks [some ⟨0, 256⟩] 1 2, Action.AllocateMasterBlock 256 16,
    Action.retire 0]

/-- The state after `exampleReleaseRetire`, run from `exampleFirstOut` with `[0, 256)` held. -/
def exampleReleasedRetired : System × List Range :=
  (run 7 (exampleFirstOut, [⟨0, 256⟩]) exampleReleaseRetire).getD (System.create 1024, [])

/-- The two ranges do not overlap: one ends where or before the other begins. -/
def Range.apart (a b : Range) : Prop :=
  a.offset + a.size ≤ b.offset ∨ b.offset + b.size ≤ a.offset

/-- The free list is in offset order, its blocks are not empty, and between two
consecutive blocks there is at least one byte that is not free. -/
def Coalesced (l : List Range) : Prop :=
  l.Pairwise (fun a b => a.offset + a.size < b.offset) ∧ ∀ b ∈ l, 0 < b.size

/-- No free block ends exactly where another free block begins. -/
def NoAdjacent (l : List Range) : Prop :=
  ∀ a ∈ l, ∀ b ∈ l, a.offset + a.size ≠ b.offset

/-- An allocator over an arena of 1024 bytes after two allocations of 256 bytes: the ranges
`[0, 256)` and `[256, 512)` are allocated, `[512, 1024)` is free. -/
def exampleTwoAllocated : VariableSizeAllocationsManager :=
  (((VariableSizeAllocationsManager.create 1024).Allocate 256 1).2.Allocate 256 1).2

/-- One more allocation of 256 bytes: `[0, 256)`, `[256, 512)` and `[512, 768)` are
allocated, `[768, 1024)` is free. -/
def exampleThreeAllocated : VariableSizeAllocationsManager :=
  (exampleTwoAllocated.Allocate 256 1).2

/-! ## The ring allocator behind `MasterBlockRingBufferBasedManager` -/

/-- Modelled from the spec: `FrameBoundary`, `{offset, taggedCompletionValue}`, the head at
the moment a frame was closed and the completion value that makes the memory behind it
reclaimable (RingBuffer.h is not among the sources). `size` is the number of bytes the
frame took, skipped bytes included; it is what `GetUsedSize` gives back on reclamation. -/
structure FrameBoundary where
  offset : Nat
  taggedCompletionValue : Nat
  size : Nat
deriving DecidableEq, Repr

/-- Modelled from the spec: the ring allocator `RingBuffer` over an arena of `maxSize`
bytes: the allocation head, the tail of the unreclaimed memory, the number of bytes in use,
the number of bytes taken by the current frame, and the boundaries of the closed frames in
the order they were pushed. -/
structure RingBuffer where
  head : Nat
  tail : Nat
  usedSize : Nat
  currFrameSize : Nat
  maxSize : Nat
  boundaries : List FrameBoundary
deriving DecidableEq, Repr

namespace RingBuffer

/-- Modelled from the spec: a new ring allocator over `Size` bytes. -/
def create (Size : Nat) : RingBuffer := ⟨0, 0, 0, 0, Size, []⟩

/-- The head is moved to `newHead` and `taken` bytes are accounted to the current frame. -/
def advance (rb : RingBuffer) (newHead taken : Nat) : RingBuffer :=
  { rb with
    head := newHead
    usedSize := rb.usedSize + taken
    currFrameSize := rb.currFrameSize + taken }

/-- Modelled from the spec: `Allocate(size, alignment) -> Range | Exhausted`; the result is
the offset of the range, `none` for `Exhausted`. The range is taken at the aligned head; when
it does not fit before the end of the arena the head wraps to offset 0 and the skipped bytes
count as used; the call fails when the head would run into the unreclaimed tail. -/
def Allocate (rb : RingBuffer) (size alignment : Nat) : Option Nat × RingBuffer :=
  if rb.usedSize + size > rb.maxSize then (none, rb)
  else
    let alignedHead := Align rb.head alignment
    if rb.tail ≤ rb.head then
      if alignedHead + size ≤ rb.maxSize then
        (some alignedHead, rb.advance (alignedHead + size) (alignedHead + size - rb.head))
      else if size ≤ rb.tail then
        (some 0, rb.advance size (rb.maxSize - rb.head + size))
      else (none, rb)
    else if alignedHead + size ≤ rb.tail then
      (some alignedHead, rb.advance (alignedHead + size) (alignedHead + size - rb.head))
    else (none, rb)

/-- Modelled from the spec: `FinishCurrentFrame(completionValue)` pushes a boundary at the
current head with the given tag and starts a new frame. -/
def FinishCurrentFrame (rb : RingBuffer) (completionValue : Nat) : RingBuffer :=
  { rb with
    boundaries := rb.boundaries ++ [⟨rb.head, completionValue, rb.currFrameSize⟩]
    currFrameSize := 0 }

/-- The loop of `ReleaseCompletedFrames`: while the oldest boundary has a tag not above
`lastCompletedValue` it is popped, its bytes are given back and the tail moves to its
offset. The result is the tail, the bytes in use and the boundaries left. -/
def releaseLoop (lastCompletedValue : Nat) : List FrameBoundary → Nat → Nat →
    Nat × Nat × List FrameBoundary
  | [], tail, usedSize => (tail, usedSize, [])
  | b :: rest, tail, usedSize =>
    if b.taggedCompletionValue ≤ lastCompletedValue then
      releaseLoop lastCompletedValue rest b.offset (usedSize - b.size)
    else (tail, usedSize, b :: rest)

/-- Modelled from the spec: `ReleaseCompletedFrames(lastCompletedValue)`. -/
def ReleaseCompletedFrames (rb : RingBuffer) (lastCompletedValue : Nat) : RingBuffer :=
  let r := releaseLoop lastCompletedValue rb.boundaries rb.tail rb.usedSize
  { rb with tail := r.1, usedSize := r.2.1, boundaries := r.2.2 }

end RingBuffer

/-- The class `MasterBlockRingBufferBasedManager`: the wrapped ring buffer (the mutex is
not modelled; every member function runs under it). -/
structure MasterBlockRingBufferBasedManager where
  m_RingBuffer : RingBuffer
deriving DecidableEq, Repr

namespace MasterBlockRingBufferBasedManager

/-- The constructor `MasterBlockRingBufferBasedManager(Allocator, Size)`. -/
def create (Size : Nat) : MasterBlockRingBufferBasedManager := ⟨RingBuffer.create Size⟩

/-- `DiscardMasterBlocks(Blocks, FenceValue)`: the blocks are not looked at. -/
def DiscardMasterBlocks (m : MasterBlockRingBufferBasedManager) (FenceValue : Nat) :
    MasterBlockRingBufferBasedManager :=
  ⟨m.m_RingBuffer.FinishCurrentFrame FenceValue⟩

/-- `ReleaseStaleBlocks(LastCompletedFenceValue)`. -/
def ReleaseStaleBlocks (m : MasterBlockRingBufferBasedManager) (LastCompletedFenceValue : Nat) :
    MasterBlockRingBufferBasedManager :=
  ⟨m.m_RingBuffer.ReleaseCompletedFrames LastCompletedFenceValue⟩

/-- `GetSize()`. -/
def GetSize (m : MasterBlockRingBufferBasedManager) : Nat := m.m_RingBuffer.maxSize

/-- `GetUsedSize()`. -/
def GetUsedSize (m : MasterBlockRingBufferBasedManager) : Nat := m.m_RingBuffer.usedSize

/-- `AllocateMasterBlock(SizeInBytes, Alignment)`; `none` is `InvalidOffset`. -/
def AllocateMasterBlock (m : MasterBlockRingBufferBasedManager) (SizeInBytes Alignment : Nat) :
    Option Nat × MasterBlockRingBufferBasedManager :=
  let r := m.m_RingBuffer.Allocate SizeInBytes Alignment
  (r.1, ⟨r.2⟩)

/-- A frame: the allocations made in it, each with size and alignment, and the fence value
it is closed with. The allocations are made in order, then `DiscardMasterBlocks` is called. -/
def runFrame (m : MasterBlockRingBufferBasedManager) (frame : List (Nat × Nat) × Nat) :
    MasterBlockRingBufferBasedManager :=
  (frame.1.foldl (fun m a => (m.AllocateMasterBlock a.1 a.2).2) m).DiscardMasterBlocks frame.2

/-- A sequence of frames, run one after the other. -/
def runFrames (m : MasterBlockRingBufferBasedManager) (frames : List (List (Nat × Nat) × Nat)) :
    MasterBlockRingBufferBasedManager :=
  frames.foldl runFrame m

end MasterBlockRingBufferBasedManager

/-- The bytes in use are those of the current frame and of the closed frames. -/
def RingBuffer.Accounted (rb : RingBuffer) : Prop :=
  rb.usedSize = rb.currFrameSize + (rb.boundaries.map FrameBoundary.size).sum

/-- Three frames closed with the fence values 10, 20 and 30 on an arena of 1024 bytes. -/
def exampleFrames : List (List (Nat × Nat) × Nat) :=
  [([(100, 16), (50, 16)], 10), ([(200, 16)], 20), ([(64, 16)], 30)]

end DynamicHeap

end Diligent

namespace Diligent

/-! ## `BufferDesc` (Buffer.h) -/

/-- The struct `BufferDesc`. Its base `DeviceObjectAttribs` is not among the sources; it
contributes the field `Name` that the comment of `operator ==` refers to, here the address
of the name string. `BindFlags`, `Usage`, `CPUAccessFlags` and `Mode` are the numeric values
of their enumerations. -/
structure BufferDesc where
  Name : Nat
  uiSizeInBytes : Nat
  BindFlags : Nat
  Usage : Nat
  CPUAccessFlags : Nat
  Mode : Nat
  ElementByteStride : Nat
  CommandQueueMask : Nat
deriving DecidableEq, Repr

/-- `BufferDesc::operator ==`: the conjunction of the seven member comparisons. -/
def BufferDesc.operator_eq (a RHS : BufferDesc) : Bool :=
  decide (a.uiSizeInBytes = RHS.uiSizeInBytes) &&
  decide (a.BindFlags = RHS.BindFlags) &&
  decide (a.Usage = RHS.Usage) &&
  decide (a.CPUAccessFlags = RHS.CPUAccessFlags) &&
  decide (a.Mode = RHS.Mode) &&
  decide (a.ElementByteStride = RHS.ElementByteStride) &&
  decide (a.CommandQueueMask = RHS.CommandQueueMask)

/-! ## The constructors of `BufferDesc` (Buffer.h) -/

/-- Modelled from the spec: `BIND_NONE` of the enumeration `BIND_FLAGS`, declared in
GraphicsTypes.h, which is not among the sources. -/
def BIND_NONE : Nat := 0

/-- Modelled from the spec: `BIND_UNIFORM_BUFFER` of the enumeration `BIND_FLAGS`, declared in
GraphicsTypes.h, which is not among the sources. -/
def BIND_UNIFORM_BUFFER : Nat := 4

/-- Modelled from the spec: `USAGE_DEFAULT` of the enumeration `USAGE`, declared in
GraphicsTypes.h, which is not among the sources. -/
def USAGE_DEFAULT : Nat := 1

/-- Modelled from the spec: `USAGE_DYNAMIC` of the enumeration `USAGE`, declared in
GraphicsTypes.h, which is not among the sources. -/
def USAGE_DYNAMIC : Nat := 2

/-- Modelled from the spec: `CPU_ACCESS_NONE` of the enumeration `CPU_ACCESS_FLAGS`, declared
in GraphicsTypes.h, which is not among the sources. -/
def CPU_ACCESS_NONE : Nat := 0

/-- Modelled from the spec: `CPU_ACCESS_WRITE` of the enumeration `CPU_ACCESS_FLAGS`, declared
in GraphicsTypes.h, which is not among the sources. -/
def CPU_ACCESS_WRITE : Nat := 2

/-- The enumerator `BUFFER_MODE_UNDEFINED` of `BUFFER_MODE`. -/
def BUFFER_MODE_UNDEFINED : Nat := 0

/-- The default constructor `BufferDesc()`: every member keeps its default member
initializer; the inherited `Name` is the null pointer. -/
def BufferDesc.default : BufferDesc :=
  { Name := 0
    uiSizeInBytes := 0
    BindFlags := BIND_NONE
    Usage := USAGE_DEFAULT
    CPUAccessFlags := CPU_ACCESS_NONE
    Mode := BUFFER_MODE_UNDEFINED
    ElementByteStride := 0
    CommandQueueMask := 1 }

/-- The explicit constructor `BufferDesc(_uiSizeInBytes, _BindFlags, _Usage, _CPUAccessFlags,
_Mode, _ElementByteStride, _CommandQueueMask)`: its member initializer list names
`uiSizeInBytes`, `BindFlags`, `Usage`, `Mode`, `ElementByteStride` and `CommandQueueMask`;
a member it does not name keeps its default member initializer. -/
def BufferDesc.create (_uiSizeInBytes _BindFlags _Usage _CPUAccessFlags _Mode
    _ElementByteStride _CommandQueueMask : Nat) : BufferDesc :=
  { BufferDesc.default with
    uiSizeInBytes := _uiSizeInBytes
    BindFlags := _BindFlags
    Usage := _Usage
    Mode := _Mode
    ElementByteStride := _ElementByteStride
    CommandQueueMask := _CommandQueueMask }

end Diligent

namespace Diligent

/-! ## Texture formats (GraphicsAccessories.cpp) -/

/-- Modelled from the spec: the enumeration `TEXTURE_FORMAT` is declared in GraphicsTypes.h,
which is not among the sources. Its enumerators are the formats that the tables of
`TexFormatToViewFormatConverter` and `GetTextureFormatAttribs` initialise, in the order of
these tables; `TEX_FORMAT_NUM_FORMATS` follows the last of them
(`static_assert(TEX_FORMAT_NUM_FORMATS == TEX_FORMAT_BC7_UNORM_SRGB + 1)`). -/
inductive TEXTURE_FORMAT
  | TEX_FORMAT_UNKNOWN
  | TEX_FORMAT_RGBA32_TYPELESS
  | TEX_FORMAT_RGBA32_FLOAT
  | TEX_FORMAT_RGBA32_UINT
  | TEX_FORMAT_RGBA32_SINT
  | TEX_FORMAT_RGB32_TYPELESS
  | TEX_FORMAT_RGB32_FLOAT
  | TEX_FORMAT_RGB32_UINT
  | TEX_FORMAT_RGB32_SINT
  | TEX_FORMAT_RGBA16_TYPELESS
  | TEX_FORMAT_RGBA16_FLOAT
  | TEX_FORMAT_RGBA16_UNORM
  | TEX_FORMAT_RGBA16_UINT
  | TEX_FORMAT_RGBA16_SNORM
  | TEX_FORMAT_RGBA16_SINT
  | TEX_FORMAT_RG32_TYPELESS
  | TEX_FORMAT_RG32_FLOAT
  | TEX_FORMAT_RG32_UINT
  | TEX_FORMAT_RG32_SINT
  | TEX_FORMAT_R32G8X24_TYPELESS
  | TEX_FORMAT_D32_FLOAT_S8X24_UINT
  | TEX_FORMAT_R32_FLOAT_X8X24_TYPELESS
  | TEX_FORMAT_X32_TYPELESS_G8X24_UINT
  | TEX_FORMAT_RGB10A2_TYPELESS
  | TEX_FORMAT_RGB10A2_UNORM
  | TEX_FORMAT_RGB10A2_UINT
  | TEX_FORMAT_R11G11B10_FLOAT
  | TEX_FORMAT_RGBA8_TYPELESS
  | TEX_FORMAT_RGBA8_UNORM
  | TEX_FORMAT_RGBA8_UNORM_SRGB
  | TEX_FORMAT_RGBA8_UINT
  | TEX_FORMAT_RGBA8_SNORM
  | TEX_FORMAT_RGBA8_SINT
  | TEX_FORMAT_RG16_TYPELESS
  | TEX_FORMAT_RG16_FLOAT
  | TEX_FORMAT_RG16_UNORM
  | TEX_FORMAT_RG16_UINT
  | TEX_FORMAT_RG16_SNORM
  | TEX_FORMAT_RG16_SINT
  | TEX_FORMAT_R32_TYPELESS
  | TEX_FORMAT_D32_FLOAT
  | TEX_FORMAT_R32_FLOAT
  | TEX_FORMAT_R32_UINT
  | TEX_FORMAT_R32_SINT
  | TEX_FORMAT_R24G8_TYPELESS
  | TEX_FORMAT_D24_UNORM_S8_UINT
  | TEX_FORMAT_R24_UNORM_X8_TYPELESS
  | TEX_FORMAT_X24_TYPELESS_G8_UINT
  | TEX_FORMAT_RG8_TYPELESS
  | TEX_FORMAT_RG8_UNORM
  | TEX_FORMAT_RG8_UINT
  | TEX_FORMAT_RG8_SNORM
  | TEX_FORMAT_RG8_SINT
  | TEX_FORMAT_R16_TYPELESS
  | TEX_FORMAT_R16_FLOAT
  | TEX_FORMAT_D16_UNORM
  | TEX_FORMAT_R16_UNORM
  | TEX_FORMAT_R16_UINT
  | TEX_FORMAT_R16_SNORM
  | TEX_FORMAT_R16_SINT
  | TEX_FORMAT_R8_TYPELESS
  | TEX_FORMAT_R8_UNORM
  | TEX_FORMAT_R8_UINT
  | TEX_FORMAT_R8_SNORM
  | TEX_FORMAT_R8_SINT
  | TEX_FORMAT_A8_UNORM
  | TEX_FORMAT_R1_UNORM
  | TEX_FORMAT_RGB9E5_SHAREDEXP
  | TEX_FORMAT_RG8_B8G8_UNORM
  | TEX_FORMAT_G8R8_G8B8_UNORM
  | TEX_FORMAT_BC1_TYPELESS
  | TEX_FORMAT_BC1_UNORM
  | TEX_FORMAT_BC1_UNORM_SRGB
  | TEX_FORMAT_BC2_TYPELESS
  | TEX_FORMAT_BC2_UNORM
  | TEX_FORMAT_BC2_UNORM_SRGB
  | TEX_FORMAT_BC3_TYPELESS
  | TEX_FORMAT_BC3_UNORM
  | TEX_FORMAT_BC3_UNORM_SRGB
  | TEX_FORMAT_BC4_TYPELESS
  | TEX_FORMAT_BC4_UNORM
  | TEX_FORMAT_BC4_SNORM
  | TEX_FORMAT_BC5_TYPELESS
  | TEX_FORMAT_BC5_UNORM
  | TEX_FORMAT_BC5_SNORM
  | TEX_FORMAT_B5G6R5_UNORM
  | TEX_FORMAT_B5G5R5A1_UNORM
  | TEX_FORMAT_BGRA8_UNORM
  | TEX_FORMAT_BGRX8_UNORM
  | TEX_FORMAT_R10G10B10_XR_BIAS_A2_UNORM
  | TEX_FORMAT_BGRA8_TYPELESS
  | TEX_FORMAT_BGRA8_UNORM_SRGB
  | TEX_FORMAT_BGRX8_TYPELESS
  | TEX_FORMAT_BGRX8_UNORM_SRGB
  | TEX_FORMAT_BC6H_TYPELESS
  | TEX_FORMAT_BC6H_UF16
  | TEX_FORMAT_BC6H_SF16
  | TEX_FORMAT_BC7_TYPELESS
  | TEX_FORMAT_BC7_UNORM
  | TEX_FORMAT_BC7_UNORM_SRGB
deriving DecidableEq, Repr

/-- Modelled from the spec: the enumeration `COMPONENT_TYPE` of GraphicsTypes.h, which is not
among the sources; the enumerators are those that `GetTextureFormatAttribs` uses. -/
inductive COMPONENT_TYPE
  | COMPONENT_TYPE_UNDEFINED
  | COMPONENT_TYPE_FLOAT
  | COMPONENT_TYPE_SNORM
  | COMPONENT_TYPE_UNORM
  | COMPONENT_TYPE_UNORM_SRGB
  | COMPONENT_TYPE_SINT
  | COMPONENT_TYPE_UINT
  | COMPONENT_TYPE_DEPTH
  | COMPONENT_TYPE_DEPTH_STENCIL
  | COMPONENT_TYPE_COMPOUND
  | COMPONENT_TYPE_COMPRESSED
deriving DecidableEq, Repr

/-- The enumeration `TEXTURE_VIEW_TYPE`, with the values that the `static_assert`s of
`TexFormatToViewFormatConverter` state: `TEXTURE_VIEW_SHADER_RESOURCE == 1`,
`TEXTURE_VIEW_RENDER_TARGET == 2`, `TEXTURE_VIEW_DEPTH_STENCIL == 3`,
`TEXTURE_VIEW_UNORDERED_ACCESS == 4`. -/
inductive TEXTURE_VIEW_TYPE
  | TEXTURE_VIEW_UNDEFINED
  | TEXTURE_VIEW_SHADER_RESOURCE
  | TEXTURE_VIEW_RENDER_TARGET
  | TEXTURE_VIEW_DEPTH_STENCIL
  | TEXTURE_VIEW_UNORDERED_ACCESS
deriving DecidableEq, Repr

/-- The numeric value of a view type. -/
def TEXTURE_VIEW_TYPE.toNat : TEXTURE_VIEW_TYPE → Nat
  | TEXTURE_VIEW_UNDEFINED => 0
  | TEXTURE_VIEW_SHADER_RESOURCE => 1
  | TEXTURE_VIEW_RENDER_TARGET => 2
  | TEXTURE_VIEW_DEPTH_STENCIL => 3
  | TEXTURE_VIEW_UNORDERED_ACCESS => 4

/-- Modelled from the spec: `BIND_DEPTH_STENCIL` of the enumeration `BIND_FLAGS`, declared in
GraphicsTypes.h, which is not among the sources. -/
def BIND_DEPTH_STENCIL : Nat := 64

/-- Modelled from the spec: the struct `TextureFormatAttribs` of GraphicsTypes.h, which is not
among the sources, with the members that the constructor call in `INIT_TEX_FORMAT_INFO`
sets, in the order of its arguments. -/
structure TextureFormatAttribs where
  Name : String
  Format : TEXTURE_FORMAT
  ComponentSize : Nat
  NumComponents : Nat
  ComponentType : COMPONENT_TYPE
  IsTypeless : Bool
  BlockWidth : Nat
  BlockHeight : Nat
deriving DecidableEq, Repr

open TEXTURE_FORMAT COMPONENT_TYPE TEXTURE_VIEW_TYPE

/-- The array `m_ViewFormats` as the constructor of `TexFormatToViewFormatConverter` fills it
with `INIT_TEX_VIEW_FORMAT_INFO(TexFmt, SRVFmt, RTVFmt, DSVFmt, UAVFmt)`: the row of a
format, indexed by `ViewType - 1`. -/
def m_ViewFormats :
    TEXTURE_FORMAT → TEXTURE_FORMAT × TEXTURE_FORMAT × TEXTURE_FORMAT × TEXTURE_FORMAT
  | TEX_FORMAT_UNKNOWN =>
    (TEX_FORMAT_UNKNOWN, TEX_FORMAT_UNKNOWN, TEX_FORMAT_UNKNOWN, TEX_FORMAT_UNKNOWN)
  | TEX_FORMAT_RGBA32_TYPELESS =>
    (TEX_FORMAT_RGBA32_FLOAT, TEX_FORMAT_RGBA32_FLOAT, TEX_FORMAT_UNKNOWN, TEX_FORMAT_RGBA32_FLOAT)
  | TEX_FORMAT_RGBA32_FLOAT =>
    (TEX_FORMAT_RGBA32_FLOAT, TEX_FORMAT_RGBA32_FLOAT, TEX_FORMAT_UNKNOWN, TEX_FORMAT_RGBA32_FLOAT)
  | TEX_FORMAT_RGBA32_UINT =>
    (TEX_FORMAT_RGBA32_UINT, TEX_FORMAT_RGBA32_UINT, TEX_FORMAT_UNKNOWN, TEX_FORMAT_RGBA32_UINT)
  | TEX_FORMAT_RGBA32_SINT =>
    (TEX_FORMAT_RGBA32_SINT, TEX_FORMAT_RGBA32_SINT, TEX_FORMAT_UNKNOWN, TEX_FORMAT_RGBA32_SINT)
  | TEX_FORMAT_RGB32_TYPELESS =>
    (TEX_FORMAT_RGB32_FLOAT, TEX_FORMAT_RGB32_FLOAT, TEX_FORMAT_UNKNOWN, TEX_FORMAT_RGB32_FLOAT)
  | TEX_FORMAT_RGB32_FLOAT =>
    (TEX_FORMAT_RGB32_FLOAT, TEX_FORMAT_RGB32_FLOAT, TEX_FORMAT_UNKNOWN, TEX_FORMAT_RGB32_FLOAT)
  | TEX_FORMAT_RGB32_UINT =>
    (TEX_FORMAT_RGB32_UINT, TEX_FORMAT_RGB32_UINT, TEX_FORMAT_UNKNOWN, TEX_FORMAT_RGB32_UINT)
  | TEX_FORMAT_RGB32_SINT =>
    (TEX_FORMAT_RGB32_SINT, TEX_FORMAT_RGB32_SINT, TEX_FORMAT_UNKNOWN, TEX_FORMAT_RGB32_SINT)
  | TEX_FORMAT_RGBA16_TYPELESS =>
    (TEX_FORMAT_RGBA16_FLOAT, TEX_FORMAT_RGBA16_FLOAT, TEX_FORMAT_UNKNOWN, TEX_FORMAT_RGBA16_FLOAT)
  | TEX_FORMAT_RGBA16_FLOAT =>
    (TEX_FORMAT_RGBA16_FLOAT, TEX_FORMAT_RGBA16_FLOAT, TEX_FORMAT_UNKNOWN, TEX_FORMAT_RGBA16_FLOAT)
  | TEX_FORMAT_RGBA16_UNORM =>
    (TEX_FORMAT_RGBA16_UNORM, TEX_FORMAT_RGBA16_UNORM, TEX_FORMAT_UNKNOWN, TEX_FORMAT_RGBA16_UNORM)
  | TEX_FORMAT_RGBA16_UINT =>
    (TEX_FORMAT_RGBA16_UINT, TEX_FORMAT_RGBA16_UINT, TEX_FORMAT_UNKNOWN, TEX_FORMAT_RGBA16_UINT)
  | TEX_FORMAT_RGBA16_SNORM =>
    (TEX_FORMAT_RGBA16_SNORM, TEX_FORMAT_RGBA16_SNORM, TEX_FORMAT_UNKNOWN, TEX_FORMAT_RGBA16_SNORM)
  | TEX_FORMAT_RGBA16_SINT =>
    (TEX_FORMAT_RGBA16_SINT, TEX_FORMAT_RGBA16_SINT, TEX_FORMAT_UNKNOWN, TEX_FORMAT_RGBA16_SINT)
  | TEX_FORMAT_RG32_TYPELESS =>
    (TEX_FORMAT_RG32_FLOAT, TEX_FORMAT_RG32_FLOAT, TEX_FORMAT_UNKNOWN, TEX_FORMAT_RG32_FLOAT)
  | TEX_FORMAT_RG32_FLOAT =>
    (TEX_FORMAT_RG32_FLOAT, TEX_FORMAT_RG32_FLOAT, TEX_FORMAT_UNKNOWN, TEX_FORMAT_RG32_FLOAT)
  | TEX_FORMAT_RG32_UINT =>
    (TEX_FORMAT_RG32_UINT, TEX_FORMAT_RG32_UINT, TEX_FORMAT_UNKNOWN, TEX_FORMAT_RG32_UINT)
  | TEX_FORMAT_RG32_SINT =>
    (TEX_FORMAT_RG32_SINT, TEX_FORMAT_RG32_SINT, TEX_FORMAT_UNKNOWN, TEX_FORMAT_RG32_SINT)
  | TEX_FORMAT_R32G8X24_TYPELESS =>
    (TEX_FORMAT_R32_FLOAT_X8X24_TYPELESS, TEX_FORMAT_UNKNOWN, TEX_FORMAT_D32_FLOAT_S8X24_UINT, TEX_FORMAT_UNKNOWN)
  | TEX_FORMAT_D32_FLOAT_S8X24_UINT =>
    (TEX_FORMAT_R32_FLOAT_X8X24_TYPELESS, TEX_FORMAT_UNKNOWN, TEX_FORMAT_D32_FLOAT_S8X24_UINT, TEX_FORMAT_UNKNOWN)
  | TEX_FORMAT_R32_FLOAT_X8X24_TYPELESS =>
    (TEX_FORMAT_R32_FLOAT_X8X24_TYPELESS, TEX_FORMAT_UNKNOWN, TEX_FORMAT_D32_FLOAT_S8X24_UINT, TEX_FORMAT_R32_FLOAT_X8X24_TYPELESS)
  | TEX_FORMAT_X32_TYPELESS_G8X24_UINT =>
    (TEX_FORMAT_X32_TYPELESS_G8X24_UINT, TEX_FORMAT_UNKNOWN, TEX_FORMAT_D32_FLOAT_S8X24_UINT, TEX_FORMAT_X32_TYPELESS_G8X24_UINT)
  | TEX_FORMAT_RGB10A2_TYPELESS =>
    (TEX_FORMAT_RGB10A2_UNORM, TEX_FORMAT_RGB10A2_UNORM, TEX_FORMAT_UNKNOWN, TEX_FORMAT_RGB10A2_UNORM)
  | TEX_FORMAT_RGB10A2_UNORM =>
    (TEX_FORMAT_RGB10A2_UNORM, TEX_FORMAT_RGB10A2_UNORM, TEX_FORMAT_UNKNOWN, TEX_FORMAT_RGB10A2_UNORM)
  | TEX_FORMAT_RGB10A2_UINT =>
    (TEX_FORMAT_RGB10A2_UINT, TEX_FORMAT_RGB10A2_UINT, TEX_FORMAT_UNKNOWN, TEX_FORMAT_RGB10A2_UINT)
  | TEX_FORMAT_R11G11B10_FLOAT =>
    (TEX_FORMAT_R11G11B10_FLOAT, TEX_FORMAT_R11G11B10_FLOAT, TEX_FORMAT_UNKNOWN, TEX_FORMAT_R11G11B10_FLOAT)
  | TEX_FORMAT_RGBA8_TYPELESS =>
    (TEX_FORMAT_RGBA8_UNORM_SRGB, TEX_FORMAT_RGBA8_UNORM_SRGB, TEX_FORMAT_UNKNOWN, TEX_FORMAT_RGBA8_UNORM)
  | TEX_FORMAT_RGBA8_UNORM =>
    (TEX_FORMAT_RGBA8_UNORM, TEX_FORMAT_RGBA8_UNORM, TEX_FORMAT_UNKNOWN, TEX_FORMAT_RGBA8_UNORM)
  | TEX_FORMAT_RGBA8_UNORM_SRGB =>
    (TEX_FORMAT_RGBA8_UNORM_SRGB, TEX_FORMAT_RGBA8_UNORM_SRGB, TEX_FORMAT_UNKNOWN, TEX_FORMAT_RGBA8_UNORM)
  | TEX_FORMAT_RGBA8_UINT =>
    (TEX_FORMAT_RGBA8_UINT, TEX_FORMAT_RGBA8_UINT, TEX_FORMAT_UNKNOWN, TEX_FORMAT_RGBA8_UINT)
  | TEX_FORMAT_RGBA8_SNORM =>
    (TEX_FORMAT_RGBA8_SNORM, TEX_FORMAT_RGBA8_SNORM, TEX_FORMAT_UNKNOWN, TEX_FORMAT_RGBA8_SNORM)
  | TEX_FORMAT_RGBA8_SINT =>
    (TEX_FORMAT_RGBA8_SINT, TEX_FORMAT_RGBA8_SINT, TEX_FORMAT_UNKNOWN, TEX_FORMAT_RGBA8_SINT)
  | TEX_FORMAT_RG16_TYPELESS =>
    (TEX_FORMAT_RG16_FLOAT, TEX_FORMAT_RG16_FLOAT, TEX_FORMAT_UNKNOWN, TEX_FORMAT_RG16_FLOAT)
  | TEX_FORMAT_RG16_FLOAT =>
    (TEX_FORMAT_RG16_FLOAT, TEX_FORMAT_RG16_FLOAT, TEX_FORMAT_UNKNOWN, TEX_FORMAT_RG16_FLOAT)
  | TEX_FORMAT_RG16_UNORM =>
    (TEX_FORMAT_RG16_UNORM, TEX_FORMAT_RG16_UNORM, TEX_FORMAT_UNKNOWN, TEX_FORMAT_RG16_UNORM)
  | TEX_FORMAT_RG16_UINT =>
    (TEX_FORMAT_RG16_UINT, TEX_FORMAT_RG16_UINT, TEX_FORMAT_UNKNOWN, TEX_FORMAT_RG16_UINT)
  | TEX_FORMAT_RG16_SNORM =>
    (TEX_FORMAT_RG16_SNORM, TEX_FORMAT_RG16_SNORM, TEX_FORMAT_UNKNOWN, TEX_FORMAT_RG16_SNORM)
  | TEX_FORMAT_RG16_SINT =>
    (TEX_FORMAT_RG16_SINT, TEX_FORMAT_RG16_SINT, TEX_FORMAT_UNKNOWN, TEX_FORMAT_RG16_SINT)
  | TEX_FORMAT_R32_TYPELESS =>
    (TEX_FORMAT_R32_FLOAT, TEX_FORMAT_R32_FLOAT, TEX_FORMAT_D32_FLOAT, TEX_FORMAT_R32_FLOAT)
  | TEX_FORMAT_D32_FLOAT =>
    (TEX_FORMAT_R32_FLOAT, TEX_FORMAT_R32_FLOAT, TEX_FORMAT_D32_FLOAT, TEX_FORMAT_R32_FLOAT)
  | TEX_FORMAT_R32_FLOAT =>
    (TEX_FORMAT_R32_FLOAT, TEX_FORMAT_R32_FLOAT, TEX_FORMAT_D32_FLOAT, TEX_FORMAT_R32_FLOAT)
  | TEX_FORMAT_R32_UINT =>
    (TEX_FORMAT_R32_UINT, TEX_FORMAT_R32_UINT, TEX_FORMAT_UNKNOWN, TEX_FORMAT_R32_UINT)
  | TEX_FORMAT_R32_SINT =>
    (TEX_FORMAT_R32_SINT, TEX_FORMAT_R32_SINT, TEX_FORMAT_UNKNOWN, TEX_FORMAT_R32_SINT)
  | TEX_FORMAT_R24G8_TYPELESS =>
    (TEX_FORMAT_R24_UNORM_X8_TYPELESS, TEX_FORMAT_UNKNOWN, TEX_FORMAT_D24_UNORM_S8_UINT, TEX_FORMAT_UNKNOWN)
  | TEX_FORMAT_D24_UNORM_S8_UINT =>
    (TEX_FORMAT_R24_UNORM_X8_TYPELESS, TEX_FORMAT_UNKNOWN, TEX_FORMAT_D24_UNORM_S8_UINT, TEX_FORMAT_UNKNOWN)
  | TEX_FORMAT_R24_UNORM_X8_TYPELESS =>
    (TEX_FORMAT_R24_UNORM_X8_TYPELESS, TEX_FORMAT_UNKNOWN, TEX_FORMAT_D24_UNORM_S8_UINT, TEX_FORMAT_R24_UNORM_X8_TYPELESS)
  | TEX_FORMAT_X24_TYPELESS_G8_UINT =>
    (TEX_FORMAT_X24_TYPELESS_G8_UINT, TEX_FORMAT_UNKNOWN, TEX_FORMAT_D24_UNORM_S8_UINT, TEX_FORMAT_X24_TYPELESS_G8_UINT)
  | TEX_FORMAT_RG8_TYPELESS =>
    (TEX_FORMAT_RG8_UNORM, TEX_FORMAT_RG8_UNORM, TEX_FORMAT_UNKNOWN, TEX_FORMAT_RG8_UNORM)
  | TEX_FORMAT_RG8_UNORM =>
    (TEX_FORMAT_RG8_UNORM, TEX_FORMAT_RG8_UNORM, TEX_FORMAT_UNKNOWN, TEX_FORMAT_RG8_UNORM)
  | TEX_FORMAT_RG8_UINT =>
    (TEX_FORMAT_RG8_UINT, TEX_FORMAT_RG8_UINT, TEX_FORMAT_UNKNOWN, TEX_FORMAT_RG8_UINT)
  | TEX_FORMAT_RG8_SNORM =>
    (TEX_FORMAT_RG8_SNORM, TEX_FORMAT_RG8_SNORM, TEX_FORMAT_UNKNOWN, TEX_FORMAT_RG8_SNORM)
  | TEX_FORMAT_RG8_SINT =>
    (TEX_FORMAT_RG8_SINT, TEX_FORMAT_RG8_SINT, TEX_FORMAT_UNKNOWN, TEX_FORMAT_RG8_SINT)
  | TEX_FORMAT_R16_TYPELESS =>
    (TEX_FORMAT_R16_FLOAT, TEX_FORMAT_R16_FLOAT, TEX_FORMAT_UNKNOWN, TEX_FORMAT_R16_FLOAT)
  | TEX_FORMAT_R16_FLOAT =>
    (TEX_FORMAT_R16_FLOAT, TEX_FORMAT_R16_FLOAT, TEX_FORMAT_UNKNOWN, TEX_FORMAT_R16_FLOAT)
  | TEX_FORMAT_D16_UNORM =>
    (TEX_FORMAT_R16_UNORM, TEX_FORMAT_R16_UNORM, TEX_FORMAT_D16_UNORM, TEX_FORMAT_R16_UNORM)
  | TEX_FORMAT_R16_UNORM =>
    (TEX_FORMAT_R16_UNORM, TEX_FORMAT_R16_UNORM, TEX_FORMAT_D16_UNORM, TEX_FORMAT_R16_UNORM)
  | TEX_FORMAT_R16_UINT =>
    (TEX_FORMAT_R16_UINT, TEX_FORMAT_R16_UINT, TEX_FORMAT_UNKNOWN, TEX_FORMAT_R16_UINT)
  | TEX_FORMAT_R16_SNORM =>
    (TEX_FORMAT_R16_SNORM, TEX_FORMAT_R16_SNORM, TEX_FORMAT_UNKNOWN, TEX_FORMAT_R16_SNORM)
  | TEX_FORMAT_R16_SINT =>
    (TEX_FORMAT_R16_SINT, TEX_FORMAT_R16_SINT, TEX_FORMAT_UNKNOWN, TEX_FORMAT_R16_SINT)
  | TEX_FORMAT_R8_TYPELESS =>
    (TEX_FORMAT_R8_UNORM, TEX_FORMAT_R8_UNORM, TEX_FORMAT_UNKNOWN, TEX_FORMAT_R8_UNORM)
  | TEX_FORMAT_R8_UNORM =>
    (TEX_FORMAT_R8_UNORM, TEX_FORMAT_R8_UNORM, TEX_FORMAT_UNKNOWN, TEX_FORMAT_R8_UNORM)
  | TEX_FORMAT_R8_UINT =>
    (TEX_FORMAT_R8_UINT, TEX_FORMAT_R8_UINT, TEX_FORMAT_UNKNOWN, TEX_FORMAT_R8_UINT)
  | TEX_FORMAT_R8_SNORM =>
    (TEX_FORMAT_R8_SNORM, TEX_FORMAT_R8_SNORM, TEX_FORMAT_UNKNOWN, TEX_FORMAT_R8_SNORM)
  | TEX_FORMAT_R8_SINT =>
    (TEX_FORMAT_R8_SINT, TEX_FORMAT_R8_SINT, TEX_FORMAT_UNKNOWN, TEX_FORMAT_R8_SINT)
  | TEX_FORMAT_A8_UNORM =>
    (TEX_FORMAT_A8_UNORM, TEX_FORMAT_A8_UNORM, TEX_FORMAT_UNKNOWN, TEX_FORMAT_A8_UNORM)
  | TEX_FORMAT_R1_UNORM =>
    (TEX_FORMAT_R1_UNORM, TEX_FORMAT_R1_UNORM, TEX_FORMAT_UNKNOWN, TEX_FORMAT_R1_UNORM)
  | TEX_FORMAT_RGB9E5_SHAREDEXP =>
    (TEX_FORMAT_RGB9E5_SHAREDEXP, TEX_FORMAT_RGB9E5_SHAREDEXP, TEX_FORMAT_UNKNOWN, TEX_FORMAT_RGB9E5_SHAREDEXP)
  | TEX_FORMAT_RG8_B8G8_UNORM =>
    (TEX_FORMAT_RG8_B8G8_UNORM, TEX_FORMAT_RG8_B8G8_UNORM, TEX_FORMAT_UNKNOWN, TEX_FORMAT_RG8_B8G8_UNORM)
  | TEX_FORMAT_G8R8_G8B8_UNORM =>
    (TEX_FORMAT_G8R8_G8B8_UNORM, TEX_FORMAT_G8R8_G8B8_UNORM, TEX_FORMAT_UNKNOWN, TEX_FORMAT_G8R8_G8B8_UNORM)
  | TEX_FORMAT_BC1_TYPELESS =>
    (TEX_FORMAT_BC1_UNORM_SRGB, TEX_FORMAT_UNKNOWN, TEX_FORMAT_UNKNOWN, TEX_FORMAT_UNKNOWN)
  | TEX_FORMAT_BC1_UNORM =>
    (TEX_FORMAT_BC1_UNORM, TEX_FORMAT_UNKNOWN, TEX_FORMAT_UNKNOWN, TEX_FORMAT_UNKNOWN)
  | TEX_FORMAT_BC1_UNORM_SRGB =>
    (TEX_FORMAT_BC1_UNORM_SRGB, TEX_FORMAT_UNKNOWN, TEX_FORMAT_UNKNOWN, TEX_FORMAT_UNKNOWN)
  | TEX_FORMAT_BC2_TYPELESS =>
    (TEX_FORMAT_BC2_UNORM_SRGB, TEX_FORMAT_UNKNOWN, TEX_FORMAT_UNKNOWN, TEX_FORMAT_UNKNOWN)
  | TEX_FORMAT_BC2_UNORM =>
    (TEX_FORMAT_BC2_UNORM, TEX_FORMAT_UNKNOWN, TEX_FORMAT_UNKNOWN, TEX_FORMAT_UNKNOWN)
  | TEX_FORMAT_BC2_UNORM_SRGB =>
    (TEX_FORMAT_BC2_UNORM_SRGB, TEX_FORMAT_UNKNOWN, TEX_FORMAT_UNKNOWN, TEX_FORMAT_UNKNOWN)
  | TEX_FORMAT_BC3_TYPELESS =>
    (TEX_FORMAT_BC3_UNORM_SRGB, TEX_FORMAT_UNKNOWN, TEX_FORMAT_UNKNOWN, TEX_FORMAT_UNKNOWN)
  | TEX_FORMAT_BC3_UNORM =>
    (TEX_FORMAT_BC3_UNORM, TEX_FORMAT_UNKNOWN, TEX_FORMAT_UNKNOWN, TEX_FORMAT_UNKNOWN)
  | TEX_FORMAT_BC3_UNORM_SRGB =>
    (TEX_FORMAT_BC3_UNORM_SRGB, TEX_FORMAT_UNKNOWN, TEX_FORMAT_UNKNOWN, TEX_FORMAT_UNKNOWN)
  | TEX_FORMAT_BC4_TYPELESS =>
    (TEX_FORMAT_BC4_UNORM, TEX_FORMAT_UNKNOWN, TEX_FORMAT_UNKNOWN, TEX_FORMAT_UNKNOWN)
  | TEX_FORMAT_BC4_UNORM =>
    (TEX_FORMAT_BC4_UNORM, TEX_FORMAT_UNKNOWN, TEX_FORMAT_UNKNOWN, TEX_FORMAT_UNKNOWN)
  | TEX_FORMAT_BC4_SNORM =>
    (TEX_FORMAT_BC4_SNORM, TEX_FORMAT_UNKNOWN, TEX_FORMAT_UNKNOWN, TEX_FORMAT_UNKNOWN)
  | TEX_FORMAT_BC5_TYPELESS =>
    (TEX_FORMAT_BC5_UNORM, TEX_FORMAT_UNKNOWN, TEX_FORMAT_UNKNOWN, TEX_FORMAT_UNKNOWN)
  | TEX_FORMAT_BC5_UNORM =>
    (TEX_FORMAT_BC5_UNORM, TEX_FORMAT_UNKNOWN, TEX_FORMAT_UNKNOWN, TEX_FORMAT_UNKNOWN)
  | TEX_FORMAT_BC5_SNORM =>
    (TEX_FORMAT_BC5_SNORM, TEX_FORMAT_UNKNOWN, TEX_FORMAT_UNKNOWN, TEX_FORMAT_UNKNOWN)
  | TEX_FORMAT_B5G6R5_UNORM =>
    (TEX_FORMAT_B5G6R5_UNORM, TEX_FORMAT_B5G6R5_UNORM, TEX_FORMAT_UNKNOWN, TEX_FORMAT_B5G6R5_UNORM)
  | TEX_FORMAT_B5G5R5A1_UNORM =>
    (TEX_FORMAT_B5G5R5A1_UNORM, TEX_FORMAT_B5G5R5A1_UNORM, TEX_FORMAT_UNKNOWN, TEX_FORMAT_B5G5R5A1_UNORM)
  | TEX_FORMAT_BGRA8_UNORM =>
    (TEX_FORMAT_BGRA8_UNORM, TEX_FORMAT_BGRA8_UNORM, TEX_FORMAT_UNKNOWN, TEX_FORMAT_BGRA8_UNORM)
  | TEX_FORMAT_BGRX8_UNORM =>
    (TEX_FORMAT_BGRX8_UNORM, TEX_FORMAT_BGRX8_UNORM, TEX_FORMAT_UNKNOWN, TEX_FORMAT_BGRX8_UNORM)
  | TEX_FORMAT_R10G10B10_XR_BIAS_A2_UNORM =>
    (TEX_FORMAT_R10G10B10_XR_BIAS_A2_UNORM, TEX_FORMAT_UNKNOWN, TEX_FORMAT_UNKNOWN, TEX_FORMAT_UNKNOWN)
  | TEX_FORMAT_BGRA8_TYPELESS =>
    (TEX_FORMAT_BGRA8_UNORM_SRGB, TEX_FORMAT_BGRA8_UNORM_SRGB, TEX_FORMAT_UNKNOWN, TEX_FORMAT_BGRA8_UNORM)
  | TEX_FORMAT_BGRA8_UNORM_SRGB =>
    (TEX_FORMAT_BGRA8_UNORM_SRGB, TEX_FORMAT_BGRA8_UNORM_SRGB, TEX_FORMAT_UNKNOWN, TEX_FORMAT_BGRA8_UNORM)
  | TEX_FORMAT_BGRX8_TYPELESS =>
    (TEX_FORMAT_BGRX8_UNORM_SRGB, TEX_FORMAT_BGRX8_UNORM_SRGB, TEX_FORMAT_UNKNOWN, TEX_FORMAT_BGRX8_UNORM)
  | TEX_FORMAT_BGRX8_UNORM_SRGB =>
    (TEX_FORMAT_BGRX8_UNORM_SRGB, TEX_FORMAT_BGRX8_UNORM_SRGB, TEX_FORMAT_UNKNOWN, TEX_FORMAT_BGRX8_UNORM)
  | TEX_FORMAT_BC6H_TYPELESS =>
    (TEX_FORMAT_BC6H_UF16, TEX_FORMAT_UNKNOWN, TEX_FORMAT_UNKNOWN, TEX_FORMAT_UNKNOWN)
  | TEX_FORMAT_BC6H_UF16 =>
    (TEX_FORMAT_BC6H_UF16, TEX_FORMAT_UNKNOWN, TEX_FORMAT_UNKNOWN, TEX_FORMAT_UNKNOWN)
  | TEX_FORMAT_BC6H_SF16 =>
    (TEX_FORMAT_BC6H_SF16, TEX_FORMAT_UNKNOWN, TEX_FORMAT_UNKNOWN, TEX_FORMAT_UNKNOWN)
  | TEX_FORMAT_BC7_TYPELESS =>
    (TEX_FORMAT_BC7_UNORM_SRGB, TEX_FORMAT_UNKNOWN, TEX_FORMAT_UNKNOWN, TEX_FORMAT_UNKNOWN)
  | TEX_FORMAT_BC7_UNORM =>
    (TEX_FORMAT_BC7_UNORM, TEX_FORMAT_UNKNOWN, TEX_FORMAT_UNKNOWN, TEX_FORMAT_UNKNOWN)
  | TEX_FORMAT_BC7_UNORM_SRGB =>
    (TEX_FORMAT_BC7_UNORM_SRGB, TEX_FORMAT_UNKNOWN, TEX_FORMAT_UNKNOWN, TEX_FORMAT_UNKNOWN)

/-- The array `D16_ViewFmts` of `GetViewFormat`. -/
def D16_ViewFmts : TEXTURE_FORMAT × TEXTURE_FORMAT × TEXTURE_FORMAT × TEXTURE_FORMAT :=
  (TEX_FORMAT_R16_UNORM, TEX_FORMAT_R16_UNORM, TEX_FORMAT_D16_UNORM, TEX_FORMAT_R16_UNORM)

/-- The element `Row[ViewType - 1]` of a row of view formats; `none` for
`TEXTURE_VIEW_UNDEFINED`, whose index lies outside the row. -/
def viewFormatAt
    (Row : TEXTURE_FORMAT × TEXTURE_FORMAT × TEXTURE_FORMAT × TEXTURE_FORMAT) :
    TEXTURE_VIEW_TYPE → Option TEXTURE_FORMAT
  | TEXTURE_VIEW_UNDEFINED => none
  | TEXTURE_VIEW_SHADER_RESOURCE => some Row.1
  | TEXTURE_VIEW_RENDER_TARGET => some Row.2.1
  | TEXTURE_VIEW_DEPTH_STENCIL => some Row.2.2.1
  | TEXTURE_VIEW_UNORDERED_ACCESS => some Row.2.2.2

/-- `TexFormatToViewFormatConverter::GetViewFormat(Format, ViewType, BindFlags)`: the
`switch` with its case `TEX_FORMAT_R16_TYPELESS`, which falls through to `default` when
`BIND_DEPTH_STENCIL` is not set, then the table. -/
def GetViewFormat (Format : TEXTURE_FORMAT) (ViewType : TEXTURE_VIEW_TYPE) (BindFlags : Nat) :
    Option TEXTURE_FORMAT :=
  if Format = TEX_FORMAT_R16_TYPELESS ∧ BindFlags &&& BIND_DEPTH_STENCIL ≠ 0 then
    viewFormatAt D16_ViewFmts ViewType
  else viewFormatAt (m_ViewFormats Format) ViewType

/-- `GetDefaultTextureViewFormat(TextureFormat, ViewType, BindFlags)`. -/
def GetDefaultTextureViewFormat (TextureFormat : TEXTURE_FORMAT) (ViewType : TEXTURE_VIEW_TYPE)
    (BindFlags : Nat) : Option TEXTURE_FORMAT :=
  GetViewFormat TextureFormat ViewType BindFlags

/-- `GetTextureFormatAttribs(Format)`: the array `FmtAttribs` as `INIT_TEX_FORMAT_INFO` fills
it. The entry of `TEX_FORMAT_UNKNOWN` is not assigned and keeps the default-constructed
value (modelled from the spec: the default member initializers are in GraphicsTypes.h). -/
def GetTextureFormatAttribs : TEXTURE_FORMAT → TextureFormatAttribs
  | TEX_FORMAT_UNKNOWN =>
    ⟨"TEX_FORMAT_UNKNOWN", TEX_FORMAT_UNKNOWN, 0, 0, COMPONENT_TYPE_UNDEFINED, false, 0, 0⟩
  | TEX_FORMAT_RGBA32_TYPELESS =>
    ⟨"TEX_FORMAT_RGBA32_TYPELESS", TEX_FORMAT_RGBA32_TYPELESS, 4, 4, COMPONENT_TYPE_UNDEFINED, true, 1, 1⟩
  | TEX_FORMAT_RGBA32_FLOAT =>
    ⟨"TEX_FORMAT_RGBA32_FLOAT", TEX_FORMAT_RGBA32_FLOAT, 4, 4, COMPONENT_TYPE_FLOAT, false, 1, 1⟩
  | TEX_FORMAT_RGBA32_UINT =>
    ⟨"TEX_FORMAT_RGBA32_UINT", TEX_FORMAT_RGBA32_UINT, 4, 4, COMPONENT_TYPE_UINT, false, 1, 1⟩
  | TEX_FORMAT_RGBA32_SINT =>
    ⟨"TEX_FORMAT_RGBA32_SINT", TEX_FORMAT_RGBA32_SINT, 4, 4, COMPONENT_TYPE_SINT, false, 1, 1⟩
  | TEX_FORMAT_RGB32_TYPELESS =>
    ⟨"TEX_FORMAT_RGB32_TYPELESS", TEX_FORMAT_RGB32_TYPELESS, 4, 3, COMPONENT_TYPE_UNDEFINED, true, 1, 1⟩
  | TEX_FORMAT_RGB32_FLOAT =>
    ⟨"TEX_FORMAT_RGB32_FLOAT", TEX_FORMAT_RGB32_FLOAT, 4, 3, COMPONENT_TYPE_FLOAT, false, 1, 1⟩
  | TEX_FORMAT_RGB32_UINT =>
    ⟨"TEX_FORMAT_RGB32_UINT", TEX_FORMAT_RGB32_UINT, 4, 3, COMPONENT_TYPE_UINT, false, 1, 1⟩
  | TEX_FORMAT_RGB32_SINT =>
    ⟨"TEX_FORMAT_RGB32_SINT", TEX_FORMAT_RGB32_SINT, 4, 3, COMPONENT_TYPE_SINT, false, 1, 1⟩
  | TEX_FORMAT_RGBA16_TYPELESS =>
    ⟨"TEX_FORMAT_RGBA16_TYPELESS", TEX_FORMAT_RGBA16_TYPELESS, 2, 4, COMPONENT_TYPE_UNDEFINED, true, 1, 1⟩
  | TEX_FORMAT_RGBA16_FLOAT =>
    ⟨"TEX_FORMAT_RGBA16_FLOAT", TEX_FORMAT_RGBA16_FLOAT, 2, 4, COMPONENT_TYPE_FLOAT, false, 1, 1⟩
  | TEX_FORMAT_RGBA16_UNORM =>
    ⟨"TEX_FORMAT_RGBA16_UNORM", TEX_FORMAT_RGBA16_UNORM, 2, 4, COMPONENT_TYPE_UNORM, false, 1, 1⟩
  | TEX_FORMAT_RGBA16_UINT =>
    ⟨"TEX_FORMAT_RGBA16_UINT", TEX_FORMAT_RGBA16_UINT, 2, 4, COMPONENT_TYPE_UINT, false, 1, 1⟩
  | TEX_FORMAT_RGBA16_SNORM =>
    ⟨"TEX_FORMAT_RGBA16_SNORM", TEX_FORMAT_RGBA16_SNORM, 2, 4, COMPONENT_TYPE_SNORM, false, 1, 1⟩
  | TEX_FORMAT_RGBA16_SINT =>
    ⟨"TEX_FORMAT_RGBA16_SINT", TEX_FORMAT_RGBA16_SINT, 2, 4, COMPONENT_TYPE_SINT, false, 1, 1⟩
  | TEX_FORMAT_RG32_TYPELESS =>
    ⟨"TEX_FORMAT_RG32_TYPELESS", TEX_FORMAT_RG32_TYPELESS, 4, 2, COMPONENT_TYPE_UNDEFINED, true, 1, 1⟩
  | TEX_FORMAT_RG32_FLOAT =>
    ⟨"TEX_FORMAT_RG32_FLOAT", TEX_FORMAT_RG32_FLOAT, 4, 2, COMPONENT_TYPE_FLOAT, false, 1, 1⟩
  | TEX_FORMAT_RG32_UINT =>
    ⟨"TEX_FORMAT_RG32_UINT", TEX_FORMAT_RG32_UINT, 4, 2, COMPONENT_TYPE_UINT, false, 1, 1⟩
  | TEX_FORMAT_RG32_SINT =>
    ⟨"TEX_FORMAT_RG32_SINT", TEX_FORMAT_RG32_SINT, 4, 2, COMPONENT_TYPE_SINT, false, 1, 1⟩
  | TEX_FORMAT_R32G8X24_TYPELESS =>
    ⟨"TEX_FORMAT_R32G8X24_TYPELESS", TEX_FORMAT_R32G8X24_TYPELESS, 4, 2, COMPONENT_TYPE_DEPTH_STENCIL, true, 1, 1⟩
  | TEX_FORMAT_D32_FLOAT_S8X24_UINT =>
    ⟨"TEX_FORMAT_D32_FLOAT_S8X24_UINT", TEX_FORMAT_D32_FLOAT_S8X24_UINT, 4, 2, COMPONENT_TYPE_DEPTH_STENCIL, false, 1, 1⟩
  | TEX_FORMAT_R32_FLOAT_X8X24_TYPELESS =>
    ⟨"TEX_FORMAT_R32_FLOAT_X8X24_TYPELESS", TEX_FORMAT_R32_FLOAT_X8X24_TYPELESS, 4, 2, COMPONENT_TYPE_DEPTH_STENCIL, false, 1, 1⟩
  | TEX_FORMAT_X32_TYPELESS_G8X24_UINT =>
    ⟨"TEX_FORMAT_X32_TYPELESS_G8X24_UINT", TEX_FORMAT_X32_TYPELESS_G8X24_UINT, 4, 2, COMPONENT_TYPE_DEPTH_STENCIL, false, 1, 1⟩
  | TEX_FORMAT_RGB10A2_TYPELESS =>
    ⟨"TEX_FORMAT_RGB10A2_TYPELESS", TEX_FORMAT_RGB10A2_TYPELESS, 4, 1, COMPONENT_TYPE_COMPOUND, true, 1, 1⟩
  | TEX_FORMAT_RGB10A2_UNORM =>
    ⟨"TEX_FORMAT_RGB10A2_UNORM", TEX_FORMAT_RGB10A2_UNORM, 4, 1, COMPONENT_TYPE_COMPOUND, false, 1, 1⟩
  | TEX_FORMAT_RGB10A2_UINT =>
    ⟨"TEX_FORMAT_RGB10A2_UINT", TEX_FORMAT_RGB10A2_UINT, 4, 1, COMPONENT_TYPE_COMPOUND, false, 1, 1⟩
  | TEX_FORMAT_R11G11B10_FLOAT =>
    ⟨"TEX_FORMAT_R11G11B10_FLOAT", TEX_FORMAT_R11G11B10_FLOAT, 4, 1, COMPONENT_TYPE_COMPOUND, false, 1, 1⟩
  | TEX_FORMAT_RGBA8_TYPELESS =>
    ⟨"TEX_FORMAT_RGBA8_TYPELESS", TEX_FORMAT_RGBA8_TYPELESS, 1, 4, COMPONENT_TYPE_UNDEFINED, true, 1, 1⟩
  | TEX_FORMAT_RGBA8_UNORM =>
    ⟨"TEX_FORMAT_RGBA8_UNORM", TEX_FORMAT_RGBA8_UNORM, 1, 4, COMPONENT_TYPE_UNORM, false, 1, 1⟩
  | TEX_FORMAT_RGBA8_UNORM_SRGB =>
    ⟨"TEX_FORMAT_RGBA8_UNORM_SRGB", TEX_FORMAT_RGBA8_UNORM_SRGB, 1, 4, COMPONENT_TYPE_UNORM_SRGB, false, 1, 1⟩
  | TEX_FORMAT_RGBA8_UINT =>
    ⟨"TEX_FORMAT_RGBA8_UINT", TEX_FORMAT_RGBA8_UINT, 1, 4, COMPONENT_TYPE_UINT, false, 1, 1⟩
  | TEX_FORMAT_RGBA8_SNORM =>
    ⟨"TEX_FORMAT_RGBA8_SNORM", TEX_FORMAT_RGBA8_SNORM, 1, 4, COMPONENT_TYPE_SNORM, false, 1, 1⟩
  | TEX_FORMAT_RGBA8_SINT =>
    ⟨"TEX_FORMAT_RGBA8_SINT", TEX_FORMAT_RGBA8_SINT, 1, 4, COMPONENT_TYPE_SINT, false, 1, 1⟩
  | TEX_FORMAT_RG16_TYPELESS =>
    ⟨"TEX_FORMAT_RG16_TYPELESS", TEX_FORMAT_RG16_TYPELESS, 2, 2, COMPONENT_TYPE_UNDEFINED, true, 1, 1⟩
  | TEX_FORMAT_RG16_FLOAT =>
    ⟨"TEX_FORMAT_RG16_FLOAT", TEX_FORMAT_RG16_FLOAT, 2, 2, COMPONENT_TYPE_FLOAT, false, 1, 1⟩
  | TEX_FORMAT_RG16_UNORM =>
    ⟨"TEX_FORMAT_RG16_UNORM", TEX_FORMAT_RG16_UNORM, 2, 2, COMPONENT_TYPE_UNORM, false, 1, 1⟩
  | TEX_FORMAT_RG16_UINT =>
    ⟨"TEX_FORMAT_RG16_UINT", TEX_FORMAT_RG16_UINT, 2, 2, COMPONENT_TYPE_UINT, false, 1, 1⟩
  | TEX_FORMAT_RG16_SNORM =>
    ⟨"TEX_FORMAT_RG16_SNORM", TEX_FORMAT_RG16_SNORM, 2, 2, COMPONENT_TYPE_SNORM, false, 1, 1⟩
  | TEX_FORMAT_RG16_SINT =>
    ⟨"TEX_FORMAT_RG16_SINT", TEX_FORMAT_RG16_SINT, 2, 2, COMPONENT_TYPE_SINT, false, 1, 1⟩
  | TEX_FORMAT_R32_TYPELESS =>
    ⟨"TEX_FORMAT_R32_TYPELESS", TEX_FORMAT_R32_TYPELESS, 4, 1, COMPONENT_TYPE_UNDEFINED, true, 1, 1⟩
  | TEX_FORMAT_D32_FLOAT =>
    ⟨"TEX_FORMAT_D32_FLOAT", TEX_FORMAT_D32_FLOAT, 4, 1, COMPONENT_TYPE_DEPTH, false, 1, 1⟩
  | TEX_FORMAT_R32_FLOAT =>
    ⟨"TEX_FORMAT_R32_FLOAT", TEX_FORMAT_R32_FLOAT, 4, 1, COMPONENT_TYPE_FLOAT, false, 1, 1⟩
  | TEX_FORMAT_R32_UINT =>
    ⟨"TEX_FORMAT_R32_UINT", TEX_FORMAT_R32_UINT, 4, 1, COMPONENT_TYPE_UINT, false, 1, 1⟩
  | TEX_FORMAT_R32_SINT =>
    ⟨"TEX_FORMAT_R32_SINT", TEX_FORMAT_R32_SINT, 4, 1, COMPONENT_TYPE_SINT, false, 1, 1⟩
  | TEX_FORMAT_R24G8_TYPELESS =>
    ⟨"TEX_FORMAT_R24G8_TYPELESS", TEX_FORMAT_R24G8_TYPELESS, 4, 1, COMPONENT_TYPE_DEPTH_STENCIL, true, 1, 1⟩
  | TEX_FORMAT_D24_UNORM_S8_UINT =>
    ⟨"TEX_FORMAT_D24_UNORM_S8_UINT", TEX_FORMAT_D24_UNORM_S8_UINT, 4, 1, COMPONENT_TYPE_DEPTH_STENCIL, false, 1, 1⟩
  | TEX_FORMAT_R24_UNORM_X8_TYPELESS =>
    ⟨"TEX_FORMAT_R24_UNORM_X8_TYPELESS", TEX_FORMAT_R24_UNORM_X8_TYPELESS, 4, 1, COMPONENT_TYPE_DEPTH_STENCIL, false, 1, 1⟩
  | TEX_FORMAT_X24_TYPELESS_G8_UINT =>
    ⟨"TEX_FORMAT_X24_TYPELESS_G8_UINT", TEX_FORMAT_X24_TYPELESS_G8_UINT, 4, 1, COMPONENT_TYPE_DEPTH_STENCIL, false, 1, 1⟩
  | TEX_FORMAT_RG8_TYPELESS =>
    ⟨"TEX_FORMAT_RG8_TYPELESS", TEX_FORMAT_RG8_TYPELESS, 1, 2, COMPONENT_TYPE_UNDEFINED, true, 1, 1⟩
  | TEX_FORMAT_RG8_UNORM =>
    ⟨"TEX_FORMAT_RG8_UNORM", TEX_FORMAT_RG8_UNORM, 1, 2, COMPONENT_TYPE_UNORM, false, 1, 1⟩
  | TEX_FORMAT_RG8_UINT =>
    ⟨"TEX_FORMAT_RG8_UINT", TEX_FORMAT_RG8_UINT, 1, 2, COMPONENT_TYPE_UINT, false, 1, 1⟩
  | TEX_FORMAT_RG8_SNORM =>
    ⟨"TEX_FORMAT_RG8_SNORM", TEX_FORMAT_RG8_SNORM, 1, 2, COMPONENT_TYPE_SNORM, false, 1, 1⟩
  | TEX_FORMAT_RG8_SINT =>
    ⟨"TEX_FORMAT_RG8_SINT", TEX_FORMAT_RG8_SINT, 1, 2, COMPONENT_TYPE_SINT, false, 1, 1⟩
  | TEX_FORMAT_R16_TYPELESS =>
    ⟨"TEX_FORMAT_R16_TYPELESS", TEX_FORMAT_R16_TYPELESS, 2, 1, COMPONENT_TYPE_UNDEFINED, true, 1, 1⟩
  | TEX_FORMAT_R16_FLOAT =>
    ⟨"TEX_FORMAT_R16_FLOAT", TEX_FORMAT_R16_FLOAT, 2, 1, COMPONENT_TYPE_FLOAT, false, 1, 1⟩
  | TEX_FORMAT_D16_UNORM =>
    ⟨"TEX_FORMAT_D16_UNORM", TEX_FORMAT_D16_UNORM, 2, 1, COMPONENT_TYPE_DEPTH, false, 1, 1⟩
  | TEX_FORMAT_R16_UNORM =>
    ⟨"TEX_FORMAT_R16_UNORM", TEX_FORMAT_R16_UNORM, 2, 1, COMPONENT_TYPE_UNORM, false, 1, 1⟩
  | TEX_FORMAT_R16_UINT =>
    ⟨"TEX_FORMAT_R16_UINT", TEX_FORMAT_R16_UINT, 2, 1, COMPONENT_TYPE_UINT, false, 1, 1⟩
  | TEX_FORMAT_R16_SNORM =>
    ⟨"TEX_FORMAT_R16_SNORM", TEX_FORMAT_R16_SNORM, 2, 1, COMPONENT_TYPE_SNORM, false, 1, 1⟩
  | TEX_FORMAT_R16_SINT =>
    ⟨"TEX_FORMAT_R16_SINT", TEX_FORMAT_R16_SINT, 2, 1, COMPONENT_TYPE_SINT, false, 1, 1⟩
  | TEX_FORMAT_R8_TYPELESS =>
    ⟨"TEX_FORMAT_R8_TYPELESS", TEX_FORMAT_R8_TYPELESS, 1, 1, COMPONENT_TYPE_UNDEFINED, true, 1, 1⟩
  | TEX_FORMAT_R8_UNORM =>
    ⟨"TEX_FORMAT_R8_UNORM", TEX_FORMAT_R8_UNORM, 1, 1, COMPONENT_TYPE_UNORM, false, 1, 1⟩
  | TEX_FORMAT_R8_UINT =>
    ⟨"TEX_FORMAT_R8_UINT", TEX_FORMAT_R8_UINT, 1, 1, COMPONENT_TYPE_UINT, false, 1, 1⟩
  | TEX_FORMAT_R8_SNORM =>
    ⟨"TEX_FORMAT_R8_SNORM", TEX_FORMAT_R8_SNORM, 1, 1, COMPONENT_TYPE_SNORM, false, 1, 1⟩
  | TEX_FORMAT_R8_SINT =>
    ⟨"TEX_FORMAT_R8_SINT", TEX_FORMAT_R8_SINT, 1, 1, COMPONENT_TYPE_SINT, false, 1, 1⟩
  | TEX_FORMAT_A8_UNORM =>
    ⟨"TEX_FORMAT_A8_UNORM", TEX_FORMAT_A8_UNORM, 1, 1, COMPONENT_TYPE_UNORM, false, 1, 1⟩
  | TEX_FORMAT_R1_UNORM =>
    ⟨"TEX_FORMAT_R1_UNORM", TEX_FORMAT_R1_UNORM, 1, 1, COMPONENT_TYPE_UNORM, false, 1, 1⟩
  | TEX_FORMAT_RGB9E5_SHAREDEXP =>
    ⟨"TEX_FORMAT_RGB9E5_SHAREDEXP", TEX_FORMAT_RGB9E5_SHAREDEXP, 4, 1, COMPONENT_TYPE_COMPOUND, false, 1, 1⟩
  | TEX_FORMAT_RG8_B8G8_UNORM =>
    ⟨"TEX_FORMAT_RG8_B8G8_UNORM", TEX_FORMAT_RG8_B8G8_UNORM, 1, 4, COMPONENT_TYPE_UNORM, false, 1, 1⟩
  | TEX_FORMAT_G8R8_G8B8_UNORM =>
    ⟨"TEX_FORMAT_G8R8_G8B8_UNORM", TEX_FORMAT_G8R8_G8B8_UNORM, 1, 4, COMPONENT_TYPE_UNORM, false, 1, 1⟩
  | TEX_FORMAT_BC1_TYPELESS =>
    ⟨"TEX_FORMAT_BC1_TYPELESS", TEX_FORMAT_BC1_TYPELESS, 8, 3, COMPONENT_TYPE_COMPRESSED, true, 4, 4⟩
  | TEX_FORMAT_BC1_UNORM =>
    ⟨"TEX_FORMAT_BC1_UNORM", TEX_FORMAT_BC1_UNORM, 8, 3, COMPONENT_TYPE_COMPRESSED, false, 4, 4⟩
  | TEX_FORMAT_BC1_UNORM_SRGB =>
    ⟨"TEX_FORMAT_BC1_UNORM_SRGB", TEX_FORMAT_BC1_UNORM_SRGB, 8, 3, COMPONENT_TYPE_COMPRESSED, false, 4, 4⟩
  | TEX_FORMAT_BC2_TYPELESS =>
    ⟨"TEX_FORMAT_BC2_TYPELESS", TEX_FORMAT_BC2_TYPELESS, 16, 4, COMPONENT_TYPE_COMPRESSED, true, 4, 4⟩
  | TEX_FORMAT_BC2_UNORM =>
    ⟨"TEX_FORMAT_BC2_UNORM", TEX_FORMAT_BC2_UNORM, 16, 4, COMPONENT_TYPE_COMPRESSED, false, 4, 4⟩
  | TEX_FORMAT_BC2_UNORM_SRGB =>
    ⟨"TEX_FORMAT_BC2_UNORM_SRGB", TEX_FORMAT_BC2_UNORM_SRGB, 16, 4, COMPONENT_TYPE_COMPRESSED, false, 4, 4⟩
  | TEX_FORMAT_BC3_TYPELESS =>
    ⟨"TEX_FORMAT_BC3_TYPELESS", TEX_FORMAT_BC3_TYPELESS, 16, 4, COMPONENT_TYPE_COMPRESSED, true, 4, 4⟩
  | TEX_FORMAT_BC3_UNORM =>
    ⟨"TEX_FORMAT_BC3_UNORM", TEX_FORMAT_BC3_UNORM, 16, 4, COMPONENT_TYPE_COMPRESSED, false, 4, 4⟩
  | TEX_FORMAT_BC3_UNORM_SRGB =>
    ⟨"TEX_FORMAT_BC3_UNORM_SRGB", TEX_FORMAT_BC3_UNORM_SRGB, 16, 4, COMPONENT_TYPE_COMPRESSED, false, 4, 4⟩
  | TEX_FORMAT_BC4_TYPELESS =>
    ⟨"TEX_FORMAT_BC4_TYPELESS", TEX_FORMAT_BC4_TYPELESS, 8, 1, COMPONENT_TYPE_COMPRESSED, true, 4, 4⟩
  | TEX_FORMAT_BC4_UNORM =>
    ⟨"TEX_FORMAT_BC4_UNORM", TEX_FORMAT_BC4_UNORM, 8, 1, COMPONENT_TYPE_COMPRESSED, false, 4, 4⟩
  | TEX_FORMAT_BC4_SNORM =>
    ⟨"TEX_FORMAT_BC4_SNORM", TEX_FORMAT_BC4_SNORM, 8, 1, COMPONENT_TYPE_COMPRESSED, false, 4, 4⟩
  | TEX_FORMAT_BC5_TYPELESS =>
    ⟨"TEX_FORMAT_BC5_TYPELESS", TEX_FORMAT_BC5_TYPELESS, 16, 2, COMPONENT_TYPE_COMPRESSED, true, 4, 4⟩
  | TEX_FORMAT_BC5_UNORM =>
    ⟨"TEX_FORMAT_BC5_UNORM", TEX_FORMAT_BC5_UNORM, 16, 2, COMPONENT_TYPE_COMPRESSED, false, 4, 4⟩
  | TEX_FORMAT_BC5_SNORM =>
    ⟨"TEX_FORMAT_BC5_SNORM", TEX_FORMAT_BC5_SNORM, 16, 2, COMPONENT_TYPE_COMPRESSED, false, 4, 4⟩
  | TEX_FORMAT_B5G6R5_UNORM =>
    ⟨"TEX_FORMAT_B5G6R5_UNORM", TEX_FORMAT_B5G6R5_UNORM, 2, 1, COMPONENT_TYPE_COMPOUND, false, 1, 1⟩
  | TEX_FORMAT_B5G5R5A1_UNORM =>
    ⟨"TEX_FORMAT_B5G5R5A1_UNORM", TEX_FORMAT_B5G5R5A1_UNORM, 2, 1, COMPONENT_TYPE_COMPOUND, false, 1, 1⟩
  | TEX_FORMAT_BGRA8_UNORM =>
    ⟨"TEX_FORMAT_BGRA8_UNORM", TEX_FORMAT_BGRA8_UNORM, 1, 4, COMPONENT_TYPE_UNORM, false, 1, 1⟩
  | TEX_FORMAT_BGRX8_UNORM =>
    ⟨"TEX_FORMAT_BGRX8_UNORM", TEX_FORMAT_BGRX8_UNORM, 1, 4, COMPONENT_TYPE_UNORM, false, 1, 1⟩
  | TEX_FORMAT_R10G10B10_XR_BIAS_A2_UNORM =>
    ⟨"TEX_FORMAT_R10G10B10_XR_BIAS_A2_UNORM", TEX_FORMAT_R10G10B10_XR_BIAS_A2_UNORM, 4, 1, COMPONENT_TYPE_COMPOUND, false, 1, 1⟩
  | TEX_FORMAT_BGRA8_TYPELESS =>
    ⟨"TEX_FORMAT_BGRA8_TYPELESS", TEX_FORMAT_BGRA8_TYPELESS, 1, 4, COMPONENT_TYPE_UNDEFINED, true, 1, 1⟩
  | TEX_FORMAT_BGRA8_UNORM_SRGB =>
    ⟨"TEX_FORMAT_BGRA8_UNORM_SRGB", TEX_FORMAT_BGRA8_UNORM_SRGB, 1, 4, COMPONENT_TYPE_UNORM_SRGB, false, 1, 1⟩
  | TEX_FORMAT_BGRX8_TYPELESS =>
    ⟨"TEX_FORMAT_BGRX8_TYPELESS", TEX_FORMAT_BGRX8_TYPELESS, 1, 4, COMPONENT_TYPE_UNDEFINED, true, 1, 1⟩
  | TEX_FORMAT_BGRX8_UNORM_SRGB =>
    ⟨"TEX_FORMAT_BGRX8_UNORM_SRGB", TEX_FORMAT_BGRX8_UNORM_SRGB, 1, 4, COMPONENT_TYPE_UNORM_SRGB, false, 1, 1⟩
  | TEX_FORMAT_BC6H_TYPELESS =>
    ⟨"TEX_FORMAT_BC6H_TYPELESS", TEX_FORMAT_BC6H_TYPELESS, 16, 3, COMPONENT_TYPE_COMPRESSED, true, 4, 4⟩
  | TEX_FORMAT_BC6H_UF16 =>
    ⟨"TEX_FORMAT_BC6H_UF16", TEX_FORMAT_BC6H_UF16, 16, 3, COMPONENT_TYPE_COMPRESSED, false, 4, 4⟩
  | TEX_FORMAT_BC6H_SF16 =>
    ⟨"TEX_FORMAT_BC6H_SF16", TEX_FORMAT_BC6H_SF16, 16, 3, COMPONENT_TYPE_COMPRESSED, false, 4, 4⟩
  | TEX_FORMAT_BC7_TYPELESS =>
    ⟨"TEX_FORMAT_BC7_TYPELESS", TEX_FORMAT_BC7_TYPELESS, 16, 4, COMPONENT_TYPE_COMPRESSED, true, 4, 4⟩
  | TEX_FORMAT_BC7_UNORM =>
    ⟨"TEX_FORMAT_BC7_UNORM", TEX_FORMAT_BC7_UNORM, 16, 4, COMPONENT_TYPE_COMPRESSED, false, 4, 4⟩
  | TEX_FORMAT_BC7_UNORM_SRGB =>
    ⟨"TEX_FORMAT_BC7_UNORM_SRGB", TEX_FORMAT_BC7_UNORM_SRGB, 16, 4, COMPONENT_TYPE_COMPRESSED, false, 4, 4⟩


/-! ## `ComputeMipLevelsCount` (GraphicsAccessories.cpp) -/

/-- How the evaluation of a piece of C++ ends after a bounded number of loop tests: with a
value, in undefined behaviour, or still running when the bound is reached. -/
inductive Outcome (α : Type)
  | value (a : α)
  | undefined
  | unfinished
deriving DecidableEq, Repr

/-- The expression `x >> n` on `Uint32`: C++ leaves a shift by the width of the type or more
undefined (`none`). -/
def shr32 (x n : Nat) : Option Nat :=
  if n < 32 then some (x >>> n) else none

/-- The expression `x << n` on `Uint32`: the product with `2^n` reduced modulo `2^32`; C++
leaves a shift by the width of the type or more undefined (`none`). -/
def shl32 (x n : Nat) : Option Nat :=
  if n < 32 then some (u32 (x <<< n)) else none

/-- The loop `while ((Width >> MipLevels) > 0) ++MipLevels;` of `ComputeMipLevelsCount`, run
for at most `fuel` loop tests from the given value of `MipLevels`. -/
def ComputeMipLevelsCount.loop (Width : Nat) : Nat → Nat → Outcome Nat
  | 0, _ => Outcome.unfinished
  | fuel + 1, MipLevels =>
    match shr32 Width MipLevels with
    | none => Outcome.undefined
    | some shifted =>
      if shifted > 0 then ComputeMipLevelsCount.loop Width fuel (u32 (MipLevels + 1))
      else Outcome.value MipLevels

/-- `ComputeMipLevelsCount(Width)` run for at most `fuel` loop tests. -/
def ComputeMipLevelsCount (fuel Width : Nat) : Outcome Nat :=
  if Width = 0 then Outcome.value 0 else ComputeMipLevelsCount.loop Width fuel 0

/-- The difference `MipLevels - 1` in `Uint32`, which wraps to `0xFFFFFFFF` at 0. -/
def decrement32 (MipLevels : Nat) : Nat :=
  if MipLevels = 0 then 4294967295 else MipLevels - 1

/-- The condition of the `VERIFY` in `ComputeMipLevelsCount`:
`Width >= (1U << (MipLevels-1)) && Width < (1U << MipLevels)`, with `&&` evaluating its
right operand only when the left one holds; `none` when a shift is undefined. -/
def ComputeMipLevelsCount.assertion (Width MipLevels : Nat) : Option Bool :=
  match shl32 1 (decrement32 MipLevels) with
  | none => none
  | some low =>
    if Width ≥ low then
      match shl32 1 MipLevels with
      | none => none
      | some high => some (decide (Width < high))
    else some false


/-! ## `GetShaderStagesString` (GraphicsAccessories.cpp) -/

/-- Modelled from the spec: the enumerators of `SHADER_TYPE` are declared in GraphicsTypes.h,
which is not among the sources: one bit per stage, in the order of the cases of
`GetShaderTypeLiteralName`. -/
def SHADER_TYPE_UNKNOWN : Nat := 0

/-- Modelled from the spec: see `SHADER_TYPE_UNKNOWN`. -/
def SHADER_TYPE_VERTEX : Nat := 1

/-- Modelled from the spec: see `SHADER_TYPE_UNKNOWN`. -/
def SHADER_TYPE_PIXEL : Nat := 2

/-- Modelled from the spec: see `SHADER_TYPE_UNKNOWN`. -/
def SHADER_TYPE_GEOMETRY : Nat := 4

/-- Modelled from the spec: see `SHADER_TYPE_UNKNOWN`. -/
def SHADER_TYPE_HULL : Nat := 8

/-- Modelled from the spec: see `SHADER_TYPE_UNKNOWN`. -/
def SHADER_TYPE_DOMAIN : Nat := 16

/-- Modelled from the spec: see `SHADER_TYPE_UNKNOWN`. -/
def SHADER_TYPE_COMPUTE : Nat := 32

/-- Bitwise complement of a `Uint32`. -/
def not32 (x : Nat) : Nat := 4294967295 ^^^ x

/-- `GetShaderTypeLiteralName(ShaderType)`: the `switch` over the enumerators, with its
`default` case. -/
def GetShaderTypeLiteralName (ShaderType : Nat) : String :=
  if ShaderType = SHADER_TYPE_UNKNOWN then "SHADER_TYPE_UNKNOWN"
  else if ShaderType = SHADER_TYPE_VERTEX then "SHADER_TYPE_VERTEX"
  else if ShaderType = SHADER_TYPE_PIXEL then "SHADER_TYPE_PIXEL"
  else if ShaderType = SHADER_TYPE_GEOMETRY then "SHADER_TYPE_GEOMETRY"
  else if ShaderType = SHADER_TYPE_HULL then "SHADER_TYPE_HULL"
  else if ShaderType = SHADER_TYPE_DOMAIN then "SHADER_TYPE_DOMAIN"
  else if ShaderType = SHADER_TYPE_COMPUTE then "SHADER_TYPE_COMPUTE"
  else "<Unknown shader type>"

/-- The loop `for (Stage = ...; ShaderStages != 0 && Stage <= SHADER_TYPE_COMPUTE;
Stage <<= 1)` of `GetShaderStagesString` from the given value of `Stage`, on the pair
`(ShaderStages, StagesStr)`, run for at most `fuel` loop tests; `none` when it is still
running then. -/
def GetShaderStagesString.forLoop : Nat → Nat → Nat × String → Option (Nat × String)
  | 0, _, _ => none
  | fuel + 1, Stage, (ShaderStages, StagesStr) =>
    if ShaderStages ≠ 0 ∧ Stage ≤ SHADER_TYPE_COMPUTE then
      GetShaderStagesString.forLoop fuel (u32 (Stage <<< 1))
        (if ShaderStages &&& Stage ≠ 0 then
          (ShaderStages &&& not32 Stage,
            (if StagesStr.length ≠ 0 then StagesStr ++ ", " else StagesStr) ++
              GetShaderTypeLiteralName Stage)
        else (ShaderStages, StagesStr))
    else some (ShaderStages, StagesStr)

/-- The loop `while (ShaderStages != 0) for (...)` of `GetShaderStagesString`, run for at most
`fuel` tests of the outer loop, each inner loop for at most `fuel` tests; `none` when it is
still running then. -/
def GetShaderStagesString.whileLoop (fuel : Nat) : Nat → Nat × String → Option String
  | 0, _ => none
  | n + 1, (ShaderStages, StagesStr) =>
    if ShaderStages ≠ 0 then
      match GetShaderStagesString.forLoop fuel SHADER_TYPE_VERTEX (ShaderStages, StagesStr) with
      | none => none
      | some st => GetShaderStagesString.whileLoop fuel n st
    else some StagesStr

/-- `GetShaderStagesString(ShaderStages)` run with the bound `fuel` on the loop tests. -/
def GetShaderStagesString (fuel ShaderStages : Nat) : Option String :=
  GetShaderStagesString.whileLoop fuel fuel (ShaderStages, "")

/-- The names of the stage bits set in a mask, in ascending bit order, separated by `", "`. -/
def stageNames (ShaderStages : Nat) : String :=
  ", ".intercalate
    (([SHADER_TYPE_VERTEX, SHADER_TYPE_PIXEL, SHADER_TYPE_GEOMETRY, SHADER_TYPE_HULL,
        SHADER_TYPE_DOMAIN, SHADER_TYPE_COMPUTE].filter
      fun Stage => ShaderStages &&& Stage ≠ 0).map GetShaderTypeLiteralName)


/-! ## `VerifyResourceStates` (GraphicsAccessories.cpp) -/

/-- Modelled from the spec: the enumerators of `RESOURCE_STATE` are declared in
GraphicsTypes.h, which is not among the sources: one bit per state, in the order of the
cases of `GetResourceStateFlagString`, the last being `RESOURCE_STATE_MAX_BIT == 0x8000`
(the `static_assert` of `VerifyResourceStates`). -/
def RESOURCE_STATE_UNKNOWN : Nat := 0

/-- Modelled from the spec: see `RESOURCE_STATE_UNKNOWN`. -/
def RESOURCE_STATE_UNDEFINED : Nat := 1

/-- Modelled from the spec: see `RESOURCE_STATE_UNKNOWN`. -/
def RESOURCE_STATE_VERTEX_BUFFER : Nat := 2

/-- Modelled from the spec: see `RESOURCE_STATE_UNKNOWN`. -/
def RESOURCE_STATE_CONSTANT_BUFFER : Nat := 4

/-- Modelled from the spec: see `RESOURCE_STATE_UNKNOWN`. -/
def RESOURCE_STATE_INDEX_BUFFER : Nat := 8

/-- Modelled from the spec: see `RESOURCE_STATE_UNKNOWN`. -/
def RESOURCE_STATE_RENDER_TARGET : Nat := 16

/-- Modelled from the spec: see `RESOURCE_STATE_UNKNOWN`. -/
def RESOURCE_STATE_UNORDERED_ACCESS : Nat := 32

/-- Modelled from the spec: see `RESOURCE_STATE_UNKNOWN`. -/
def RESOURCE_STATE_DEPTH_WRITE : Nat := 64

/-- Modelled from the spec: see `RESOURCE_STATE_UNKNOWN`. -/
def RESOURCE_STATE_DEPTH_READ : Nat := 128

/-- Modelled from the spec: see `RESOURCE_STATE_UNKNOWN`. -/
def RESOURCE_STATE_SHADER_RESOURCE : Nat := 256

/-- Modelled from the spec: see `RESOURCE_STATE_UNKNOWN`. -/
def RESOURCE_STATE_STREAM_OUT : Nat := 512

/-- Modelled from the spec: see `RESOURCE_STATE_UNKNOWN`. -/
def RESOURCE_STATE_INDIRECT_ARGUMENT : Nat := 1024

/-- Modelled from the spec: see `RESOURCE_STATE_UNKNOWN`. -/
def RESOURCE_STATE_COPY_DEST : Nat := 2048

/-- Modelled from the spec: see `RESOURCE_STATE_UNKNOWN`. -/
def RESOURCE_STATE_COPY_SOURCE : Nat := 4096

/-- Modelled from the spec: see `RESOURCE_STATE_UNKNOWN`. -/
def RESOURCE_STATE_RESOLVE_DEST : Nat := 8192

/-- Modelled from the spec: see `RESOURCE_STATE_UNKNOWN`. -/
def RESOURCE_STATE_RESOLVE_SOURCE : Nat := 16384

/-- Modelled from the spec: see `RESOURCE_STATE_UNKNOWN`. -/
def RESOURCE_STATE_PRESENT : Nat := 32768

/-- The condition of the macro `VERIFY_EXCLUSIVE_STATE(ExclusiveState)`, under which
`VerifyResourceStates` writes an error message and returns `false`:
`(State & ExclusiveState) != 0 && (State & ~ExclusiveState) != 0`. -/
def VERIFY_EXCLUSIVE_STATE (State ExclusiveState : Nat) : Bool :=
  decide (State &&& ExclusiveState ≠ 0 ∧ State &&& not32 ExclusiveState ≠ 0)

/-- `VerifyResourceStates(State, IsTexture)`: the seven exclusive-state checks, then the check
of the states that are not applicable to the kind of resource. -/
def VerifyResourceStates (State : Nat) (IsTexture : Bool) : Bool :=
  if VERIFY_EXCLUSIVE_STATE State RESOURCE_STATE_UNDEFINED then false
  else if VERIFY_EXCLUSIVE_STATE State RESOURCE_STATE_UNORDERED_ACCESS then false
  else if VERIFY_EXCLUSIVE_STATE State RESOURCE_STATE_RENDER_TARGET then false
  else if VERIFY_EXCLUSIVE_STATE State RESOURCE_STATE_DEPTH_WRITE then false
  else if VERIFY_EXCLUSIVE_STATE State RESOURCE_STATE_COPY_DEST then false
  else if VERIFY_EXCLUSIVE_STATE State RESOURCE_STATE_RESOLVE_DEST then false
  else if VERIFY_EXCLUSIVE_STATE State RESOURCE_STATE_PRESENT then false
  else if IsTexture then
    if State &&&
        (RESOURCE_STATE_VERTEX_BUFFER ||| RESOURCE_STATE_CONSTANT_BUFFER |||
          RESOURCE_STATE_INDEX_BUFFER ||| RESOURCE_STATE_STREAM_OUT |||
          RESOURCE_STATE_INDIRECT_ARGUMENT) ≠ 0 then false
    else true
  else
    if State &&&
        (RESOURCE_STATE_RENDER_TARGET ||| RESOURCE_STATE_DEPTH_WRITE |||
          RESOURCE_STATE_DEPTH_READ ||| RESOURCE_STATE_RESOLVE_SOURCE |||
          RESOURCE_STATE_RESOLVE_DEST ||| RESOURCE_STATE_PRESENT) ≠ 0 then false
    else true

/-- The states that `VerifyResourceStates` checks with `VERIFY_EXCLUSIVE_STATE`. -/
def exclusiveStates : List Nat :=
  [RESOURCE_STATE_UNDEFINED, RESOURCE_STATE_UNORDERED_ACCESS, RESOURCE_STATE_RENDER_TARGET,
    RESOURCE_STATE_DEPTH_WRITE, RESOURCE_STATE_COPY_DEST, RESOURCE_STATE_RESOLVE_DEST,
    RESOURCE_STATE_PRESENT]

/-- The states that `VerifyResourceStates` names as not applicable to a texture. -/
def bufferOnlyStates : List Nat :=
  [RESOURCE_STATE_VERTEX_BUFFER, RESOURCE_STATE_CONSTANT_BUFFER, RESOURCE_STATE_INDEX_BUFFER,
    RESOURCE_STATE_STREAM_OUT, RESOURCE_STATE_INDIRECT_ARGUMENT]

/-- The states that `VerifyResourceStates` names as not applicable to a buffer. -/
def textureOnlyStates : List Nat :=
  [RESOURCE_STATE_RENDER_TARGET, RESOURCE_STATE_DEPTH_WRITE, RESOURCE_STATE_DEPTH_READ,
    RESOURCE_STATE_RESOLVE_SOURCE, RESOURCE_STATE_RESOLVE_DEST, RESOURCE_STATE_PRESENT]


/-! ## `GetMipLevelProperties` (GraphicsAccessories.cpp) -/

/-- Modelled from the spec: the enumeration `RESOURCE_DIMENSION` of GraphicsTypes.h, which is
not among the sources. `GetMipLevelProperties` only tests for `RESOURCE_DIM_TEX_3D`. -/
inductive RESOURCE_DIMENSION
  | RESOURCE_DIM_UNDEFINED
  | RESOURCE_DIM_BUFFER
  | RESOURCE_DIM_TEX_1D
  | RESOURCE_DIM_TEX_1D_ARRAY
  | RESOURCE_DIM_TEX_2D
  | RESOURCE_DIM_TEX_2D_ARRAY
  | RESOURCE_DIM_TEX_3D
  | RESOURCE_DIM_TEX_CUBE
  | RESOURCE_DIM_TEX_CUBE_ARRAY
deriving DecidableEq, Repr

/-- Modelled from the spec: the members of `TextureDesc` (Texture.h, not among the sources)
that `GetMipLevelProperties` reads; `Width`, `Height` and `Depth` are `Uint32`, and `Dim`
is the member `Type`. -/
structure TextureDesc where
  Dim : RESOURCE_DIMENSION
  Width : Nat
  Height : Nat
  Depth : Nat
  Format : TEXTURE_FORMAT
deriving DecidableEq, Repr

/-- Modelled from the spec: the struct `MipLevelProperties` (GraphicsAccessories.h, not among
the sources) with the members that `GetMipLevelProperties` assigns, all `Uint32`. -/
structure MipLevelProperties where
  LogicalWidth : Nat
  LogicalHeight : Nat
  StorageWidth : Nat
  StorageHeight : Nat
  Depth : Nat
  RowSize : Nat
  DepthSliceSize : Nat
  MipSize : Nat
deriving DecidableEq, Repr

/-- Modelled from the spec: `Align(val, alignment)` of Align.h, which is not among the
sources, for a power-of-two alignment: `(val + (alignment - 1)) & ~(alignment - 1)` in
`Uint32`. -/
def Align32 (val alignment : Nat) : Nat :=
  u32 (val + (alignment - 1)) &&& not32 (alignment - 1)

/-- `GetMipLevelProperties(TexDesc, MipLevel)`; `none` when `MipLevel` is 32 or more and the
shifts are undefined. Products are taken in `Uint32`, left to right. -/
def GetMipLevelProperties (TexDesc : TextureDesc) (MipLevel : Nat) : Option MipLevelProperties :=
  let FmtAttribs := GetTextureFormatAttribs TexDesc.Format
  match shr32 TexDesc.Width MipLevel, shr32 TexDesc.Height MipLevel,
    shr32 TexDesc.Depth MipLevel with
  | some ShiftedWidth, some ShiftedHeight, some ShiftedDepth =>
    let LogicalWidth := max ShiftedWidth 1
    let LogicalHeight := max ShiftedHeight 1
    let Depth :=
      if TexDesc.Dim = RESOURCE_DIMENSION.RESOURCE_DIM_TEX_3D then max ShiftedDepth 1 else 1
    if FmtAttribs.ComponentType = COMPONENT_TYPE_COMPRESSED then
      let StorageWidth := Align32 LogicalWidth FmtAttribs.BlockWidth
      let StorageHeight := Align32 LogicalHeight FmtAttribs.BlockHeight
      let RowSize := u32 (StorageWidth / FmtAttribs.BlockWidth * FmtAttribs.ComponentSize)
      let DepthSliceSize := u32 (StorageHeight / FmtAttribs.BlockHeight * RowSize)
      some
        { LogicalWidth := LogicalWidth
          LogicalHeight := LogicalHeight
          StorageWidth := StorageWidth
          StorageHeight := StorageHeight
          Depth := Depth
          RowSize := RowSize
          DepthSliceSize := DepthSliceSize
          MipSize := u32 (DepthSliceSize * Depth) }
    else
      let RowSize := u32 (u32 (LogicalWidth * FmtAttribs.ComponentSize) * FmtAttribs.NumComponents)
      let DepthSliceSize := u32 (RowSize * LogicalHeight)
      some
        { LogicalWidth := LogicalWidth
          LogicalHeight := LogicalHeight
          StorageWidth := LogicalWidth
          StorageHeight := LogicalHeight
          Depth := Depth
          RowSize := RowSize
          DepthSliceSize := DepthSliceSize
          MipSize := u32 (DepthSliceSize * Depth) }
  | _, _, _ => none

/-- The product that the size of a mip level of a texture with a non-compressed format is
meant to be: `max(Width >> MipLevel, 1) * max(Height >> MipLevel, 1) * Depth' *
ComponentSize * NumComponents`, `Depth'` being `max(Depth >> MipLevel, 1)` for a 3D texture
and 1 otherwise, as a natural number. -/
def exactMipSize (TexDesc : TextureDesc) (MipLevel : Nat) : Nat :=
  max (TexDesc.Width >>> MipLevel) 1 * max (TexDesc.Height >>> MipLevel) 1 *
    (if TexDesc.Dim = RESOURCE_DIMENSION.RESOURCE_DIM_TEX_3D then
      max (TexDesc.Depth >>> MipLevel) 1 else 1) *
    (GetTextureFormatAttribs TexDesc.Format).ComponentSize *
    (GetTextureFormatAttribs TexDesc.Format).NumComponents

/-- A 2D texture of 16384 by 16384 texels with four 32-bit float components. -/
def exampleLargeTexture : TextureDesc :=
  ⟨RESOURCE_DIMENSION.RESOURCE_DIM_TEX_2D, 16384, 16384, 1, TEX_FORMAT_RGBA32_FLOAT⟩

/-- A 2D texture of 1024 by 512 texels with four 8-bit components. -/
def exampleTexture : TextureDesc :=
  ⟨RESOURCE_DIMENSION.RESOURCE_DIM_TEX_2D, 1024, 512, 1, TEX_FORMAT_RGBA8_UNORM⟩

end Diligent

namespace ThreadingTools

/-! ## `LockFlag` and `LockHelper` (LockHelper.h), run by one thread -/

/-- The enumerator `LockFlag::LOCK_FLAG_UNLOCKED`. -/
def LOCK_FLAG_UNLOCKED : Nat := 0

/-- The enumerator `LockFlag::LOCK_FLAG_LOCKED`. -/
def LOCK_FLAG_LOCKED : Nat := 1

/-- The objects of a program: the `m_Flag` of every `LockFlag` by address, the `m_pLockFlag`
of every `LockHelper` by address (`none` is the null pointer), the helpers that are alive,
the flags that a helper has acquired so far, and the debug messages written. -/
structure Machine where
  m_Flag : Nat → Nat
  m_pLockFlag : Nat → Option Nat
  alive : List Nat
  acquired : List Nat
  debugLog : List Diligent.DebugMessageSeverity

namespace Machine

/-- Every flag as `LockFlag()` constructs it, no helper. -/
def init : Machine :=
  { m_Flag := fun _ => LOCK_FLAG_UNLOCKED
    m_pLockFlag := fun _ => none
    alive := []
    acquired := []
    debugLog := [] }

/-- Assignment to the `m_Flag` of one flag. -/
def setFlag (s : Machine) (LockFlag : Nat) (v : Nat) : Machine :=
  { s with m_Flag := fun f => if f = LockFlag then v else s.m_Flag f }

/-- Assignment to the `m_pLockFlag` of one helper. -/
def setPtr (s : Machine) (this : Nat) (p : Option Nat) : Machine :=
  { s with m_pLockFlag := fun h => if h = this then p else s.m_pLockFlag h }

/-- Modelled from the spec: `Atomics::AtomicCompareExchange(Destination, Exchange, Comparand)`
of Atomics.h, which is not among the sources: it stores `Exchange` when the destination
holds `Comparand` and returns the value the destination held. -/
def AtomicCompareExchange (s : Machine) (LockFlag Exchange Comparand : Nat) : Nat × Machine :=
  (s.m_Flag LockFlag,
    if s.m_Flag LockFlag = Comparand then s.setFlag LockFlag Exchange else s)

/-- `LockHelper::UnsafeTryLock(LockFlag)`. -/
def UnsafeTryLock (s : Machine) (LockFlag : Nat) : Bool × Machine :=
  let r := s.AtomicCompareExchange LockFlag LOCK_FLAG_LOCKED LOCK_FLAG_UNLOCKED
  (decide (r.1 = LOCK_FLAG_UNLOCKED), r.2)

/-- `LockHelper::TryLock(LockFlag)` on the helper `this`; a flag that is taken is noted among
the acquired flags. -/
def TryLock (s : Machine) (this LockFlag : Nat) : Bool × Machine :=
  let r := s.UnsafeTryLock LockFlag
  if r.1 then
    (true, { r.2.setPtr this (some LockFlag) with acquired := LockFlag :: r.2.acquired })
  else (false, r.2)

/-- `LockHelper::Lock(LockFlag)` on the helper `this`, with one thread: the check that the
helper holds no flag, then the loop `while (!TryLock(LockFlag))`. When the first `TryLock`
fails the flag is locked and no other thread is there to unlock it: every later `TryLock`
fails as well and the call never returns (`blocked`). `nCode` is the reply to the assertion
message box. -/
def Lock (s : Machine) (this LockFlag nCode : Nat) : Diligent.Run Machine :=
  match Diligent.VERIFY (decide (s.m_pLockFlag this = none)) s.debugLog nCode with
  | none => Diligent.Run.terminated
  | some log =>
    let r := TryLock { s with debugLog := log } this LockFlag
    if r.1 then Diligent.Run.returned r.2 else Diligent.Run.blocked

/-- `LockHelper::UnsafeUnlock(LockFlag)`. -/
def UnsafeUnlock (s : Machine) (LockFlag : Nat) : Machine :=
  s.setFlag LockFlag LOCK_FLAG_UNLOCKED

/-- `LockHelper::Unlock()` on the helper `this`. -/
def Unlock (s : Machine) (this : Nat) : Machine :=
  let s1 :=
    match s.m_pLockFlag this with
    | some LockFlag => s.UnsafeUnlock LockFlag
    | none => s
  s1.setPtr this none

/-- The constructor `LockHelper()` at the address `this`. -/
def construct (s : Machine) (this : Nat) : Machine :=
  { s.setPtr this none with alive := this :: s.alive }

/-- The constructor `LockHelper(LockFlag&)` at the address `this`. -/
def constructLocked (s : Machine) (this LockFlag nCode : Nat) : Diligent.Run Machine :=
  Lock (s.construct this) this LockFlag nCode

/-- The move constructor `LockHelper(LockHelper&&)` at the address `this`. -/
def moveConstruct (s : Machine) (this other : Nat) : Machine :=
  let s1 := { s.setPtr this (s.m_pLockFlag other) with alive := this :: s.alive }
  s1.setPtr other none

/-- The move assignment `operator = (LockHelper&&)` on the helper `this`:
`m_pLockFlag = std::move(LockHelper.m_pLockFlag); LockHelper.m_pLockFlag = nullptr;`. -/
def moveAssign (s : Machine) (this other : Nat) : Machine :=
  (s.setPtr this (s.m_pLockFlag other)).setPtr other none

/-- The destructor `~LockHelper()` of the helper `this`. -/
def destroy (s : Machine) (this : Nat) : Machine :=
  { s.Unlock this with alive := s.alive.erase this }

end Machine

/-- One operation of a program on `LockHelper` objects. -/
inductive Operation
  | construct (this : Nat)
  | constructLocked (this LockFlag : Nat)
  | moveConstruct (this other : Nat)
  | moveAssign (this other : Nat)
  | TryLock (this LockFlag : Nat)
  | Lock (this LockFlag : Nat)
  | Unlock (this : Nat)
  | destroy (this : Nat)
deriving DecidableEq, Repr

/-- One operation run on the machine; failed assertions are answered with `nCode`. -/
def step (nCode : Nat) (s : Machine) : Operation → Diligent.Run Machine
  | Operation.construct this => Diligent.Run.returned (s.construct this)
  | Operation.constructLocked this LockFlag => s.constructLocked this LockFlag nCode
  | Operation.moveConstruct this other => Diligent.Run.returned (s.moveConstruct this other)
  | Operation.moveAssign this other => Diligent.Run.returned (s.moveAssign this other)
  | Operation.TryLock this LockFlag => Diligent.Run.returned (s.TryLock this LockFlag).2
  | Operation.Lock this LockFlag => s.Lock this LockFlag nCode
  | Operation.Unlock this => Diligent.Run.returned (s.Unlock this)
  | Operation.destroy this => Diligent.Run.returned (s.destroy this)

/-- A sequence of operations run by one thread. -/
def run (nCode : Nat) : Machine → List Operation → Diligent.Run Machine
  | s, [] => Diligent.Run.returned s
  | s, op :: ops =>
    match step nCode s op with
    | Diligent.Run.returned s1 => run nCode s1 ops
    | Diligent.Run.terminated => Diligent.Run.terminated
    | Diligent.Run.blocked => Diligent.Run.blocked

/-- What can be seen of a machine: the helpers alive, the flags acquired, and which of the
acquired flags are locked. -/
def observe (s : Machine) : List Nat × List Nat × List Nat :=
  (s.alive, s.acquired, s.acquired.filter fun f => decide (s.m_Flag f = LOCK_FLAG_LOCKED))

/-- Two helpers `10` and `11` lock the flags `1` and `2`; then `11` is move-assigned to `10`
and both helpers are destroyed. -/
def exampleMoveAssign : List Operation :=
  [Operation.constructLocked 10 1, Operation.constructLocked 11 2,
    Operation.moveAssign 10 11, Operation.destroy 11, Operation.destroy 10]

/-- A helper `10` locks the flag `1`, then takes the flag `2` with `TryLock`, and is
destroyed. -/
def exampleTryLockTwice : List Operation :=
  [Operation.constructLocked 10 1, Operation.TryLock 10 2, Operation.destroy 10]

/-- A helper `10` that holds the flag `1` is move-assigned to itself and destroyed. -/
def exampleSelfMove : List Operation :=
  [Operation.constructLocked 10 1, Operation.moveAssign 10 10, Operation.destroy 10]

/-- A helper `10` locks the flag `1`, is moved into a new helper `11` and destroyed; then `11`
unlocks, locks the flag `2` and is destroyed. -/
def exampleMoveConstruct : List Operation :=
  [Operation.constructLocked 10 1, Operation.moveConstruct 11 10, Operation.destroy 10,
    Operation.Unlock 11, Operation.Lock 11 2, Operation.destroy 11]


/-- Every locked flag is held by a helper that is alive, and a flag is locked or unlocked. -/
def Held (s : Machine) : Prop :=
  ∀ f, (s.m_Flag f = LOCK_FLAG_LOCKED → ∃ h ∈ s.alive, s.m_pLockFlag h = some f) ∧
    (s.m_Flag f = LOCK_FLAG_LOCKED ∨ s.m_Flag f = LOCK_FLAG_UNLOCKED)

/-- An operation that leaves no held flag behind: constructors run at the address of no
helper that is alive, the other operations on helpers that are alive, and a helper that
locks or is move-assigned to holds no flag (and is not assigned to itself). -/
def careful (s : Machine) : Operation → Prop
  | Operation.construct this => this ∉ s.alive
  | Operation.constructLocked this _ => this ∉ s.alive
  | Operation.moveConstruct this other => this ∉ s.alive ∧ other ∈ s.alive
  | Operation.moveAssign this other =>
    this ∈ s.alive ∧ other ∈ s.alive ∧ this ≠ other ∧ s.m_pLockFlag this = none
  | Operation.TryLock this _ => this ∈ s.alive ∧ s.m_pLockFlag this = none
  | Operation.Lock this _ => this ∈ s.alive ∧ s.m_pLockFlag this = none
  | Operation.Unlock this => this ∈ s.alive
  | Operation.destroy this => this ∈ s.alive

instance careful.decidable (s : Machine) (op : Operation) : Decidable (careful s op) := by
  cases op <;> unfold careful <;> infer_instance

/-- Every operation of the run is careful in the state in which it starts. -/
def carefulRun (nCode : Nat) : Machine → List Operation → Prop
  | _, [] => True
  | s, op :: ops =>
    careful s op ∧
      match step nCode s op with
      | Diligent.Run.returned s1 => carefulRun nCode s1 ops
      | Diligent.Run.terminated => True
      | Diligent.Run.blocked => True

end ThreadingTools

namespace Diligent

namespace TextureUploaderD3D11

/-! ## The map loops leave queues, cache and signals alone -/

theorem MapFrame.refl (s : TextureUploaderD3D11) : MapFrame s s :=
  ⟨rfl, rfl, rfl, rfl, fun _ => rfl, fun _ => rfl, fun _ => rfl, fun _ => rfl, rfl⟩

theorem MapFrame.trans {s t u : TextureUploaderD3D11} (h1 : MapFrame s t) (h2 : MapFrame t u) :
    MapFrame s u :=
  ⟨h2.pending.trans h1.pending, h2.inWork.trans h1.inWork, h2.cache.trans h1.cache,
    h2.next.trans h1.next, fun q => (h2.mappedSignal q).trans (h1.mappedSignal q),
    fun q => (h2.copySignal q).trans (h1.copySignal q),
    fun q => (h2.desc q).trans (h1.desc q), fun q => (h2.tex q).trans (h1.tex q),
    h2.creates.trans h1.creates⟩

theorem createCalls_append_map (calls : List D3D11Call) (pResource Subresource : Nat)
    (hr : MapHResult) :
    createCalls (calls ++ [D3D11Call.Map pResource Subresource hr]) = createCalls calls := by
  simp [createCalls, List.filter_append]

theorem mapSubresource_frame (env : RenderThreadEnv) (p Slice Mip : Nat)
    (st : TextureUploaderD3D11 × Bool) : MapFrame st.1 (mapSubresource env p Slice Mip st).1 := by
  unfold mapSubresource
  simp only
  split
  · exact MapFrame.refl _
  · split
    · refine ⟨rfl, rfl, rfl, rfl, ?_, ?_, ?_, ?_, createCalls_append_map _ _ _ _⟩ <;> intro q <;>
        simp only [setBuffer, UploadBufferD3D11.SetMappedData] <;> split <;> simp_all
    · exact ⟨rfl, rfl, rfl, rfl, fun _ => rfl, fun _ => rfl, fun _ => rfl, fun _ => rfl,
        createCalls_append_map _ _ _ _⟩
    · exact ⟨rfl, rfl, rfl, rfl, fun _ => rfl, fun _ => rfl, fun _ => rfl, fun _ => rfl,
        createCalls_append_map _ _ _ _⟩

theorem foldl_frame {α : Type}
    (f : TextureUploaderD3D11 × Bool → α → TextureUploaderD3D11 × Bool)
    (hf : ∀ st a, MapFrame st.1 (f st a).1) (l : List α) (st : TextureUploaderD3D11 × Bool) :
    MapFrame st.1 (l.foldl f st).1 := by
  induction l generalizing st with
  | nil => exact MapFrame.refl _
  | cons a l ih => exact (hf st a).trans (ih (f st a))

theorem mapAllSubresources_frame (env : RenderThreadEnv) (p : Nat) (s : TextureUploaderD3D11) :
    MapFrame s (mapAllSubresources env p s).1 := by
  unfold mapAllSubresources
  exact foldl_frame _
    (fun st Slice => foldl_frame _ (fun st Mip => mapSubresource_frame env p Slice Mip st) _ st)
    _ (s, true)

/-! ## Membership in the idle cache -/

theorem processMap_next (env : RenderThreadEnv) (op : PendingBufferOperation)
    (s : TextureUploaderD3D11) : (processMap env op s).nextBuffer = s.nextBuffer := by
  have hf := mapAllSubresources_frame env op.pUploadBuffer s
  unfold processMap
  simp only
  split
  · split <;> simpa [setBuffer] using hf.next
  · simpa [EnqueMap] using hf.next

theorem processCopy_next (env : RenderThreadEnv) (op : PendingBufferOperation)
    (s t : TextureUploaderD3D11) (ht : processCopy env op s = some t) :
    t.nextBuffer = s.nextBuffer := by
  unfold processCopy at ht
  simp only at ht
  split at ht
  · simp at ht
  · simp only [Option.some.injEq] at ht
    subst ht
    rfl

theorem processOperation_next (env : RenderThreadEnv) (op : PendingBufferOperation)
    (s t : TextureUploaderD3D11) (ht : processOperation env op s = some t) :
    t.nextBuffer = s.nextBuffer := by
  unfold processOperation at ht
  split at ht
  · simp only [Option.some.injEq] at ht
    rw [← ht]; exact processMap_next env op s
  · simp only [Option.some.injEq] at ht
    rw [← ht]; exact processMap_next env op s
  · exact processCopy_next env op s t ht

theorem ReachableNoIdleRecycle.isReachable {s : TextureUploaderD3D11}
    (h : ReachableNoIdleRecycle s) : Reachable s := by
  induction h with
  | init => exact Reachable.init
  | allocate Desc c pumps r _ hr ih => exact Reachable.allocate Desc c pumps r ih hr
  | scheduleCopy tex lv sl mip p _ hp ih => exact Reachable.scheduleCopy tex lv sl mip p ih hp
  | recycle p nCode _ hp _ ht ih => exact Reachable.recycle p nCode ih hp ht
  | update env _ ht ih => exact Reachable.update env ih ht

theorem exampleAcquired_reachable : Reachable exampleAcquired :=
  Reachable.allocate exampleDesc (some 100) [exampleEnv] (some 0, exampleAcquired)
    Reachable.init rfl

theorem exampleAcquiredTwo_reachable : Reachable exampleAcquiredTwo :=
  Reachable.allocate exampleDesc (some 101) [exampleEnv] (some 1, exampleAcquiredTwo)
    exampleAcquired_reachable rfl

theorem exampleCopied_reachable : Reachable exampleCopied :=
  Reachable.update exampleEnv
    (Reachable.scheduleCopy 200 1 0 0 1
      (Reachable.scheduleCopy 200 1 0 0 0 exampleAcquiredTwo_reachable (by decide)) (by decide))
    rfl

/-- C2, counterexample: buffer `0` has just been returned by `AllocateUploadBuffer` for the
descriptor `{256, 256, 1, 1, 1, FormatX}` and no copy was scheduled. `RecycleBuffer` with the
failed assertion ignored returns normally, having reset the mapped signal, cleared the
mapped data and enqueued a `MapAndCache` operation. -/
theorem RecycleBuffer_unscheduled_resets_when_ignored :
    (exampleAcquired.buffers 0).DbgIsCopyScheduled = false ∧
    (exampleAcquired.buffers 0).DbgIsMapped = true ∧
    (exampleAcquired.buffers 0).IsMapped 0 0 = true ∧
    exampleAcquired.m_PendingOperations = [] ∧
    (RecycleBuffer exampleAcquired 0 IDIGNORE).map
        (fun t => ((t.buffers 0).DbgIsMapped, (t.buffers 0).IsMapped 0 0, t.m_PendingOperations)) =
      some (false, false, [⟨Operation.MapAndCache, 0, 0, 0, 0, 0⟩]) := by
  decide

/-- C2, amended: for a buffer whose copy-scheduled signal is not triggered `RecycleBuffer`
hands the violation to the assertion handler. With the reply `IDABORT` the call is
rejected: the process ends before anything is reset or enqueued. With every other reply
the call returns after writing one error message, and the buffer is reset and its
`MapAndCache` operation enqueued. -/
theorem RecycleBuffer_unscheduled (s : TextureUploaderD3D11) (p nCode : Nat)
    (h : (s.buffers p).m_CopyScheduledSignal.IsTriggered = false) :
    (nCode = IDABORT → RecycleBuffer s p nCode = none) ∧
    (nCode ≠ IDABORT → ∃ t, RecycleBuffer s p nCode = some t ∧
      t.debugLog = s.debugLog ++ [DebugMessageSeverity.Error] ∧
      (t.buffers p).m_BufferMappedSignal.IsTriggered = false ∧
      (t.buffers p).m_CopyScheduledSignal.IsTriggered = false ∧
      (∀ Mip Slice, (t.buffers p).IsMapped Mip Slice = false) ∧
      t.m_PendingOperations =
        s.m_PendingOperations ++ [⟨Operation.MapAndCache, p, 0, 0, 0, 0⟩]) := by
  have h1 : (s.buffers p).DbgIsCopyScheduled = false := h
  constructor
  · intro hn
    simp [RecycleBuffer, VERIFY, AssertionFailed, h1, hn]
  · intro hn
    refine ⟨_, by simp only [RecycleBuffer, VERIFY, AssertionFailed, h1, hn]; rfl, ?_⟩
    simp [EnqueMap, setBuffer, UploadBufferD3D11.Reset, Signal.Reset, Signal.IsTriggered,
      UploadBufferD3D11.IsMapped]

/-- Witness for C2 (amended): the freshly acquired buffer `0`, recycled with `IDABORT`
and with `IDIGNORE`. -/
theorem RecycleBuffer_unscheduled_witness :
    (exampleAcquired.buffers 0).m_CopyScheduledSignal.IsTriggered = false ∧
    RecycleBuffer exampleAcquired 0 IDABORT = none ∧
    (RecycleBuffer exampleAcquired 0 IDIGNORE).isSome = true :=
  ⟨by decide,
    (RecycleBuffer_unscheduled exampleAcquired 0 IDABORT (by decide)).1 rfl,
    by
      obtain ⟨t, ht, _⟩ :=
        (RecycleBuffer_unscheduled exampleAcquired 0 IDIGNORE (by decide)).2 (by decide)
      rw [ht]; rfl⟩

/-! ## Lookups in the idle cache -/

theorem cacheFind_popFront_same (c : List (UploadBufferDesc × List Nat))
    (Desc : UploadBufferDesc) :
    cacheFind (cachePopFront c Desc) Desc = (cacheFind c Desc).map List.tail := by
  induction c with
  | nil => rfl
  | cons kq rest ih =>
    obtain ⟨k, d⟩ := kq
    by_cases hk : k = Desc
    · simp [cachePopFront, cacheFind, hk]
    · simp [cachePopFront, cacheFind, hk, ih]

theorem cacheFind_popFront_other (c : List (UploadBufferDesc × List Nat))
    (Desc D : UploadBufferDesc) (hD : D ≠ Desc) :
    cacheFind (cachePopFront c Desc) D = cacheFind c D := by
  have hD2 : ¬ Desc = D := fun e => hD e.symm
  induction c with
  | nil => rfl
  | cons kq rest ih =>
    obtain ⟨k, d⟩ := kq
    by_cases hk : k = Desc
    · subst hk
      simp [cachePopFront, cacheFind, hD2]
    · by_cases hkD : k = D
      · subst hkD
        simp [cachePopFront, cacheFind, hk]
      · simp [cachePopFront, cacheFind, hk, hkD, ih]

theorem cacheFind_emplaceBack_same (c : List (UploadBufferDesc × List Nat))
    (Desc : UploadBufferDesc) (p : Nat) :
    cacheFind (cacheEmplaceBack c Desc p) Desc = some (idleDeque c Desc ++ [p]) := by
  induction c with
  | nil => simp [cacheEmplaceBack, cacheFind, idleDeque]
  | cons kq rest ih =>
    obtain ⟨k, d⟩ := kq
    by_cases hk : k = Desc
    · simp [cacheEmplaceBack, cacheFind, idleDeque, hk]
    · simpa [cacheEmplaceBack, cacheFind, idleDeque, hk] using ih

theorem cacheFind_emplaceBack_other (c : List (UploadBufferDesc × List Nat))
    (Desc D : UploadBufferDesc) (p : Nat) (hD : D ≠ Desc) :
    idleDeque (cacheEmplaceBack c Desc p) D = idleDeque c D := by
  have hD2 : ¬ Desc = D := fun e => hD e.symm
  induction c with
  | nil => simp [cacheEmplaceBack, cacheFind, idleDeque, hD2]
  | cons kq rest ih =>
    obtain ⟨k, d⟩ := kq
    by_cases hk : k = Desc
    · subst hk
      simp [cacheEmplaceBack, cacheFind, idleDeque, hD2]
    · by_cases hkD : k = D
      · subst hkD
        simp [cacheEmplaceBack, cacheFind, idleDeque, hk]
      · simpa [cacheEmplaceBack, cacheFind, idleDeque, hk, hkD] using ih

theorem AllocateUploadBuffer_of_cacheFind (s : TextureUploaderD3D11) (Desc : UploadBufferDesc)
    (p : Nat) (rest : List Nat) (CreateTexture2D : Option Nat) (pumps : List RenderThreadEnv)
    (h : cacheFind s.m_UploadBufferCache Desc = some (p :: rest)) :
    AllocateUploadBuffer s Desc CreateTexture2D pumps =
      Run.returned (some p,
        { s with m_UploadBufferCache := cachePopFront s.m_UploadBufferCache Desc }) := by
  have hne : s.m_UploadBufferCache.isEmpty = false := by
    cases hc : s.m_UploadBufferCache with
    | nil => rw [hc] at h; simp [cacheFind] at h
    | cons a l => rfl
  simp [AllocateUploadBuffer, hne, h]

/-- C4: when the deque stored for `Desc` is `p :: rest`, `AllocateUploadBuffer(Desc)` returns
the front buffer `p` and leaves `rest` under `Desc`; the deques of all other descriptors,
the Direct3D calls (no staging texture is created), the buffer objects and both operation
queues are unchanged. The front is the buffer cached earliest: a buffer cached later is
placed behind it. -/
theorem AllocateUploadBuffer_pops_front (s : TextureUploaderD3D11) (Desc : UploadBufferDesc)
    (p : Nat) (rest : List Nat) (CreateTexture2D : Option Nat) (pumps : List RenderThreadEnv)
    (h : cacheFind s.m_UploadBufferCache Desc = some (p :: rest)) :
    ∃ t, AllocateUploadBuffer s Desc CreateTexture2D pumps = Run.returned (some p, t) ∧
      cacheFind t.m_UploadBufferCache Desc = some rest ∧
      (∀ D, D ≠ Desc → cacheFind t.m_UploadBufferCache D = cacheFind s.m_UploadBufferCache D) ∧
      t.d3d11Calls = s.d3d11Calls ∧ t.nextBuffer = s.nextBuffer ∧ t.buffers = s.buffers ∧
      t.m_PendingOperations = s.m_PendingOperations ∧
      t.m_InWorkOperations = s.m_InWorkOperations ∧
      ∀ q, cacheFind (cacheEmplaceBack s.m_UploadBufferCache Desc q) Desc =
        some (p :: (rest ++ [q])) := by
  refine ⟨{ s with m_UploadBufferCache := cachePopFront s.m_UploadBufferCache Desc }, ?_, ?_, ?_,
    rfl, rfl, rfl, rfl, rfl, ?_⟩
  · exact AllocateUploadBuffer_of_cacheFind s Desc p rest CreateTexture2D pumps h
  · simp [cacheFind_popFront_same, h]
  · intro D hD
    exact cacheFind_popFront_other _ Desc D hD
  · intro q
    simp [cacheFind_emplaceBack_same, idleDeque, h]

/-- Witness for C4: buffer `0` idle in the cache is handed out. -/
theorem AllocateUploadBuffer_pops_front_witness :
    cacheFind exampleCached.m_UploadBufferCache exampleDesc = some [0] ∧
    ∃ t, AllocateUploadBuffer exampleCached exampleDesc none [] = Run.returned (some 0, t) ∧
      cacheFind t.m_UploadBufferCache exampleDesc = some [] ∧
      t.d3d11Calls = exampleCached.d3d11Calls :=
  ⟨by decide, by
    obtain ⟨t, h1, h2, _, h4, _⟩ :=
      AllocateUploadBuffer_pops_front exampleCached exampleDesc 0 [] none [] (by decide)
    exact ⟨t, h1, h2, h4⟩⟩

/-- C5: for a buffer whose copy-scheduled signal is triggered, `RecycleBuffer` returns
(whatever the assertion handler would reply) with both signals of the buffer reset, every
per-subresource record cleared, exactly one `MapAndCache` operation for the buffer appended
to the pending queue, and the idle cache as it was. -/
theorem RecycleBuffer_resets_and_enqueues (s : TextureUploaderD3D11) (p nCode : Nat)
    (h : (s.buffers p).m_CopyScheduledSignal.IsTriggered = true) :
    ∃ t, RecycleBuffer s p nCode = some t ∧
      (t.buffers p).m_BufferMappedSignal.IsTriggered = false ∧
      (t.buffers p).m_CopyScheduledSignal.IsTriggered = false ∧
      (∀ Mip Slice, (t.buffers p).IsMapped Mip Slice = false) ∧
      t.m_PendingOperations =
        s.m_PendingOperations ++ [⟨Operation.MapAndCache, p, 0, 0, 0, 0⟩] ∧
      t.m_UploadBufferCache = s.m_UploadBufferCache ∧
      t.m_InWorkOperations = s.m_InWorkOperations ∧
      (∀ q, q ≠ p → t.buffers q = s.buffers q) ∧
      t.d3d11Calls = s.d3d11Calls ∧ t.debugLog = s.debugLog := by
  have h1 : (s.buffers p).DbgIsCopyScheduled = true := h
  refine ⟨_, by simp only [RecycleBuffer, VERIFY, h1]; rfl, ?_⟩
  simp only [EnqueMap, setBuffer, UploadBufferD3D11.Reset, Signal.Reset, Signal.IsTriggered,
    UploadBufferD3D11.IsMapped, if_true, Option.isSome_none, implies_true, true_and]
  exact ⟨fun q hq => if_neg hq, trivial⟩

/-- Witness for C5: buffer `0` after its copy has been scheduled. -/
theorem RecycleBuffer_resets_and_enqueues_witness :
    (exampleCopied.buffers 0).m_CopyScheduledSignal.IsTriggered = true ∧
    ∃ t, RecycleBuffer exampleCopied 0 IDABORT = some t ∧
      (t.buffers 0).m_BufferMappedSignal.IsTriggered = false ∧
      t.m_PendingOperations = [⟨Operation.MapAndCache, 0, 0, 0, 0, 0⟩] :=
  ⟨by decide, by
    obtain ⟨t, h1, h2, _, _, h5, _⟩ :=
      RecycleBuffer_resets_and_enqueues exampleCopied 0 IDABORT (by decide)
    exact ⟨t, h1, h2, by rw [h5]; decide⟩⟩

/-- C8: `GetStats().NumPendingOperations` is the number of `Map` and `Copy` operations in the
pending queue; `MapAndCache` operations contribute nothing, so removing them
from the queue leaves the result unchanged. -/
theorem GetStats_counts_map_and_copy (s : TextureUploaderD3D11) :
    GetStats s =
      s.m_PendingOperations.countP
        (fun op => decide (op.operation = Operation.Map ∨ op.operation = Operation.Copy)) ∧
    GetStats s + s.m_PendingOperations.countP
        (fun op => decide (op.operation = Operation.MapAndCache)) =
      s.m_PendingOperations.length ∧
    GetStats { s with m_PendingOperations :=
        s.m_PendingOperations.filter (fun op => decide (op.operation ≠ Operation.MapAndCache)) } =
      GetStats s := by
  have key : ∀ (l : List PendingBufferOperation) (n : Nat),
      l.foldl (fun NumPendingOperations OperationInfo =>
        if OperationInfo.operation = Operation.Map ∨ OperationInfo.operation = Operation.Copy then
          NumPendingOperations + 1
        else NumPendingOperations) n =
      n + l.countP
        (fun op => decide (op.operation = Operation.Map ∨ op.operation = Operation.Copy)) := by
    intro l
    induction l with
    | nil => intro n; simp
    | cons op l ih =>
      intro n
      simp only [List.foldl_cons, ih, List.countP_cons]
      split <;> simp_all
      omega
  have hlen : ∀ l : List PendingBufferOperation,
      l.countP (fun op => decide (op.operation = Operation.Map ∨ op.operation = Operation.Copy)) +
        l.countP (fun op => decide (op.operation = Operation.MapAndCache)) = l.length := by
    intro l
    induction l with
    | nil => simp
    | cons op l ih =>
      cases hop : op.operation <;> simp [List.countP_cons, hop] at ih ⊢ <;> omega
  have hfilter : ∀ l : List PendingBufferOperation,
      (l.filter (fun op => decide (op.operation ≠ Operation.MapAndCache))).countP
        (fun op => decide (op.operation = Operation.Map ∨ op.operation = Operation.Copy)) =
      l.countP
        (fun op => decide (op.operation = Operation.Map ∨ op.operation = Operation.Copy)) := by
    intro l
    induction l with
    | nil => simp
    | cons op l ih =>
      cases hop : op.operation <;>
        simp [List.filter_cons, List.countP_cons, hop] at ih ⊢ <;> exact ih
  refine ⟨?_, ?_, ?_⟩
  · simp [GetStats, key]
  · simp only [GetStats, key, Nat.zero_add]; exact hlen _
  · simp only [GetStats, key, Nat.zero_add]; exact hfilter _

/-! ## The calls of the `Copy` case -/

theorem foldl_append_singleton {α β : Type} (f : α → β) (l : List α) (acc : List β) :
    l.foldl (fun calls x => calls ++ [f x]) acc = acc ++ l.map f := by
  induction l generalizing acc with
  | nil => simp
  | cons a l ih => simp [ih]

theorem foldl_append_list {α β : Type} (g : α → List β) (l : List α) (acc : List β) :
    l.foldl (fun calls x => calls ++ g x) acc = acc ++ l.flatMap g := by
  induction l generalizing acc with
  | nil => simp
  | cons a l ih => simp [ih]

/-- The nested copy loops issue the calls slice by slice and, within a slice, mip by mip. -/
theorem copyCalls_eq (b : UploadBufferD3D11) (op : PendingBufferOperation) :
    copyCalls b op =
      (List.range b.m_Desc.ArraySize).flatMap fun Slice =>
        (List.range b.m_Desc.MipLevels).map fun Mip => copyCall b op Slice Mip := by
  unfold copyCalls
  have : (fun (calls : List D3D11Call) Slice =>
      (List.range b.m_Desc.MipLevels).foldl
        (fun calls Mip => calls ++ [copyCall b op Slice Mip]) calls) =
      fun calls Slice => calls ++ (List.range b.m_Desc.MipLevels).map
        (fun Mip => copyCall b op Slice Mip) := by
    funext calls Slice
    exact foldl_append_singleton _ _ _
  rw [this, foldl_append_list]
  simp

theorem createCalls_unmapCalls (b : UploadBufferD3D11) : createCalls (unmapCalls b) = [] := by
  simp [createCalls, unmapCalls, List.filter_eq_nil_iff]

theorem createCalls_copyCalls (b : UploadBufferD3D11) (op : PendingBufferOperation) :
    createCalls (copyCalls b op) = [] := by
  rw [copyCalls_eq]
  simp only [createCalls, List.filter_eq_nil_iff, List.mem_flatMap, List.mem_map]
  rintro c ⟨Slice, _, Mip, _, rfl⟩
  simp [copyCall]

/-! ## A cycle in which every map succeeds -/

theorem mapSubresource_allMapped (env : RenderThreadEnv) (henv : AllMapsSucceed env)
    (p Slice Mip : Nat) (st : TextureUploaderD3D11 × Bool) (h : st.2 = true) :
    (mapSubresource env p Slice Mip st).2 = true := by
  unfold mapSubresource
  simp only
  split
  · exact h
  · obtain ⟨d, hd⟩ := henv st.1.d3d11Calls.length (st.1.buffers p).m_pStagingTexture
      (D3D11CalcSubresource Mip Slice (st.1.buffers p).m_Desc.MipLevels)
    rw [hd]
    exact h

theorem foldl_snd_true {α : Type}
    (f : TextureUploaderD3D11 × Bool → α → TextureUploaderD3D11 × Bool)
    (hf : ∀ st a, st.2 = true → (f st a).2 = true) (l : List α)
    (st : TextureUploaderD3D11 × Bool) (h : st.2 = true) : (l.foldl f st).2 = true := by
  induction l generalizing st with
  | nil => exact h
  | cons a l ih => exact ih (f st a) (hf st a h)

theorem mapAllSubresources_allMapped (env : RenderThreadEnv) (henv : AllMapsSucceed env)
    (p : Nat) (s : TextureUploaderD3D11) : (mapAllSubresources env p s).2 = true := by
  unfold mapAllSubresources
  exact foldl_snd_true _
    (fun st Slice hst => foldl_snd_true _
      (fun st Mip hst => mapSubresource_allMapped env henv p Slice Mip st hst) _ st hst)
    _ (s, true) rfl

/-- Effect of one operation of the working queue when every map succeeds: descriptors stay,
mapped signals are only ever triggered, a `Map` or `MapAndCache` operation triggers the
mapped signal of its buffer, and only `MapAndCache` touches the idle cache, appending its
buffer to the deque of the buffer's descriptor. -/
theorem processOperation_allMapsSucceed (env : RenderThreadEnv) (henv : AllMapsSucceed env)
    (op : PendingBufferOperation) (s t : TextureUploaderD3D11)
    (ht : processOperation env op s = some t) :
    (∀ q, (t.buffers q).m_Desc = (s.buffers q).m_Desc) ∧
    (∀ q, (s.buffers q).DbgIsMapped = true → (t.buffers q).DbgIsMapped = true) ∧
    (op.operation ≠ Operation.Copy → (t.buffers op.pUploadBuffer).DbgIsMapped = true) ∧
    t.m_UploadBufferCache =
      (if op.operation = Operation.MapAndCache then
        cacheEmplaceBack s.m_UploadBufferCache (s.buffers op.pUploadBuffer).m_Desc op.pUploadBuffer
      else s.m_UploadBufferCache) ∧
    createCalls t.d3d11Calls = createCalls s.d3d11Calls := by
  have hf := mapAllSubresources_frame env op.pUploadBuffer s
  have hall := mapAllSubresources_allMapped env henv op.pUploadBuffer s
  have hmap : ∀ u, processMap env op s = u →
      (∀ q, (u.buffers q).m_Desc = (s.buffers q).m_Desc) ∧
      (∀ q, (s.buffers q).DbgIsMapped = true → (u.buffers q).DbgIsMapped = true) ∧
      (u.buffers op.pUploadBuffer).DbgIsMapped = true ∧
      u.m_UploadBufferCache =
        (if op.operation = Operation.MapAndCache then
          cacheEmplaceBack s.m_UploadBufferCache (s.buffers op.pUploadBuffer).m_Desc
            op.pUploadBuffer
        else s.m_UploadBufferCache) ∧
      createCalls u.d3d11Calls = createCalls s.d3d11Calls := by
    intro u hu
    subst hu
    unfold processMap
    simp only [hall, if_true]
    split
    · refine ⟨?_, ?_, ?_, ?_, hf.creates⟩
      · intro q
        simp only [setBuffer, UploadBufferD3D11.SignalMapped]
        split
        · rename_i hq; rw [hq, hf.desc]
        · exact hf.desc q
      · intro q hq
        simp only [setBuffer, UploadBufferD3D11.SignalMapped, UploadBufferD3D11.DbgIsMapped]
        split
        · rfl
        · rw [hf.mappedSignal]; exact hq
      · simp [setBuffer, UploadBufferD3D11.SignalMapped, UploadBufferD3D11.DbgIsMapped,
          Signal.Trigger, Signal.IsTriggered]
      · simp [setBuffer, UploadBufferD3D11.SignalMapped, hf.cache, hf.desc]
    · refine ⟨?_, ?_, ?_, ?_, hf.creates⟩
      · intro q
        simp only [setBuffer, UploadBufferD3D11.SignalMapped]
        split
        · rename_i hq; rw [hq, hf.desc]
        · exact hf.desc q
      · intro q hq
        simp only [setBuffer, UploadBufferD3D11.SignalMapped, UploadBufferD3D11.DbgIsMapped]
        split
        · rfl
        · rw [hf.mappedSignal]; exact hq
      · simp [setBuffer, UploadBufferD3D11.SignalMapped, UploadBufferD3D11.DbgIsMapped,
          Signal.Trigger, Signal.IsTriggered]
      · simp [setBuffer, hf.cache]
  unfold processOperation at ht
  split at ht
  · rename_i hop
    simp only [Option.some.injEq] at ht
    obtain ⟨h1, h2, h3, h4, h5⟩ := hmap t ht
    exact ⟨h1, h2, fun _ => h3, h4, h5⟩
  · rename_i hop
    simp only [Option.some.injEq] at ht
    obtain ⟨h1, h2, h3, h4, h5⟩ := hmap t ht
    exact ⟨h1, h2, fun _ => h3, h4, h5⟩
  · rename_i hop
    unfold processCopy at ht
    simp only at ht
    split at ht
    · simp at ht
    · simp only [Option.some.injEq] at ht
      subst ht
      have hcreate : createCalls (s.d3d11Calls ++ unmapCalls (s.buffers op.pUploadBuffer) ++
          copyCalls (s.buffers op.pUploadBuffer) op) = createCalls s.d3d11Calls := by
        have h1 := createCalls_unmapCalls (s.buffers op.pUploadBuffer)
        have h2 := createCalls_copyCalls (s.buffers op.pUploadBuffer) op
        unfold createCalls at h1 h2 ⊢
        rw [List.filter_append, List.filter_append, h1, h2]
        simp
      refine ⟨?_, ?_, fun h => absurd hop h, by simp [setBuffer, hop], hcreate⟩
      · intro q
        simp only [setBuffer, UploadBufferD3D11.SignalCopyScheduled]
        split
        · rename_i hq; rw [hq]
        · rfl
      · intro q hq
        simp only [setBuffer, UploadBufferD3D11.SignalCopyScheduled, UploadBufferD3D11.DbgIsMapped]
        split
        · rename_i hqp; rw [hqp] at hq; exact hq
        · exact hq

theorem idleDeque_processOperation (env : RenderThreadEnv) (henv : AllMapsSucceed env)
    (op : PendingBufferOperation) (s t : TextureUploaderD3D11) (Desc : UploadBufferDesc)
    (ht : processOperation env op s = some t) :
    idleDeque t.m_UploadBufferCache Desc =
      idleDeque s.m_UploadBufferCache Desc ++
        (if op.operation = Operation.MapAndCache ∧ (s.buffers op.pUploadBuffer).m_Desc = Desc
          then [op.pUploadBuffer] else []) := by
  obtain ⟨_, _, _, hc, _⟩ := processOperation_allMapsSucceed env henv op s t ht
  rw [hc]
  by_cases hop : op.operation = Operation.MapAndCache
  · by_cases hd : (s.buffers op.pUploadBuffer).m_Desc = Desc
    · simp only [hop, hd, if_true, and_self]
      rw [← hd]
      simp [idleDeque, cacheFind_emplaceBack_same]
    · have hd2 : Desc ≠ (s.buffers op.pUploadBuffer).m_Desc := fun e => hd e.symm
      simp [hop, hd, cacheFind_emplaceBack_other _ _ _ _ hd2]
  · simp [hop]

theorem processOperations_deque (env : RenderThreadEnv) (henv : AllMapsSucceed env)
    (Desc : UploadBufferDesc) (b : Nat) (ops : List PendingBufferOperation)
    (s t : TextureUploaderD3D11)
    (hops : ∀ op ∈ ops, op.operation = Operation.MapAndCache →
      (s.buffers op.pUploadBuffer).m_Desc = Desc → op.pUploadBuffer = b)
    (hdq : ∀ x ∈ idleDeque s.m_UploadBufferCache Desc, x = b)
    (ht : processOperations env ops s = some t) :
    (∀ x ∈ idleDeque t.m_UploadBufferCache Desc, x = b) ∧
    (∀ q, (t.buffers q).m_Desc = (s.buffers q).m_Desc) ∧
    ((b ∈ idleDeque s.m_UploadBufferCache Desc ∧ (s.buffers b).DbgIsMapped = true) ∨
      ((s.buffers b).m_Desc = Desc ∧
        ∃ op ∈ ops, op.operation = Operation.MapAndCache ∧ op.pUploadBuffer = b) →
      b ∈ idleDeque t.m_UploadBufferCache Desc ∧ (t.buffers b).DbgIsMapped = true) ∧
    createCalls t.d3d11Calls = createCalls s.d3d11Calls ∧ t.nextBuffer = s.nextBuffer := by
  induction ops generalizing s with
  | nil =>
    simp only [processOperations, Option.some.injEq] at ht
    subst ht
    refine ⟨hdq, fun _ => rfl, ?_, rfl, rfl⟩
    rintro (h | ⟨_, op, hop, _⟩)
    · exact h
    · simp at hop
  | cons op ops ih =>
    unfold processOperations at ht
    split at ht
    · simp at ht
    · rename_i s1 hs1
      obtain ⟨hdesc, hmono, hmapped, _, hcreate⟩ :=
        processOperation_allMapsSucceed env henv op s s1 hs1
      have hdeque := idleDeque_processOperation env henv op s s1 Desc hs1
      have hnext := processOperation_next env op s s1 hs1
      have hdq1 : ∀ x ∈ idleDeque s1.m_UploadBufferCache Desc, x = b := by
        intro x hx
        rw [hdeque, List.mem_append] at hx
        rcases hx with hx | hx
        · exact hdq x hx
        · split at hx
          · rename_i hc
            simp only [List.mem_singleton] at hx
            rw [hx]
            exact hops op (List.mem_cons_self _ _) hc.1 hc.2
          · simp at hx
      have hops1 : ∀ o ∈ ops, o.operation = Operation.MapAndCache →
          (s1.buffers o.pUploadBuffer).m_Desc = Desc → o.pUploadBuffer = b := by
        intro o ho h1 h2
        rw [hdesc] at h2
        exact hops o (List.mem_cons_of_mem _ ho) h1 h2
      obtain ⟨r1, r2, r3, r4, r5⟩ := ih s1 hops1 hdq1 ht
      refine ⟨r1, fun q => (r2 q).trans (hdesc q), ?_, r4.trans hcreate, r5.trans hnext⟩
      intro h
      apply r3
      rcases h with ⟨hmem, hm⟩ | ⟨hd, o, ho, ho1, ho2⟩
      · left
        exact ⟨by rw [hdeque]; exact List.mem_append_left _ hmem, hmono b hm⟩
      · rcases List.mem_cons.mp ho with ho | ho
        · left
          subst ho
          subst ho2
          refine ⟨?_, hmapped (by rw [ho1]; decide)⟩
          rw [hdeque]
          simp [ho1, hd]
        · right
          exact ⟨by rw [hdesc]; exact hd, o, ho, ho1, ho2⟩

/-- C3, counterexample: buffer `1` has the descriptor `exampleDesc`, its copy has been
scheduled, and the idle cache holds no buffer for `exampleDesc`; the `MapAndCache`
operation of buffer `0`, which has the same descriptor and was recycled just before, is
still pending. `RecycleBuffer(1)`, one `RenderThreadUpdate` in which every map succeeds
and `AllocateUploadBuffer(exampleDesc)` return buffer `0`, not buffer `1`. -/
theorem recycle_update_allocate_returns_other_buffer :
    (exampleRecycledFirst.buffers 1).m_Desc = exampleDesc ∧
    (exampleRecycledFirst.buffers 1).DbgIsCopyScheduled = true ∧
    idleDeque exampleRecycledFirst.m_UploadBufferCache exampleDesc = [] ∧
    exampleRecycledFirst.m_PendingOperations = [⟨Operation.MapAndCache, 0, 0, 0, 0, 0⟩] ∧
    ((RecycleBuffer exampleRecycledFirst 1 IDIGNORE).bind fun s1 =>
      (RenderThreadUpdate s1 exampleEnv).bind fun s2 =>
        (AllocateUploadBuffer s2 exampleDesc (some 102) []).toOption.map Prod.fst) =
      some (some 0) := by
  decide

/-- C3, amended: let the copy-scheduled signal of buffer `b` be triggered, let the idle
cache hold no buffer for the descriptor of `b`, and let no other buffer with that descriptor
have a `MapAndCache` operation pending. Then `RecycleBuffer(b)` returns, and after one
`RenderThreadUpdate` that runs to its end and in which every map succeeds,
`AllocateUploadBuffer` for that descriptor returns `b` with its mapped signal triggered,
without a Direct3D call, and no staging texture or buffer object has been created since the
state before `RecycleBuffer`. -/
theorem recycle_update_allocate_returns_same_buffer (s : TextureUploaderD3D11) (b nCode : Nat)
    (env : RenderThreadEnv) (CreateTexture2D : Option Nat) (pumps : List RenderThreadEnv)
    (hsched : (s.buffers b).m_CopyScheduledSignal.IsTriggered = true)
    (hcache : idleDeque s.m_UploadBufferCache (s.buffers b).m_Desc = [])
    (hpend : ∀ op ∈ s.m_PendingOperations, op.operation = Operation.MapAndCache →
      (s.buffers op.pUploadBuffer).m_Desc = (s.buffers b).m_Desc → op.pUploadBuffer = b)
    (henv : AllMapsSucceed env) :
    ∃ s1, RecycleBuffer s b nCode = some s1 ∧
      ∀ s2, RenderThreadUpdate s1 env = some s2 →
        ∃ s3, AllocateUploadBuffer s2 (s.buffers b).m_Desc CreateTexture2D pumps =
            Run.returned (some b, s3) ∧
          (s3.buffers b).m_BufferMappedSignal.IsTriggered = true ∧
          s3.d3d11Calls = s2.d3d11Calls ∧
          createCalls s3.d3d11Calls = createCalls s.d3d11Calls ∧
          s3.nextBuffer = s.nextBuffer := by
  have h1 : (s.buffers b).DbgIsCopyScheduled = true := hsched
  refine ⟨_, by simp only [RecycleBuffer, VERIFY, h1]; rfl, ?_⟩
  intro s2 hs2
  generalize hs1 : (({ s with debugLog := s.debugLog } : TextureUploaderD3D11).setBuffer b
    (({ s with debugLog := s.debugLog } : TextureUploaderD3D11).buffers b).Reset).EnqueMap b
      Operation.MapAndCache = s1 at hs2
  have hdesc1 : ∀ q, (s1.buffers q).m_Desc = (s.buffers q).m_Desc := by
    intro q
    subst hs1
    simp only [EnqueMap, setBuffer, UploadBufferD3D11.Reset]
    split
    · rename_i hq; rw [hq]
    · rfl
  have hcache1 : s1.m_UploadBufferCache = s.m_UploadBufferCache := by subst hs1; rfl
  have hpend1 : s1.m_PendingOperations =
      s.m_PendingOperations ++ [⟨Operation.MapAndCache, b, 0, 0, 0, 0⟩] := by subst hs1; rfl
  have hcalls1 : s1.d3d11Calls = s.d3d11Calls := by subst hs1; rfl
  have hnext1 : s1.nextBuffer = s.nextBuffer := by subst hs1; rfl
  unfold RenderThreadUpdate at hs2
  simp only at hs2
  split at hs2
  · rename_i hempty
    simp [SwapMapQueues, hpend1] at hempty
  · split at hs2
    · simp at hs2
    · rename_i s2' hs2'
      simp only [Option.some.injEq] at hs2
      have hops : ∀ op ∈ s1.SwapMapQueues.m_InWorkOperations,
          op.operation = Operation.MapAndCache →
          (s1.SwapMapQueues.buffers op.pUploadBuffer).m_Desc = (s.buffers b).m_Desc →
          op.pUploadBuffer = b := by
        intro op hop h1 h2
        simp only [SwapMapQueues, hpend1, List.mem_append, List.mem_singleton] at hop
        simp only [SwapMapQueues, hdesc1] at h2
        rcases hop with hop | hop
        · exact hpend op hop h1 h2
        · rw [hop]
      have hdq : ∀ x ∈ idleDeque s1.SwapMapQueues.m_UploadBufferCache (s.buffers b).m_Desc,
          x = b := by
        intro x hx
        simp only [SwapMapQueues, hcache1, hcache] at hx
        simp at hx
      obtain ⟨r1, _, r3, r4, r5⟩ := processOperations_deque env henv (s.buffers b).m_Desc b _ _ s2'
        hops hdq hs2'
      have hb := r3 (Or.inr ⟨by simp only [SwapMapQueues, hdesc1],
        ⟨Operation.MapAndCache, b, 0, 0, 0, 0⟩,
        by simp only [SwapMapQueues, hpend1]; simp, rfl, rfl⟩)
      have hfind : ∃ rest, cacheFind s2.m_UploadBufferCache (s.buffers b).m_Desc =
          some (b :: rest) := by
        subst hs2
        have hmem := hb.1
        simp only [idleDeque] at hmem r1
        cases hf : cacheFind s2'.m_UploadBufferCache (s.buffers b).m_Desc with
        | none => rw [hf] at hmem; simp at hmem
        | some Deque =>
          rw [hf] at hmem r1
          simp only [Option.getD_some] at hmem r1
          cases Deque with
          | nil => simp at hmem
          | cons x rest =>
            have := r1 x (List.mem_cons_self _ _)
            subst this
            exact ⟨rest, rfl⟩
      obtain ⟨rest, hfind⟩ := hfind
      refine ⟨_, AllocateUploadBuffer_of_cacheFind s2 _ b rest CreateTexture2D pumps hfind, ?_, rfl,
        ?_, ?_⟩
      · subst hs2
        exact hb.2
      · subst hs2
        simp only [r4, SwapMapQueues, hcalls1]
      · subst hs2
        simp only [r5, SwapMapQueues, hnext1]

/-! ## The path that creates a buffer returns once the render thread has mapped it -/

theorem processOperations_mapped (env : RenderThreadEnv) (henv : AllMapsSucceed env)
    (ops : List PendingBufferOperation) (s t : TextureUploaderD3D11)
    (ht : processOperations env ops s = some t) (op : PendingBufferOperation) (hmem : op ∈ ops)
    (hop : op.operation ≠ Operation.Copy) : (t.buffers op.pUploadBuffer).DbgIsMapped = true := by
  have mono : ∀ (ops : List PendingBufferOperation) (s t : TextureUploaderD3D11),
      processOperations env ops s = some t →
      ∀ q, (s.buffers q).DbgIsMapped = true → (t.buffers q).DbgIsMapped = true := by
    intro ops
    induction ops with
    | nil =>
      intro s t ht q hq
      simp only [processOperations, Option.some.injEq] at ht
      subst ht
      exact hq
    | cons o ops ih =>
      intro s t ht q hq
      unfold processOperations at ht
      split at ht
      · simp at ht
      · rename_i s1 hs1
        exact ih s1 t ht q ((processOperation_allMapsSucceed env henv o s s1 hs1).2.1 q hq)
  induction ops generalizing s with
  | nil => simp at hmem
  | cons o ops ih =>
    unfold processOperations at ht
    split at ht
    · simp at ht
    · rename_i s1 hs1
      rcases List.mem_cons.mp hmem with h | h
      · subst h
        exact mono ops s1 t ht _ ((processOperation_allMapsSucceed env henv op s s1 hs1).2.2.1 hop)
      · exact ih s1 ht h

theorem processOperations_isSome (env : RenderThreadEnv) (hn : env.nCode ≠ IDABORT)
    (ops : List PendingBufferOperation) (s : TextureUploaderD3D11) :
    ∃ t, processOperations env ops s = some t := by
  induction ops generalizing s with
  | nil => exact ⟨s, rfl⟩
  | cons o ops ih =>
    have h1 : ∃ s1, processOperation env o s = some s1 := by
      unfold processOperation
      split
      · exact ⟨_, rfl⟩
      · exact ⟨_, rfl⟩
      · have hv : ∃ log, VERIFY (s.buffers o.pUploadBuffer).DbgIsMapped s.debugLog env.nCode =
            some log := by
          unfold VERIFY AssertionFailed
          simp only [hn, if_false]
          split <;> exact ⟨_, rfl⟩
        obtain ⟨log, hlog⟩ := hv
        unfold processCopy
        simp only [hlog]
        exact ⟨_, rfl⟩
    obtain ⟨s1, hs1⟩ := h1
    obtain ⟨t, ht⟩ := ih s1
    exact ⟨t, by unfold processOperations; rw [hs1]; exact ht⟩

theorem WaitForMap_of_mapped (p : Nat) (s : TextureUploaderD3D11) (envs : List RenderThreadEnv)
    (h : (s.buffers p).DbgIsMapped = true) : WaitForMap p s envs = Run.returned s := by
  have h1 : (s.buffers p).m_BufferMappedSignal.IsTriggered = true := h
  cases envs with
  | nil => simp [WaitForMap, h1]
  | cons env envs => simp [WaitForMap, h1]

/-- When the cache has no idle buffer for the descriptor, the device creates the staging
texture, and the first render-thread cycle maps everything and is not ended by an assertion,
`AllocateUploadBuffer` returns the new buffer after that cycle. -/
theorem AllocateUploadBuffer_fresh_returns (s : TextureUploaderD3D11) (Desc : UploadBufferDesc)
    (pStagingTex : Nat) (env : RenderThreadEnv) (envs : List RenderThreadEnv)
    (hcache : idleDeque s.m_UploadBufferCache Desc = []) (henv : AllMapsSucceed env)
    (hn : env.nCode ≠ IDABORT) :
    ∃ t, AllocateUploadBuffer s Desc (some pStagingTex) (env :: envs) =
      Run.returned (some s.nextBuffer, t) := by
  have hnone : (if s.m_UploadBufferCache.isEmpty then (none : Option Nat)
      else
        match cacheFind s.m_UploadBufferCache Desc with
        | none => none
        | some Deque => Deque.head?) = none := by
    split
    · rfl
    · unfold idleDeque at hcache
      cases hf : cacheFind s.m_UploadBufferCache Desc with
      | none => rfl
      | some Deque =>
        rw [hf] at hcache
        simp only [Option.getD_some] at hcache
        subst hcache
        rfl
  unfold AllocateUploadBuffer
  simp only [hnone]
  generalize hs2 : EnqueMap { s with
      d3d11Calls := s.d3d11Calls ++ [D3D11Call.CreateTexture2D Desc (some pStagingTex)]
      debugLog := s.debugLog ++ [DebugMessageSeverity.Info]
      buffers := fun q => if q = s.nextBuffer then UploadBufferD3D11.create Desc pStagingTex
        else s.buffers q
      nextBuffer := s.nextBuffer + 1 } s.nextBuffer Operation.Map = s2
  have hsig : (s2.buffers s.nextBuffer).m_BufferMappedSignal.IsTriggered = false := by
    subst hs2
    simp [EnqueMap, UploadBufferD3D11.create, Signal.IsTriggered]
  have hpend : s2.m_PendingOperations =
      s.m_PendingOperations ++ [⟨Operation.Map, s.nextBuffer, 0, 0, 0, 0⟩] := by
    subst hs2; rfl
  obtain ⟨s3, hs3⟩ := processOperations_isSome env hn s2.SwapMapQueues.m_InWorkOperations
    s2.SwapMapQueues
  have hmapped := processOperations_mapped env henv _ _ s3 hs3
    ⟨Operation.Map, s.nextBuffer, 0, 0, 0, 0⟩ (by simp [SwapMapQueues, hpend])
    (fun h => Operation.noConfusion h)
  have hupd : RenderThreadUpdate s2 env = some { s3 with m_InWorkOperations := [] } := by
    unfold RenderThreadUpdate
    simp only
    split
    · rename_i hempty
      simp [SwapMapQueues, hpend] at hempty
    · rw [hs3]
  have hwait : WaitForMap s.nextBuffer s2 (env :: envs) =
      Run.returned { s3 with m_InWorkOperations := [] } := by
    unfold WaitForMap
    rw [if_neg (by rw [hsig]; decide), hupd]
    exact WaitForMap_of_mapped _ _ _ hmapped
  rw [hwait]
  exact ⟨_, rfl⟩

theorem exampleEnv_allMapsSucceed : AllMapsSucceed exampleEnv :=
  fun _ _ _ => ⟨_, rfl⟩

/-- Witness for C3 (amended): buffer `0` after its copy has been scheduled, with nothing
pending and nothing cached. -/
theorem recycle_update_allocate_returns_same_buffer_witness :
    (exampleCopied.buffers 0).m_CopyScheduledSignal.IsTriggered = true ∧
    idleDeque exampleCopied.m_UploadBufferCache (exampleCopied.buffers 0).m_Desc = [] ∧
    exampleCopied.m_PendingOperations = [] ∧
    AllMapsSucceed exampleEnv ∧
    ∃ s1, RecycleBuffer exampleCopied 0 IDIGNORE = some s1 ∧
      ∀ s2, RenderThreadUpdate s1 exampleEnv = some s2 →
        ∃ s3, AllocateUploadBuffer s2 (exampleCopied.buffers 0).m_Desc none [] =
            Run.returned (some 0, s3) ∧
          (s3.buffers 0).m_BufferMappedSignal.IsTriggered = true ∧
          s3.d3d11Calls = s2.d3d11Calls ∧
          createCalls s3.d3d11Calls = createCalls exampleCopied.d3d11Calls ∧
          s3.nextBuffer = exampleCopied.nextBuffer :=
  ⟨by decide, by decide, by decide, exampleEnv_allMapsSucceed,
    recycle_update_allocate_returns_same_buffer exampleCopied 0 IDIGNORE exampleEnv none []
      (by decide) (by decide)
      (fun op hop => by
        have h : exampleCopied.m_PendingOperations = [] := by decide
        rw [h] at hop
        simp at hop)
      exampleEnv_allMapsSucceed⟩

/-! ## The `Copy` case -/

theorem flatMap_map_congr {α β γ : Type} (f g : α → β → γ) (l1 : List α) (l2 : List β)
    (h : ∀ a ∈ l1, ∀ b ∈ l2, f a b = g a b) :
    (l1.flatMap fun a => l2.map fun b => f a b) = l1.flatMap fun a => l2.map fun b => g a b := by
  induction l1 with
  | nil => rfl
  | cons a l1 ih =>
    simp only [List.flatMap_cons]
    rw [ih (fun a' ha' => h a' (List.mem_cons_of_mem _ ha'))]
    congr 1
    exact List.map_congr_left (fun b hb => h a (List.mem_cons_self _ _) b hb)

theorem length_flatMap_map_range {γ : Type} (f : Nat → Nat → γ) (A M : Nat) :
    ((List.range A).flatMap fun a => (List.range M).map fun b => f a b).length = M * A := by
  induction A with
  | zero => simp
  | succ A ih =>
    rw [List.range_succ, List.flatMap_append, List.length_append, ih]
    simp [Nat.mul_succ]

theorem copyCommands_copyCalls (b : UploadBufferD3D11) (op : PendingBufferOperation) :
    copyCommands (copyCalls b op) = copyCalls b op := by
  rw [copyCalls_eq]
  simp only [copyCommands, List.filter_eq_self, List.mem_flatMap, List.mem_map]
  rintro c ⟨Slice, _, Mip, _, rfl⟩
  simp [copyCall]

theorem copyCommands_unmapCalls (b : UploadBufferD3D11) : copyCommands (unmapCalls b) = [] := by
  simp [copyCommands, unmapCalls, List.filter_eq_nil_iff]

/-- The calls and the state left by the `Copy` case when it is carried out. -/
theorem processCopy_eq (env : RenderThreadEnv) (op : PendingBufferOperation)
    (s t : TextureUploaderD3D11) (ht : processCopy env op s = some t) :
    t.d3d11Calls = s.d3d11Calls ++ unmapCalls (s.buffers op.pUploadBuffer) ++
      copyCalls (s.buffers op.pUploadBuffer) op ∧
    (t.buffers op.pUploadBuffer).DbgIsCopyScheduled = true := by
  unfold processCopy at ht
  simp only at ht
  split at ht
  · simp at ht
  · simp only [Option.some.injEq] at ht
    subst ht
    simp [setBuffer, UploadBufferD3D11.SignalCopyScheduled, UploadBufferD3D11.DbgIsCopyScheduled,
      Signal.Trigger, Signal.IsTriggered]

/-- The `CopySubresourceRegion` calls issued for one `Copy` operation. -/
theorem copyCommands_processOperation (env : RenderThreadEnv) (op : PendingBufferOperation)
    (s t : TextureUploaderD3D11) (hop : op.operation = Operation.Copy)
    (ht : processOperation env op s = some t) :
    copyCommands (t.d3d11Calls.drop s.d3d11Calls.length) =
      ((List.range (s.buffers op.pUploadBuffer).m_Desc.ArraySize).flatMap fun Slice =>
        (List.range (s.buffers op.pUploadBuffer).m_Desc.MipLevels).map fun Mip =>
          D3D11Call.CopySubresourceRegion op.pd3d11NativeDstTexture
            (D3D11CalcSubresource (u32 (op.DstMip + Mip)) (u32 (op.DstSlice + Slice))
              op.DstMipLevels)
            (s.buffers op.pUploadBuffer).m_pStagingTexture
            (D3D11CalcSubresource Mip Slice (s.buffers op.pUploadBuffer).m_Desc.MipLevels)) ∧
    (copyCommands (t.d3d11Calls.drop s.d3d11Calls.length)).length =
      (s.buffers op.pUploadBuffer).m_Desc.MipLevels *
        (s.buffers op.pUploadBuffer).m_Desc.ArraySize ∧
    ((s.buffers op.pUploadBuffer).m_Desc.MipLevels *
        (s.buffers op.pUploadBuffer).m_Desc.ArraySize ≤ 4294967296 →
      op.DstMip + (s.buffers op.pUploadBuffer).m_Desc.MipLevels ≤ 4294967296 →
      op.DstSlice + (s.buffers op.pUploadBuffer).m_Desc.ArraySize ≤ 4294967296 →
      (op.DstMip + (s.buffers op.pUploadBuffer).m_Desc.MipLevels) +
        (op.DstSlice + (s.buffers op.pUploadBuffer).m_Desc.ArraySize) * op.DstMipLevels ≤
          4294967296 →
      copyCommands (t.d3d11Calls.drop s.d3d11Calls.length) =
        (List.range (s.buffers op.pUploadBuffer).m_Desc.ArraySize).flatMap fun Slice =>
          (List.range (s.buffers op.pUploadBuffer).m_Desc.MipLevels).map fun Mip =>
            D3D11Call.CopySubresourceRegion op.pd3d11NativeDstTexture
              ((op.DstMip + Mip) + (op.DstSlice + Slice) * op.DstMipLevels)
              (s.buffers op.pUploadBuffer).m_pStagingTexture
              (Mip + Slice * (s.buffers op.pUploadBuffer).m_Desc.MipLevels)) := by
  have hcopy : processCopy env op s = some t := by
    unfold processOperation at ht
    rw [hop] at ht
    exact ht
  have hcalls := (processCopy_eq env op s t hcopy).1
  have hcmds : copyCommands (t.d3d11Calls.drop s.d3d11Calls.length) =
      copyCalls (s.buffers op.pUploadBuffer) op := by
    rw [hcalls, List.append_assoc, List.drop_left]
    unfold copyCommands
    rw [List.filter_append]
    have h1 := copyCommands_unmapCalls (s.buffers op.pUploadBuffer)
    have h2 := copyCommands_copyCalls (s.buffers op.pUploadBuffer) op
    unfold copyCommands at h1 h2
    rw [h1, h2, List.nil_append]
  rw [hcmds, copyCalls_eq]
  refine ⟨rfl, length_flatMap_map_range _ _ _, ?_⟩
  intro hMA hMip hSlice hDst
  apply flatMap_map_congr
  intro Slice hS Mip hM
  rw [List.mem_range] at hS hM
  have hsrc : Mip + Slice * (s.buffers op.pUploadBuffer).m_Desc.MipLevels < 4294967296 := by
    have : (Slice + 1) * (s.buffers op.pUploadBuffer).m_Desc.MipLevels ≤
        (s.buffers op.pUploadBuffer).m_Desc.ArraySize *
          (s.buffers op.pUploadBuffer).m_Desc.MipLevels := Nat.mul_le_mul_right _ hS
    rw [Nat.succ_mul] at this
    rw [Nat.mul_comm (s.buffers op.pUploadBuffer).m_Desc.ArraySize] at this
    omega
  have hdst : (op.DstMip + Mip) + (op.DstSlice + Slice) * op.DstMipLevels < 4294967296 := by
    have : (op.DstSlice + Slice) * op.DstMipLevels ≤
        (op.DstSlice + (s.buffers op.pUploadBuffer).m_Desc.ArraySize) * op.DstMipLevels :=
      Nat.mul_le_mul_right _ (by omega)
    omega
  have h1 : u32 (op.DstMip + Mip) = op.DstMip + Mip := Nat.mod_eq_of_lt (by omega)
  have h2 : u32 (op.DstSlice + Slice) = op.DstSlice + Slice := Nat.mod_eq_of_lt (by omega)
  simp only [copyCall, D3D11CalcSubresource, h1, h2]
  rw [show u32 (op.DstMip + Mip + (op.DstSlice + Slice) * op.DstMipLevels) =
      op.DstMip + Mip + (op.DstSlice + Slice) * op.DstMipLevels from Nat.mod_eq_of_lt hdst,
    show u32 (Mip + Slice * (s.buffers op.pUploadBuffer).m_Desc.MipLevels) =
      Mip + Slice * (s.buffers op.pUploadBuffer).m_Desc.MipLevels from Nat.mod_eq_of_lt hsrc]

/-- C6: `ScheduleGPUCopy` with destination mip `DstMip`, destination slice `DstSlice` and a
destination texture of `DstMipLevels` mip levels enqueues a `Copy` operation carrying these
three values. When the render thread processes that operation for a buffer with
`MipLevels = M` and `ArraySize = A`, it issues exactly the `CopySubresourceRegion` calls of
the pairs `(Slice < A, Mip < M)`, slice by slice: `M * A` calls, each from the source
subresource `D3D11CalcSubresource(Mip, Slice, M)` of the staging texture to the destination
subresource `D3D11CalcSubresource(DstMip + Mip, DstSlice + Slice, DstMipLevels)`. Whenever
these indices fit in `UINT` they are `Mip + Slice * M` and
`(DstMip + Mip) + (DstSlice + Slice) * DstMipLevels`. -/
theorem processOperation_copy_commands (s0 : TextureUploaderD3D11)
    (pd3d11NativeDstTex DstMipLevels DstSlice DstMip p : Nat) (env : RenderThreadEnv)
    (s t : TextureUploaderD3D11)
    (ht : processOperation env ⟨Operation.Copy, p, pd3d11NativeDstTex, DstMip, DstSlice,
      DstMipLevels⟩ s = some t) :
    (ScheduleGPUCopy s0 pd3d11NativeDstTex DstMipLevels DstSlice DstMip p).m_PendingOperations =
      s0.m_PendingOperations ++
        [⟨Operation.Copy, p, pd3d11NativeDstTex, DstMip, DstSlice, DstMipLevels⟩] ∧
    copyCommands (t.d3d11Calls.drop s.d3d11Calls.length) =
      ((List.range (s.buffers p).m_Desc.ArraySize).flatMap fun Slice =>
        (List.range (s.buffers p).m_Desc.MipLevels).map fun Mip =>
          D3D11Call.CopySubresourceRegion pd3d11NativeDstTex
            (D3D11CalcSubresource (u32 (DstMip + Mip)) (u32 (DstSlice + Slice)) DstMipLevels)
            (s.buffers p).m_pStagingTexture
            (D3D11CalcSubresource Mip Slice (s.buffers p).m_Desc.MipLevels)) ∧
    (copyCommands (t.d3d11Calls.drop s.d3d11Calls.length)).length =
      (s.buffers p).m_Desc.MipLevels * (s.buffers p).m_Desc.ArraySize ∧
    ((s.buffers p).m_Desc.MipLevels * (s.buffers p).m_Desc.ArraySize ≤ 4294967296 →
      DstMip + (s.buffers p).m_Desc.MipLevels ≤ 4294967296 →
      DstSlice + (s.buffers p).m_Desc.ArraySize ≤ 4294967296 →
      (DstMip + (s.buffers p).m_Desc.MipLevels) +
        (DstSlice + (s.buffers p).m_Desc.ArraySize) * DstMipLevels ≤ 4294967296 →
      copyCommands (t.d3d11Calls.drop s.d3d11Calls.length) =
        (List.range (s.buffers p).m_Desc.ArraySize).flatMap fun Slice =>
          (List.range (s.buffers p).m_Desc.MipLevels).map fun Mip =>
            D3D11Call.CopySubresourceRegion pd3d11NativeDstTex
              ((DstMip + Mip) + (DstSlice + Slice) * DstMipLevels)
              (s.buffers p).m_pStagingTexture
              (Mip + Slice * (s.buffers p).m_Desc.MipLevels)) :=
  ⟨rfl, copyCommands_processOperation env
    ⟨Operation.Copy, p, pd3d11NativeDstTex, DstMip, DstSlice, DstMipLevels⟩ s t rfl ht⟩

/-- Witness for C6: a buffer with two mip levels and two slices copied to mip 1, slice 3 of a
texture with five mip levels. -/
theorem processOperation_copy_commands_witness :
    processOperation exampleEnv ⟨Operation.Copy, 0, 200, 1, 3, 5⟩ exampleArrayAcquired =
      some exampleArrayCopied ∧
    copyCommands (exampleArrayCopied.d3d11Calls.drop exampleArrayAcquired.d3d11Calls.length) =
      [D3D11Call.CopySubresourceRegion 200 16 100 0, D3D11Call.CopySubresourceRegion 200 17 100 1,
        D3D11Call.CopySubresourceRegion 200 21 100 2,
        D3D11Call.CopySubresourceRegion 200 22 100 3] :=
  ⟨rfl, by
    have h := (processOperation_copy_commands init 200 5 3 1 0 exampleEnv exampleArrayAcquired
      exampleArrayCopied rfl).2.2.2 (by decide) (by decide) (by decide) (by decide)
    rw [h]
    decide⟩

/-- C7, counterexample: in `exampleCopyOfUnmapped` a `Copy` operation for buffer `0` is at
the head of the queue while the mapped signal of buffer `0` is not triggered. With the failed
check ignored, the render thread carries the operation out: the subresource is unmapped, the
copy command is issued and the copy-scheduled signal is triggered. -/
theorem copy_of_unmapped_buffer_processed_when_ignored :
    exampleCopyOfUnmapped.m_PendingOperations =
      [exampleUnmappedCopyOp, ⟨Operation.MapAndCache, 0, 0, 0, 0, 0⟩] ∧
    (exampleCopyOfUnmapped.buffers 0).DbgIsMapped = false ∧
    (exampleCopyOfUnmapped.buffers 0).DbgIsCopyScheduled = false ∧
    (processOperation exampleEnv exampleUnmappedCopyOp exampleCopyOfUnmapped.SwapMapQueues).map
        (fun t => (t.d3d11Calls.drop exampleCopyOfUnmapped.d3d11Calls.length,
          (t.buffers 0).DbgIsCopyScheduled)) =
      some ([D3D11Call.Unmap 100 0, D3D11Call.CopySubresourceRegion 200 0 100 0], true) ∧
    (RenderThreadUpdate exampleCopyOfUnmapped exampleEnv).map
        (fun t => (t.d3d11Calls.drop exampleCopyOfUnmapped.d3d11Calls.length).take 2) =
      some [D3D11Call.Unmap 100 0, D3D11Call.CopySubresourceRegion 200 0 100 0] := by
  decide

/-- C7, amended: for a `Copy` operation whose buffer has its mapped signal not triggered, the
check fails and is handed to the assertion handler. With the reply `IDABORT` the process
ends there: the operation is not processed, nothing is unmapped or copied and the
copy-scheduled signal is not triggered. With every other reply one error message is
written and the operation is processed like every `Copy`: all subresources are unmapped,
the copy commands are issued and the copy-scheduled signal is triggered. -/
theorem processOperation_copy_of_unmapped (env : RenderThreadEnv) (op : PendingBufferOperation)
    (s : TextureUploaderD3D11) (hop : op.operation = Operation.Copy)
    (h : (s.buffers op.pUploadBuffer).m_BufferMappedSignal.IsTriggered = false) :
    (env.nCode = IDABORT → processOperation env op s = none) ∧
    (env.nCode ≠ IDABORT → ∃ t, processOperation env op s = some t ∧
      t.debugLog = s.debugLog ++ [DebugMessageSeverity.Error] ∧
      t.d3d11Calls = s.d3d11Calls ++ unmapCalls (s.buffers op.pUploadBuffer) ++
        copyCalls (s.buffers op.pUploadBuffer) op ∧
      (t.buffers op.pUploadBuffer).m_CopyScheduledSignal.IsTriggered = true) := by
  have h1 : (s.buffers op.pUploadBuffer).DbgIsMapped = false := h
  constructor
  · intro hn
    simp [processOperation, hop, processCopy, VERIFY, AssertionFailed, h1, hn]
  · intro hn
    have hv : VERIFY (s.buffers op.pUploadBuffer).DbgIsMapped s.debugLog env.nCode =
        some (s.debugLog ++ [DebugMessageSeverity.Error]) := by
      simp [VERIFY, AssertionFailed, h1, hn]
    have hres : processOperation env op s =
        some (({ s with
          debugLog := s.debugLog ++ [DebugMessageSeverity.Error]
          d3d11Calls := s.d3d11Calls ++ unmapCalls (s.buffers op.pUploadBuffer) ++
            copyCalls (s.buffers op.pUploadBuffer) op } : TextureUploaderD3D11).setBuffer
          op.pUploadBuffer (s.buffers op.pUploadBuffer).SignalCopyScheduled) := by
      simp only [processOperation, hop, processCopy, hv]
    refine ⟨_, hres, ?_⟩
    simp [setBuffer, UploadBufferD3D11.SignalCopyScheduled, Signal.Trigger, Signal.IsTriggered]

/-- Witness for C7 (amended): the `Copy` operation of `exampleCopyOfUnmapped` with the
replies `IDABORT` and `IDIGNORE`. -/
theorem processOperation_copy_of_unmapped_witness :
    exampleUnmappedCopyOp.operation = Operation.Copy ∧
    (exampleCopyOfUnmapped.buffers exampleUnmappedCopyOp.pUploadBuffer).m_BufferMappedSignal.IsTriggered
      = false ∧
    processOperation exampleAbortEnv exampleUnmappedCopyOp exampleCopyOfUnmapped = none ∧
    (processOperation exampleEnv exampleUnmappedCopyOp exampleCopyOfUnmapped).isSome = true :=
  ⟨rfl, by decide,
    (processOperation_copy_of_unmapped exampleAbortEnv exampleUnmappedCopyOp exampleCopyOfUnmapped
      rfl (by decide)).1 rfl,
    by
      obtain ⟨t, ht, _⟩ :=
        (processOperation_copy_of_unmapped exampleEnv exampleUnmappedCopyOp exampleCopyOfUnmapped
          rfl (by decide)).2 (by decide)
      rw [ht]; rfl⟩

/-! ## Outstanding operations per buffer and kind -/

theorem opCount_append (Op : Operation) (p : Nat) (l1 l2 : List PendingBufferOperation) :
    opCount Op p (l1 ++ l2) = opCount Op p l1 + opCount Op p l2 := by
  simp [opCount, List.countP_append]

theorem opCount_cons (Op : Operation) (p : Nat) (op : PendingBufferOperation)
    (l : List PendingBufferOperation) :
    opCount Op p (op :: l) = opCount Op p [op] + opCount Op p l := by
  rw [show op :: l = [op] ++ l from rfl, opCount_append]

theorem opCount_singleton (Op : Operation) (p : Nat) (op : PendingBufferOperation) :
    opCount Op p [op] = if op.operation = Op ∧ op.pUploadBuffer = p then 1 else 0 := by
  simp only [opCount, List.countP_cons, List.countP_nil, Nat.zero_add, decide_eq_true_eq]

theorem opCount_eq_zero_of_valid (Op : Operation) (p n : Nat) (l : List PendingBufferOperation)
    (h : ∀ op ∈ l, op.pUploadBuffer < n) (hp : n ≤ p) : opCount Op p l = 0 := by
  simp only [opCount, List.countP_eq_zero, decide_eq_true_eq]
  intro op hop hc
  have := h op hop
  omega

/-- One operation of the working queue leaves the pending queue as it is or appends one
operation of its own kind for its own buffer; the working queue is not touched. -/
theorem processOperation_pending (env : RenderThreadEnv) (op : PendingBufferOperation)
    (s t : TextureUploaderD3D11) (ht : processOperation env op s = some t) :
    (t.m_PendingOperations = s.m_PendingOperations ∨
      t.m_PendingOperations =
        s.m_PendingOperations ++ [⟨op.operation, op.pUploadBuffer, 0, 0, 0, 0⟩]) ∧
    t.m_InWorkOperations = s.m_InWorkOperations := by
  have hf := mapAllSubresources_frame env op.pUploadBuffer s
  have hmap : (processMap env op s).m_PendingOperations = s.m_PendingOperations ∨
      (processMap env op s).m_PendingOperations =
        s.m_PendingOperations ++ [⟨op.operation, op.pUploadBuffer, 0, 0, 0, 0⟩] := by
    unfold processMap
    simp only
    split
    · split
      · exact Or.inl (by simpa [setBuffer] using hf.pending)
      · exact Or.inl (by simpa [setBuffer] using hf.pending)
    · exact Or.inr (by simp [EnqueMap, hf.pending])
  have hmapw : (processMap env op s).m_InWorkOperations = s.m_InWorkOperations := by
    unfold processMap
    simp only
    split
    · split
      · simpa [setBuffer] using hf.inWork
      · simpa [setBuffer] using hf.inWork
    · simpa [EnqueMap] using hf.inWork
  unfold processOperation at ht
  split at ht
  · simp only [Option.some.injEq] at ht
    rw [← ht]
    exact ⟨hmap, hmapw⟩
  · simp only [Option.some.injEq] at ht
    rw [← ht]
    exact ⟨hmap, hmapw⟩
  · unfold processCopy at ht
    simp only at ht
    split at ht
    · simp at ht
    · simp only [Option.some.injEq] at ht
      subst ht
      exact ⟨Or.inl rfl, rfl⟩

/-! ## The queues name existing buffers in every reachable state -/

theorem processOperation_valid (env : RenderThreadEnv) (op : PendingBufferOperation)
    (s t : TextureUploaderD3D11) (h : QueuesValid s) (hp : op.pUploadBuffer < s.nextBuffer)
    (ht : processOperation env op s = some t) : QueuesValid t := by
  obtain ⟨hpend, hwork⟩ := processOperation_pending env op s t ht
  have hn := processOperation_next env op s t ht
  refine ⟨?_, ?_⟩
  · intro o ho
    rw [hn]
    rcases hpend with hpend | hpend
    · rw [hpend] at ho
      exact h.pendingValid o ho
    · rw [hpend, List.mem_append, List.mem_singleton] at ho
      rcases ho with ho | ho
      · exact h.pendingValid o ho
      · rw [ho]; exact hp
  · intro o ho
    rw [hn]
    rw [hwork] at ho
    exact h.inWorkValid o ho

theorem processOperations_valid (env : RenderThreadEnv) (ops : List PendingBufferOperation)
    (s t : TextureUploaderD3D11) (h : QueuesValid s)
    (hops : ∀ op ∈ ops, op.pUploadBuffer < s.nextBuffer)
    (ht : processOperations env ops s = some t) :
    QueuesValid t ∧ t.nextBuffer = s.nextBuffer := by
  induction ops generalizing s with
  | nil =>
    simp only [processOperations, Option.some.injEq] at ht
    subst ht
    exact ⟨h, rfl⟩
  | cons op ops ih =>
    unfold processOperations at ht
    split at ht
    · simp at ht
    · rename_i s1 hs1
      have hn := processOperation_next env op s s1 hs1
      have h1 := processOperation_valid env op s s1 h (hops op (List.mem_cons_self _ _)) hs1
      have := ih s1 h1 (fun o ho => by rw [hn]; exact hops o (List.mem_cons_of_mem _ ho)) ht
      exact ⟨this.1, this.2.trans hn⟩

theorem RenderThreadUpdate_valid (env : RenderThreadEnv) (s t : TextureUploaderD3D11)
    (h : QueuesValid s) (ht : RenderThreadUpdate s env = some t) :
    QueuesValid t ∧ t.nextBuffer = s.nextBuffer := by
  have hswap : QueuesValid s.SwapMapQueues := ⟨h.inWorkValid, h.pendingValid⟩
  unfold RenderThreadUpdate at ht
  simp only at ht
  split at ht
  · simp only [Option.some.injEq] at ht
    subst ht
    exact ⟨hswap, rfl⟩
  · split at ht
    · simp at ht
    · rename_i s2 hs2
      simp only [Option.some.injEq] at ht
      subst ht
      have := processOperations_valid env _ _ s2 hswap hswap.inWorkValid hs2
      exact ⟨⟨this.1.pendingValid, fun o ho => by simp at ho⟩, this.2⟩

theorem WaitForMap_valid (p : Nat) (envs : List RenderThreadEnv) (s t : TextureUploaderD3D11)
    (h : QueuesValid s) (ht : WaitForMap p s envs = Run.returned t) : QueuesValid t := by
  induction envs generalizing s with
  | nil =>
    unfold WaitForMap at ht
    split at ht
    · simp only [Run.returned.injEq] at ht
      subst ht
      exact h
    · simp at ht
  | cons env envs ih =>
    unfold WaitForMap at ht
    split at ht
    · simp only [Run.returned.injEq] at ht
      subst ht
      exact h
    · split at ht
      · simp at ht
      · rename_i s1 hs1
        exact ih s1 (RenderThreadUpdate_valid env s s1 h hs1).1 ht

theorem AllocateUploadBuffer_valid (s : TextureUploaderD3D11) (h : QueuesValid s)
    (Desc : UploadBufferDesc) (CreateTexture2D : Option Nat) (pumps : List RenderThreadEnv)
    (r : Option Nat × TextureUploaderD3D11)
    (hr : AllocateUploadBuffer s Desc CreateTexture2D pumps = Run.returned r) :
    QueuesValid r.2 := by
  unfold AllocateUploadBuffer at hr
  simp only at hr
  split at hr
  · simp only [Run.returned.injEq] at hr
    subst hr
    exact ⟨h.pendingValid, h.inWorkValid⟩
  · split at hr
    · simp only [Run.returned.injEq] at hr
      subst hr
      exact ⟨h.pendingValid, h.inWorkValid⟩
    · rename_i pStagingTex
      split at hr
      · rename_i s3 hw
        simp only [Run.returned.injEq] at hr
        subst hr
        refine WaitForMap_valid _ pumps _ s3 ⟨?_, ?_⟩ hw
        · intro o ho
          simp only [EnqueMap, List.mem_append, List.mem_singleton] at ho ⊢
          rcases ho with ho | ho
          · exact Nat.lt_succ_of_lt (h.pendingValid o ho)
          · rw [ho]; exact Nat.lt_succ_self _
        · intro o ho
          exact Nat.lt_succ_of_lt (h.inWorkValid o ho)
      · simp at hr
      · simp at hr

theorem ScheduleGPUCopy_valid (s : TextureUploaderD3D11) (h : QueuesValid s)
    (pd3d11NativeDstTex DstTexMipLevels ArraySlice MipLevel p : Nat) (hp : p < s.nextBuffer) :
    QueuesValid (ScheduleGPUCopy s pd3d11NativeDstTex DstTexMipLevels ArraySlice MipLevel p) := by
  refine ⟨?_, h.inWorkValid⟩
  intro o ho
  simp only [ScheduleGPUCopy, EnqueCopy, List.mem_append, List.mem_singleton] at ho ⊢
  rcases ho with ho | ho
  · exact h.pendingValid o ho
  · rw [ho]; exact hp

theorem RecycleBuffer_valid (s t : TextureUploaderD3D11) (h : QueuesValid s) (p nCode : Nat)
    (hp : p < s.nextBuffer) (ht : RecycleBuffer s p nCode = some t) : QueuesValid t := by
  unfold RecycleBuffer at ht
  split at ht
  · simp at ht
  · simp only [Option.some.injEq] at ht
    subst ht
    refine ⟨?_, h.inWorkValid⟩
    intro o ho
    simp only [EnqueMap, setBuffer, List.mem_append, List.mem_singleton] at ho ⊢
    rcases ho with ho | ho
    · exact h.pendingValid o ho
    · rw [ho]; exact hp

theorem init_valid : QueuesValid init :=
  ⟨fun o ho => by simp [init] at ho, fun o ho => by simp [init] at ho⟩

theorem Reachable.valid {s : TextureUploaderD3D11} (h : Reachable s) : QueuesValid s := by
  induction h with
  | init => exact init_valid
  | allocate Desc CreateTexture2D pumps r _ hr ih =>
    exact AllocateUploadBuffer_valid _ ih Desc CreateTexture2D pumps r hr
  | scheduleCopy tex mips slice mip p _ hp ih =>
    exact ScheduleGPUCopy_valid _ ih tex mips slice mip p hp
  | recycle p nCode _ hp ht ih => exact RecycleBuffer_valid _ _ ih p nCode hp ht
  | update env _ ht ih => exact (RenderThreadUpdate_valid env _ _ ih ht).1

theorem processOperations_count (env : RenderThreadEnv) (ops : List PendingBufferOperation)
    (s t : TextureUploaderD3D11) (ht : processOperations env ops s = some t) (Op : Operation)
    (p : Nat) :
    opCount Op p t.m_PendingOperations ≤ opCount Op p s.m_PendingOperations + opCount Op p ops ∧
    t.m_InWorkOperations = s.m_InWorkOperations := by
  induction ops generalizing s with
  | nil =>
    simp only [processOperations, Option.some.injEq] at ht
    subst ht
    exact ⟨Nat.le_add_right _ _, rfl⟩
  | cons op ops ih =>
    unfold processOperations at ht
    split at ht
    · simp at ht
    · rename_i s1 hs1
      obtain ⟨hp, hw⟩ := processOperation_pending env op s s1 hs1
      obtain ⟨h1, h2⟩ := ih s1 ht
      refine ⟨?_, h2.trans hw⟩
      rw [opCount_cons Op p op ops]
      rcases hp with hp | hp
      · rw [hp] at h1
        omega
      · rw [hp, opCount_append] at h1
        have : opCount Op p [⟨op.operation, op.pUploadBuffer, 0, 0, 0, 0⟩] = opCount Op p [op] := by
          rw [opCount_singleton, opCount_singleton]
        omega

theorem RenderThreadUpdate_count (env : RenderThreadEnv) (s t : TextureUploaderD3D11)
    (ht : RenderThreadUpdate s env = some t) (Op : Operation) (p : Nat) :
    opCount Op p t.m_PendingOperations ≤
      opCount Op p s.m_InWorkOperations + opCount Op p s.m_PendingOperations ∧
    t.m_InWorkOperations = [] := by
  unfold RenderThreadUpdate at ht
  simp only at ht
  split at ht
  · rename_i hempty
    simp only [Option.some.injEq] at ht
    subst ht
    simp only [SwapMapQueues, List.isEmpty_iff] at hempty ⊢
    exact ⟨Nat.le_add_right _ _, hempty⟩
  · split at ht
    · simp at ht
    · rename_i s2 hs2
      simp only [Option.some.injEq] at ht
      subst ht
      have := (processOperations_count env _ _ s2 hs2 Op p).1
      exact ⟨this, rfl⟩

theorem RenderThreadUpdate_once (Op : Operation) (env : RenderThreadEnv)
    (s t : TextureUploaderD3D11) (h : Once Op s) (ht : RenderThreadUpdate s env = some t) :
    Once Op t := by
  refine ⟨(RenderThreadUpdate_count env s t ht Op 0).2, fun p => ?_⟩
  have h1 := (RenderThreadUpdate_count env s t ht Op p).1
  have h2 := h.2 p
  rw [h.1] at h1
  simp only [opCount, List.countP_nil, Nat.zero_add] at h1 h2 ⊢
  omega

theorem WaitForMap_once (Op : Operation) (p : Nat) (envs : List RenderThreadEnv)
    (s t : TextureUploaderD3D11) (h : Once Op s) (ht : WaitForMap p s envs = Run.returned t) :
    Once Op t := by
  induction envs generalizing s with
  | nil =>
    unfold WaitForMap at ht
    split at ht
    · simp only [Run.returned.injEq] at ht
      subst ht
      exact h
    · simp at ht
  | cons env envs ih =>
    unfold WaitForMap at ht
    split at ht
    · simp only [Run.returned.injEq] at ht
      subst ht
      exact h
    · split at ht
      · simp at ht
      · rename_i s1 hs1
        exact ih s1 (RenderThreadUpdate_once Op env s s1 h hs1) ht

theorem AllocateUploadBuffer_once (Op : Operation) (s : TextureUploaderD3D11) (hi : QueuesValid s)
    (h : Once Op s) (Desc : UploadBufferDesc) (CreateTexture2D : Option Nat)
    (pumps : List RenderThreadEnv) (r : Option Nat × TextureUploaderD3D11)
    (hr : AllocateUploadBuffer s Desc CreateTexture2D pumps = Run.returned r) :
    Once Op r.2 := by
  unfold AllocateUploadBuffer at hr
  simp only at hr
  split at hr
  · simp only [Run.returned.injEq] at hr
    subst hr
    exact h
  · split at hr
    · simp only [Run.returned.injEq] at hr
      subst hr
      exact h
    · rename_i pStagingTex
      split at hr
      · rename_i s3 hw
        simp only [Run.returned.injEq] at hr
        subst hr
        refine WaitForMap_once Op _ pumps _ s3 ?_ hw
        refine ⟨h.1, fun p => ?_⟩
        simp only [EnqueMap]
        rw [opCount_append, opCount_singleton]
        by_cases hp : p = s.nextBuffer
        · have := opCount_eq_zero_of_valid Op p s.nextBuffer _ hi.pendingValid (Nat.le_of_eq hp.symm)
          split <;> omega
        · have := h.2 p
          rw [if_neg (fun hc => hp hc.2.symm)]
          omega
      · simp at hr
      · simp at hr

theorem ScheduleGPUCopy_once (Op : Operation) (s : TextureUploaderD3D11) (h : Once Op s)
    (pd3d11NativeDstTex DstTexMipLevels ArraySlice MipLevel p : Nat)
    (hp : Op = Operation.Copy → opCount Operation.Copy p s.m_PendingOperations = 0) :
    Once Op (ScheduleGPUCopy s pd3d11NativeDstTex DstTexMipLevels ArraySlice MipLevel p) := by
  refine ⟨h.1, fun q => ?_⟩
  simp only [ScheduleGPUCopy, EnqueCopy]
  rw [opCount_append, opCount_singleton]
  have hq := h.2 q
  split
  · rename_i hc
    have h0 := hp hc.1.symm
    rw [← hc.1, ← hc.2]
    simp only at h0 ⊢
    omega
  · omega

theorem RecycleBuffer_once (Op : Operation) (s t : TextureUploaderD3D11) (h : Once Op s)
    (p nCode : Nat)
    (hp : Op = Operation.MapAndCache → opCount Operation.MapAndCache p s.m_PendingOperations = 0)
    (ht : RecycleBuffer s p nCode = some t) : Once Op t := by
  unfold RecycleBuffer at ht
  split at ht
  · simp at ht
  · simp only [Option.some.injEq] at ht
    subst ht
    refine ⟨h.1, fun q => ?_⟩
    simp only [EnqueMap, setBuffer]
    rw [opCount_append, opCount_singleton]
    have hq := h.2 q
    split
    · rename_i hc
      have h0 := hp hc.1.symm
      rw [← hc.1, ← hc.2]
      simp only at h0 ⊢
      omega
    · omega

theorem init_once (Op : Operation) : Once Op init :=
  ⟨rfl, fun _ => Nat.zero_le _⟩

theorem Reachable.once_map {s : TextureUploaderD3D11} (h : Reachable s) :
    Once Operation.Map s := by
  induction h with
  | init => exact init_once _
  | allocate Desc c pumps r hs hr ih =>
    exact AllocateUploadBuffer_once _ _ hs.valid ih Desc c pumps r hr
  | scheduleCopy tex lv sl mip p _ _ ih =>
    exact ScheduleGPUCopy_once _ _ ih tex lv sl mip p (fun hc => by cases hc)
  | recycle p nCode _ _ ht ih =>
    exact RecycleBuffer_once _ _ _ ih p nCode (fun hc => by cases hc) ht
  | update env _ ht ih => exact RenderThreadUpdate_once _ env _ _ ih ht

theorem foldl_flatMap_map {α β γ : Type} (f : γ → α × β → γ) (l : List α) (m : List β)
    (init : γ) :
    (l.flatMap fun a => m.map fun b => (a, b)).foldl f init =
      l.foldl (fun acc a => m.foldl (fun acc b => f acc (a, b)) acc) init := by
  induction l generalizing init with
  | nil => rfl
  | cons a l ih =>
    rw [List.flatMap_cons, List.foldl_append, List.foldl_cons, List.foldl_map, ih]

theorem mapAllSubresources_eq (env : RenderThreadEnv) (p : Nat) (s : TextureUploaderD3D11) :
    mapAllSubresources env p s = mapLoop env p (subresources (s.buffers p).m_Desc) (s, true) := by
  unfold mapAllSubresources mapLoop subresources
  exact (foldl_flatMap_map (fun st x => mapSubresource env p x.1 x.2 st) _ _ _).symm

theorem mem_subresources (Desc : UploadBufferDesc) (x : Nat × Nat) :
    x ∈ subresources Desc ↔ x.1 < Desc.ArraySize ∧ x.2 < Desc.MipLevels := by
  unfold subresources
  simp only [List.mem_flatMap, List.mem_range, List.mem_map]
  constructor
  · rintro ⟨a, ha, b, hb, rfl⟩
    exact ⟨ha, hb⟩
  · rintro ⟨h1, h2⟩
    exact ⟨x.1, h1, x.2, h2, rfl⟩

theorem nodup_subresources (Desc : UploadBufferDesc) : (subresources Desc).Nodup :=
  List.Nodup.product (List.nodup_range _) (List.nodup_range _)

theorem stillDrawing_append (l1 l2 : List D3D11Call) :
    stillDrawing (l1 ++ l2) = (stillDrawing l1 || stillDrawing l2) := by
  simp [stillDrawing, List.any_append]

theorem stillDrawing_cons (c : D3D11Call) (l : List D3D11Call) :
    stillDrawing (c :: l) = (stillDrawing [c] || stillDrawing l) :=
  stillDrawing_append [c] l

/-- What one pass of the loop body does. -/
theorem mapSubresource_cases (env : RenderThreadEnv) (p Slice Mip : Nat)
    (st : TextureUploaderD3D11 × Bool) :
    ((st.1.buffers p).IsMapped Mip Slice = true ∧ mapSubresource env p Slice Mip st = st) ∨
    ((st.1.buffers p).IsMapped Mip Slice = false ∧ ∃ hr,
      (mapSubresource env p Slice Mip st).1.d3d11Calls =
        st.1.d3d11Calls ++ [D3D11Call.Map (st.1.buffers p).m_pStagingTexture
          (D3D11CalcSubresource Mip Slice (st.1.buffers p).m_Desc.MipLevels) hr] ∧
      (mapSubresource env p Slice Mip st).2 =
        (st.2 && !stillDrawing [D3D11Call.Map (st.1.buffers p).m_pStagingTexture
          (D3D11CalcSubresource Mip Slice (st.1.buffers p).m_Desc.MipLevels) hr]) ∧
      ∀ q m sl, ((mapSubresource env p Slice Mip st).1.buffers q).m_MappedData m sl =
        if q = p ∧ m = Mip ∧ sl = Slice then mappedDataOf hr else (st.1.buffers q).m_MappedData m sl) := by
  by_cases hm : (st.1.buffers p).IsMapped Mip Slice = true
  · left
    refine ⟨hm, ?_⟩
    unfold mapSubresource
    simp only [hm, if_true]
  · right
    have hm0 : (st.1.buffers p).IsMapped Mip Slice = false := by simpa using hm
    have hnone : (st.1.buffers p).m_MappedData Mip Slice = none := by
      simpa [UploadBufferD3D11.IsMapped] using hm0
    refine ⟨hm0, env.Map st.1.d3d11Calls.length (st.1.buffers p).m_pStagingTexture
      (D3D11CalcSubresource Mip Slice (st.1.buffers p).m_Desc.MipLevels), ?_⟩
    unfold mapSubresource
    simp only [hm0, Bool.false_eq_true, if_false]
    generalize env.Map st.1.d3d11Calls.length (st.1.buffers p).m_pStagingTexture
      (D3D11CalcSubresource Mip Slice (st.1.buffers p).m_Desc.MipLevels) = hr
    cases hr with
    | S_OK d =>
      refine ⟨rfl, by simp [stillDrawing], ?_⟩
      intro q m sl
      simp only [setBuffer, UploadBufferD3D11.SetMappedData, mappedDataOf]
      by_cases hq : q = p
      · subst hq
        by_cases hx : m = Mip ∧ sl = Slice
        · simp [hx]
        · simp only [if_true, hx, if_false, true_and]
      · simp [hq]
    | DXGI_ERROR_WAS_STILL_DRAWING =>
      refine ⟨rfl, by simp [stillDrawing], ?_⟩
      intro q m sl
      simp only [mappedDataOf]
      split
      · rename_i hx
        rw [hx.1, hx.2.1, hx.2.2, hnone]
      · rfl
    | E_FAIL e =>
      refine ⟨rfl, by simp [stillDrawing], ?_⟩
      intro q m sl
      simp only [mappedDataOf]
      split
      · rename_i hx
        rw [hx.1, hx.2.1, hx.2.2, hnone]
      · rfl

theorem mapLoop_cons (env : RenderThreadEnv) (p : Nat) (x : Nat × Nat) (L : List (Nat × Nat))
    (st : TextureUploaderD3D11 × Bool) :
    mapLoop env p (x :: L) st = mapLoop env p L (mapSubresource env p x.1 x.2 st) := rfl

theorem mapLoop_frame (env : RenderThreadEnv) (p : Nat) (L : List (Nat × Nat))
    (st : TextureUploaderD3D11 × Bool) : MapFrame st.1 (mapLoop env p L st).1 := by
  unfold mapLoop
  exact foldl_frame (fun st x => mapSubresource env p x.1 x.2 st)
    (fun st x => mapSubresource_frame env p x.1 x.2 st) L st

/-- A record of mapped data is never lost or replaced by the map loops. -/
theorem mapLoop_mono (env : RenderThreadEnv) (p : Nat) (L : List (Nat × Nat))
    (st : TextureUploaderD3D11 × Bool) (q m sl : Nat) (d : MappedTextureSubresource)
    (h : (st.1.buffers q).m_MappedData m sl = some d) :
    ((mapLoop env p L st).1.buffers q).m_MappedData m sl = some d := by
  induction L generalizing st with
  | nil => exact h
  | cons x L ih =>
    rw [mapLoop_cons]
    apply ih
    rcases mapSubresource_cases env p x.1 x.2 st with ⟨_, he⟩ | ⟨hu, hr, _, _, hd⟩
    · rw [he]; exact h
    · rw [hd]
      split
      · rename_i hx
        rw [hx.1, hx.2.1, hx.2.2] at h
        simp [UploadBufferD3D11.IsMapped, h] at hu
      · exact h

/-- The map loops write records only for the buffer and the pairs they visit. -/
theorem mapLoop_untouched (env : RenderThreadEnv) (p : Nat) (L : List (Nat × Nat))
    (st : TextureUploaderD3D11 × Bool) (q m sl : Nat) (h : q ≠ p ∨ (sl, m) ∉ L) :
    ((mapLoop env p L st).1.buffers q).m_MappedData m sl = (st.1.buffers q).m_MappedData m sl := by
  induction L generalizing st with
  | nil => rfl
  | cons x L ih =>
    rw [mapLoop_cons, ih _ (h.imp id fun hx hc => hx (List.mem_cons_of_mem _ hc))]
    rcases mapSubresource_cases env p x.1 x.2 st with ⟨_, he⟩ | ⟨_, hr, _, _, hd⟩
    · rw [he]
    · rw [hd]
      split
      · rename_i hx
        rcases h with h | h
        · exact absurd hx.1 h
        · exact absurd (by rw [hx.2.1, hx.2.2]; exact List.mem_cons_self _ _) h
      · rfl

/-- The Direct3D calls of the map loops over pairwise different `(Slice, Mip)` pairs: they
are appended to the call list, `AllMapped` is cleared exactly when one of them reports
`DXGI_ERROR_WAS_STILL_DRAWING`, and each is a `Map` of a visited subresource that was not
mapped when the loops began, whose record at the end is what the call handed back. -/
theorem mapLoop_calls (env : RenderThreadEnv) (p : Nat) (L : List (Nat × Nat)) (hL : L.Nodup)
    (st : TextureUploaderD3D11 × Bool) :
    ∃ new, (mapLoop env p L st).1.d3d11Calls = st.1.d3d11Calls ++ new ∧
      (mapLoop env p L st).2 = (st.2 && !stillDrawing new) ∧
      ∀ c ∈ new, ∃ x ∈ L, ∃ hr,
        c = D3D11Call.Map (st.1.buffers p).m_pStagingTexture
          (D3D11CalcSubresource x.2 x.1 (st.1.buffers p).m_Desc.MipLevels) hr ∧
        (st.1.buffers p).IsMapped x.2 x.1 = false ∧
        ((mapLoop env p L st).1.buffers p).m_MappedData x.2 x.1 = mappedDataOf hr := by
  induction L generalizing st with
  | nil => exact ⟨[], by simp [mapLoop], by simp [mapLoop, stillDrawing], by simp⟩
  | cons x L ih =>
    rw [List.nodup_cons] at hL
    obtain ⟨new, hcalls, hflag, hnew⟩ := ih hL.2 (mapSubresource env p x.1 x.2 st)
    have hfr := mapSubresource_frame env p x.1 x.2 st
    rw [mapLoop_cons]
    rcases mapSubresource_cases env p x.1 x.2 st with ⟨_, he⟩ | ⟨hu, hr, hc, hf, hd⟩
    · rw [he] at hcalls hflag hnew ⊢
      refine ⟨new, hcalls, hflag, fun c hc => ?_⟩
      obtain ⟨y, hy, r, h1, h2, h3⟩ := hnew c hc
      exact ⟨y, List.mem_cons_of_mem _ hy, r, h1, h2, h3⟩
    · refine ⟨D3D11Call.Map (st.1.buffers p).m_pStagingTexture
        (D3D11CalcSubresource x.2 x.1 (st.1.buffers p).m_Desc.MipLevels) hr :: new, ?_, ?_, ?_⟩
      · rw [hcalls, hc, List.append_assoc, List.singleton_append]
      · rw [hflag, hf, stillDrawing_cons _ new, Bool.not_or, Bool.and_assoc]
      · intro c hcm
        rcases List.mem_cons.mp hcm with hcm | hcm
        · refine ⟨x, List.mem_cons_self _ _, hr, hcm, hu, ?_⟩
          rw [mapLoop_untouched env p L _ p x.2 x.1 (Or.inr hL.1), hd]
          simp
        · obtain ⟨y, hy, r, h1, h2, h3⟩ := hnew c hcm
          refine ⟨y, List.mem_cons_of_mem _ hy, r, ?_, ?_, h3⟩
          · rw [h1, hfr.tex, hfr.desc]
          · by_cases hxy : y.2 = x.2 ∧ y.1 = x.1
            · exact absurd (by rw [Prod.ext hxy.2 hxy.1] at hy; exact hy) hL.1
            · simp only [UploadBufferD3D11.IsMapped] at h2 ⊢
              rw [hd] at h2
              simpa [hxy] using h2

theorem stillDrawing_iff (calls : List D3D11Call) :
    stillDrawing calls = true ↔
      ∃ c ∈ calls, ∃ r n, c = D3D11Call.Map r n MapHResult.DXGI_ERROR_WAS_STILL_DRAWING := by
  unfold stillDrawing
  rw [List.any_eq_true]
  constructor
  · rintro ⟨c, hc, h⟩
    refine ⟨c, hc, ?_⟩
    split at h
    · exact ⟨_, _, rfl⟩
    · cases h
  · rintro ⟨c, hc, r, n, rfl⟩
    exact ⟨_, hc, rfl⟩

/-- The cases `Map` and `MapAndCache` of the pump, told by the Direct3D calls made. -/
theorem processMap_spec (env : RenderThreadEnv) (op : PendingBufferOperation)
    (s : TextureUploaderD3D11) :
    ∃ new, (processMap env op s).d3d11Calls = s.d3d11Calls ++ new ∧
      (∀ c ∈ new, ∃ x ∈ subresources (s.buffers op.pUploadBuffer).m_Desc, ∃ hr,
        c = D3D11Call.Map (s.buffers op.pUploadBuffer).m_pStagingTexture
          (D3D11CalcSubresource x.2 x.1 (s.buffers op.pUploadBuffer).m_Desc.MipLevels) hr ∧
        (s.buffers op.pUploadBuffer).IsMapped x.2 x.1 = false ∧
        ((processMap env op s).buffers op.pUploadBuffer).m_MappedData x.2 x.1 =
          mappedDataOf hr) ∧
      (∀ q m sl d, (s.buffers q).m_MappedData m sl = some d →
        ((processMap env op s).buffers q).m_MappedData m sl = some d) ∧
      (stillDrawing new = false →
        ((processMap env op s).buffers op.pUploadBuffer).m_BufferMappedSignal.IsTriggered = true ∧
        (processMap env op s).m_PendingOperations = s.m_PendingOperations ∧
        (processMap env op s).m_UploadBufferCache =
          if op.operation = Operation.MapAndCache then
            cacheEmplaceBack s.m_UploadBufferCache (s.buffers op.pUploadBuffer).m_Desc
              op.pUploadBuffer
          else s.m_UploadBufferCache) ∧
      (stillDrawing new = true →
        (processMap env op s).m_PendingOperations =
          s.m_PendingOperations ++ [⟨op.operation, op.pUploadBuffer, 0, 0, 0, 0⟩] ∧
        (processMap env op s).m_UploadBufferCache = s.m_UploadBufferCache ∧
        ∀ q, ((processMap env op s).buffers q).m_BufferMappedSignal =
          (s.buffers q).m_BufferMappedSignal) := by
  obtain ⟨new, hcalls, hflag, hnew⟩ := mapLoop_calls env op.pUploadBuffer
    (subresources (s.buffers op.pUploadBuffer).m_Desc) (nodup_subresources _) (s, true)
  have hmono := mapLoop_mono env op.pUploadBuffer
    (subresources (s.buffers op.pUploadBuffer).m_Desc) (s, true)
  have hfr := mapLoop_frame env op.pUploadBuffer
    (subresources (s.buffers op.pUploadBuffer).m_Desc) (s, true)
  rw [← mapAllSubresources_eq] at hcalls hflag hnew hmono hfr
  simp only [Bool.true_and] at hflag
  have hdata : ∀ q, ((processMap env op s).buffers q).m_MappedData =
      ((mapAllSubresources env op.pUploadBuffer s).1.buffers q).m_MappedData := by
    intro q
    unfold processMap
    simp only
    split
    · split <;> simp only [setBuffer, UploadBufferD3D11.SignalMapped] <;> split <;> simp_all
    · rfl
  have hc : (processMap env op s).d3d11Calls =
      (mapAllSubresources env op.pUploadBuffer s).1.d3d11Calls := by
    unfold processMap
    simp only
    split
    · split <;> rfl
    · rfl
  refine ⟨new, hc.trans hcalls, ?_, ?_, ?_, ?_⟩
  · intro c hcm
    obtain ⟨x, hx, hr, h1, h2, h3⟩ := hnew c hcm
    exact ⟨x, hx, hr, h1, h2, by rw [hdata]; exact h3⟩
  · intro q m sl d h
    rw [hdata]
    exact hmono q m sl d h
  · intro hsd
    rw [hsd] at hflag
    unfold processMap
    simp only [hflag, Bool.not_false, if_true]
    split
    · refine ⟨by simp [setBuffer, UploadBufferD3D11.SignalMapped, Signal.Trigger,
        Signal.IsTriggered], hfr.pending, ?_⟩
      simp only [setBuffer, if_true, UploadBufferD3D11.SignalMapped]
      rw [hfr.cache, hfr.desc]
    · exact ⟨by simp [setBuffer, UploadBufferD3D11.SignalMapped, Signal.Trigger,
        Signal.IsTriggered], hfr.pending, hfr.cache⟩
  · intro hsd
    rw [hsd] at hflag
    unfold processMap
    simp only [hflag, Bool.not_true, Bool.false_eq_true, if_false]
    exact ⟨by simp only [EnqueMap]; rw [hfr.pending], hfr.cache, hfr.mappedSignal⟩

theorem processOperation_of_map (env : RenderThreadEnv) (op : PendingBufferOperation)
    (s : TextureUploaderD3D11)
    (hop : op.operation = Operation.Map ∨ op.operation = Operation.MapAndCache) :
    processOperation env op s = some (processMap env op s) := by
  unfold processOperation
  rcases hop with h | h <;> rw [h]

theorem drop_calls_append (l new : List D3D11Call) : (l ++ new).drop l.length = new :=
  List.drop_left l new

/-- C17: when the pump processes a `Map` or `MapAndCache` operation and every (mip, slice)
of the buffer is recorded as mapped afterwards, the buffer's mapped signal is triggered, the
pending queue is left as it was (the operation is not enqueued again), and the buffer is
appended to the idle-cache deque of its descriptor when the operation is `MapAndCache`,
while the cache is left as it was when the operation is `Map`. -/
theorem processOperation_all_mapped (env : RenderThreadEnv) (op : PendingBufferOperation)
    (s : TextureUploaderD3D11)
    (hop : op.operation = Operation.Map ∨ op.operation = Operation.MapAndCache)
    (hall : ∀ Slice < (s.buffers op.pUploadBuffer).m_Desc.ArraySize,
      ∀ Mip < (s.buffers op.pUploadBuffer).m_Desc.MipLevels,
        ((processMap env op s).buffers op.pUploadBuffer).IsMapped Mip Slice = true) :
    processOperation env op s = some (processMap env op s) ∧
    ((processMap env op s).buffers op.pUploadBuffer).m_BufferMappedSignal.IsTriggered = true ∧
    (processMap env op s).m_PendingOperations = s.m_PendingOperations ∧
    (op.operation = Operation.MapAndCache →
      (processMap env op s).m_UploadBufferCache =
        cacheEmplaceBack s.m_UploadBufferCache (s.buffers op.pUploadBuffer).m_Desc
          op.pUploadBuffer ∧
      idleDeque (processMap env op s).m_UploadBufferCache (s.buffers op.pUploadBuffer).m_Desc =
        idleDeque s.m_UploadBufferCache (s.buffers op.pUploadBuffer).m_Desc ++
          [op.pUploadBuffer] ∧
      ∀ D, D ≠ (s.buffers op.pUploadBuffer).m_Desc →
        idleDeque (processMap env op s).m_UploadBufferCache D =
          idleDeque s.m_UploadBufferCache D) ∧
    (op.operation = Operation.Map →
      (processMap env op s).m_UploadBufferCache = s.m_UploadBufferCache) := by
  obtain ⟨new, _, hnew, _, hok, _⟩ := processMap_spec env op s
  have hsd : stillDrawing new = false := by
    cases h : stillDrawing new
    · rfl
    · obtain ⟨c, hc, r, n, rfl⟩ := (stillDrawing_iff new).mp h
      obtain ⟨x, hx, hr, h1, _, h3⟩ := hnew _ hc
      rw [mem_subresources] at hx
      have hm := hall x.1 hx.1 x.2 hx.2
      simp only [D3D11Call.Map.injEq] at h1
      rw [← h1.2.2] at h3
      simp [UploadBufferD3D11.IsMapped, h3, mappedDataOf] at hm
  obtain ⟨h1, h2, h3⟩ := hok hsd
  refine ⟨processOperation_of_map env op s hop, h1, h2, ?_, ?_⟩
  · intro hk
    rw [if_pos hk] at h3
    refine ⟨h3, ?_, ?_⟩
    · rw [h3]
      simp only [idleDeque, cacheFind_emplaceBack_same, Option.getD_some]
    · intro D hD
      rw [h3]
      exact cacheFind_emplaceBack_other _ _ D _ hD
  · intro hk
    rw [if_neg (by rw [hk]; decide)] at h3
    exact h3

/-- Witness for C17: every map of the recycled two-mip, two-slice buffer `0` succeeds; the
buffer is signalled, nothing is enqueued, and the buffer is the one idle buffer of its
descriptor. -/
theorem processOperation_all_mapped_witness :
    ((processMap exampleEnv exampleRecycleOp exampleArrayInWork).buffers 0).m_BufferMappedSignal.IsTriggered
      = true ∧
    (processMap exampleEnv exampleRecycleOp exampleArrayInWork).m_PendingOperations = [] ∧
    (processMap exampleEnv exampleRecycleOp exampleArrayInWork).m_UploadBufferCache =
      [(exampleArrayDesc, [0])] :=
  have h := processOperation_all_mapped exampleEnv exampleRecycleOp exampleArrayInWork
    (Or.inr rfl) (by decide)
  ⟨h.2.1, h.2.2.1, (h.2.2.2.1 rfl).1⟩

/-- C18: when the pump processes a `Map` or `MapAndCache` operation and at least one of its
`Map` calls reports `DXGI_ERROR_WAS_STILL_DRAWING`, it appends exactly one operation of the
same kind for the same buffer to the pending queue, leaves the mapped signal of every
buffer and the idle cache as they were, and keeps every record of mapped data; each `Map`
call it makes is for a (mip, slice) of the buffer that was not mapped when the operation
began, and the record of that subresource afterwards is what the call handed back. The same
holds of the calls made when the enqueued operation is processed later, in any state. -/
theorem processOperation_would_block (env : RenderThreadEnv) (op : PendingBufferOperation)
    (s : TextureUploaderD3D11)
    (hop : op.operation = Operation.Map ∨ op.operation = Operation.MapAndCache)
    (hwb : stillDrawing ((processMap env op s).d3d11Calls.drop s.d3d11Calls.length) = true) :
    processOperation env op s = some (processMap env op s) ∧
    (processMap env op s).m_PendingOperations =
      s.m_PendingOperations ++ [⟨op.operation, op.pUploadBuffer, 0, 0, 0, 0⟩] ∧
    (∀ q, ((processMap env op s).buffers q).m_BufferMappedSignal =
      (s.buffers q).m_BufferMappedSignal) ∧
    (processMap env op s).m_UploadBufferCache = s.m_UploadBufferCache ∧
    (∀ q Mip Slice MappedData, (s.buffers q).m_MappedData Mip Slice = some MappedData →
      ((processMap env op s).buffers q).m_MappedData Mip Slice = some MappedData) ∧
    (∀ c ∈ (processMap env op s).d3d11Calls.drop s.d3d11Calls.length,
      ∃ Slice < (s.buffers op.pUploadBuffer).m_Desc.ArraySize,
      ∃ Mip < (s.buffers op.pUploadBuffer).m_Desc.MipLevels, ∃ hr,
        c = D3D11Call.Map (s.buffers op.pUploadBuffer).m_pStagingTexture
          (D3D11CalcSubresource Mip Slice (s.buffers op.pUploadBuffer).m_Desc.MipLevels) hr ∧
        (s.buffers op.pUploadBuffer).IsMapped Mip Slice = false ∧
        ((processMap env op s).buffers op.pUploadBuffer).m_MappedData Mip Slice =
          mappedDataOf hr) ∧
    (∀ (envNext : RenderThreadEnv) (u : TextureUploaderD3D11),
      ∀ c ∈ (processMap envNext ⟨op.operation, op.pUploadBuffer, 0, 0, 0, 0⟩ u).d3d11Calls.drop
          u.d3d11Calls.length,
      ∃ Slice < (u.buffers op.pUploadBuffer).m_Desc.ArraySize,
      ∃ Mip < (u.buffers op.pUploadBuffer).m_Desc.MipLevels, ∃ hr,
        c = D3D11Call.Map (u.buffers op.pUploadBuffer).m_pStagingTexture
          (D3D11CalcSubresource Mip Slice (u.buffers op.pUploadBuffer).m_Desc.MipLevels) hr ∧
        (u.buffers op.pUploadBuffer).IsMapped Mip Slice = false) := by
  obtain ⟨new, hcalls, hnew, hmono, _, hbusy⟩ := processMap_spec env op s
  rw [hcalls, drop_calls_append] at hwb ⊢
  obtain ⟨h1, h2, h3⟩ := hbusy hwb
  refine ⟨processOperation_of_map env op s hop, h1, h3, h2, hmono, ?_, ?_⟩
  · intro c hc
    obtain ⟨x, hx, hr, e1, e2, e3⟩ := hnew c hc
    rw [mem_subresources] at hx
    exact ⟨x.1, hx.1, x.2, hx.2, hr, e1, e2, e3⟩
  · intro envNext u c hc
    obtain ⟨new2, hcalls2, hnew2, _, _, _⟩ :=
      processMap_spec envNext ⟨op.operation, op.pUploadBuffer, 0, 0, 0, 0⟩ u
    rw [hcalls2, drop_calls_append] at hc
    obtain ⟨x, hx, hr, e1, e2, _⟩ := hnew2 c hc
    rw [mem_subresources] at hx
    exact ⟨x.1, hx.1, x.2, hx.2, hr, e1, e2⟩

/-- Witness for C18: of the recycled two-mip, two-slice buffer `0`, mip 0 of both slices
maps and mip 1 reports `DXGI_ERROR_WAS_STILL_DRAWING`; the operation is enqueued once more,
the cache stays empty, the signal stays reset. -/
theorem processOperation_would_block_witness :
    (processMap exampleBusyEnv exampleRecycleOp exampleArrayInWork).m_PendingOperations =
      [exampleRecycleOp] ∧
    ((processMap exampleBusyEnv exampleRecycleOp exampleArrayInWork).buffers 0).m_BufferMappedSignal
      = ⟨false⟩ ∧
    (processMap exampleBusyEnv exampleRecycleOp exampleArrayInWork).m_UploadBufferCache = [] :=
  have h := processOperation_would_block exampleBusyEnv exampleRecycleOp exampleArrayInWork
    (Or.inr rfl) (by decide)
  ⟨h.2.1, (h.2.2.1 0).trans (by decide), h.2.2.2.1⟩

/-- C19 (the code at the failing input): a `Map` that fails with a result other than
`DXGI_ERROR_WAS_STILL_DRAWING` is written to the log and leaves `AllMapped` set. With such
a failure `AllocateUploadBuffer` of a one-subresource buffer returns the buffer with its
mapped signal triggered and its only subresource not mapped, and nothing is enqueued; a
recycled two-mip, two-slice buffer whose four maps fail is signalled and put into the idle
cache with no subresource mapped. -/
theorem hard_map_failure_signals_mapped :
    (AllocateUploadBuffer init exampleDesc (some 100) [exampleFailEnv]).toOption.map
        (fun r => (r.1, (r.2.buffers 0).DbgIsMapped, (r.2.buffers 0).IsMapped 0 0,
          r.2.debugLog, r.2.m_PendingOperations, r.2.d3d11Calls)) =
      some (some 0, true, false,
        [DebugMessageSeverity.Info, DebugMessageSeverity.Error], [],
        [D3D11Call.CreateTexture2D exampleDesc (some 100),
          D3D11Call.Map 100 0 (MapHResult.E_FAIL 2289696773)]) ∧
    processOperation exampleFailEnv exampleRecycleOp exampleArrayInWork =
      some (processMap exampleFailEnv exampleRecycleOp exampleArrayInWork) ∧
    (processMap exampleFailEnv exampleRecycleOp exampleArrayInWork).m_UploadBufferCache =
      [(exampleArrayDesc, [0])] ∧
    ((processMap exampleFailEnv exampleRecycleOp exampleArrayInWork).buffers 0).DbgIsMapped
      = true ∧
    (processMap exampleFailEnv exampleRecycleOp exampleArrayInWork).m_PendingOperations = [] ∧
    (∀ Mip < 2, ∀ Slice < 2,
      ((processMap exampleFailEnv exampleRecycleOp exampleArrayInWork).buffers 0).IsMapped
        Mip Slice = false) := by
  refine ⟨rfl, rfl, by decide, by decide, by decide, by decide⟩

/-! ## Order of the calls of a `Copy` operation -/

theorem subresource_lt (Mip Slice M A : Nat) (hM : Mip < M) (hS : Slice < A)
    (hfit : M * A < 4294967296) : D3D11CalcSubresource Mip Slice M < M * A := by
  have h1 : (Slice + 1) * M ≤ A * M := Nat.mul_le_mul_right M hS
  rw [Nat.succ_mul] at h1
  have h2 : A * M = M * A := Nat.mul_comm A M
  unfold D3D11CalcSubresource u32
  rw [Nat.mod_eq_of_lt (by omega)]
  omega

theorem mem_copyCalls (b : UploadBufferD3D11) (op : PendingBufferOperation) (c : D3D11Call) :
    c ∈ copyCalls b op ↔
      ∃ Slice < b.m_Desc.ArraySize, ∃ Mip < b.m_Desc.MipLevels, c = copyCall b op Slice Mip := by
  rw [copyCalls_eq]
  simp only [List.mem_flatMap, List.mem_range, List.mem_map]
  constructor
  · rintro ⟨Slice, hS, Mip, hM, rfl⟩
    exact ⟨Slice, hS, Mip, hM, rfl⟩
  · rintro ⟨Slice, hS, Mip, hM, rfl⟩
    exact ⟨Slice, hS, Mip, hM, rfl⟩

theorem count_unmap_unmapCalls (b : UploadBufferD3D11) (n : Nat)
    (hn : n < u32 (b.m_Desc.MipLevels * b.m_Desc.ArraySize)) :
    (unmapCalls b).count (D3D11Call.Unmap b.m_pStagingTexture n) = 1 := by
  unfold unmapCalls
  have hinj : Function.Injective fun Subres => D3D11Call.Unmap b.m_pStagingTexture Subres := by
    intro x y h
    simpa using h
  rw [List.count_map_of_injective _ _ hinj]
  exact List.count_eq_one_of_mem (List.nodup_range _) (List.mem_range.mpr hn)

theorem count_unmap_copyCalls (b : UploadBufferD3D11) (op : PendingBufferOperation) (r n : Nat) :
    (copyCalls b op).count (D3D11Call.Unmap r n) = 0 := by
  apply List.count_eq_zero_of_not_mem
  intro h
  obtain ⟨_, _, _, _, hc⟩ := (mem_copyCalls b op _).mp h
  simp [copyCall] at hc

theorem processCopy_eq_issueCopyCalls (env : RenderThreadEnv) (op : PendingBufferOperation)
    (s : TextureUploaderD3D11) :
    processCopy env op s = (issueCopyCalls env op s).map fun s1 =>
      s1.setBuffer op.pUploadBuffer (s1.buffers op.pUploadBuffer).SignalCopyScheduled := by
  unfold processCopy issueCopyCalls
  simp only
  split <;> rfl

/-- C20: when the pump processes a `Copy` operation for a buffer whose subresource count
`MipLevels * ArraySize` fits in `Uint32`, the Direct3D calls it makes are the `Unmap` calls of
the indices `0, 1, ..., MipLevels * ArraySize - 1` of the staging texture, each once,
followed by the `CopySubresourceRegion` calls; no other `Unmap` is made, every copy reads a
source subresource of the staging texture that is among the unmapped ones, and the
copy-scheduled signal is triggered as the last step, in a state in which all these calls
have been made. -/
theorem processOperation_copy_order (env : RenderThreadEnv) (op : PendingBufferOperation)
    (s t : TextureUploaderD3D11) (hop : op.operation = Operation.Copy)
    (ht : processOperation env op s = some t)
    (hfit : (s.buffers op.pUploadBuffer).m_Desc.MipLevels *
      (s.buffers op.pUploadBuffer).m_Desc.ArraySize < 4294967296) :
    t.d3d11Calls.drop s.d3d11Calls.length =
      unmapCalls (s.buffers op.pUploadBuffer) ++ copyCalls (s.buffers op.pUploadBuffer) op ∧
    unmapCalls (s.buffers op.pUploadBuffer) =
      (List.range ((s.buffers op.pUploadBuffer).m_Desc.MipLevels *
        (s.buffers op.pUploadBuffer).m_Desc.ArraySize)).map
        (fun Subres => D3D11Call.Unmap (s.buffers op.pUploadBuffer).m_pStagingTexture Subres) ∧
    (∀ n < (s.buffers op.pUploadBuffer).m_Desc.MipLevels *
        (s.buffers op.pUploadBuffer).m_Desc.ArraySize,
      (t.d3d11Calls.drop s.d3d11Calls.length).count
        (D3D11Call.Unmap (s.buffers op.pUploadBuffer).m_pStagingTexture n) = 1) ∧
    (∀ r n, D3D11Call.Unmap r n ∈ t.d3d11Calls.drop s.d3d11Calls.length →
      r = (s.buffers op.pUploadBuffer).m_pStagingTexture ∧
      n < (s.buffers op.pUploadBuffer).m_Desc.MipLevels *
        (s.buffers op.pUploadBuffer).m_Desc.ArraySize) ∧
    (∀ c ∈ copyCalls (s.buffers op.pUploadBuffer) op, ∃ pDst DstSubres SrcSubres,
      c = D3D11Call.CopySubresourceRegion pDst DstSubres
        (s.buffers op.pUploadBuffer).m_pStagingTexture SrcSubres ∧
      SrcSubres < (s.buffers op.pUploadBuffer).m_Desc.MipLevels *
        (s.buffers op.pUploadBuffer).m_Desc.ArraySize ∧
      D3D11Call.Unmap (s.buffers op.pUploadBuffer).m_pStagingTexture SrcSubres ∈
        unmapCalls (s.buffers op.pUploadBuffer)) ∧
    ∃ s1, issueCopyCalls env op s = some s1 ∧
      s1.d3d11Calls = t.d3d11Calls ∧
      s1.buffers = s.buffers ∧
      t = s1.setBuffer op.pUploadBuffer (s1.buffers op.pUploadBuffer).SignalCopyScheduled ∧
      (t.buffers op.pUploadBuffer).DbgIsCopyScheduled = true := by
  have hp : processCopy env op s = some t := by
    unfold processOperation at ht
    rw [hop] at ht
    exact ht
  have hu : u32 ((s.buffers op.pUploadBuffer).m_Desc.MipLevels *
      (s.buffers op.pUploadBuffer).m_Desc.ArraySize) =
      (s.buffers op.pUploadBuffer).m_Desc.MipLevels *
        (s.buffers op.pUploadBuffer).m_Desc.ArraySize := Nat.mod_eq_of_lt hfit
  have hun : unmapCalls (s.buffers op.pUploadBuffer) =
      (List.range ((s.buffers op.pUploadBuffer).m_Desc.MipLevels *
        (s.buffers op.pUploadBuffer).m_Desc.ArraySize)).map
        (fun Subres => D3D11Call.Unmap (s.buffers op.pUploadBuffer).m_pStagingTexture Subres) := by
    unfold unmapCalls
    rw [hu]
  have hcalls : t.d3d11Calls.drop s.d3d11Calls.length =
      unmapCalls (s.buffers op.pUploadBuffer) ++ copyCalls (s.buffers op.pUploadBuffer) op := by
    rw [(processCopy_eq env op s t hp).1, List.append_assoc, drop_calls_append]
  refine ⟨hcalls, hun, ?_, ?_, ?_, ?_⟩
  · intro n hn
    rw [hcalls, List.count_append, count_unmap_copyCalls,
      count_unmap_unmapCalls _ n (by rw [hu]; exact hn)]
  · intro r n hmem
    rw [hcalls, List.mem_append] at hmem
    rcases hmem with hmem | hmem
    · rw [hun] at hmem
      simp only [List.mem_map, List.mem_range, D3D11Call.Unmap.injEq] at hmem
      obtain ⟨k, hk, h1, h2⟩ := hmem
      exact ⟨h1.symm, h2 ▸ hk⟩
    · have := count_unmap_copyCalls (s.buffers op.pUploadBuffer) op r n
      rw [List.count_eq_zero] at this
      exact absurd hmem this
  · intro c hc
    obtain ⟨Slice, hS, Mip, hM, rfl⟩ := (mem_copyCalls _ op c).mp hc
    have hlt := subresource_lt Mip Slice _ _ hM hS hfit
    refine ⟨_, _, _, rfl, hlt, ?_⟩
    rw [hun]
    exact List.mem_map.mpr ⟨_, List.mem_range.mpr hlt, rfl⟩
  · rw [processCopy_eq_issueCopyCalls] at hp
    cases hi : issueCopyCalls env op s with
    | none => rw [hi] at hp; simp at hp
    | some s1 =>
      rw [hi] at hp
      simp only [Option.map_some', Option.some.injEq] at hp
      refine ⟨s1, rfl, ?_, ?_, hp.symm, (processCopy_eq env op s t
        (by rw [processCopy_eq_issueCopyCalls, hi]; simp [hp])).2⟩
      · rw [← hp]
        rfl
      · unfold issueCopyCalls at hi
        simp only at hi
        split at hi
        · simp at hi
        · simp only [Option.some.injEq] at hi
          rw [← hi]

/-- Witness for C20: the copy from the two-mip, two-slice buffer `0`: four unmaps, then four
copies. -/
theorem processOperation_copy_order_witness :
    processOperation exampleEnv exampleCopyOp exampleArrayAcquired = some exampleArrayCopied ∧
    exampleArrayCopied.d3d11Calls.drop exampleArrayAcquired.d3d11Calls.length =
      [D3D11Call.Unmap 100 0, D3D11Call.Unmap 100 1, D3D11Call.Unmap 100 2,
        D3D11Call.Unmap 100 3,
        D3D11Call.CopySubresourceRegion 200 16 100 0, D3D11Call.CopySubresourceRegion 200 17 100 1,
        D3D11Call.CopySubresourceRegion 200 21 100 2,
        D3D11Call.CopySubresourceRegion 200 22 100 3] ∧
    (exampleArrayCopied.buffers 0).DbgIsCopyScheduled = true :=
  have h := processOperation_copy_order exampleEnv exampleCopyOp exampleArrayAcquired
    exampleArrayCopied rfl rfl (by decide)
  ⟨rfl, h.1.trans (by decide), by
    obtain ⟨_, _, _, _, _, h5⟩ := h.2.2.2.2.2
    exact h5⟩

/-! ## `AllocateUploadBuffer` when the staging texture cannot be created -/

/-- C22: when the idle cache holds no buffer for the descriptor and `CreateTexture2D` fails,
`AllocateUploadBuffer` returns at once, whatever the render thread does, with `*ppBuffer`
null; it has made the one `CreateTexture2D` call and written one error message, and the
pending queue, the working queue, the idle cache and all buffer objects are as before. -/
theorem AllocateUploadBuffer_create_fails (s : TextureUploaderD3D11) (Desc : UploadBufferDesc)
    (pumps : List RenderThreadEnv) (hidle : idleDeque s.m_UploadBufferCache Desc = []) :
    ∃ t, AllocateUploadBuffer s Desc none pumps = Run.returned (none, t) ∧
      t.m_PendingOperations = s.m_PendingOperations ∧
      t.m_InWorkOperations = s.m_InWorkOperations ∧
      t.m_UploadBufferCache = s.m_UploadBufferCache ∧
      t.buffers = s.buffers ∧ t.nextBuffer = s.nextBuffer ∧
      t.d3d11Calls = s.d3d11Calls ++ [D3D11Call.CreateTexture2D Desc none] ∧
      t.debugLog = s.debugLog ++ [DebugMessageSeverity.Error] := by
  have hc : (if s.m_UploadBufferCache.isEmpty = true then (none : Option Nat)
      else
        match cacheFind s.m_UploadBufferCache Desc with
        | none => none
        | some Deque => Deque.head?) = none := by
    split
    · rfl
    · unfold idleDeque at hidle
      cases hf : cacheFind s.m_UploadBufferCache Desc with
      | none => rfl
      | some Deque =>
        rw [hf] at hidle
        simp only [Option.getD_some] at hidle
        rw [hidle]
        rfl
  unfold AllocateUploadBuffer
  simp only [hc]
  exact ⟨_, rfl, rfl, rfl, rfl, rfl, rfl, rfl, rfl⟩

/-- Witness for C22: on a new uploader the cache is empty; the failed allocation returns
null and leaves the queue and the cache empty. -/
theorem AllocateUploadBuffer_create_fails_witness :
    ∃ t, AllocateUploadBuffer init exampleDesc none [exampleEnv] = Run.returned (none, t) ∧
      t.m_PendingOperations = [] ∧ t.m_UploadBufferCache = [] := by
  obtain ⟨t, h1, h2, _, h3, _⟩ :=
    AllocateUploadBuffer_create_fails init exampleDesc [exampleEnv] rfl
  exact ⟨t, h1, h2, h3⟩

/-! ## One cycle of the render thread -/

/-- One operation of the working queue keeps everything that is in the pending queue and
appends at most the operation itself, to be tried again; a `Copy` is never appended. -/
theorem processOperation_enqueuedAgain (env : RenderThreadEnv) (op : PendingBufferOperation)
    (s t : TextureUploaderD3D11) (ht : processOperation env op s = some t) :
    ∃ again, t.m_PendingOperations = s.m_PendingOperations ++ again ∧
      (again = [] ∨ (again = [enqueuedAgain op] ∧ op.operation ≠ Operation.Copy)) ∧
      t.m_InWorkOperations = s.m_InWorkOperations := by
  obtain ⟨hp, hw⟩ := processOperation_pending env op s t ht
  by_cases hc : op.operation = Operation.Copy
  · refine ⟨[], ?_, Or.inl rfl, hw⟩
    unfold processOperation at ht
    rw [hc] at ht
    unfold processCopy at ht
    simp only at ht
    split at ht
    · simp at ht
    · simp only [Option.some.injEq] at ht
      subst ht
      simp [setBuffer]
  · rcases hp with hp | hp
    · exact ⟨[], by simp [hp], Or.inl rfl, hw⟩
    · exact ⟨[enqueuedAgain op], hp, Or.inr ⟨rfl, hc⟩, hw⟩

theorem processOperations_eq_foldlM (env : RenderThreadEnv) (ops : List PendingBufferOperation)
    (s : TextureUploaderD3D11) :
    processOperations env ops s = ops.foldlM (fun st op => processOperation env op st) s := by
  induction ops generalizing s with
  | nil => rfl
  | cons op ops ih =>
    rw [List.foldlM_cons]
    unfold processOperations
    cases h : processOperation env op s with
    | none => rfl
    | some s1 => exact ih s1

theorem processOperations_enqueuedAgain (env : RenderThreadEnv)
    (ops : List PendingBufferOperation) (s t : TextureUploaderD3D11)
    (ht : processOperations env ops s = some t) :
    ∃ again, t.m_PendingOperations = s.m_PendingOperations ++ again ∧
      again.Sublist (ops.map enqueuedAgain) ∧
      (∀ op ∈ again, op.operation ≠ Operation.Copy) ∧
      t.m_InWorkOperations = s.m_InWorkOperations := by
  induction ops generalizing s with
  | nil =>
    simp only [processOperations, Option.some.injEq] at ht
    subst ht
    exact ⟨[], by simp, List.Sublist.refl _, by simp, rfl⟩
  | cons op ops ih =>
    unfold processOperations at ht
    split at ht
    · simp at ht
    · rename_i s1 hs1
      obtain ⟨a1, h1, hor, hw1⟩ := processOperation_enqueuedAgain env op s s1 hs1
      obtain ⟨a2, h2, hsub, hne, hw2⟩ := ih s1 ht
      refine ⟨a1 ++ a2, by rw [h2, h1, List.append_assoc], ?_, ?_, hw2.trans hw1⟩
      · rw [List.map_cons]
        rcases hor with hor | ⟨hor, _⟩
        · rw [hor, List.nil_append]
          exact List.Sublist.cons _ hsub
        · rw [hor, List.singleton_append]
          exact List.Sublist.cons₂ _ hsub
      · intro o ho
        rcases List.mem_append.mp ho with ho | ho
        · rcases hor with hor | ⟨hor, hc⟩
          · rw [hor] at ho
            cases ho
          · rw [hor, List.mem_singleton] at ho
            rw [ho]
            exact hc
        · exact hne o ho

theorem Reachable.inWork_empty {s : TextureUploaderD3D11} (h : Reachable s) :
    s.m_InWorkOperations = [] :=
  h.once_map.1

theorem RenderThreadUpdate_eq_foldlM (s : TextureUploaderD3D11) (env : RenderThreadEnv)
    (hw : s.m_InWorkOperations = []) :
    RenderThreadUpdate s env =
      (s.m_PendingOperations.foldlM (fun st op => processOperation env op st)
        s.SwapMapQueues).map fun s2 => { s2 with m_InWorkOperations := [] } := by
  rw [← processOperations_eq_foldlM]
  unfold RenderThreadUpdate
  simp only
  split
  · rename_i he
    have he2 : s.m_PendingOperations = [] := by
      simpa [SwapMapQueues, List.isEmpty_iff] using he
    rw [he2]
    simp only [processOperations, Option.map_some', Option.some.injEq]
    cases s
    simp_all [SwapMapQueues]
  · have : s.SwapMapQueues.m_InWorkOperations = s.m_PendingOperations := rfl
    rw [this]
    cases processOperations env s.m_PendingOperations s.SwapMapQueues <;> rfl

theorem exampleRecycledFirst_reachable : Reachable exampleRecycledFirst :=
  Reachable.recycle 0 IDIGNORE exampleCopied_reachable (by decide) rfl

/-- C21: in every reachable state the working queue is empty, so `SwapMapQueues` leaves the
pending queue empty and the working queue holding what was pending. `RenderThreadUpdate`
then runs `processOperation` over exactly these operations, once each, in the order of the
queue, and clears the working queue: whenever it returns, the working queue is empty and
the pending queue holds the operations that were enqueued again, in order, none of them a
`Copy`. Each `processOperation` keeps whatever the pending queue holds and appends at most
the operation itself, so nothing enqueued during the cycle is processed or lost in it. -/
theorem RenderThreadUpdate_processes_snapshot (s : TextureUploaderD3D11) (h : Reachable s)
    (env : RenderThreadEnv) :
    s.m_InWorkOperations = [] ∧
    s.SwapMapQueues.m_PendingOperations = [] ∧
    s.SwapMapQueues.m_InWorkOperations = s.m_PendingOperations ∧
    RenderThreadUpdate s env =
      ((s.m_PendingOperations.foldlM (fun st op => processOperation env op st)
        s.SwapMapQueues).map fun s2 => { s2 with m_InWorkOperations := [] }) ∧
    (∀ t, RenderThreadUpdate s env = some t →
      t.m_InWorkOperations = [] ∧
      t.m_PendingOperations.Sublist (s.m_PendingOperations.map enqueuedAgain) ∧
      ∀ op ∈ t.m_PendingOperations, op.operation ≠ Operation.Copy) ∧
    (∀ (op : PendingBufferOperation) (u v : TextureUploaderD3D11),
      processOperation env op u = some v →
      ∃ again, v.m_PendingOperations = u.m_PendingOperations ++ again ∧
        (again = [] ∨ (again = [enqueuedAgain op] ∧ op.operation ≠ Operation.Copy)) ∧
        v.m_InWorkOperations = u.m_InWorkOperations) := by
  have hw := h.inWork_empty
  refine ⟨hw, hw, rfl, RenderThreadUpdate_eq_foldlM s env hw, ?_,
    fun op u v => processOperation_enqueuedAgain env op u v⟩
  intro t ht
  refine ⟨(RenderThreadUpdate_count env s t ht Operation.Map 0).2, ?_⟩
  unfold RenderThreadUpdate at ht
  simp only at ht
  split at ht
  · simp only [Option.some.injEq] at ht
    subst ht
    simp only [SwapMapQueues, hw]
    exact ⟨List.nil_sublist _, by simp⟩
  · split at ht
    · simp at ht
    · rename_i s2 hs2
      simp only [Option.some.injEq] at ht
      subst ht
      obtain ⟨again, h1, h2, h3, _⟩ := processOperations_enqueuedAgain env _ _ s2 hs2
      have hp : s.SwapMapQueues.m_PendingOperations = [] := hw
      rw [hp, List.nil_append] at h1
      simp only
      rw [h1]
      exact ⟨h2, h3⟩

/-- Witness for C21: the recycled buffer `0` is pending and its map reports
`DXGI_ERROR_WAS_STILL_DRAWING`: after the cycle the operation is pending again and the
working queue is empty. -/
theorem RenderThreadUpdate_processes_snapshot_witness :
    Reachable exampleRecycledFirst ∧
    exampleRecycledFirst.m_PendingOperations = [⟨Operation.MapAndCache, 0, 0, 0, 0, 0⟩] ∧
    exampleRecycledFirst.m_InWorkOperations = [] ∧
    (RenderThreadUpdate exampleRecycledFirst exampleStillDrawingEnv).map
        (fun t => (t.m_PendingOperations, t.m_InWorkOperations)) =
      some ([⟨Operation.MapAndCache, 0, 0, 0, 0, 0⟩], []) :=
  ⟨exampleRecycledFirst_reachable, by decide,
    (RenderThreadUpdate_processes_snapshot exampleRecycledFirst exampleRecycledFirst_reachable
      exampleStillDrawingEnv).1, by decide⟩

end TextureUploaderD3D11

end Diligent

namespace Diligent

namespace DynamicHeap

/-! ## Counting the ranges that contain a byte -/

theorem cover_nil (x : Nat) : cover [] x = 0 := rfl

theorem cover_cons (r : Range) (l : List Range) (x : Nat) :
    cover (r :: l) x = (if r.contains x then 1 else 0) + cover l x := by
  simp [cover]

theorem cover_append (l1 l2 : List Range) (x : Nat) :
    cover (l1 ++ l2) x = cover l1 x + cover l2 x := by
  simp [cover]

theorem cover_remainder (offset size x : Nat) :
    cover (remainder offset size) x = if offset ≤ x ∧ x < offset + size then 1 else 0 := by
  unfold remainder
  split
  · rename_i h
    subst h
    have : ¬ (offset ≤ x ∧ x < offset + 0) := by omega
    rw [if_neg this]
    rfl
  · simp [cover_cons, cover_nil, Range.contains]

theorem one_le_cover_of_mem (l : List Range) (o : Range) (x : Nat) (ho : o ∈ l)
    (hx : o.contains x) : 1 ≤ cover l x := by
  induction l with
  | nil => simp at ho
  | cons r l ih =>
    rw [cover_cons]
    rcases List.mem_cons.mp ho with h | h
    · subst h
      simp [hx]
    · have := ih h
      omega

theorem le_Align (offset alignment : Nat) : offset ≤ Align offset alignment := by
  unfold Align
  split
  · exact Nat.le_refl _
  · rename_i h
    have hpos : 0 < alignment := Nat.pos_of_ne_zero h
    have h1 := Nat.div_add_mod (offset + alignment - 1) alignment
    have h2 := Nat.mod_lt (offset + alignment - 1) hpos
    rw [Nat.mul_comm] at h1
    omega

/-- `allocateFrom` moves bytes from the free list to the returned range and loses none. -/
theorem allocateFrom_cover (l : List Range) (size alignment : Nat) (r : Range) (l' : List Range)
    (h : allocateFrom l size alignment = some (r, l')) (x : Nat) :
    cover l x = cover l' x + (if r.contains x then 1 else 0) := by
  induction l generalizing l' with
  | nil => simp [allocateFrom] at h
  | cons b rest ih =>
    unfold allocateFrom at h
    simp only at h
    split at h
    · rename_i hfit
      simp only [Option.some.injEq, Prod.mk.injEq] at h
      obtain ⟨hr, hl⟩ := h
      subst hr
      subst hl
      have hle := le_Align b.offset alignment
      rw [cover_append, cover_append, cover_remainder, cover_remainder, cover_cons]
      simp only [Range.contains]
      split <;> split <;> split <;> split <;> omega
    · split at h
      · simp at h
      · rename_i r0 l0 hrec
        simp only [Option.some.injEq, Prod.mk.injEq] at h
        obtain ⟨hr, hl⟩ := h
        subst hr
        subst hl
        rw [cover_cons, cover_cons, ih l0 hrec]
        omega

/-- `insertFree` adds exactly the bytes of the freed range to the free list. -/
theorem insertFree_cover (r : Range) (l : List Range) (x : Nat) :
    cover (insertFree r l) x = cover l x + (if r.contains x then 1 else 0) := by
  induction l generalizing r with
  | nil => simp [insertFree, cover_cons, cover_nil]
  | cons b rest ih =>
    unfold insertFree
    split
    · rename_i h
      rw [cover_cons, cover_cons]
      simp only [Range.contains]
      split <;> split <;> split <;> omega
    · split
      · rw [cover_cons, cover_cons]
        omega
      · split
        · rename_i h
          rw [ih, cover_cons]
          simp only [Range.contains]
          split <;> split <;> split <;> omega
        · rw [cover_cons, cover_cons, ih]
          omega

theorem cover_erase (l : List Range) (r : Range) (x : Nat) (h : r ∈ l) :
    cover (l.erase r) x + (if r.contains x then 1 else 0) = cover l x := by
  induction l with
  | nil => simp at h
  | cons a l ih =>
    by_cases ha : a = r
    · subst ha
      simp only [List.erase_cons_head, cover_cons]
      omega
    · have hmem : r ∈ l := by
        rcases List.mem_cons.mp h with h | h
        · exact absurd h.symm ha
        · exact h
      have hbeq : ¬ (a == r) = true := by simpa using ha
      rw [List.erase_cons_tail hbeq, cover_cons, cover_cons, ← ih hmem]
      omega

theorem takeHeld_cover (Blocks : List Allocation) (held held' : List Range)
    (h : takeHeld Blocks held = some held') (x : Nat) :
    cover held x = cover held' x + cover (Blocks.filterMap id) x := by
  induction Blocks generalizing held with
  | nil =>
    simp only [takeHeld, Option.some.injEq] at h
    subst h
    simp [cover_nil]
  | cons b Blocks ih =>
    cases b with
    | none => simp [takeHeld] at h
    | some r =>
      unfold takeHeld at h
      split at h
      · rename_i hmem
        have := ih (held.erase r) h
        have he := cover_erase held r x hmem
        simp only [List.filterMap_cons, id, cover_cons]
        omega
      · simp at h

/-! ## Stale holders -/

theorem moveInto_eq (moves : Nat) (h : StaleMasterBlock) (mgr : MasterBlockListBasedManager) :
    StaleMasterBlock.moveInto moves h mgr = (h, mgr) := by
  induction moves generalizing h mgr with
  | zero => rfl
  | succ n ih =>
    unfold StaleMasterBlock.moveInto
    simp only [StaleMasterBlock.moveConstruct, StaleMasterBlock.destructor]
    exact ih _ _

theorem SafeReleaseDeviceObject_eq (s : System) (h : StaleMasterBlock) (CmdQueueMask moves : Nat) :
    s.SafeReleaseDeviceObject h CmdQueueMask moves =
      { Mgr := s.Mgr, m_ReleaseQueue := s.m_ReleaseQueue ++ [(h, CmdQueueMask)] } := by
  simp [System.SafeReleaseDeviceObject, moveInto_eq]

theorem ReleaseMasterBlocks_eq (s : System) (this : Nat) (Blocks : List Allocation)
    (CmdQueueMask moves : Nat) :
    s.ReleaseMasterBlocks this Blocks CmdQueueMask moves =
      { Mgr := s.Mgr
        m_ReleaseQueue := s.m_ReleaseQueue ++
          Blocks.map fun Block => (StaleMasterBlock.create Block this, CmdQueueMask) } := by
  unfold System.ReleaseMasterBlocks
  induction Blocks generalizing s with
  | nil => simp
  | cons b Blocks ih =>
    rw [List.foldl_cons, ih, SafeReleaseDeviceObject_eq]
    simp

theorem staleRanges_append (q1 q2 : List (StaleMasterBlock × Nat)) :
    staleRanges (q1 ++ q2) = staleRanges q1 ++ staleRanges q2 := by
  simp [staleRanges]

theorem staleRanges_map_create (this CmdQueueMask : Nat) (Blocks : List Allocation) :
    staleRanges (Blocks.map fun Block => (StaleMasterBlock.create Block this, CmdQueueMask)) =
      Blocks.filterMap id := by
  induction Blocks with
  | nil => rfl
  | cons b Blocks ih =>
    simp only [staleRanges, List.map_cons, List.filterMap_cons] at ih ⊢
    cases b with
    | none => simpa [StaleMasterBlock.create] using ih
    | some r => simpa [StaleMasterBlock.create] using ih

/-- Bytes of a destroyed holder: what leaves the device queue is at most what enters the
free list. -/
theorem retire_cover (s : System) (i : Nat) (x : Nat) :
    cover (s.retire i).Mgr.m_AllocationsMgr.m_FreeBlocks x +
        cover (staleRanges (s.retire i).m_ReleaseQueue) x ≤
      cover s.Mgr.m_AllocationsMgr.m_FreeBlocks x + cover (staleRanges s.m_ReleaseQueue) x := by
  unfold System.retire
  have key : ∀ (q : List (StaleMasterBlock × Nat)) (i : Nat) (h : StaleMasterBlock × Nat),
      q[i]? = some h →
      cover (staleRanges (q.eraseIdx i)) x + cover (staleRanges [h]) x = cover (staleRanges q) x := by
    intro q
    induction q with
    | nil => intro i h hq; simp at hq
    | cons a q ih =>
      intro i h hq
      cases i with
      | zero =>
        simp only [List.getElem?_cons_zero, Option.some.injEq] at hq
        subst hq
        rw [List.eraseIdx_cons_zero, show a :: q = [a] ++ q from rfl, staleRanges_append,
          cover_append]
        omega
      | succ i =>
        simp only [List.getElem?_cons_succ] at hq
        have := ih i h hq
        rw [List.eraseIdx_cons_succ, show a :: q.eraseIdx i = [a] ++ q.eraseIdx i from rfl,
          show a :: q = [a] ++ q from rfl, staleRanges_append, staleRanges_append, cover_append,
          cover_append]
        omega
  split
  · exact Nat.le_refl _
  · rename_i h hq
    have hk := key s.m_ReleaseQueue i h hq
    unfold StaleMasterBlock.destructor
    split
    · dsimp only
      omega
    · cases hb : h.1.Block with
      | none =>
        dsimp only [VariableSizeAllocationsManager.Free]
        omega
      | some r =>
        dsimp only [VariableSizeAllocationsManager.Free]
        rw [insertFree_cover]
        have : staleRanges [h] = [r] := by simp [staleRanges, hb]
        rw [this, cover_cons, cover_nil] at hk
        omega

/-! ## Exclusive ownership of every byte -/

theorem AllocateMasterBlock_of_none (s : System) (SizeInBytes Alignment : Nat)
    (h : allocateFrom s.Mgr.m_AllocationsMgr.m_FreeBlocks SizeInBytes Alignment = none) :
    s.AllocateMasterBlock SizeInBytes Alignment = (none, s) := by
  simp [System.AllocateMasterBlock, VariableSizeAllocationsManager.Allocate, h,
    Allocation.IsValid]

theorem AllocateMasterBlock_of_some (s : System) (SizeInBytes Alignment : Nat) (r : Range)
    (l : List Range)
    (h : allocateFrom s.Mgr.m_AllocationsMgr.m_FreeBlocks SizeInBytes Alignment = some (r, l)) :
    s.AllocateMasterBlock SizeInBytes Alignment =
      (some r, { s with Mgr := { s.Mgr with
        m_AllocationsMgr := { s.Mgr.m_AllocationsMgr with m_FreeBlocks := l }
        m_MasterBlockCounter := s.Mgr.m_MasterBlockCounter + 1 } }) := by
  simp [System.AllocateMasterBlock, VariableSizeAllocationsManager.Allocate, h,
    Allocation.IsValid]

theorem create_exclusive (Size : Nat) : Exclusive (System.create Size, []) := by
  intro x
  simp only [System.create, VariableSizeAllocationsManager.create, staleRanges, List.filterMap_nil,
    cover_nil, cover_remainder]
  split <;> omega

theorem step_exclusive (this : Nat) (st st1 : System × List Range) (a : Action)
    (h : Exclusive st) (hs : step this st a = some st1) : Exclusive st1 := by
  intro x
  have hx := h x
  cases a with
  | AllocateMasterBlock SizeInBytes Alignment =>
    cases hal : allocateFrom st.1.Mgr.m_AllocationsMgr.m_FreeBlocks SizeInBytes Alignment with
    | none =>
      simp only [step, AllocateMasterBlock_of_none _ _ _ hal, Option.some.injEq] at hs
      subst hs
      exact hx
    | some rl =>
      obtain ⟨r, l⟩ := rl
      simp only [step, AllocateMasterBlock_of_some _ _ _ r l hal, Option.some.injEq] at hs
      subst hs
      have := allocateFrom_cover _ _ _ r l hal x
      simp only [cover_cons]
      omega
  | ReleaseMasterBlocks Blocks CmdQueueMask moves =>
    simp only [step] at hs
    split at hs
    · simp at hs
    · rename_i held hheld
      simp only [Option.some.injEq] at hs
      subst hs
      have := takeHeld_cover Blocks st.2 held hheld x
      simp only [ReleaseMasterBlocks_eq, staleRanges_append, staleRanges_map_create, cover_append]
      omega
  | retire i =>
    simp only [step, Option.some.injEq] at hs
    subst hs
    have := retire_cover st.1 i x
    simp only
    omega

theorem run_exclusive (this : Nat) (acts : List Action) (st st1 : System × List Range)
    (h : Exclusive st) (hr : run this st acts = some st1) : Exclusive st1 := by
  induction acts generalizing st with
  | nil =>
    simp only [run, Option.some.injEq] at hr
    subst hr
    exact h
  | cons a acts ih =>
    unfold run at hr
    split at hr
    · simp at hr
    · rename_i st2 hst2
      exact ih st2 (step_exclusive this st st2 a h hst2) hr

/-- In a state in which every byte has at most one owner, a block handed out by
`AllocateMasterBlock` shares no byte with a block that is still with its caller or still
owned by a stale holder in the device's queue. -/
theorem AllocateMasterBlock_disjoint_from_live (st : System × List Range) (hex : Exclusive st)
    (SizeInBytes Alignment : Nat) (r : Range) (s1 : System)
    (h : st.1.AllocateMasterBlock SizeInBytes Alignment = (some r, s1)) :
    ∀ o, o ∈ st.2 ∨ o ∈ staleRanges st.1.m_ReleaseQueue →
      ∀ x, ¬ (r.contains x ∧ o.contains x) := by
  intro o ho x hx
  have hx1 := hex x
  cases hal : allocateFrom st.1.Mgr.m_AllocationsMgr.m_FreeBlocks SizeInBytes Alignment with
  | none =>
    rw [AllocateMasterBlock_of_none _ _ _ hal] at h
    simp at h
  | some rl =>
    obtain ⟨r0, l⟩ := rl
    rw [AllocateMasterBlock_of_some _ _ _ r0 l hal] at h
    simp only [Prod.mk.injEq, Option.some.injEq] at h
    obtain ⟨hr, _⟩ := h
    subst hr
    have hc := allocateFrom_cover _ _ _ r0 l hal x
    rw [if_pos hx.1] at hc
    rcases ho with ho | ho
    · have := one_le_cover_of_mem _ o x ho hx.2
      omega
    · have := one_le_cover_of_mem _ o x ho hx.2
      omega

/-! ## From hand-out to hand-out: release, then the holder's destructor -/

theorem run_cons (this : Nat) (st st1 : System × List Range) (a : Action) (acts : List Action)
    (hs : step this st a = some st1) : run this st (a :: acts) = run this st1 acts := by
  rw [run, hs]

/-- A held block that is no longer held after a disciplined release was in the vector. -/
theorem takeHeld_mem (Blocks : List Allocation) (held held1 : List Range)
    (h : takeHeld Blocks held = some held1) (r : Range) (hr : r ∈ held) (hn : r ∉ held1) :
    some r ∈ Blocks := by
  induction Blocks generalizing held with
  | nil =>
    simp only [takeHeld, Option.some.injEq] at h
    subst h
    exact absurd hr hn
  | cons b Blocks ih =>
    cases b with
    | none => simp [takeHeld] at h
    | some b =>
      unfold takeHeld at h
      split at h
      · by_cases hb : r = b
        · subst hb
          exact List.mem_cons_self _ _
        · exact List.mem_cons_of_mem _ (ih (held.erase b) h ((List.mem_erase_of_ne hb).mpr hr))
      · simp at h

/-- A holder that is in the device's queue and is not there any more at the end of a run
was taken out by a `retire` step of the run: the device ran its destructor. -/
theorem queued_holder_retired (this : Nat) (e : StaleMasterBlock × Nat) (acts : List Action)
    (st st2 : System × List Range) (hq : e ∈ st.1.m_ReleaseQueue)
    (hrun : run this st acts = some st2) (hgone : e ∉ st2.1.m_ReleaseQueue) :
    ∃ m2 i m3 stk, acts = m2 ++ Action.retire i :: m3 ∧ run this st m2 = some stk ∧
      stk.1.m_ReleaseQueue[i]? = some e := by
  induction acts generalizing st with
  | nil =>
    simp only [run, Option.some.injEq] at hrun
    subst hrun
    exact absurd hq hgone
  | cons a acts ih =>
    unfold run at hrun
    split at hrun
    · simp at hrun
    · rename_i st1 hst1
      by_cases hnow : ∃ i, a = Action.retire i ∧ st.1.m_ReleaseQueue[i]? = some e
      · obtain ⟨i, ha, hi⟩ := hnow
        exact ⟨[], i, acts, st, by simp [ha], rfl, hi⟩
      · have hq1 : e ∈ st1.1.m_ReleaseQueue := by
          cases a with
          | AllocateMasterBlock SizeInBytes Alignment =>
            have hqq : (st.1.AllocateMasterBlock SizeInBytes Alignment).2.m_ReleaseQueue =
                st.1.m_ReleaseQueue := rfl
            simp only [step] at hst1
            split at hst1 <;>
              (simp only [Option.some.injEq] at hst1
               subst hst1
               rw [hqq]
               exact hq)
          | ReleaseMasterBlocks Blocks CmdQueueMask moves =>
            simp only [step] at hst1
            split at hst1
            · simp at hst1
            · simp only [Option.some.injEq] at hst1
              subst hst1
              simp only [ReleaseMasterBlocks_eq]
              exact List.mem_append_left _ hq
          | retire i =>
            simp only [step, Option.some.injEq] at hst1
            subst hst1
            have hne : st.1.m_ReleaseQueue[i]? ≠ some e := fun hc => hnow ⟨i, rfl, hc⟩
            unfold System.retire
            split
            · exact hq
            · simp only
              rw [List.mem_eraseIdx_iff_getElem?]
              obtain ⟨j, hj⟩ := List.getElem?_of_mem hq
              exact ⟨j, fun eq => hne (eq ▸ hj), hj⟩
        obtain ⟨m2, i, m3, stk, hacts, hrun2, hi⟩ := ih st1 hq1 hrun
        refine ⟨a :: m2, i, m3, stk, by simp [hacts], ?_, hi⟩
        rw [run_cons this st st1 a m2 hst1]
        exact hrun2

/-- A block that is held, and at the end of a disciplined run is neither held nor owned by
a queued holder, was passed to `ReleaseMasterBlocks` in the run, and the holder queued for
it by that call was destroyed by the device later in the run. -/
theorem held_block_released_then_retired (this : Nat) (r : Range) (acts : List Action)
    (st st2 : System × List Range) (hr : r ∈ st.2) (hrun : run this st acts = some st2)
    (hgone : r ∉ st2.2)
    (hq : ∀ CmdQueueMask,
      (StaleMasterBlock.create (some r) this, CmdQueueMask) ∉ st2.1.m_ReleaseQueue) :
    ∃ m1 Blocks CmdQueueMask moves m2 i m3 stk,
      acts = m1 ++ Action.ReleaseMasterBlocks Blocks CmdQueueMask moves ::
        (m2 ++ Action.retire i :: m3) ∧
      some r ∈ Blocks ∧
      run this st (m1 ++ Action.ReleaseMasterBlocks Blocks CmdQueueMask moves :: m2) =
        some stk ∧
      stk.1.m_ReleaseQueue[i]? = some (StaleMasterBlock.create (some r) this, CmdQueueMask) := by
  induction acts generalizing st with
  | nil =>
    simp only [run, Option.some.injEq] at hrun
    subst hrun
    exact absurd hr hgone
  | cons a acts ih =>
    unfold run at hrun
    split at hrun
    · simp at hrun
    · rename_i st1 hst1
      by_cases hstill : r ∈ st1.2
      · obtain ⟨m1, Blocks, mask, moves, m2, i, m3, stk, hacts, hmem, hrun2, hi⟩ :=
          ih st1 hstill hrun
        refine ⟨a :: m1, Blocks, mask, moves, m2, i, m3, stk, by simp [hacts], hmem, ?_, hi⟩
        rw [List.cons_append, run_cons this st st1 a _ hst1]
        exact hrun2
      · have hst1c := hst1
        cases a with
        | AllocateMasterBlock SizeInBytes Alignment =>
          simp only [step] at hst1
          split at hst1
          · simp only [Option.some.injEq] at hst1
            subst hst1
            exact absurd hr hstill
          · simp only [Option.some.injEq] at hst1
            subst hst1
            exact absurd (List.mem_cons_of_mem _ hr) hstill
        | retire i =>
          simp only [step, Option.some.injEq] at hst1
          subst hst1
          exact absurd hr hstill
        | ReleaseMasterBlocks Blocks CmdQueueMask moves =>
          simp only [step] at hst1
          split at hst1
          · simp at hst1
          · rename_i held hheld
            simp only [Option.some.injEq] at hst1
            have hmem : some r ∈ Blocks :=
              takeHeld_mem Blocks st.2 held hheld r hr (by rw [← hst1] at hstill; exact hstill)
            have hq1 : (StaleMasterBlock.create (some r) this, CmdQueueMask) ∈
                st1.1.m_ReleaseQueue := by
              rw [← hst1]
              simp only [ReleaseMasterBlocks_eq]
              exact List.mem_append_right _ (List.mem_map.mpr ⟨some r, hmem, rfl⟩)
            obtain ⟨m2, i, m3, stk, hacts, hrun2, hi⟩ :=
              queued_holder_retired this _ acts st1 st2 hq1 hrun (hq CmdQueueMask)
            refine ⟨[], Blocks, CmdQueueMask, moves, m2, i, m3, stk, by simp [hacts], hmem,
              ?_, hi⟩
            rw [List.nil_append, run_cons this st st1 _ _ hst1c]
            exact hrun2

/-- C9, counterexample: on an arena of 1024 bytes the block `[0, 256)` is handed out and
then passed to `ReleaseMasterBlocks` twice, which queues two holders for it; the manager
accepts both calls. The device destroys the first holder and `AllocateMasterBlock` hands
`[0, 256)` out again; the device destroys the second holder, and the next
`AllocateMasterBlock` hands out `[0, 256)` once more, although it has not been passed to
`ReleaseMasterBlocks` since it was handed out. A request for zero bytes is answered with the
empty range `[0, 0)` every time, with no release in between. -/
theorem double_release_hands_out_held_block :
    run 7 (System.create 1024, []) exampleDoubleRelease = none ∧
    exampleDoubleReleased.m_ReleaseQueue = [(StaleMasterBlock.create (some ⟨0, 256⟩) 7, 1)] ∧
    (exampleDoubleReleased.AllocateMasterBlock 256 16).1 = some ⟨0, 256⟩ ∧
    (((exampleDoubleReleased.AllocateMasterBlock 256 16).2.retire 0).AllocateMasterBlock
      256 16).1 = some ⟨0, 256⟩ ∧
    ((System.create 1024).AllocateMasterBlock 0 16).1 = some ⟨0, 0⟩ ∧
    (((System.create 1024).AllocateMasterBlock 0 16).2.AllocateMasterBlock 0 16).1 =
      some ⟨0, 0⟩ := by
  decide

/-- C9 (amended): take a run of `AllocateMasterBlock`, `ReleaseMasterBlocks` and holder
destructions by the device on a new manager, in which every block passed to
`ReleaseMasterBlocks` is a valid block that was handed out and has not been released since
(`run` gives `some`). If `AllocateMasterBlock` hands out the block `r` and, after the
further steps `mid`, hands out a block `r'` that has a byte in common with `r` (as `r` itself
when it is not empty), then `mid` contains a `ReleaseMasterBlocks` call whose vector holds
`r`, and after that call a step in which the device runs the destructor of the holder that
this call queued for `r` with its command-queue mask. -/
theorem AllocateMasterBlock_no_premature_reuse (this Size : Nat) (pre : List Action)
    (st0 : System × List Range) (hpre : run this (System.create Size, []) pre = some st0)
    (SizeInBytes Alignment : Nat) (r : Range) (s1 : System)
    (h1 : st0.1.AllocateMasterBlock SizeInBytes Alignment = (some r, s1))
    (mid : List Action) (st2 : System × List Range)
    (hmid : run this (s1, r :: st0.2) mid = some st2)
    (SizeInBytes2 Alignment2 : Nat) (r2 : Range) (s3 : System)
    (h2 : st2.1.AllocateMasterBlock SizeInBytes2 Alignment2 = (some r2, s3))
    (x : Nat) (hx : r.contains x) (hx2 : r2.contains x) :
    ∃ m1 Blocks CmdQueueMask moves m2 i m3 stk,
      mid = m1 ++ Action.ReleaseMasterBlocks Blocks CmdQueueMask moves ::
        (m2 ++ Action.retire i :: m3) ∧
      some r ∈ Blocks ∧
      run this (s1, r :: st0.2)
        (m1 ++ Action.ReleaseMasterBlocks Blocks CmdQueueMask moves :: m2) = some stk ∧
      stk.1.m_ReleaseQueue[i]? = some (StaleMasterBlock.create (some r) this, CmdQueueMask) := by
  have hex0 := run_exclusive this pre _ st0 (create_exclusive Size) hpre
  have hstep : step this st0 (Action.AllocateMasterBlock SizeInBytes Alignment) =
      some (s1, r :: st0.2) := by
    simp [step, h1]
  have hex1 := step_exclusive this st0 _ _ hex0 hstep
  have hex2 := run_exclusive this mid _ st2 hex1 hmid
  have hdis := AllocateMasterBlock_disjoint_from_live st2 hex2 SizeInBytes2 Alignment2 r2 s3 h2
  apply held_block_released_then_retired this r mid (s1, r :: st0.2) st2
    (List.mem_cons_self _ _) hmid
  · intro hc
    exact hdis r (Or.inl hc) x ⟨hx2, hx⟩
  · intro CmdQueueMask hc
    refine hdis r (Or.inr ?_) x ⟨hx2, hx⟩
    unfold staleRanges
    rw [List.mem_filterMap]
    exact ⟨_, hc, rfl⟩

/-- Witness for C9 (amended): `[0, 256)` is handed out, released with the mask 1, and its
holder destroyed by the device; the next `AllocateMasterBlock(256, 16)` hands out
`[0, 256)` again, and the run in between holds the release and the destructor. -/
theorem AllocateMasterBlock_no_premature_reuse_witness :
    (System.create 1024).AllocateMasterBlock 256 16 = (some ⟨0, 256⟩, exampleFirstOut) ∧
    run 7 (exampleFirstOut, [⟨0, 256⟩]) exampleReleaseRetire = some exampleReleasedRetired ∧
    (exampleReleasedRetired.1.AllocateMasterBlock 256 16).1 = some ⟨0, 256⟩ ∧
    ∃ m1 Blocks CmdQueueMask moves m2 i m3 stk,
      exampleReleaseRetire = m1 ++ Action.ReleaseMasterBlocks Blocks CmdQueueMask moves ::
        (m2 ++ Action.retire i :: m3) ∧
      some (⟨0, 256⟩ : Range) ∈ Blocks ∧
      run 7 (exampleFirstOut, [⟨0, 256⟩])
        (m1 ++ Action.ReleaseMasterBlocks Blocks CmdQueueMask moves :: m2) = some stk ∧
      stk.1.m_ReleaseQueue[i]? =
        some (StaleMasterBlock.create (some ⟨0, 256⟩) 7, CmdQueueMask) :=
  ⟨by decide, by decide, by decide,
    AllocateMasterBlock_no_premature_reuse 7 1024 [] (System.create 1024, []) rfl 256 16
      ⟨0, 256⟩ exampleFirstOut (by decide) exampleReleaseRetire exampleReleasedRetired
      (by decide) 256 16 ⟨0, 256⟩ (exampleReleasedRetired.1.AllocateMasterBlock 256 16).2
      (by decide) 0 (by decide) (by decide)⟩

/-- C10: `ReleaseMasterBlocks` leaves the manager as it was, so no call of `Free` is made
during the release however often each holder is move-constructed, and appends exactly one
holder per block to the device's queue, owning that block and pointing to the manager.
Move-constructing a holder any number of times gives the same holder and an unchanged
manager; the destructor of a moved-from holder changes nothing; the destructor of the
queued holder calls `Free` exactly once, with the holder's block, and the holder then
leaves the queue. -/
theorem ReleaseMasterBlocks_one_owner_one_free (s : System) (this : Nat)
    (Blocks : List Allocation) (CmdQueueMask moves : Nat) :
    (s.ReleaseMasterBlocks this Blocks CmdQueueMask moves).Mgr = s.Mgr ∧
    (s.ReleaseMasterBlocks this Blocks CmdQueueMask moves).m_ReleaseQueue =
      s.m_ReleaseQueue ++
        Blocks.map (fun Block => (StaleMasterBlock.create Block this, CmdQueueMask)) ∧
    (∀ (n : Nat) (h : StaleMasterBlock) (mgr : MasterBlockListBasedManager),
      StaleMasterBlock.moveInto n h mgr = (h, mgr)) ∧
    (∀ (h : StaleMasterBlock) (mgr : MasterBlockListBasedManager),
      h.moveConstruct.1 = h ∧ h.moveConstruct.2.destructor mgr = mgr) ∧
    (∀ (i : Nat) (Block : Allocation), Blocks[i]? = some Block →
      ((s.ReleaseMasterBlocks this Blocks CmdQueueMask moves).retire
          (s.m_ReleaseQueue.length + i)).Mgr.freeCalls = s.Mgr.freeCalls ++ [Block] ∧
      ((s.ReleaseMasterBlocks this Blocks CmdQueueMask moves).retire
          (s.m_ReleaseQueue.length + i)).m_ReleaseQueue =
        (s.ReleaseMasterBlocks this Blocks CmdQueueMask moves).m_ReleaseQueue.eraseIdx
          (s.m_ReleaseQueue.length + i)) := by
  refine ⟨by rw [ReleaseMasterBlocks_eq], by rw [ReleaseMasterBlocks_eq], moveInto_eq,
    fun h mgr => ⟨rfl, rfl⟩, ?_⟩
  intro i Block hB
  have hq : (s.ReleaseMasterBlocks this Blocks CmdQueueMask moves).m_ReleaseQueue[
      s.m_ReleaseQueue.length + i]? = some (StaleMasterBlock.create Block this, CmdQueueMask) := by
    rw [ReleaseMasterBlocks_eq]
    simp only
    rw [List.getElem?_append_right (Nat.le_add_right _ _), Nat.add_sub_cancel_left,
      List.getElem?_map, hB]
    rfl
  unfold System.retire
  rw [hq]
  simp [StaleMasterBlock.destructor, StaleMasterBlock.create, ReleaseMasterBlocks_eq]

/-! ## The development counter of master blocks -/

theorem offset_of_mem_insertFree (l : List Range) (r c : Range) (h : c ∈ insertFree r l) :
    c.offset = r.offset ∨ ∃ b ∈ l, c.offset = b.offset := by
  induction l generalizing r with
  | nil =>
    simp only [insertFree, List.mem_singleton] at h
    exact Or.inl (by rw [h])
  | cons b rest ih =>
    unfold insertFree at h
    split at h
    · rcases List.mem_cons.mp h with h | h
      · exact Or.inl (by rw [h])
      · exact Or.inr ⟨c, List.mem_cons_of_mem _ h, rfl⟩
    · split at h
      · rcases List.mem_cons.mp h with h | h
        · exact Or.inl (by rw [h])
        · exact Or.inr ⟨c, h, rfl⟩
      · split at h
        · rcases ih _ h with h | ⟨b1, hb1, h⟩
          · exact Or.inr ⟨b, List.mem_cons_self _ _, h⟩
          · exact Or.inr ⟨b1, List.mem_cons_of_mem _ hb1, h⟩
        · rcases List.mem_cons.mp h with h | h
          · exact Or.inr ⟨b, List.mem_cons_self _ _, by rw [h]⟩
          · rcases ih _ h with h | ⟨b1, hb1, h⟩
            · exact Or.inl h
            · exact Or.inr ⟨b1, List.mem_cons_of_mem _ hb1, h⟩

/-- `Free` of a non-empty range that overlaps no free block keeps the free list coalesced. -/
theorem insertFree_coalesced (l : List Range) (r : Range) (hl : Coalesced l) (hr : 0 < r.size)
    (hap : ∀ b ∈ l, r.apart b) : Coalesced (insertFree r l) := by
  induction l generalizing r with
  | nil =>
    exact ⟨by simp [insertFree], by simpa [insertFree] using hr⟩
  | cons b rest ih =>
    obtain ⟨hpw, hsz⟩ := hl
    rw [List.pairwise_cons] at hpw
    obtain ⟨hb, hrest⟩ := hpw
    have hbs := hsz b (List.mem_cons_self _ _)
    have hrb := hap b (List.mem_cons_self _ _)
    have hcrest : Coalesced rest := ⟨hrest, fun c hc => hsz c (List.mem_cons_of_mem _ hc)⟩
    unfold Range.apart at hrb
    unfold insertFree
    split
    · rename_i h1
      refine ⟨List.pairwise_cons.mpr ⟨?_, hrest⟩, ?_⟩
      · intro c hc
        have := hb c hc
        simp only
        omega
      · intro c hc
        rcases List.mem_cons.mp hc with hc | hc
        · rw [hc]; simp only; omega
        · exact hsz c (List.mem_cons_of_mem _ hc)
    · split
      · rename_i h1 h2
        refine ⟨List.pairwise_cons.mpr ⟨?_, List.pairwise_cons.mpr ⟨hb, hrest⟩⟩, ?_⟩
        · intro c hc
          rcases List.mem_cons.mp hc with hc | hc
          · rw [hc]; omega
          · have := hb c hc
            omega
        · intro c hc
          rcases List.mem_cons.mp hc with hc | hc
          · rw [hc]; exact hr
          · exact hsz c hc
      · split
        · rename_i h1 h2 h3
          apply ih _ hcrest
          · simp only; omega
          · intro c hc
            have h4 := hb c hc
            have h5 := hap c (List.mem_cons_of_mem _ hc)
            unfold Range.apart at h5 ⊢
            simp only
            omega
        · rename_i h1 h2 h3
          have hrec := ih r hcrest hr (fun c hc => hap c (List.mem_cons_of_mem _ hc))
          refine ⟨List.pairwise_cons.mpr ⟨?_, hrec.1⟩, ?_⟩
          · intro c hc
            rcases offset_of_mem_insertFree rest r c hc with h | ⟨b1, hb1, h⟩
            · omega
            · have := hb b1 hb1
              omega
          · intro c hc
            rcases List.mem_cons.mp hc with hc | hc
            · rw [hc]; exact hbs
            · exact hrec.2 c hc

theorem noAdjacent_of_coalesced (l : List Range) (h : Coalesced l) : NoAdjacent l := by
  obtain ⟨hpw, hsz⟩ := h
  induction l with
  | nil => intro a ha; simp at ha
  | cons c rest ih =>
    rw [List.pairwise_cons] at hpw
    obtain ⟨hc, hrest⟩ := hpw
    have ih1 := ih hrest (fun b hb => hsz b (List.mem_cons_of_mem _ hb))
    intro a ha b hb
    rcases List.mem_cons.mp ha with ha | ha <;> rcases List.mem_cons.mp hb with hb | hb
    · rw [ha, hb]
      have := hsz c (List.mem_cons_self _ _)
      omega
    · rw [ha]
      have := hc b hb
      omega
    · rw [hb]
      have h1 := hc a ha
      have h2 := hsz c (List.mem_cons_self _ _)
      omega
    · exact ih1 a ha b hb

theorem covering_block_insertFree (l : List Range) (r : Range) :
    ∃ b ∈ insertFree r l, b.offset ≤ r.offset ∧ r.offset + r.size ≤ b.offset + b.size := by
  induction l generalizing r with
  | nil => exact ⟨r, by simp [insertFree], Nat.le_refl _, Nat.le_refl _⟩
  | cons b rest ih =>
    unfold insertFree
    split
    · exact ⟨_, List.mem_cons_self _ _, Nat.le_refl _, by simp only; omega⟩
    · split
      · exact ⟨r, List.mem_cons_self _ _, Nat.le_refl _, Nat.le_refl _⟩
      · split
        · rename_i h1 h2 h3
          obtain ⟨c, hc, h4, h5⟩ := ih ⟨b.offset, b.size + r.size⟩
          simp only at h4 h5
          exact ⟨c, hc, by omega, by omega⟩
        · obtain ⟨c, hc, h4, h5⟩ := ih r
          exact ⟨c, List.mem_cons_of_mem _ hc, h4, h5⟩

theorem mem_insertFree_of_no_neighbour (l : List Range) (r : Range)
    (h : ∀ b ∈ l, b.offset + b.size ≠ r.offset ∧ r.offset + r.size ≠ b.offset) :
    r ∈ insertFree r l := by
  induction l with
  | nil => simp [insertFree]
  | cons b rest ih =>
    have hb := h b (List.mem_cons_self _ _)
    unfold insertFree
    rw [if_neg hb.2]
    split
    · exact List.mem_cons_self _ _
    · rw [if_neg hb.1]
      exact List.mem_cons_of_mem _ (ih (fun c hc => h c (List.mem_cons_of_mem _ hc)))

theorem insertFree_cons_right (r b : Range) (rest : List Range)
    (h : r.offset + r.size = b.offset) :
    insertFree r (b :: rest) = ⟨r.offset, r.size + b.size⟩ :: rest := by
  simp [insertFree, h]

theorem insertFree_cons_before (r b : Range) (rest : List Range)
    (h1 : ¬ r.offset + r.size = b.offset) (h2 : r.offset < b.offset) :
    insertFree r (b :: rest) = r :: b :: rest := by
  unfold insertFree
  rw [if_neg h1, if_pos h2]

theorem insertFree_cons_left (r b : Range) (rest : List Range)
    (h1 : ¬ r.offset + r.size = b.offset) (h2 : ¬ r.offset < b.offset)
    (h3 : b.offset + b.size = r.offset) :
    insertFree r (b :: rest) = insertFree ⟨b.offset, b.size + r.size⟩ rest := by
  rw [insertFree, if_neg h1, if_neg h2, if_pos h3]

theorem insertFree_cons_after (r b : Range) (rest : List Range)
    (h1 : ¬ r.offset + r.size = b.offset) (h2 : ¬ r.offset < b.offset)
    (h3 : ¬ b.offset + b.size = r.offset) :
    insertFree r (b :: rest) = b :: insertFree r rest := by
  rw [insertFree, if_neg h1, if_neg h2, if_neg h3]

/-- Freeing two adjacent non-empty ranges, in either order, gives the free list that freeing
their union gives. -/
theorem insertFree_adjacent (l : List Range) (r1 r2 : Range) (hl : Coalesced l)
    (h1 : 0 < r1.size) (h2 : 0 < r2.size) (hadj : r1.offset + r1.size = r2.offset)
    (hap : ∀ b ∈ l, r1.apart b ∧ r2.apart b) :
    insertFree r2 (insertFree r1 l) = insertFree ⟨r1.offset, r1.size + r2.size⟩ l ∧
    insertFree r1 (insertFree r2 l) = insertFree ⟨r1.offset, r1.size + r2.size⟩ l := by
  induction l generalizing r1 r2 with
  | nil =>
    constructor
    · show insertFree r2 [r1] = [⟨r1.offset, r1.size + r2.size⟩]
      rw [insertFree_cons_left r2 r1 [] (by omega) (by omega) hadj]
      rfl
    · show insertFree r1 [r2] = [⟨r1.offset, r1.size + r2.size⟩]
      rw [insertFree_cons_right r1 r2 [] hadj]
  | cons b rest ih =>
    obtain ⟨hb1, hb2⟩ := hap b (List.mem_cons_self _ _)
    obtain ⟨hpw, hsz⟩ := hl
    rw [List.pairwise_cons] at hpw
    obtain ⟨hgap, hpwrest⟩ := hpw
    have hbs := hsz b (List.mem_cons_self _ _)
    have hcrest : Coalesced rest := ⟨hpwrest, fun c hc => hsz c (List.mem_cons_of_mem _ hc)⟩
    have hrest : ∀ c ∈ rest, r1.apart c ∧ r2.apart c :=
      fun c hc => hap c (List.mem_cons_of_mem _ hc)
    unfold Range.apart at hb1 hb2
    by_cases c1 : r2.offset + r2.size = b.offset
    · -- the block begins where the second range ends
      constructor
      · rw [insertFree_cons_before r1 b rest (by omega) (by omega),
          insertFree_cons_left r2 r1 (b :: rest) (by omega) (by omega) hadj]
      · rw [insertFree_cons_right r2 b rest c1,
          insertFree_cons_right r1 ⟨r2.offset, r2.size + b.size⟩ rest hadj,
          insertFree_cons_right ⟨r1.offset, r1.size + r2.size⟩ b rest (by simp only; omega)]
        simp only [Nat.add_assoc]
    · by_cases c2 : r1.offset < b.offset
      · -- the block lies behind both ranges
        constructor
        · rw [insertFree_cons_before r1 b rest (by omega) c2,
            insertFree_cons_left r2 r1 (b :: rest) (by omega) (by omega) hadj]
        · rw [insertFree_cons_before r2 b rest c1 (by omega),
            insertFree_cons_right r1 r2 (b :: rest) hadj,
            insertFree_cons_before ⟨r1.offset, r1.size + r2.size⟩ b rest
              (by simp only; omega) c2]
      · by_cases c6 : b.offset + b.size = r1.offset
        · -- the block ends where the first range begins
          have hm := ih ⟨b.offset, b.size + r1.size⟩ r2 hcrest (by simp only; omega) h2
            (by simp only; omega)
            (fun c hc => by
              obtain ⟨hc1, hc2⟩ := hrest c hc
              refine ⟨?_, hc2⟩
              have hg := hgap c hc
              have hcs := hsz c (List.mem_cons_of_mem _ hc)
              unfold Range.apart at hc1 hc2 ⊢
              simp only
              omega)
          have hu : insertFree ⟨r1.offset, r1.size + r2.size⟩ (b :: rest) =
              insertFree ⟨b.offset, b.size + r1.size + r2.size⟩ rest := by
            rw [insertFree_cons_left ⟨r1.offset, r1.size + r2.size⟩ b rest
              (by simp only; omega) c2 c6]
            simp only [Nat.add_assoc]
          constructor
          · rw [insertFree_cons_left r1 b rest (by omega) c2 c6, hm.1, hu]
          · rw [insertFree_cons_after r2 b rest c1 (by omega) (by omega),
              insertFree_cons_left r1 b (insertFree r2 rest) (by omega) c2 c6, hm.2, hu]
        · -- the block lies in front of both ranges
          have hm := ih r1 r2 hcrest h1 h2 hadj hrest
          rw [insertFree_cons_after ⟨r1.offset, r1.size + r2.size⟩ b rest
            (by simp only; omega) c2 c6]
          constructor
          · rw [insertFree_cons_after r1 b rest (by omega) c2 c6,
              insertFree_cons_after r2 b (insertFree r1 rest) c1 (by omega) (by omega), hm.1]
          · rw [insertFree_cons_after r2 b rest c1 (by omega) (by omega),
              insertFree_cons_after r1 b (insertFree r2 rest) (by omega) c2 c6, hm.2]

theorem create_coalesced (Size : Nat) :
    Coalesced (VariableSizeAllocationsManager.create Size).m_FreeBlocks := by
  simp only [VariableSizeAllocationsManager.create, remainder]
  split
  · exact ⟨List.Pairwise.nil, fun b hb => by simp at hb⟩
  · refine ⟨List.pairwise_singleton _ _, fun b hb => ?_⟩
    simp only [List.mem_singleton] at hb
    rw [hb]
    simp only
    omega

theorem mem_remainder (c : Range) (offset size : Nat) :
    c ∈ remainder offset size ↔ size ≠ 0 ∧ c = ⟨offset, size⟩ := by
  unfold remainder
  split
  · rename_i h
    simp [h]
  · rename_i h
    simp [h]

/-- Every free block left by an allocation lies inside a block that was free before. -/
theorem allocateFrom_within (l : List Range) (size alignment : Nat) (r : Range)
    (l1 : List Range) (h : allocateFrom l size alignment = some (r, l1)) :
    ∀ c ∈ l1, ∃ b ∈ l, b.offset ≤ c.offset ∧ c.offset + c.size ≤ b.offset + b.size := by
  induction l generalizing l1 with
  | nil => simp [allocateFrom] at h
  | cons b rest ih =>
    unfold allocateFrom at h
    simp only at h
    split at h
    · rename_i hfit
      simp only [Option.some.injEq, Prod.mk.injEq] at h
      obtain ⟨_, hl⟩ := h
      subst hl
      have hle := le_Align b.offset alignment
      intro c hc
      simp only [List.mem_append, mem_remainder] at hc
      rcases hc with (⟨_, hc⟩ | ⟨_, hc⟩) | hc
      · exact ⟨b, List.mem_cons_self _ _, by rw [hc], by rw [hc]; simp only; omega⟩
      · exact ⟨b, List.mem_cons_self _ _, by rw [hc]; simp only; omega,
          by rw [hc]; simp only; omega⟩
      · exact ⟨c, List.mem_cons_of_mem _ hc, Nat.le_refl _, Nat.le_refl _⟩
    · split at h
      · simp at h
      · rename_i r0 l0 hrec
        simp only [Option.some.injEq, Prod.mk.injEq] at h
        obtain ⟨hr, hl⟩ := h
        subst hr
        subst hl
        intro c hc
        rcases List.mem_cons.mp hc with hc | hc
        · exact ⟨b, List.mem_cons_self _ _, by rw [hc], by rw [hc]⟩
        · obtain ⟨b1, hb1, h1, h2⟩ := ih l0 hrec c hc
          exact ⟨b1, List.mem_cons_of_mem _ hb1, h1, h2⟩

/-- An allocation of at least one byte keeps the free list coalesced. -/
theorem allocateFrom_coalesced (l : List Range) (size alignment : Nat) (r : Range)
    (l1 : List Range) (hl : Coalesced l) (hs : 0 < size)
    (h : allocateFrom l size alignment = some (r, l1)) : Coalesced l1 := by
  induction l generalizing l1 with
  | nil => simp [allocateFrom] at h
  | cons b rest ih =>
    obtain ⟨hpw, hsz⟩ := hl
    rw [List.pairwise_cons] at hpw
    obtain ⟨hgap, hpwrest⟩ := hpw
    have hcrest : Coalesced rest := ⟨hpwrest, fun c hc => hsz c (List.mem_cons_of_mem _ hc)⟩
    unfold allocateFrom at h
    simp only at h
    split at h
    · rename_i hfit
      simp only [Option.some.injEq, Prod.mk.injEq] at h
      obtain ⟨_, hl1⟩ := h
      subst hl1
      have hle := le_Align b.offset alignment
      constructor
      · rw [List.pairwise_append, List.pairwise_append]
        refine ⟨⟨?_, ?_, ?_⟩, hpwrest, ?_⟩
        · unfold remainder
          split
          · exact List.Pairwise.nil
          · exact List.pairwise_singleton _ _
        · unfold remainder
          split
          · exact List.Pairwise.nil
          · exact List.pairwise_singleton _ _
        · intro x hx y hy
          rw [mem_remainder] at hx hy
          rw [hx.2, hy.2]
          simp only
          omega
        · intro x hx y hy
          have hg := hgap y hy
          simp only [List.mem_append, mem_remainder] at hx
          rcases hx with ⟨_, hx⟩ | ⟨_, hx⟩
          · rw [hx]; simp only; omega
          · rw [hx]; simp only; omega
      · intro c hc
        simp only [List.mem_append, mem_remainder] at hc
        rcases hc with (⟨h0, hc⟩ | ⟨h0, hc⟩) | hc
        · rw [hc]; simp only; omega
        · rw [hc]; simp only; omega
        · exact hsz c (List.mem_cons_of_mem _ hc)
    · split at h
      · simp at h
      · rename_i r0 l0 hrec
        simp only [Option.some.injEq, Prod.mk.injEq] at h
        obtain ⟨hr, hl1⟩ := h
        subst hr
        subst hl1
        have hrecC := ih l0 hcrest hrec
        refine ⟨List.pairwise_cons.mpr ⟨?_, hrecC.1⟩, ?_⟩
        · intro c hc
          obtain ⟨b1, hb1, h1, _⟩ := allocateFrom_within rest size alignment r0 l0 hrec c hc
          have := hgap b1 hb1
          omega
        · intro c hc
          rcases List.mem_cons.mp hc with hc | hc
          · rw [hc]; exact hsz b (List.mem_cons_self _ _)
          · exact hrecC.2 c hc

/-- In a coalesced free list two blocks that share a byte are the same block. -/
theorem eq_of_common_byte (l : List Range) (hl : Coalesced l) (a b : Range) (ha : a ∈ l)
    (hb : b ∈ l) (x : Nat) (hxa : a.contains x) (hxb : b.contains x) : a = b := by
  obtain ⟨hpw, hsz⟩ := hl
  unfold Range.contains at hxa hxb
  induction l with
  | nil => simp at ha
  | cons c rest ih =>
    rw [List.pairwise_cons] at hpw
    obtain ⟨hc, hrest⟩ := hpw
    rcases List.mem_cons.mp ha with ha | ha <;> rcases List.mem_cons.mp hb with hb | hb
    · rw [ha, hb]
    · have := hc b hb
      rw [ha] at hxa
      omega
    · have := hc a ha
      rw [hb] at hxb
      omega
    · exact ih ha hb hrest (fun d hd => hsz d (List.mem_cons_of_mem _ hd))

/-- C14, counterexample: on an arena of 1024 bytes the ranges `[0, 256)` and `[256, 512)` are
allocated and `[512, 1024)` is free. Freeing the two adjacent ranges, in either order, leaves
the single free block `[0, 1024)`: its size is 1024, not the sum 512 of the two sizes,
because the free neighbour behind them is merged in as well. -/
theorem free_adjacent_ranges_merges_free_neighbour :
    ((VariableSizeAllocationsManager.create 1024).Allocate 256 1).1 = some ⟨0, 256⟩ ∧
    (((VariableSizeAllocationsManager.create 1024).Allocate 256 1).2.Allocate 256 1).1 =
      some ⟨256, 256⟩ ∧
    exampleTwoAllocated.m_FreeBlocks = [⟨512, 512⟩] ∧
    ((exampleTwoAllocated.Free (some ⟨0, 256⟩)).Free (some ⟨256, 256⟩)).m_FreeBlocks =
      [⟨0, 1024⟩] ∧
    ((exampleTwoAllocated.Free (some ⟨256, 256⟩)).Free (some ⟨0, 256⟩)).m_FreeBlocks =
      [⟨0, 1024⟩] := by
  decide

/-- C14, amended: let the free list be coalesced and let `r1`, `r2` be two non-empty ranges
that overlap no free block, `r2` beginning exactly where `r1` ends. Freeing them in either
order gives the same allocator, whose free list is the one that freeing their union gives.
In it exactly one free block holds bytes of the two ranges; it covers both, so its size is
at least the sum of the two sizes, and it is the block of exactly the summed size when no
free block is adjacent to the two ranges. After every `Free` of a non-empty range that
overlaps no free block the list is coalesced again: no free block ends where another
begins. -/
theorem Free_adjacent_ranges (m : VariableSizeAllocationsManager) (r1 r2 : Range)
    (hm : Coalesced m.m_FreeBlocks) (h1 : 0 < r1.size) (h2 : 0 < r2.size)
    (hadj : r1.offset + r1.size = r2.offset)
    (hap : ∀ b ∈ m.m_FreeBlocks, r1.apart b ∧ r2.apart b) :
    (m.Free (some r1)).Free (some r2) = (m.Free (some r2)).Free (some r1) ∧
    (m.Free (some r1)).Free (some r2) = m.Free (some ⟨r1.offset, r1.size + r2.size⟩) ∧
    (∃ b ∈ ((m.Free (some r1)).Free (some r2)).m_FreeBlocks,
      b.offset ≤ r1.offset ∧ r2.offset + r2.size ≤ b.offset + b.size ∧
      r1.size + r2.size ≤ b.size ∧
      ∀ c ∈ ((m.Free (some r1)).Free (some r2)).m_FreeBlocks,
        (∃ x, (r1.contains x ∨ r2.contains x) ∧ c.contains x) → c = b) ∧
    ((∀ b ∈ m.m_FreeBlocks, b.offset + b.size ≠ r1.offset ∧ r2.offset + r2.size ≠ b.offset) →
      (⟨r1.offset, r1.size + r2.size⟩ : Range) ∈
        ((m.Free (some r1)).Free (some r2)).m_FreeBlocks) ∧
    NoAdjacent ((m.Free (some r1)).Free (some r2)).m_FreeBlocks ∧
    (∀ r : Range, 0 < r.size → (∀ b ∈ m.m_FreeBlocks, r.apart b) →
      Coalesced (m.Free (some r)).m_FreeBlocks ∧ NoAdjacent (m.Free (some r)).m_FreeBlocks) := by
  have hcomm := insertFree_adjacent m.m_FreeBlocks r1 r2 hm h1 h2 hadj hap
  have hu : Coalesced (insertFree ⟨r1.offset, r1.size + r2.size⟩ m.m_FreeBlocks) := by
    apply insertFree_coalesced _ _ hm (by simp only; omega)
    intro b hb
    obtain ⟨hb1, hb2⟩ := hap b hb
    have hbs := hm.2 b hb
    unfold Range.apart at hb1 hb2 ⊢
    simp only
    omega
  have e12 : (m.Free (some r1)).Free (some r2) = m.Free (some ⟨r1.offset, r1.size + r2.size⟩) := by
    simp only [VariableSizeAllocationsManager.Free, hcomm.1]
  have e21 : (m.Free (some r2)).Free (some r1) = m.Free (some ⟨r1.offset, r1.size + r2.size⟩) := by
    simp only [VariableSizeAllocationsManager.Free, hcomm.2]
  have efree : (m.Free (some ⟨r1.offset, r1.size + r2.size⟩)).m_FreeBlocks =
      insertFree ⟨r1.offset, r1.size + r2.size⟩ m.m_FreeBlocks := rfl
  refine ⟨e12.trans e21.symm, e12, ?_, ?_, ?_, ?_⟩
  · rw [e12, efree]
    obtain ⟨b, hb, hb1, hb2⟩ :=
      covering_block_insertFree m.m_FreeBlocks ⟨r1.offset, r1.size + r2.size⟩
    simp only at hb1 hb2
    refine ⟨b, hb, hb1, by omega, by omega, ?_⟩
    rintro c hc ⟨x, hx, hcx⟩
    apply eq_of_common_byte _ hu c b hc hb x hcx
    unfold Range.contains at hx ⊢
    omega
  · intro hn
    rw [e12, efree]
    apply mem_insertFree_of_no_neighbour
    intro b hb
    have := hn b hb
    simp only
    omega
  · rw [e12, efree]
    exact noAdjacent_of_coalesced _ hu
  · intro r hr hrap
    have := insertFree_coalesced m.m_FreeBlocks r hm hr hrap
    exact ⟨this, noAdjacent_of_coalesced _ this⟩

/-- Witness for C14 (amended): with `[768, 1024)` free, freeing `[0, 256)` and `[256, 512)`
leaves the free block `[0, 512)` of the summed size in front of the old one. -/
theorem Free_adjacent_ranges_witness :
    Coalesced exampleThreeAllocated.m_FreeBlocks ∧
    exampleThreeAllocated.m_FreeBlocks = [⟨768, 256⟩] ∧
    (exampleThreeAllocated.Free (some ⟨0, 256⟩)).Free (some ⟨256, 256⟩) =
      (exampleThreeAllocated.Free (some ⟨256, 256⟩)).Free (some ⟨0, 256⟩) ∧
    ((exampleThreeAllocated.Free (some ⟨0, 256⟩)).Free (some ⟨256, 256⟩)).m_FreeBlocks =
      [⟨0, 512⟩, ⟨768, 256⟩] :=
  ⟨⟨by decide, by decide⟩, by decide,
    (Free_adjacent_ranges exampleThreeAllocated ⟨0, 256⟩ ⟨256, 256⟩ ⟨by decide, by decide⟩
      (by decide) (by decide) (by decide)
      (fun b hb => by
        have h : exampleThreeAllocated.m_FreeBlocks = [⟨768, 256⟩] := by decide
        rw [h, List.mem_singleton] at hb
        subst hb
        exact ⟨Or.inl (by decide), Or.inl (by decide)⟩)).1,
    by decide⟩

/-! ## The ring allocator: reclamation in push order -/

theorem releaseLoop_append (v : Nat) (front back : List FrameBoundary) (tail usedSize : Nat)
    (h : ∀ b ∈ front, b.taggedCompletionValue ≤ v) :
    RingBuffer.releaseLoop v (front ++ back) tail usedSize =
      RingBuffer.releaseLoop v back (front.foldl (fun _ b => b.offset) tail)
        (usedSize - (front.map FrameBoundary.size).sum) := by
  induction front generalizing tail usedSize with
  | nil => simp
  | cons b front ih =>
    have hb := h b (List.mem_cons_self _ _)
    rw [List.cons_append, RingBuffer.releaseLoop, if_pos hb,
      ih _ _ (fun c hc => h c (List.mem_cons_of_mem _ hc))]
    simp only [List.foldl_cons, List.map_cons, List.sum_cons, Nat.sub_sub]

theorem releaseLoop_stop (v : Nat) (back : List FrameBoundary) (tail usedSize : Nat)
    (h : ∀ b ∈ back, v < b.taggedCompletionValue) :
    RingBuffer.releaseLoop v back tail usedSize = (tail, usedSize, back) := by
  cases back with
  | nil => rfl
  | cons b rest =>
    have hb := h b (List.mem_cons_self _ _)
    rw [RingBuffer.releaseLoop, if_neg (by omega)]

theorem Allocate_boundaries (rb : RingBuffer) (size alignment : Nat) :
    (rb.Allocate size alignment).2.boundaries = rb.boundaries := by
  unfold RingBuffer.Allocate
  simp only
  split
  · rfl
  · split
    · split
      · rfl
      · split <;> rfl
    · split <;> rfl

theorem Allocate_accounted (rb : RingBuffer) (size alignment : Nat) (h : rb.Accounted) :
    (rb.Allocate size alignment).2.Accounted := by
  unfold RingBuffer.Accounted at h ⊢
  unfold RingBuffer.Allocate
  simp only
  split
  · exact h
  · split
    · split
      · simp only [RingBuffer.advance]; omega
      · split
        · simp only [RingBuffer.advance]; omega
        · exact h
    · split
      · simp only [RingBuffer.advance]; omega
      · exact h

theorem allocations_boundaries (m : MasterBlockRingBufferBasedManager)
    (allocs : List (Nat × Nat)) :
    (allocs.foldl (fun m a => (m.AllocateMasterBlock a.1 a.2).2) m).m_RingBuffer.boundaries =
        m.m_RingBuffer.boundaries ∧
    (m.m_RingBuffer.Accounted →
      (allocs.foldl (fun m a => (m.AllocateMasterBlock a.1 a.2).2) m).m_RingBuffer.Accounted) := by
  induction allocs generalizing m with
  | nil => exact ⟨rfl, fun h => h⟩
  | cons a allocs ih =>
    simp only [List.foldl_cons]
    have := ih (m.AllocateMasterBlock a.1 a.2).2
    refine ⟨this.1.trans (Allocate_boundaries _ _ _), fun h => this.2 ?_⟩
    exact Allocate_accounted _ _ _ h

theorem runFrame_boundaries (m : MasterBlockRingBufferBasedManager)
    (frame : List (Nat × Nat) × Nat) :
    ((m.runFrame frame).m_RingBuffer.boundaries.map FrameBoundary.taggedCompletionValue =
      m.m_RingBuffer.boundaries.map FrameBoundary.taggedCompletionValue ++ [frame.2]) ∧
    (m.m_RingBuffer.Accounted → (m.runFrame frame).m_RingBuffer.Accounted) := by
  have h := allocations_boundaries m frame.1
  constructor
  · simp only [MasterBlockRingBufferBasedManager.runFrame,
      MasterBlockRingBufferBasedManager.DiscardMasterBlocks, RingBuffer.FinishCurrentFrame,
      List.map_append, List.map_cons, List.map_nil, h.1]
  · intro hacc
    have h2 := h.2 hacc
    unfold RingBuffer.Accounted at h2 ⊢
    simp only [MasterBlockRingBufferBasedManager.runFrame,
      MasterBlockRingBufferBasedManager.DiscardMasterBlocks, RingBuffer.FinishCurrentFrame,
      List.map_append, List.map_cons, List.map_nil, List.sum_append, List.sum_cons, List.sum_nil]
    omega

theorem runFrames_boundaries (m : MasterBlockRingBufferBasedManager)
    (frames : List (List (Nat × Nat) × Nat)) :
    ((m.runFrames frames).m_RingBuffer.boundaries.map FrameBoundary.taggedCompletionValue =
      m.m_RingBuffer.boundaries.map FrameBoundary.taggedCompletionValue ++
        frames.map Prod.snd) ∧
    (m.m_RingBuffer.Accounted → (m.runFrames frames).m_RingBuffer.Accounted) := by
  induction frames generalizing m with
  | nil => exact ⟨by simp [MasterBlockRingBufferBasedManager.runFrames], fun h => h⟩
  | cons f frames ih =>
    have h1 := runFrame_boundaries m f
    have h2 := ih (m.runFrame f)
    simp only [MasterBlockRingBufferBasedManager.runFrames, List.foldl_cons] at h2 ⊢
    refine ⟨?_, fun h => h2.2 (h1.2 h)⟩
    rw [h2.1, h1.1]
    simp

theorem split_at_getElem? {α : Type} (l : List α) (k : Nat) (b : α) (h : l[k]? = some b) :
    l.take (k + 1) = l.take k ++ [b] ∧ l = l.take (k + 1) ++ l.drop (k + 1) := by
  refine ⟨?_, (List.take_append_drop _ _).symm⟩
  induction l generalizing k with
  | nil => simp at h
  | cons a l ih =>
    cases k with
    | zero =>
      simp only [List.getElem?_cons_zero, Option.some.injEq] at h
      simp [h]
    | succ k =>
      simp only [List.getElem?_cons_succ] at h
      simp [ih k h]

/-- C12: frames are run on a new ring-buffer manager and closed by `DiscardMasterBlocks` with
strictly increasing fence values. The boundaries then carry these values in push order, and
`ReleaseStaleBlocks` with the value of the boundary at position `k` pops exactly the
boundaries at positions `0..k`, front first: the boundaries behind position `k` stay, all with
larger values; the tail moves to the offset of boundary `k`; the bytes in use go down by
exactly the bytes of the popped frames. -/
theorem ReleaseStaleBlocks_reclaims_completed_frames (Size : Nat)
    (frames : List (List (Nat × Nat) × Nat)) (m : MasterBlockRingBufferBasedManager)
    (hm : m = (MasterBlockRingBufferBasedManager.create Size).runFrames frames)
    (hinc : (frames.map Prod.snd).Pairwise (fun v w => v < w)) (k : Nat) (b : FrameBoundary)
    (hb : m.m_RingBuffer.boundaries[k]? = some b) :
    m.m_RingBuffer.boundaries.map FrameBoundary.taggedCompletionValue = frames.map Prod.snd ∧
    (m.ReleaseStaleBlocks b.taggedCompletionValue).m_RingBuffer.boundaries =
      m.m_RingBuffer.boundaries.drop (k + 1) ∧
    (∀ c ∈ m.m_RingBuffer.boundaries.take (k + 1),
      c.taggedCompletionValue ≤ b.taggedCompletionValue) ∧
    (∀ c ∈ m.m_RingBuffer.boundaries.drop (k + 1),
      b.taggedCompletionValue < c.taggedCompletionValue) ∧
    (m.ReleaseStaleBlocks b.taggedCompletionValue).m_RingBuffer.tail = b.offset ∧
    (m.ReleaseStaleBlocks b.taggedCompletionValue).GetUsedSize +
        ((m.m_RingBuffer.boundaries.take (k + 1)).map FrameBoundary.size).sum = m.GetUsedSize ∧
    (m.ReleaseStaleBlocks b.taggedCompletionValue).m_RingBuffer.head = m.m_RingBuffer.head := by
  have hrun := runFrames_boundaries (MasterBlockRingBufferBasedManager.create Size) frames
  rw [← hm] at hrun
  have htags : m.m_RingBuffer.boundaries.map FrameBoundary.taggedCompletionValue =
      frames.map Prod.snd := by
    rw [hrun.1]
    simp [MasterBlockRingBufferBasedManager.create, RingBuffer.create]
  have hacc : m.m_RingBuffer.Accounted :=
    hrun.2 (by simp [MasterBlockRingBufferBasedManager.create, RingBuffer.create,
      RingBuffer.Accounted])
  have hpw : m.m_RingBuffer.boundaries.Pairwise
      (fun x y => x.taggedCompletionValue < y.taggedCompletionValue) := by
    rw [← htags, List.pairwise_map] at hinc
    exact hinc
  obtain ⟨htake, hsplit⟩ := split_at_getElem? _ k b hb
  rw [hsplit, htake, List.append_assoc, List.pairwise_append] at hpw
  obtain ⟨_, hpw2, hpw3⟩ := hpw
  rw [List.singleton_append, List.pairwise_cons] at hpw2
  have hfront : ∀ c ∈ m.m_RingBuffer.boundaries.take (k + 1),
      c.taggedCompletionValue ≤ b.taggedCompletionValue := by
    intro c hc
    rw [htake, List.mem_append, List.mem_singleton] at hc
    rcases hc with hc | hc
    · exact Nat.le_of_lt (hpw3 c hc b (by simp))
    · rw [hc]
  have hback : ∀ c ∈ m.m_RingBuffer.boundaries.drop (k + 1),
      b.taggedCompletionValue < c.taggedCompletionValue := hpw2.1
  have hloop : RingBuffer.releaseLoop b.taggedCompletionValue m.m_RingBuffer.boundaries
      m.m_RingBuffer.tail m.m_RingBuffer.usedSize =
      (b.offset,
        m.m_RingBuffer.usedSize -
          ((m.m_RingBuffer.boundaries.take (k + 1)).map FrameBoundary.size).sum,
        m.m_RingBuffer.boundaries.drop (k + 1)) := by
    conv => lhs; rw [hsplit]
    rw [releaseLoop_append _ _ _ _ _ hfront, releaseLoop_stop _ _ _ _ hback, htake,
      List.foldl_append]
    rfl
  have hsum : ((m.m_RingBuffer.boundaries.take (k + 1)).map FrameBoundary.size).sum ≤
      m.m_RingBuffer.usedSize := by
    unfold RingBuffer.Accounted at hacc
    have : (m.m_RingBuffer.boundaries.map FrameBoundary.size).sum =
        ((m.m_RingBuffer.boundaries.take (k + 1)).map FrameBoundary.size).sum +
          ((m.m_RingBuffer.boundaries.drop (k + 1)).map FrameBoundary.size).sum := by
      conv => lhs; rw [hsplit]
      rw [List.map_append, List.sum_append]
    omega
  refine ⟨htags, ?_, hfront, hback, ?_, ?_, rfl⟩
  · simp only [MasterBlockRingBufferBasedManager.ReleaseStaleBlocks,
      RingBuffer.ReleaseCompletedFrames, hloop]
  · simp only [MasterBlockRingBufferBasedManager.ReleaseStaleBlocks,
      RingBuffer.ReleaseCompletedFrames, hloop]
  · simp only [MasterBlockRingBufferBasedManager.ReleaseStaleBlocks,
      MasterBlockRingBufferBasedManager.GetUsedSize, RingBuffer.ReleaseCompletedFrames, hloop]
    omega

/-- Witness for C12: three frames closed with the values 10, 20 and 30; releasing with 20
pops the first two boundaries and leaves the third. -/
theorem ReleaseStaleBlocks_reclaims_completed_frames_witness :
    (exampleFrames.map Prod.snd).Pairwise (fun v w => v < w) ∧
    ((MasterBlockRingBufferBasedManager.create 1024).runFrames exampleFrames).m_RingBuffer.boundaries
      = [⟨162, 10, 162⟩, ⟨376, 20, 214⟩, ⟨448, 30, 72⟩] ∧
    (((MasterBlockRingBufferBasedManager.create 1024).runFrames
      exampleFrames).ReleaseStaleBlocks 20).m_RingBuffer.boundaries = [⟨448, 30, 72⟩] ∧
    (((MasterBlockRingBufferBasedManager.create 1024).runFrames
      exampleFrames).ReleaseStaleBlocks 20).m_RingBuffer.tail = 376 :=
  ⟨by decide, by decide,
    ((ReleaseStaleBlocks_reclaims_completed_frames 1024 exampleFrames _ rfl (by decide) 1
      ⟨376, 20, 214⟩ (by decide)).2.1).trans (by decide),
    (ReleaseStaleBlocks_reclaims_completed_frames 1024 exampleFrames _ rfl (by decide) 1
      ⟨376, 20, 214⟩ (by decide)).2.2.2.2.1⟩

/-- C13: on a ring-buffer manager over 1024 bytes, with alignment 16, the first allocation of
700 bytes succeeds. A second allocation of 700 bytes returns `InvalidOffset` at once, after
the frame has been closed with any fence value `v`, and after `ReleaseStaleBlocks` with any
value below `v`, which reclaims no frame. After the frame has been closed with `v` and
`ReleaseStaleBlocks(v)` has been called, an allocation of 700 bytes succeeds. -/
theorem ring_allocate_700_twice (v : Nat) :
    ((MasterBlockRingBufferBasedManager.create 1024).AllocateMasterBlock 700 16).1 = some 0 ∧
    ((((MasterBlockRingBufferBasedManager.create 1024).AllocateMasterBlock 700 16).2
      ).AllocateMasterBlock 700 16).1 = none ∧
    (((((MasterBlockRingBufferBasedManager.create 1024).AllocateMasterBlock 700 16).2
      ).DiscardMasterBlocks v).AllocateMasterBlock 700 16).1 = none ∧
    (∀ w, w < v →
      ((((((MasterBlockRingBufferBasedManager.create 1024).AllocateMasterBlock 700 16).2
        ).DiscardMasterBlocks v).ReleaseStaleBlocks w).AllocateMasterBlock 700 16).1 = none) ∧
    ((((((MasterBlockRingBufferBasedManager.create 1024).AllocateMasterBlock 700 16).2
      ).DiscardMasterBlocks v).ReleaseStaleBlocks v).AllocateMasterBlock 700 16).1 = some 0 := by
  have h1 : ((MasterBlockRingBufferBasedManager.create 1024).AllocateMasterBlock 700 16) =
      (some 0, ⟨⟨700, 0, 700, 700, 1024, []⟩⟩) := by decide
  rw [h1]
  refine ⟨rfl, by decide, ?_, ?_, ?_⟩
  · simp [MasterBlockRingBufferBasedManager.DiscardMasterBlocks,
      MasterBlockRingBufferBasedManager.AllocateMasterBlock, RingBuffer.FinishCurrentFrame,
      RingBuffer.Allocate]
  · intro w hw
    have hnot : ¬ v ≤ w := by omega
    simp [MasterBlockRingBufferBasedManager.DiscardMasterBlocks,
      MasterBlockRingBufferBasedManager.ReleaseStaleBlocks,
      MasterBlockRingBufferBasedManager.AllocateMasterBlock, RingBuffer.FinishCurrentFrame,
      RingBuffer.ReleaseCompletedFrames, RingBuffer.releaseLoop, RingBuffer.Allocate, hnot]
  · simp [MasterBlockRingBufferBasedManager.DiscardMasterBlocks,
      MasterBlockRingBufferBasedManager.ReleaseStaleBlocks,
      MasterBlockRingBufferBasedManager.AllocateMasterBlock, RingBuffer.FinishCurrentFrame,
      RingBuffer.ReleaseCompletedFrames, RingBuffer.releaseLoop, RingBuffer.Allocate,
      RingBuffer.advance, Align]

end DynamicHeap

end Diligent

namespace Diligent

/-! ## `BufferDesc::operator ==` -/

/-- C15: `a == b` is true exactly when `uiSizeInBytes`, `BindFlags`, `Usage`,
`CPUAccessFlags`, `Mode`, `ElementByteStride` and `CommandQueueMask` are all equal, and
replacing the `Name` of either operand never changes the result. -/
theorem BufferDesc_operator_eq_iff (a b : BufferDesc) :
    (a.operator_eq b = true ↔
      a.uiSizeInBytes = b.uiSizeInBytes ∧ a.BindFlags = b.BindFlags ∧ a.Usage = b.Usage ∧
      a.CPUAccessFlags = b.CPUAccessFlags ∧ a.Mode = b.Mode ∧
      a.ElementByteStride = b.ElementByteStride ∧ a.CommandQueueMask = b.CommandQueueMask) ∧
    ∀ n1 n2 : Nat,
      BufferDesc.operator_eq { a with Name := n1 } { b with Name := n2 } = a.operator_eq b := by
  constructor
  · simp only [BufferDesc.operator_eq, Bool.and_eq_true, decide_eq_true_eq]
    tauto
  · intro n1 n2
    rfl

/-! ## The explicit constructor of `BufferDesc` -/

/-- C28 (the code at the failing input): the explicit constructor stores six of its seven
arguments; `_CPUAccessFlags` is not in the member initializer list, so `CPUAccessFlags` is
`CPU_ACCESS_NONE` whatever is passed. `BufferDesc(1024, BIND_UNIFORM_BUFFER, USAGE_DYNAMIC,
CPU_ACCESS_WRITE)` has `CPUAccessFlags = CPU_ACCESS_NONE`. -/
theorem BufferDesc_constructor_drops_CPUAccessFlags :
    (∀ size bindFlags usage cpuAccessFlags mode elementByteStride commandQueueMask : Nat,
      let d := BufferDesc.create size bindFlags usage cpuAccessFlags mode elementByteStride
        commandQueueMask
      d.uiSizeInBytes = size ∧ d.BindFlags = bindFlags ∧ d.Usage = usage ∧ d.Mode = mode ∧
      d.ElementByteStride = elementByteStride ∧ d.CommandQueueMask = commandQueueMask ∧
      d.CPUAccessFlags = CPU_ACCESS_NONE) ∧
    (BufferDesc.create 1024 BIND_UNIFORM_BUFFER USAGE_DYNAMIC CPU_ACCESS_WRITE
      BufferDesc.default.Mode BufferDesc.default.ElementByteStride
      BufferDesc.default.CommandQueueMask).CPUAccessFlags = 0 ∧
    CPU_ACCESS_WRITE ≠ 0 :=
  ⟨fun _ _ _ _ _ _ _ => ⟨rfl, rfl, rfl, rfl, rfl, rfl, rfl⟩, rfl, by decide⟩

end Diligent

namespace Diligent

open TEXTURE_FORMAT COMPONENT_TYPE TEXTURE_VIEW_TYPE

/-! ## Default view formats -/

/-- C25: for every texture format, each of the four view types `TEXTURE_VIEW_SHADER_RESOURCE`,
`TEXTURE_VIEW_RENDER_TARGET`, `TEXTURE_VIEW_DEPTH_STENCIL`, `TEXTURE_VIEW_UNORDERED_ACCESS`
and every value of `BindFlags`, `GetDefaultTextureViewFormat` returns a format, and when this
format is not `TEX_FORMAT_UNKNOWN` it is not flagged typeless and has the `ComponentSize`,
`NumComponents`, `BlockWidth` and `BlockHeight` of the texture format in
`GetTextureFormatAttribs`. -/
theorem GetDefaultTextureViewFormat_keeps_layout (F : TEXTURE_FORMAT) (V : TEXTURE_VIEW_TYPE)
    (BindFlags : Nat) (hV : V ≠ TEXTURE_VIEW_UNDEFINED) :
    ∃ R, GetDefaultTextureViewFormat F V BindFlags = some R ∧
      (R ≠ TEX_FORMAT_UNKNOWN →
        (GetTextureFormatAttribs R).IsTypeless = false ∧
        (GetTextureFormatAttribs R).ComponentSize = (GetTextureFormatAttribs F).ComponentSize ∧
        (GetTextureFormatAttribs R).NumComponents = (GetTextureFormatAttribs F).NumComponents ∧
        (GetTextureFormatAttribs R).BlockWidth = (GetTextureFormatAttribs F).BlockWidth ∧
        (GetTextureFormatAttribs R).BlockHeight = (GetTextureFormatAttribs F).BlockHeight) := by
  unfold GetDefaultTextureViewFormat GetViewFormat
  by_cases hF : F = TEX_FORMAT_R16_TYPELESS
  · subst hF
    by_cases hb : BindFlags &&& BIND_DEPTH_STENCIL ≠ 0
    · rw [if_pos ⟨rfl, hb⟩]
      cases V
      · exact absurd rfl hV
      all_goals exact ⟨_, rfl, fun _ => ⟨rfl, rfl, rfl, rfl, rfl⟩⟩
    · rw [if_neg (fun h => hb h.2)]
      cases V
      · exact absurd rfl hV
      all_goals
        first
        | exact ⟨_, rfl, fun _ => ⟨rfl, rfl, rfl, rfl, rfl⟩⟩
        | exact ⟨_, rfl, fun h => absurd rfl h⟩
  · rw [if_neg (fun h => hF h.1)]
    cases V
    · exact absurd rfl hV
    all_goals
      cases F <;>
        first
        | exact ⟨_, rfl, fun _ => ⟨rfl, rfl, rfl, rfl, rfl⟩⟩
        | exact ⟨_, rfl, fun h => absurd rfl h⟩

/-- Witness for C25: the shader-resource view of `TEX_FORMAT_RGBA8_TYPELESS` is
`TEX_FORMAT_RGBA8_UNORM_SRGB`, one byte per component, four components. -/
theorem GetDefaultTextureViewFormat_keeps_layout_witness :
    GetDefaultTextureViewFormat TEX_FORMAT_RGBA8_TYPELESS TEXTURE_VIEW_SHADER_RESOURCE 8 =
      some TEX_FORMAT_RGBA8_UNORM_SRGB ∧
    ∃ R, GetDefaultTextureViewFormat TEX_FORMAT_RGBA8_TYPELESS TEXTURE_VIEW_SHADER_RESOURCE 8 =
        some R ∧
      (R ≠ TEX_FORMAT_UNKNOWN →
        (GetTextureFormatAttribs R).IsTypeless = false ∧
        (GetTextureFormatAttribs R).ComponentSize = 1 ∧
        (GetTextureFormatAttribs R).NumComponents = 4 ∧
        (GetTextureFormatAttribs R).BlockWidth = 1 ∧
        (GetTextureFormatAttribs R).BlockHeight = 1) :=
  ⟨rfl, GetDefaultTextureViewFormat_keeps_layout TEX_FORMAT_RGBA8_TYPELESS
    TEXTURE_VIEW_SHADER_RESOURCE 8 (by decide)⟩

end Diligent

namespace Diligent

theorem loop_mono (Width : Nat) (fuel k : Nat) (r : Outcome Nat)
    (hr : r ≠ Outcome.unfinished) (h : ComputeMipLevelsCount.loop Width fuel k = r) :
    ComputeMipLevelsCount.loop Width (fuel + 1) k = r := by
  induction fuel generalizing k with
  | zero =>
    simp only [ComputeMipLevelsCount.loop] at h
    exact absurd h.symm hr
  | succ n ih =>
    rw [ComputeMipLevelsCount.loop] at h ⊢
    cases hs : shr32 Width k with
    | none => rw [hs] at h; exact h
    | some v =>
      rw [hs] at h
      simp only at h ⊢
      split
      · rename_i hv
        rw [if_pos hv] at h
        exact ih _ h
      · rename_i hv
        rw [if_neg hv] at h
        exact h

/-- The loop from `MipLevels = k`, for a width of bit length `Nat.size Width`: it stops at
the bit length when this is below 32 and runs into the undefined shift otherwise. -/
theorem loop_eq (Width : Nat) (hW : Width < 4294967296) (n : Nat) :
    ∀ k fuel, k + n = Nat.size Width → n < fuel →
      ComputeMipLevelsCount.loop Width fuel k =
        if Nat.size Width = 32 then Outcome.undefined else Outcome.value (Nat.size Width) := by
  have hsize : Nat.size Width ≤ 32 := Nat.size_le.mpr hW
  induction n with
  | zero =>
    intro k fuel hk hf
    obtain ⟨f, rfl⟩ : ∃ f, fuel = f + 1 := ⟨fuel - 1, by omega⟩
    rw [ComputeMipLevelsCount.loop]
    simp only [Nat.add_zero] at hk
    by_cases h32 : Nat.size Width = 32
    · rw [if_pos h32]
      have : shr32 Width k = none := by
        unfold shr32
        rw [if_neg (by omega)]
      rw [this]
    · rw [if_neg h32]
      have hk32 : k < 32 := by omega
      have : shr32 Width k = some (Width >>> k) := by
        unfold shr32
        rw [if_pos hk32]
      rw [this]
      simp only
      have hz : ¬ Width >>> k > 0 := by
        rw [Nat.shiftRight_eq_div_pow]
        have : Width < 2 ^ k := Nat.size_le.mp (Nat.le_of_eq hk.symm)
        rw [Nat.div_eq_of_lt this]
        exact Nat.lt_irrefl 0
      rw [if_neg hz, hk]
  | succ n ih =>
    intro k fuel hk hf
    obtain ⟨f, rfl⟩ : ∃ f, fuel = f + 1 := ⟨fuel - 1, by omega⟩
    rw [ComputeMipLevelsCount.loop]
    have hk32 : k < 32 := by omega
    have : shr32 Width k = some (Width >>> k) := by
      unfold shr32
      rw [if_pos hk32]
    rw [this]
    simp only
    have hp : Width >>> k > 0 := by
      rw [Nat.shiftRight_eq_div_pow]
      have : 2 ^ k ≤ Width := Nat.lt_size.mp (by omega)
      exact Nat.div_pos this (Nat.two_pow_pos k)
    rw [if_pos hp]
    have hu : u32 (k + 1) = k + 1 := Nat.mod_eq_of_lt (by omega)
    rw [hu]
    exact ih (k + 1) f (by omega) (by omega)


theorem shl32_one (n : Nat) (hn : n < 32) : shl32 1 n = some (2 ^ n) := by
  unfold shl32 u32
  rw [if_pos hn, Nat.one_shiftLeft, Nat.mod_eq_of_lt]
  calc 2 ^ n < 2 ^ 32 := Nat.pow_lt_pow_right (by decide) hn
    _ = 4294967296 := by norm_num

theorem ComputeMipLevelsCount_eq (Width fuel : Nat) (hW : Width < 4294967296)
    (hf : 32 < fuel) :
    ComputeMipLevelsCount fuel Width =
      if Nat.size Width = 32 then Outcome.undefined else Outcome.value (Nat.size Width) := by
  unfold ComputeMipLevelsCount
  split
  · rename_i h0
    subst h0
    simp
  · have hsize : Nat.size Width ≤ 32 := Nat.size_le.mpr hW
    exact loop_eq Width hW (Nat.size Width) 0 fuel (by omega) (by omega)

/-- C23 (the code at the failing input): for `Width = 0x80000000` the loop test is true for
`MipLevels = 0, ..., 31` and the next test evaluates `Width >> 32`, a shift by the width of
the type, which is undefined: the function returns no value, however many loop tests are
allowed, and no value of `MipLevels` makes the condition of its `VERIFY` true, since
`1U << MipLevels` never exceeds `0x80000000`. -/
theorem ComputeMipLevelsCount_undefined_at_0x80000000 :
    ComputeMipLevelsCount 33 2147483648 = Outcome.undefined ∧
    (∀ fuel L, ComputeMipLevelsCount fuel 2147483648 ≠ Outcome.value L) ∧
    (∀ L, L < 4294967296 → ComputeMipLevelsCount.assertion 2147483648 L ≠ some true) := by
  refine ⟨by decide, ?_, ?_⟩
  · intro fuel L h
    have hne : ∀ f, f < 33 → ComputeMipLevelsCount f 2147483648 = Outcome.unfinished := by
      intro f hf
      interval_cases f <;> rfl
    by_cases hf : fuel < 33
    · rw [hne fuel hf] at h
      cases h
    · rw [ComputeMipLevelsCount_eq 2147483648 fuel (by norm_num) (by omega)] at h
      have : Nat.size 2147483648 = 32 := by
        apply le_antisymm
        · exact Nat.size_le.mpr (by norm_num)
        · exact Nat.lt_size.mpr (by norm_num)
      rw [if_pos this] at h
      cases h
  · intro L hL
    by_cases h33 : L < 33
    · clear hL
      interval_cases L <;> decide
    · have hu : decrement32 L = L - 1 := by
        unfold decrement32
        rw [if_neg (by omega)]
      have hn : ¬ L - 1 < 32 := by omega
      unfold ComputeMipLevelsCount.assertion shl32
      rw [hu, if_neg hn]
      simp

/-- What `ComputeMipLevelsCount` does on every `Uint32`: for a width below `2^31` it ends
after at most 32 loop tests; it returns 0 for `Width = 0` and otherwise the one `L` with
`2^(L-1) <= Width < 2^L`, for which the condition of the function's `VERIFY` is true. For a
width of `2^31` or more the 33rd loop test shifts by 32, which is undefined. -/
theorem ComputeMipLevelsCount_bit_length (Width : Nat) (hW : Width < 4294967296) :
    (Width < 2147483648 →
      ∃ L, L ≤ 31 ∧
        (∀ fuel, 32 < fuel → ComputeMipLevelsCount fuel Width = Outcome.value L) ∧
        (Width = 0 → L = 0) ∧
        (0 < Width →
          2 ^ (L - 1) ≤ Width ∧ Width < 2 ^ L ∧
          (∀ M, 2 ^ (M - 1) ≤ Width → Width < 2 ^ M → M = L) ∧
          ComputeMipLevelsCount.assertion Width L = some true)) ∧
    (2147483648 ≤ Width →
      ∀ fuel, 32 < fuel → ComputeMipLevelsCount fuel Width = Outcome.undefined) := by
  constructor
  · intro h31
    have hsize : Nat.size Width ≤ 31 := Nat.size_le.mpr (by norm_num; exact h31)
    refine ⟨Nat.size Width, hsize, ?_, ?_, ?_⟩
    · intro fuel hf
      rw [ComputeMipLevelsCount_eq Width fuel hW hf, if_neg (by omega)]
    · intro h0
      rw [h0]
      exact Nat.size_zero
    · intro hpos
      have h1 : 0 < Nat.size Width := Nat.size_pos.mpr hpos
      have hlow : 2 ^ (Nat.size Width - 1) ≤ Width := Nat.lt_size.mp (by omega)
      have hhigh : Width < 2 ^ Nat.size Width := Nat.lt_size_self Width
      refine ⟨hlow, hhigh, ?_, ?_⟩
      · intro M hM1 hM2
        have a1 : M - 1 < Nat.size Width := Nat.lt_size.mpr hM1
        have a2 : Nat.size Width ≤ M := Nat.size_le.mpr hM2
        omega
      · have hu : decrement32 (Nat.size Width) = Nat.size Width - 1 := by
          unfold decrement32
          rw [if_neg (by omega)]
        unfold ComputeMipLevelsCount.assertion
        rw [hu, shl32_one _ (by omega), shl32_one _ (by omega)]
        simp only [ge_iff_le, hlow, if_true, decide_eq_true_eq.mpr hhigh]
  · intro h31 fuel hf
    have hsize : Nat.size Width = 32 := by
      apply le_antisymm
      · exact Nat.size_le.mpr (by norm_num; exact hW)
      · exact Nat.lt_size.mpr (by norm_num; exact h31)
    rw [ComputeMipLevelsCount_eq Width fuel hW hf, if_pos hsize]

/-- A width of 1000 has 10 mip levels. -/
theorem ComputeMipLevelsCount_bit_length_witness :
    ComputeMipLevelsCount 33 1000 = Outcome.value 10 ∧
    ComputeMipLevelsCount.assertion 1000 10 = some true ∧
    ∃ L, L ≤ 31 ∧
      (∀ fuel, 32 < fuel → ComputeMipLevelsCount fuel 1000 = Outcome.value L) ∧
      (1000 = 0 → L = 0) ∧
      (0 < 1000 →
        2 ^ (L - 1) ≤ 1000 ∧ 1000 < 2 ^ L ∧
        (∀ M, 2 ^ (M - 1) ≤ 1000 → 1000 < 2 ^ M → M = L) ∧
        ComputeMipLevelsCount.assertion 1000 L = some true) :=
  ⟨by decide, by decide,
    (ComputeMipLevelsCount_bit_length 1000 (by decide)).1 (by decide)⟩

end Diligent

namespace Diligent

/-! ## `GetShaderStagesString` -/

theorem forLoop_mono (fuel Stage : Nat) (st r : Nat × String)
    (h : GetShaderStagesString.forLoop fuel Stage st = some r) :
    GetShaderStagesString.forLoop (fuel + 1) Stage st = some r := by
  induction fuel generalizing Stage st with
  | zero => simp [GetShaderStagesString.forLoop] at h
  | succ n ih =>
    obtain ⟨ShaderStages, StagesStr⟩ := st
    rw [GetShaderStagesString.forLoop] at h ⊢
    split
    · rename_i hc
      rw [if_pos hc] at h
      exact ih _ _ h
    · rename_i hc
      rw [if_neg hc] at h
      exact h

theorem whileLoop_mono_inner (fuel n : Nat) (st : Nat × String) (r : String)
    (h : GetShaderStagesString.whileLoop fuel n st = some r) :
    GetShaderStagesString.whileLoop (fuel + 1) n st = some r := by
  induction n generalizing st with
  | zero => simp [GetShaderStagesString.whileLoop] at h
  | succ n ih =>
    obtain ⟨ShaderStages, StagesStr⟩ := st
    rw [GetShaderStagesString.whileLoop] at h ⊢
    split
    · rename_i hc
      rw [if_pos hc] at h
      cases hf : GetShaderStagesString.forLoop fuel SHADER_TYPE_VERTEX
          (ShaderStages, StagesStr) with
      | none => rw [hf] at h; simp at h
      | some st1 =>
        rw [hf] at h
        rw [forLoop_mono _ _ _ _ hf]
        exact ih _ h
    · rename_i hc
      rw [if_neg hc] at h
      exact h

theorem whileLoop_mono_outer (fuel n : Nat) (st : Nat × String) (r : String)
    (h : GetShaderStagesString.whileLoop fuel n st = some r) :
    GetShaderStagesString.whileLoop fuel (n + 1) st = some r := by
  induction n generalizing st with
  | zero => simp [GetShaderStagesString.whileLoop] at h
  | succ n ih =>
    obtain ⟨ShaderStages, StagesStr⟩ := st
    rw [GetShaderStagesString.whileLoop] at h ⊢
    split
    · rename_i hc
      rw [if_pos hc] at h
      cases hf : GetShaderStagesString.forLoop fuel SHADER_TYPE_VERTEX
          (ShaderStages, StagesStr) with
      | none => rw [hf] at h; simp at h
      | some st1 =>
        rw [hf] at h
        exact ih _ h
    · rename_i hc
      rw [if_neg hc] at h
      exact h

theorem GetShaderStagesString_mono (fuel more ShaderStages : Nat) (r : String)
    (h : GetShaderStagesString fuel ShaderStages = some r) :
    GetShaderStagesString (fuel + more) ShaderStages = some r := by
  induction more with
  | zero => exact h
  | succ m ih =>
    unfold GetShaderStagesString at ih ⊢
    exact whileLoop_mono_inner _ _ _ _ (whileLoop_mono_outer _ _ _ _ ih)

/-- What lies above the six stage bits of a `Uint32` mask is not touched by clearing a
stage bit. -/
theorem shiftRight_and_not32 (x Stage : Nat) (hx : x < 4294967296)
    (hs : Stage ≤ SHADER_TYPE_COMPUTE) : (x &&& not32 Stage) >>> 6 = x >>> 6 := by
  apply Nat.eq_of_testBit_eq
  intro i
  have hS : Stage.testBit (6 + i) = false := by
    apply Nat.testBit_lt_two_pow
    calc Stage < 2 ^ 6 := by unfold SHADER_TYPE_COMPUTE at hs; omega
      _ ≤ 2 ^ (6 + i) := Nat.pow_le_pow_right (by decide) (by omega)
  have hM : (4294967295 : Nat).testBit (6 + i) = decide (6 + i < 32) :=
    Nat.testBit_two_pow_sub_one 32 (6 + i)
  unfold not32
  rw [Nat.testBit_shiftRight, Nat.testBit_shiftRight, Nat.testBit_and, Nat.testBit_xor, hS, hM]
  by_cases hi : 6 + i < 32
  · simp [hi]
  · have hX : x.testBit (6 + i) = false := by
      apply Nat.testBit_lt_two_pow
      calc x < 2 ^ 32 := hx
        _ ≤ 2 ^ (6 + i) := Nat.pow_le_pow_right (by decide) (by omega)
    simp [hX]

theorem forLoop_high_bits (fuel Stage : Nat) (st r : Nat × String) (hx : st.1 < 4294967296)
    (h : GetShaderStagesString.forLoop fuel Stage st = some r) :
    r.1 >>> 6 = st.1 >>> 6 ∧ r.1 < 4294967296 := by
  induction fuel generalizing Stage st with
  | zero => simp [GetShaderStagesString.forLoop] at h
  | succ n ih =>
    obtain ⟨ShaderStages, StagesStr⟩ := st
    rw [GetShaderStagesString.forLoop] at h
    split at h
    · rename_i hc
      split at h
      · have hlt : ShaderStages &&& not32 Stage < 4294967296 :=
          Nat.lt_of_le_of_lt Nat.and_le_left hx
        obtain ⟨h1, h2⟩ := ih _ _ hlt h
        exact ⟨h1.trans (shiftRight_and_not32 ShaderStages Stage hx hc.2), h2⟩
      · exact ih _ _ hx h
    · simp only [Option.some.injEq] at h
      rw [← h]
      exact ⟨rfl, hx⟩

theorem whileLoop_never_returns (fuel n : Nat) (st : Nat × String) (hx : st.1 < 4294967296)
    (hhigh : st.1 >>> 6 ≠ 0) : GetShaderStagesString.whileLoop fuel n st = none := by
  induction n generalizing st with
  | zero => rfl
  | succ n ih =>
    obtain ⟨ShaderStages, StagesStr⟩ := st
    rw [GetShaderStagesString.whileLoop]
    have hne : ShaderStages ≠ 0 := by
      intro h0
      apply hhigh
      simp [h0]
    rw [if_pos hne]
    cases hf : GetShaderStagesString.forLoop fuel SHADER_TYPE_VERTEX
        (ShaderStages, StagesStr) with
    | none => rfl
    | some st1 =>
      obtain ⟨h1, h2⟩ := forLoop_high_bits _ _ _ _ hx hf
      exact ih st1 h2 (by rw [h1]; exact hhigh)

theorem GetShaderStagesString_never_returns (fuel ShaderStages : Nat)
    (hx : ShaderStages < 4294967296) (hhigh : 64 ≤ ShaderStages) :
    GetShaderStagesString fuel ShaderStages = none := by
  unfold GetShaderStagesString
  apply whileLoop_never_returns _ _ _ hx
  show ShaderStages >>> 6 ≠ 0
  rw [Nat.shiftRight_eq_div_pow]
  have : 0 < ShaderStages / 2 ^ 6 := Nat.div_pos hhigh (by decide)
  omega


/-- C24: for the mask `0x40`, a bit above `SHADER_TYPE_COMPUTE`, and for `0x41`, the same
bit with `SHADER_TYPE_VERTEX`, `GetShaderStagesString` never returns, whatever the bound on
the loop tests: the inner loop clears and names the stage bits, leaves `0x40` in
`ShaderStages`, and every further pass of the outer `while (ShaderStages != 0)` changes
nothing, so the check `VERIFY_EXPR(ShaderStages == 0)` behind the loops is never reached. -/
theorem GetShaderStagesString_hangs_on_0x40 :
    (∀ fuel, GetShaderStagesString fuel 64 = none) ∧
    (∀ fuel, GetShaderStagesString fuel 65 = none) ∧
    GetShaderStagesString.forLoop 7 SHADER_TYPE_VERTEX (65, "") =
      some (64, "SHADER_TYPE_VERTEX") ∧
    GetShaderStagesString.forLoop 7 SHADER_TYPE_VERTEX (64, "SHADER_TYPE_VERTEX") =
      some (64, "SHADER_TYPE_VERTEX") :=
  ⟨fun fuel => GetShaderStagesString_never_returns fuel 64 (by decide) (by decide),
    fun fuel => GetShaderStagesString_never_returns fuel 65 (by decide) (by decide),
    by decide, by decide⟩

/-- For every mask whose set bits all lie in the range
`SHADER_TYPE_VERTEX .. SHADER_TYPE_COMPUTE`, that is every mask below `0x40`,
`GetShaderStagesString` ends, within 7 tests of each loop, and returns the literal names of
the set stage bits in ascending bit order separated by `", "`; for the mask 0 this is the
empty string. -/
theorem GetShaderStagesString_names_stages (ShaderStages : Nat) (h : ShaderStages < 64) :
    (∀ fuel, 6 < fuel → GetShaderStagesString fuel ShaderStages = some (stageNames ShaderStages)) ∧
    stageNames 0 = "" := by
  refine ⟨?_, rfl⟩
  intro fuel hf
  have h7 : GetShaderStagesString 7 ShaderStages = some (stageNames ShaderStages) := by
    interval_cases ShaderStages <;> rfl
  have := GetShaderStagesString_mono 7 (fuel - 7) ShaderStages _ h7
  rwa [show 7 + (fuel - 7) = fuel by omega] at this

/-- The mask `0x05` names the vertex and the geometry stage. -/
theorem GetShaderStagesString_names_stages_witness :
    GetShaderStagesString 7 5 = some "SHADER_TYPE_VERTEX, SHADER_TYPE_GEOMETRY" ∧
    stageNames 5 = "SHADER_TYPE_VERTEX, SHADER_TYPE_GEOMETRY" :=
  ⟨((GetShaderStagesString_names_stages 5 (by decide)).1 7 (by decide)).trans (by decide),
    by decide⟩

end Diligent

namespace Diligent

open TEXTURE_FORMAT COMPONENT_TYPE

/-! ## `GetMipLevelProperties` -/

theorem u32_mul_left (a b : Nat) : u32 (u32 a * b) = u32 (a * b) := by
  unfold u32
  exact Nat.mod_mul_mod

theorem shr32_of_lt (x n : Nat) (h : n < 32) : shr32 x n = some (x >>> n) := by
  unfold shr32
  rw [if_pos h]

/-- Counterexample for C26: for mip level 0 of a 2D texture of 16384 by 16384 texels in
`TEX_FORMAT_RGBA32_FLOAT`, a format that is not compressed, `RowSize` is `2^18` and the
product `RowSize * StorageHeight` is `2^32`, which wraps: `DepthSliceSize` and `MipSize`
are 0, while the product of the claim is `2^32`. -/
theorem GetMipLevelProperties_wraps_for_16384_RGBA32_FLOAT :
    (GetTextureFormatAttribs exampleLargeTexture.Format).ComponentType ≠
      COMPONENT_TYPE_COMPRESSED ∧
    (GetMipLevelProperties exampleLargeTexture 0).map
        (fun p => (p.RowSize, p.DepthSliceSize, p.MipSize)) = some (262144, 0, 0) ∧
    exactMipSize exampleLargeTexture 0 = 4294967296 := by
  decide

/-- C26 (amended): for every texture description with a format that is not compressed and
every `MipLevel < 32`, `GetMipLevelProperties` returns `MipSize` equal to the exact product
`max(Width>>MipLevel,1) * max(Height>>MipLevel,1) * Depth' * ComponentSize * NumComponents`
whenever this product is below `2^32`, and then `RowSize` and `DepthSliceSize` are the exact
products as well: nothing wraps. In general the three values are these products reduced
modulo `2^32`. -/
theorem GetMipLevelProperties_MipSize (TexDesc : TextureDesc) (MipLevel : Nat)
    (hM : MipLevel < 32)
    (hnc : (GetTextureFormatAttribs TexDesc.Format).ComponentType ≠ COMPONENT_TYPE_COMPRESSED) :
    ∃ p, GetMipLevelProperties TexDesc MipLevel = some p ∧
      p.RowSize = max (TexDesc.Width >>> MipLevel) 1 *
        (GetTextureFormatAttribs TexDesc.Format).ComponentSize *
        (GetTextureFormatAttribs TexDesc.Format).NumComponents % 4294967296 ∧
      p.DepthSliceSize = max (TexDesc.Width >>> MipLevel) 1 *
        (GetTextureFormatAttribs TexDesc.Format).ComponentSize *
        (GetTextureFormatAttribs TexDesc.Format).NumComponents *
        max (TexDesc.Height >>> MipLevel) 1 % 4294967296 ∧
      p.MipSize = exactMipSize TexDesc MipLevel % 4294967296 ∧
      (exactMipSize TexDesc MipLevel < 4294967296 →
        p.RowSize = max (TexDesc.Width >>> MipLevel) 1 *
          (GetTextureFormatAttribs TexDesc.Format).ComponentSize *
          (GetTextureFormatAttribs TexDesc.Format).NumComponents ∧
        p.DepthSliceSize = max (TexDesc.Width >>> MipLevel) 1 *
          (GetTextureFormatAttribs TexDesc.Format).ComponentSize *
          (GetTextureFormatAttribs TexDesc.Format).NumComponents *
          max (TexDesc.Height >>> MipLevel) 1 ∧
        p.MipSize = exactMipSize TexDesc MipLevel) := by
  generalize hW : max (TexDesc.Width >>> MipLevel) 1 = W
  generalize hH : max (TexDesc.Height >>> MipLevel) 1 = H
  have hH1 : 1 ≤ H := by rw [← hH]; exact Nat.le_max_right _ _
  have hex : exactMipSize TexDesc MipLevel =
      W * (GetTextureFormatAttribs TexDesc.Format).ComponentSize *
        (GetTextureFormatAttribs TexDesc.Format).NumComponents * H *
        (if TexDesc.Dim = RESOURCE_DIMENSION.RESOURCE_DIM_TEX_3D then
          max (TexDesc.Depth >>> MipLevel) 1 else 1) := by
    unfold exactMipSize
    rw [hW, hH]
    ring
  generalize hD : (if TexDesc.Dim = RESOURCE_DIMENSION.RESOURCE_DIM_TEX_3D then
      max (TexDesc.Depth >>> MipLevel) 1 else 1) = D at hex
  have hD1 : 1 ≤ D := by
    rw [← hD]
    split
    · exact Nat.le_max_right _ _
    · exact Nat.le_refl 1
  generalize hCS : (GetTextureFormatAttribs TexDesc.Format).ComponentSize = CS at hex ⊢
  generalize hNC : (GetTextureFormatAttribs TexDesc.Format).NumComponents = NC at hex ⊢
  have hrow : u32 (u32 (W * CS) * NC) = W * CS * NC % 4294967296 := by
    rw [u32_mul_left]
    rfl
  have hslice : u32 (u32 (u32 (W * CS) * NC) * H) = W * CS * NC * H % 4294967296 := by
    rw [hrow]
    exact Nat.mod_mul_mod
  have hmip : u32 (u32 (u32 (u32 (W * CS) * NC) * H) * D) =
      W * CS * NC * H * D % 4294967296 := by
    rw [hslice]
    exact Nat.mod_mul_mod
  have hp : GetMipLevelProperties TexDesc MipLevel = some
      { LogicalWidth := W
        LogicalHeight := H
        StorageWidth := W
        StorageHeight := H
        Depth := D
        RowSize := u32 (u32 (W * CS) * NC)
        DepthSliceSize := u32 (u32 (u32 (W * CS) * NC) * H)
        MipSize := u32 (u32 (u32 (u32 (W * CS) * NC) * H) * D) } := by
    unfold GetMipLevelProperties
    simp only [shr32_of_lt _ _ hM, if_neg hnc, hW, hH, hD, hNC, hCS]
  refine ⟨_, hp, hrow, hslice, by rw [hex]; exact hmip, ?_⟩
  intro hlt
  rw [hex] at hlt
  have h1 : W * CS * NC * H ≤ W * CS * NC * H * D := Nat.le_mul_of_pos_right _ hD1
  have h2 : W * CS * NC ≤ W * CS * NC * H := Nat.le_mul_of_pos_right _ hH1
  refine ⟨?_, ?_, ?_⟩
  · show u32 (u32 (W * CS) * NC) = _
    rw [hrow]
    exact Nat.mod_eq_of_lt (by omega)
  · show u32 (u32 (u32 (W * CS) * NC) * H) = _
    rw [hslice]
    exact Nat.mod_eq_of_lt (by omega)
  · show u32 (u32 (u32 (u32 (W * CS) * NC) * H) * D) = _
    rw [hmip, hex]
    exact Nat.mod_eq_of_lt hlt


/-- Witness for C26 (amended): mip level 1 of a 2D texture of 1024 by 512 texels in
`TEX_FORMAT_RGBA8_UNORM` has rows of 2048 bytes and 524288 bytes in all. -/
theorem GetMipLevelProperties_MipSize_witness :
    (GetMipLevelProperties exampleTexture 1).map
        (fun p => (p.RowSize, p.DepthSliceSize, p.MipSize)) = some (2048, 524288, 524288) ∧
    exactMipSize exampleTexture 1 = 524288 ∧
    ∃ p, GetMipLevelProperties exampleTexture 1 = some p ∧
      p.MipSize = exactMipSize exampleTexture 1 := by
  refine ⟨by decide, by decide, ?_⟩
  obtain ⟨p, h1, _, _, _, h5⟩ :=
    GetMipLevelProperties_MipSize exampleTexture 1 (by decide) (by decide)
  exact ⟨p, h1, (h5 (by decide)).2.2⟩

end Diligent

namespace Diligent

/-! ## `VerifyResourceStates` -/

/-- A `Uint32` that meets the bit `2^k` and nothing outside it is `2^k`. -/
theorem eq_two_pow_of_and (State k : Nat) (hS : State < 4294967296)
    (h1 : State &&& 2 ^ k ≠ 0) (h2 : State &&& not32 (2 ^ k) = 0) : State = 2 ^ k := by
  apply Nat.eq_of_testBit_eq
  intro i
  rw [Nat.testBit_two_pow]
  by_cases hi : k = i
  · subst hi
    simp only [decide_True]
    by_contra hb
    apply h1
    apply Nat.eq_of_testBit_eq
    intro j
    rw [Nat.testBit_and, Nat.testBit_two_pow, Nat.zero_testBit]
    by_cases hj : k = j
    · subst hj
      simp [hb]
    · simp [hj]
  · simp only [hi, decide_False]
    by_cases h32 : i < 32
    · have := congrArg (fun n => n.testBit i) h2
      simp only [not32, Nat.testBit_and, Nat.testBit_xor, Nat.zero_testBit] at this
      have hM : (4294967295 : Nat).testBit i = true := by
        rw [show (4294967295 : Nat) = 2 ^ 32 - 1 by norm_num, Nat.testBit_two_pow_sub_one]
        simp [h32]
      rw [hM, Nat.testBit_two_pow] at this
      simpa [hi] using this
    · apply Nat.testBit_lt_two_pow
      calc State < 2 ^ 32 := hS
        _ ≤ 2 ^ i := Nat.pow_le_pow_right (by decide) (by omega)

theorem and_eq_zero_of_and_or_left (x a b : Nat) (h : x &&& (a ||| b) = 0) :
    x &&& a = 0 ∧ x &&& b = 0 := by
  constructor <;>
  · apply Nat.eq_of_testBit_eq
    intro i
    have := congrArg (fun n => n.testBit i) h
    simp only [Nat.testBit_and, Nat.testBit_or, Nat.zero_testBit] at this ⊢
    cases hx : x.testBit i <;> cases ha : a.testBit i <;> cases hb : b.testBit i <;> simp_all


theorem eq_of_exclusive (State X k : Nat) (hS : State < 4294967296) (hX : X = 2 ^ k)
    (he : ¬ VERIFY_EXCLUSIVE_STATE State X = true) (h : State &&& X ≠ 0) : State = X := by
  subst hX
  apply eq_two_pow_of_and State k hS h
  by_contra hc
  exact he (by simp [VERIFY_EXCLUSIVE_STATE, h, hc])

/-- C27: when `VerifyResourceStates(State, IsTexture)` returns `true`, a state that contains
one of `RESOURCE_STATE_UNDEFINED`, `UNORDERED_ACCESS`, `RENDER_TARGET`, `DEPTH_WRITE`,
`COPY_DEST`, `RESOLVE_DEST`, `PRESENT` is exactly that flag, a texture state contains none of
`VERTEX_BUFFER`, `CONSTANT_BUFFER`, `INDEX_BUFFER`, `STREAM_OUT`, `INDIRECT_ARGUMENT`, and a
buffer state contains none of `RENDER_TARGET`, `DEPTH_WRITE`, `DEPTH_READ`, `RESOLVE_SOURCE`,
`RESOLVE_DEST`, `PRESENT`. -/
theorem VerifyResourceStates_true (State : Nat) (hS : State < 4294967296) (IsTexture : Bool)
    (h : VerifyResourceStates State IsTexture = true) :
    (∀ X ∈ exclusiveStates, State &&& X ≠ 0 → State = X) ∧
    (IsTexture = true → ∀ X ∈ bufferOnlyStates, State &&& X = 0) ∧
    (IsTexture = false → ∀ X ∈ textureOnlyStates, State &&& X = 0) := by
  unfold VerifyResourceStates at h
  split at h
  · cases h
  rename_i e1
  split at h
  · cases h
  rename_i e2
  split at h
  · cases h
  rename_i e3
  split at h
  · cases h
  rename_i e4
  split at h
  · cases h
  rename_i e5
  split at h
  · cases h
  rename_i e6
  split at h
  · cases h
  rename_i e7
  refine ⟨?_, ?_, ?_⟩
  · intro X hX hne
    simp only [exclusiveStates, List.mem_cons, List.mem_singleton, List.not_mem_nil,
      or_false] at hX
    rcases hX with rfl | rfl | rfl | rfl | rfl | rfl | rfl
    · exact eq_of_exclusive State _ 0 hS rfl e1 hne
    · exact eq_of_exclusive State _ 5 hS rfl e2 hne
    · exact eq_of_exclusive State _ 4 hS rfl e3 hne
    · exact eq_of_exclusive State _ 6 hS rfl e4 hne
    · exact eq_of_exclusive State _ 11 hS rfl e5 hne
    · exact eq_of_exclusive State _ 13 hS rfl e6 hne
    · exact eq_of_exclusive State _ 15 hS rfl e7 hne
  · intro ht X hX
    rw [if_pos ht] at h
    split at h
    · cases h
    rename_i hb
    simp only [ne_eq, not_not] at hb
    obtain ⟨h1234, h5⟩ := and_eq_zero_of_and_or_left _ _ _ hb
    obtain ⟨h123, h4⟩ := and_eq_zero_of_and_or_left _ _ _ h1234
    obtain ⟨h12, h3⟩ := and_eq_zero_of_and_or_left _ _ _ h123
    obtain ⟨h1, h2⟩ := and_eq_zero_of_and_or_left _ _ _ h12
    simp only [bufferOnlyStates, List.mem_cons, List.mem_singleton, List.not_mem_nil,
      or_false] at hX
    rcases hX with rfl | rfl | rfl | rfl | rfl
    · exact h1
    · exact h2
    · exact h3
    · exact h4
    · exact h5
  · intro ht X hX
    rw [if_neg (by simp [ht])] at h
    split at h
    · cases h
    rename_i hb
    simp only [ne_eq, not_not] at hb
    obtain ⟨h12345, h6⟩ := and_eq_zero_of_and_or_left _ _ _ hb
    obtain ⟨h1234, h5⟩ := and_eq_zero_of_and_or_left _ _ _ h12345
    obtain ⟨h123, h4⟩ := and_eq_zero_of_and_or_left _ _ _ h1234
    obtain ⟨h12, h3⟩ := and_eq_zero_of_and_or_left _ _ _ h123
    obtain ⟨h1, h2⟩ := and_eq_zero_of_and_or_left _ _ _ h12
    simp only [textureOnlyStates, List.mem_cons, List.mem_singleton, List.not_mem_nil,
      or_false] at hX
    rcases hX with rfl | rfl | rfl | rfl | rfl | rfl
    · exact h1
    · exact h2
    · exact h3
    · exact h4
    · exact h5
    · exact h6

/-- Witness for C27: `RESOURCE_STATE_RENDER_TARGET` alone is accepted for a texture;
together with `RESOURCE_STATE_SHADER_RESOURCE` it is rejected, and it is rejected for a
buffer. -/
theorem VerifyResourceStates_true_witness :
    VerifyResourceStates RESOURCE_STATE_RENDER_TARGET true = true ∧
    VerifyResourceStates (RESOURCE_STATE_RENDER_TARGET ||| RESOURCE_STATE_SHADER_RESOURCE) true
      = false ∧
    VerifyResourceStates RESOURCE_STATE_RENDER_TARGET false = false ∧
    (∀ X ∈ exclusiveStates, RESOURCE_STATE_RENDER_TARGET &&& X ≠ 0 →
      RESOURCE_STATE_RENDER_TARGET = X) :=
  ⟨by decide, by decide, by decide,
    (VerifyResourceStates_true RESOURCE_STATE_RENDER_TARGET (by decide) true (by decide)).1⟩

end Diligent

namespace ThreadingTools

/-! ## `LockHelper`: flags that stay locked -/

theorem setPtr_flag (s : Machine) (this : Nat) (p : Option Nat) (f : Nat) :
    (s.setPtr this p).m_Flag f = s.m_Flag f := rfl

theorem held_init : Held Machine.init := by
  intro f
  refine ⟨fun h => ?_, Or.inr rfl⟩
  simp [Machine.init, LOCK_FLAG_UNLOCKED, LOCK_FLAG_LOCKED] at h

theorem held_construct (s : Machine) (hs : Held s) (this : Nat) (hn : this ∉ s.alive) :
    Held (s.construct this) := by
  intro f
  refine ⟨fun h => ?_, (hs f).2⟩
  obtain ⟨k, hk, hp⟩ := (hs f).1 h
  refine ⟨k, List.mem_cons_of_mem _ hk, ?_⟩
  have hne : k ≠ this := fun e => hn (e ▸ hk)
  simp [Machine.construct, Machine.setPtr, hne, hp]

theorem held_TryLock (s : Machine) (hs : Held s) (this LockFlag : Nat) (ha : this ∈ s.alive)
    (hp : s.m_pLockFlag this = none) : Held (s.TryLock this LockFlag).2 := by
  unfold Machine.TryLock Machine.UnsafeTryLock Machine.AtomicCompareExchange
  by_cases hu : s.m_Flag LockFlag = LOCK_FLAG_UNLOCKED
  · simp only [hu, decide_True, if_true]
    intro f
    by_cases hf : f = LockFlag
    · subst hf
      exact ⟨fun _ => ⟨this, ha, by simp [Machine.setPtr]⟩,
        Or.inl (by simp [Machine.setPtr, Machine.setFlag])⟩
    · have hflag : ((s.setFlag LockFlag LOCK_FLAG_LOCKED).setPtr this (some LockFlag)).m_Flag f =
          s.m_Flag f := by simp [Machine.setPtr, Machine.setFlag, hf]
      refine ⟨fun h => ?_, by simpa [hflag] using (hs f).2⟩
      simp only at h
      rw [hflag] at h
      obtain ⟨k, hk, hkp⟩ := (hs f).1 h
      refine ⟨k, hk, ?_⟩
      have hne : k ≠ this := fun e => by rw [e, hp] at hkp; cases hkp
      simp [Machine.setPtr, Machine.setFlag, hne, hkp]
  · simp only [hu, decide_False, Bool.false_eq_true, if_false]
    exact hs

theorem held_Unlock (s : Machine) (hs : Held s) (this : Nat) :
    ∀ f, ((s.Unlock this).m_Flag f = LOCK_FLAG_LOCKED →
        ∃ h ∈ s.alive, h ≠ this ∧ (s.Unlock this).m_pLockFlag h = some f) ∧
      ((s.Unlock this).m_Flag f = LOCK_FLAG_LOCKED ∨
        (s.Unlock this).m_Flag f = LOCK_FLAG_UNLOCKED) := by
  intro f
  unfold Machine.Unlock
  cases hp : s.m_pLockFlag this with
  | none =>
    simp only [setPtr_flag]
    refine ⟨fun h => ?_, (hs f).2⟩
    obtain ⟨k, hk, hkp⟩ := (hs f).1 h
    have hne : k ≠ this := fun e => by rw [e, hp] at hkp; cases hkp
    exact ⟨k, hk, hne, by simp [Machine.setPtr, hne, hkp]⟩
  | some g =>
    simp only [setPtr_flag]
    by_cases hf : f = g
    · subst hf
      refine ⟨fun h => ?_, Or.inr (by simp [Machine.UnsafeUnlock, Machine.setFlag])⟩
      simp [Machine.UnsafeUnlock, Machine.setFlag, LOCK_FLAG_UNLOCKED, LOCK_FLAG_LOCKED] at h
    · have hflag : (s.UnsafeUnlock g).m_Flag f = s.m_Flag f := by
        simp [Machine.UnsafeUnlock, Machine.setFlag, hf]
      rw [hflag]
      refine ⟨fun h => ?_, (hs f).2⟩
      obtain ⟨k, hk, hkp⟩ := (hs f).1 h
      have hne : k ≠ this := fun e => by
        rw [e, hp] at hkp
        exact hf (Option.some.inj hkp).symm
      exact ⟨k, hk, hne, by simp [Machine.setPtr, Machine.UnsafeUnlock, Machine.setFlag, hne, hkp]⟩

/-- C29 (the code at the failing input): with two helpers that hold the flags `1` and `2`,
the move assignment `a = std::move(b)` overwrites the pointer of `a` without unlocking the
flag `a` holds: after both helpers are destroyed flag `1` is still locked. The same happens
when a helper that holds flag `1` takes flag `2` with `TryLock`, and when a helper is
move-assigned to itself. In the run `exampleMoveConstruct`, in which a helper holds nothing
when it locks, no flag stays locked. -/
theorem LockHelper_move_assignment_leaves_flag_locked :
    (run Diligent.IDIGNORE Machine.init exampleMoveAssign).toOption.map observe =
      some ([], [2, 1], [1]) ∧
    (run Diligent.IDIGNORE Machine.init exampleTryLockTwice).toOption.map observe =
      some ([], [2, 1], [1]) ∧
    (run Diligent.IDIGNORE Machine.init exampleSelfMove).toOption.map observe =
      some ([], [1], [1]) ∧
    (run Diligent.IDIGNORE Machine.init exampleMoveConstruct).toOption.map observe =
      some ([], [2, 1], []) := by
  decide


theorem held_destroy (s : Machine) (hs : Held s) (this : Nat) : Held (s.destroy this) := by
  intro f
  obtain ⟨h1, h2⟩ := held_Unlock s hs this f
  refine ⟨fun h => ?_, h2⟩
  obtain ⟨k, hk, hne, hkp⟩ := h1 h
  exact ⟨k, (List.mem_erase_of_ne hne).mpr hk, hkp⟩

theorem Unlock_alive (s : Machine) (this : Nat) : (s.Unlock this).alive = s.alive := by
  unfold Machine.Unlock
  cases s.m_pLockFlag this <;> rfl

theorem held_Unlock_alive (s : Machine) (hs : Held s) (this : Nat) : Held (s.Unlock this) := by
  intro f
  obtain ⟨h1, h2⟩ := held_Unlock s hs this f
  refine ⟨fun h => ?_, h2⟩
  obtain ⟨k, hk, _, hkp⟩ := h1 h
  exact ⟨k, by rw [Unlock_alive]; exact hk, hkp⟩

theorem held_moveConstruct (s : Machine) (hs : Held s) (this other : Nat)
    (hn : this ∉ s.alive) (ho : other ∈ s.alive) : Held (s.moveConstruct this other) := by
  intro f
  refine ⟨fun h => ?_, (hs f).2⟩
  obtain ⟨k, hk, hkp⟩ := (hs f).1 h
  have hto : this ≠ other := fun e => hn (e ▸ ho)
  by_cases hko : k = other
  · subst hko
    exact ⟨this, List.mem_cons_self _ _, by simp [Machine.moveConstruct, Machine.setPtr, hto, hkp]⟩
  · have hkt : k ≠ this := fun e => hn (e ▸ hk)
    exact ⟨k, List.mem_cons_of_mem _ hk,
      by simp [Machine.moveConstruct, Machine.setPtr, hko, hkt, hkp]⟩

theorem held_moveAssign (s : Machine) (hs : Held s) (this other : Nat) (ha : this ∈ s.alive)
    (hto : this ≠ other) (hp : s.m_pLockFlag this = none) : Held (s.moveAssign this other) := by
  intro f
  refine ⟨fun h => ?_, (hs f).2⟩
  obtain ⟨k, hk, hkp⟩ := (hs f).1 h
  by_cases hko : k = other
  · subst hko
    exact ⟨this, ha, by simp [Machine.moveAssign, Machine.setPtr, hto, hkp]⟩
  · have hkt : k ≠ this := fun e => by rw [e, hp] at hkp; cases hkp
    exact ⟨k, hk, by simp [Machine.moveAssign, Machine.setPtr, hko, hkt, hkp]⟩

theorem held_Lock (s t : Machine) (hs : Held s) (this LockFlag nCode : Nat)
    (ha : this ∈ s.alive) (hp : s.m_pLockFlag this = none)
    (ht : s.Lock this LockFlag nCode = Diligent.Run.returned t) : Held t := by
  unfold Machine.Lock at ht
  split at ht
  · cases ht
  · rename_i log _
    simp only at ht
    split at ht
    · simp only [Diligent.Run.returned.injEq] at ht
      rw [← ht]
      exact held_TryLock { s with debugLog := log } hs this LockFlag ha hp
    · cases ht

theorem held_step (nCode : Nat) (s t : Machine) (op : Operation) (hs : Held s)
    (hc : careful s op) (ht : step nCode s op = Diligent.Run.returned t) : Held t := by
  cases op with
  | construct this =>
    simp only [step, Diligent.Run.returned.injEq] at ht
    rw [← ht]
    exact held_construct s hs this hc
  | constructLocked this LockFlag =>
    simp only [step, Machine.constructLocked] at ht
    exact held_Lock _ t (held_construct s hs this hc) this LockFlag nCode
      (List.mem_cons_self _ _) (by simp [Machine.construct, Machine.setPtr]) ht
  | moveConstruct this other =>
    simp only [step, Diligent.Run.returned.injEq] at ht
    rw [← ht]
    exact held_moveConstruct s hs this other hc.1 hc.2
  | moveAssign this other =>
    simp only [step, Diligent.Run.returned.injEq] at ht
    rw [← ht]
    exact held_moveAssign s hs this other hc.1 hc.2.2.1 hc.2.2.2
  | TryLock this LockFlag =>
    simp only [step, Diligent.Run.returned.injEq] at ht
    rw [← ht]
    exact held_TryLock s hs this LockFlag hc.1 hc.2
  | Lock this LockFlag =>
    simp only [step] at ht
    exact held_Lock s t hs this LockFlag nCode hc.1 hc.2 ht
  | Unlock this =>
    simp only [step, Diligent.Run.returned.injEq] at ht
    rw [← ht]
    exact held_Unlock_alive s hs this
  | destroy this =>
    simp only [step, Diligent.Run.returned.injEq] at ht
    rw [← ht]
    exact held_destroy s hs this

theorem held_run (nCode : Nat) (ops : List Operation) (s t : Machine) (hs : Held s)
    (hc : carefulRun nCode s ops) (ht : run nCode s ops = Diligent.Run.returned t) : Held t := by
  induction ops generalizing s with
  | nil =>
    simp only [run, Diligent.Run.returned.injEq] at ht
    rw [← ht]
    exact hs
  | cons op ops ih =>
    unfold run at ht
    unfold carefulRun at hc
    cases hst : step nCode s op with
    | returned s1 =>
      rw [hst] at ht hc
      exact ih s1 (held_step nCode s s1 op hs hc.1 hst) hc.2 ht
    | terminated => rw [hst] at ht; cases ht
    | blocked => rw [hst] at ht; cases ht

/-- When every operation of a run is careful and the run returns with all helpers destroyed,
every flag is unlocked. -/
theorem careful_run_unlocks (nCode : Nat) (ops : List Operation) (t : Machine)
    (hc : carefulRun nCode Machine.init ops)
    (ht : run nCode Machine.init ops = Diligent.Run.returned t) (hd : t.alive = []) :
    ∀ f, t.m_Flag f = LOCK_FLAG_UNLOCKED := by
  intro f
  obtain ⟨h1, h2⟩ := held_run nCode ops Machine.init t held_init hc ht f
  rcases h2 with h2 | h2
  · obtain ⟨k, hk, _⟩ := h1 h2
    rw [hd] at hk
    cases hk
  · exact h2


/-- The run `exampleMoveConstruct` is careful, returns with all helpers destroyed, and so
leaves every flag unlocked. -/
theorem exampleMoveConstruct_unlocks :
    carefulRun Diligent.IDIGNORE Machine.init exampleMoveConstruct ∧
    ∃ t, run Diligent.IDIGNORE Machine.init exampleMoveConstruct = Diligent.Run.returned t ∧
      t.alive = [] ∧ ∀ f, t.m_Flag f = LOCK_FLAG_UNLOCKED := by
  have hc : carefulRun Diligent.IDIGNORE Machine.init exampleMoveConstruct :=
    ⟨by decide, ⟨by decide, by decide⟩, by decide, by decide, ⟨by decide, by decide⟩,
      by decide, trivial⟩
  exact ⟨hc, _, rfl, rfl, careful_run_unlocks Diligent.IDIGNORE exampleMoveConstruct _ hc rfl rfl⟩

end ThreadingTools
